import Mathlib

/-!
# Central reconciler (fleetshard/pkg/central/reconciler/reconciler.go)

A shallow embedding of `CentralReconciler.Reconcile` and of the helpers it calls.

* The fields of the receiver that the code reads or writes are the structure
  `CentralReconciler`.
* The package-level variable `defaults.CentralResources` is part of the threaded state:
  `centralResources := defaults.CentralResources` copies a struct whose two fields are Go
  maps, so the copy shares the maps with the package variable and `patchResourceList`
  writes through them.
* The cluster is an arbitrary state type `σ` together with the handlers of `Env σ`; every
  handler invocation is appended to the call log of the `World`.
* Pure collaborators that live outside this file (digest, quantity parser, converters,
  chart renderer, constants of other packages) are the fields of `Deps`.
* A Go `int` is 64 bits wide; arithmetic on it wraps around (`wrapInt`).
* Go panics (nil dereference, write to a nil map) are outside the model.
-/

namespace Reconciler

/-! ## Errors -/

/-- Error values produced by collaborators (cluster client, route service, converters),
classified by the three predicates the reconciler applies to them:
`apiErrors.IsNotFound`, `apiErrors.IsAlreadyExists` and
`errors.Is(_, k8s.ErrCentralTLSSecretNotFound)`. -/
inductive ApiError where
  | notFound
  | alreadyExists
  | centralTLSSecretNotFound
  | other (code : Nat)
deriving DecidableEq, Repr

/-- Go `error` values that `Reconcile` can return: the three sentinels of the package, an
error handed over by a collaborator, or an error wrapped with a message
(`errors.Wrap`, `errors.Wrapf`, `fmt.Errorf("...: %w", err)`). Collaborators hand over
errors of their own (`ApiError`), never one of the three sentinels. -/
inductive Error where
  | ErrBusy
  | ErrCentralNotChanged
  | ErrDeletionInProgress
  | external (e : ApiError)
  | wrapped (context : String) (cause : Error)
deriving DecidableEq, Repr

/-- Predicate `apiErrors.IsNotFound`: it looks through wrapping. -/
def Error.IsNotFound : Error → Bool
  | .external .notFound => true
  | .wrapped _ cause => cause.IsNotFound
  | _ => false

/-- Predicate `apiErrors.IsAlreadyExists`: it looks through wrapping. -/
def Error.IsAlreadyExists : Error → Bool
  | .external .alreadyExists => true
  | .wrapped _ cause => cause.IsAlreadyExists
  | _ => false

/-- Predicate `errors.Is(err, k8s.ErrCentralTLSSecretNotFound)`. -/
def Error.IsCentralTLSSecretNotFound : Error → Bool
  | .external .centralTLSSecretNotFound => true
  | .wrapped _ cause => cause.IsCentralTLSSecretNotFound
  | _ => false

/-! ## Machine integers, `strconv.Atoi`, `fmt.Sprintf("%d", _)` -/

/-- Largest value of a Go `int` on the 64-bit platforms the fleetshard runs on. -/
def maxInt : Int := 9223372036854775807

/-- Smallest value of a Go `int` (64 bit). -/
def minInt : Int := -9223372036854775808

/-- Two's complement wrap-around of a mathematical integer into the range of `int`. -/
def wrapInt (x : Int) : Int := (x + 9223372036854775808) % 18446744073709551616 - 9223372036854775808

/-- Value of an ASCII decimal digit. -/
def digitVal (c : Char) : Option Nat :=
  if 48 ≤ c.toNat ∧ c.toNat ≤ 57 then some (c.toNat - 48) else none

/-- Decimal digits read left to right into an accumulator; `none` on a non-digit. -/
def parseDigits : List Char → Nat → Option Nat
  | [], acc => some acc
  | c :: cs, acc =>
    match digitVal c with
    | none => none
    | some v => parseDigits cs (acc * 10 + v)

/-- Unsigned part of `strconv.Atoi`: at least one digit, digits only. -/
def parseUnsigned (cs : List Char) : Option Nat :=
  match cs with
  | [] => none
  | _ :: _ => parseDigits cs 0

/-- Function `strconv.Atoi` for a 64-bit `int`: an optional sign, then one or more decimal
digits, and the value must fit the range of `int`; `none` stands for a non-nil error. -/
def Atoi (s : String) : Option Int :=
  match s.data with
  | [] => none
  | c :: cs =>
    if c = '-' then
      match parseUnsigned cs with
      | none => none
      | some v => if (v : Int) ≤ 9223372036854775808 then some (-(v : Int)) else none
    else if c = '+' then
      match parseUnsigned cs with
      | none => none
      | some v => if (v : Int) ≤ maxInt then some (v : Int) else none
    else
      match parseUnsigned (c :: cs) with
      | none => none
      | some v => if (v : Int) ≤ maxInt then some (v : Int) else none

/-- Rendering `fmt.Sprintf("%d", n)`: decimal digits, with a leading minus sign for a
negative number. -/
def Sprintf_d (n : Int) : String :=
  match n with
  | Int.ofNat m => String.mk (Nat.toDigits 10 m)
  | Int.negSucc m => String.mk ('-' :: Nat.toDigits 10 (m + 1))

/-! ## Go maps -/

/-- A Go `map[string]α`, as an association list. The order of the list is the order in
which a `range` statement of this run visits the entries. -/
abbrev GoMap (α : Type) := List (String × α)

/-- Map read `m[k]` with the comma-ok result. -/
def GoMap.find {α : Type} (m : GoMap α) (k : String) : Option α :=
  match m with
  | [] => none
  | (k', v) :: rest => if k' = k then some v else GoMap.find rest k

/-- Map write `m[k] = v`. -/
def GoMap.set {α : Type} (m : GoMap α) (k : String) (v : α) : GoMap α :=
  match m with
  | [] => [(k, v)]
  | (k', v') :: rest => if k' = k then (k, v) :: rest else (k', v') :: GoMap.set rest k v

/-- Map read `m[k]` of a `map[string]string`: the empty string when the key is missing. -/
def GoMap.get (m : GoMap String) (k : String) : String :=
  (GoMap.find m k).getD ""

/-! ## Desired state (`private.ManagedCentral`) -/

/-- Fixed-size digest `[16]byte`, read as a number below `2 ^ 128`; the zero value of the
Go array is `0`. -/
abbrev Hash := Fin 340282366920938463463374607431768211456

/-- Metadata of the desired central: the fields the reconciler reads. -/
structure ManagedCentralMetadata where
  Name : String
  Namespace : String
  DeletionTimestamp : String
deriving DecidableEq, Repr

/-- Resource requirements as sent by the control plane: two `map[string]string`. -/
structure PrivateResources where
  Requests : GoMap String
  Limits : GoMap String
deriving DecidableEq, Repr

/-- Scaling parameters of the scanner analyzer as sent by the control plane. -/
structure PrivateScaling where
  AutoScaling : String
  Replicas : Int
  MinReplicas : Int
  MaxReplicas : Int
deriving DecidableEq, Repr

/-- Type `private.ManagedCentral`, restricted to the fields `Reconcile` reads. -/
structure ManagedCentral where
  Id : String
  Metadata : ManagedCentralMetadata
  CentralResources : PrivateResources
  ScannerAnalyzerResources : PrivateResources
  ScannerAnalyzerScaling : PrivateScaling
  ScannerDbResources : PrivateResources
  RequestStatus : String
deriving DecidableEq, Repr

/-! ## Cluster objects -/

/-- Parsed quantity `resource.Quantity`, kept as its canonical text. -/
structure Quantity where
  text : String
deriving DecidableEq, Repr

/-- Type `corev1.ResourceList`. -/
abbrev ResourceList := GoMap Quantity

/-- Type `corev1.ResourceRequirements`. -/
structure ResourceRequirements where
  Limits : ResourceList
  Requests : ResourceList
deriving DecidableEq, Repr

/-- Type `v1alpha1.ScannerAnalyzerScaling`. -/
structure ScannerAnalyzerScaling where
  AutoScaling : String
  Replicas : Int
  MinReplicas : Int
  MaxReplicas : Int
deriving DecidableEq, Repr

/-- Environment variable of the customize section. -/
structure EnvVar where
  Name : String
  Value : String
deriving DecidableEq, Repr

/-- Type `v1alpha1.CentralSpec`, with the nested pointers that `Reconcile` fills flattened
into fields. `AdminPasswordGenerationDisabled` is a `*bool`. -/
structure CentralSpec where
  CentralExposureRouteEnabled : Bool
  CentralMonitoringExposeEndpoint : String
  CentralResources : ResourceRequirements
  CentralAdminPasswordGenerationDisabled : Option Bool
  ScannerAnalyzerResources : ResourceRequirements
  ScannerAnalyzerScaling : ScannerAnalyzerScaling
  ScannerDBResources : ResourceRequirements
  ScannerMonitoringExposeEndpoint : String
  CustomizeEnvVars : List EnvVar
deriving DecidableEq, Repr

/-- Type `v1alpha1.Central`: the primary custom resource. `Annotations` is `none` for a nil
map. -/
structure Central where
  Name : String
  Namespace : String
  Labels : GoMap String
  Annotations : Option (GoMap String)
  Spec : CentralSpec
deriving DecidableEq, Repr

/-- Type `corev1.Namespace`: name and `Status.Phase`. -/
structure Namespace where
  Name : String
  Phase : String
deriving DecidableEq, Repr

/-- Type `schema.GroupVersionKind`. -/
structure GroupVersionKind where
  Group : String
  Version : String
  Kind : String
deriving DecidableEq, Repr

/-- Type `unstructured.Unstructured`: the kind tag, the key, the deletion timestamp and the
remaining content as path/value pairs. -/
structure Unstructured where
  GVK : GroupVersionKind
  Namespace : String
  Name : String
  DeletionTimestamp : Option String
  Content : List (String × String)
deriving DecidableEq, Repr

/-- Type `openshiftRouteV1.Route`. -/
structure Route where
  Namespace : String
  Name : String
deriving DecidableEq, Repr

/-- Type `openshiftRouteV1.RouteIngress`. -/
structure RouteIngress where
  Host : String
  RouterCanonicalHostname : String
deriving DecidableEq, Repr

/-- Type `ctrlClient.ObjectKey`. -/
structure ObjectKey where
  Namespace : String
  Name : String
deriving DecidableEq, Repr

/-- An object handed to `client.Create`, `client.Update` or `client.Delete`. -/
inductive Object where
  | ofNamespace (n : Namespace)
  | ofCentral (c : Central)
  | ofUnstructured (u : Unstructured)
  | ofRoute (r : Route)
deriving DecidableEq, Repr

/-! ## Reported status -/

/-- Type `private.DataPlaneCentralStatusRoutes`. -/
structure DataPlaneCentralStatusRoutes where
  Domain : String
  Router : String
deriving DecidableEq, Repr

/-- Modelled from the spec: the condition carried by a reported status; the spec names the
three statuses Ready, Installing and Deleted, the constructors of the status values are not
part of the source file. -/
inductive StatusCondition where
  | Ready
  | Installing
  | Deleted
deriving DecidableEq, Repr

/-- Type `private.DataPlaneCentralStatus`: condition and route statuses. -/
structure DataPlaneCentralStatus where
  Condition : StatusCondition
  Routes : List DataPlaneCentralStatusRoutes
deriving DecidableEq, Repr

/-- Modelled from the spec: `readyStatus()`, defined outside the source file; the status
named Ready, with no routes attached. -/
def readyStatus : DataPlaneCentralStatus := { Condition := .Ready, Routes := [] }

/-- Modelled from the spec: `installingStatus()`, defined outside the source file; the
status named Installing. -/
def installingStatus : DataPlaneCentralStatus := { Condition := .Installing, Routes := [] }

/-- Modelled from the spec: `deletedStatus()`, defined outside the source file; the status
named Deleted. -/
def deletedStatus : DataPlaneCentralStatus := { Condition := .Deleted, Routes := [] }

/-! ## Constants of the source file -/

/-- Constant `FreeStatus` (`iota` = 0). -/
def FreeStatus : Int := 0

/-- Constant `BlockedStatus` (`iota` = 1). -/
def BlockedStatus : Int := 1

/-- Constant `revisionAnnotationKey`. -/
def revisionAnnotationKey : String := "rhacs.redhat.com/revision"

/-- Constant `helmReleaseName`. -/
def helmReleaseName : String := "tenant-resources"

/-- Constant `managedServicesAnnotation`. -/
def managedServicesAnnotation : String := "platform.stackrox.io/managed-services"

/-- Constant `vpaConfigurationCentralName`. -/
def vpaConfigurationCentralName : String := "vpa-config-central"

/-- The kind tag set on autoscaler configuration objects. -/
def vpaGVK : GroupVersionKind :=
  { Group := "autoscaling.k8s.io", Version := "v1", Kind := "VerticalPodAutoscaler" }

/-! ## Collaborators -/

/-- Values handed to the chart renderer by `chartValues`. -/
structure ChartValues where
  labels : GoMap String
  egressProxyImage : Option String
deriving DecidableEq, Repr

/-- Pure collaborators and constants that are defined outside the source file. -/
structure Deps where
  /-- Function `util.MD5SumFromJSONStruct`. -/
  MD5SumFromJSONStruct : ManagedCentral → Except ApiError Hash
  /-- Function `resource.ParseQuantity`. -/
  ParseQuantity : String → Except ApiError Quantity
  /-- Function `converters.ConvertPrivateResourceRequirementsToCoreV1`. -/
  ConvertPrivateResourceRequirementsToCoreV1 : PrivateResources → Except ApiError ResourceRequirements
  /-- Function `converters.ConvertPrivateScalingToV1`. -/
  ConvertPrivateScalingToV1 : PrivateScaling → ScannerAnalyzerScaling
  /-- Function `getProxyEnvVars` of the package. -/
  getProxyEnvVars : String → List EnvVar
  /-- Function `charts.RenderToObjects`, applied to the resources chart of the reconciler:
  release name, namespace, values. -/
  RenderToObjects : String → String → ChartValues → Except ApiError (List Unstructured)
  /-- Constant `k8s.ManagedByLabelKey`. -/
  ManagedByLabelKey : String
  /-- Constant `k8s.ManagedByFleetshardValue`. -/
  ManagedByFleetshardValue : String
  /-- Text `centralConstants.CentralRequestStatusProvisioning.String()`. -/
  CentralRequestStatusProvisioning : String
  /-- Text `centralConstants.CentralRequestStatusReady.String()`. -/
  CentralRequestStatusReady : String
  /-- Constant `v1alpha1.ExposeEndpointEnabled`. -/
  ExposeEndpointEnabled : String

/-- A call issued to the cluster or to one of the stateful collaborators. -/
inductive Call where
  | GetNamespace (key : ObjectKey)
  | GetCentral (key : ObjectKey)
  | GetUnstructured (gvk : GroupVersionKind) (key : ObjectKey)
  | Create (o : Object)
  | Update (o : Object)
  | Delete (o : Object)
  | FindReencryptRoute (ns : String)
  | FindPassthroughRoute (ns : String)
  | CreateReencryptRoute (c : ManagedCentral)
  | CreatePassthroughRoute (c : ManagedCentral)
  | FindReencryptIngress (ns : String)
  | FindPassthroughIngress (ns : String)
  | existsRHSSOAuthProvider (c : ManagedCentral)
  | createRHSSOAuthProvider (c : ManagedCentral)
  | isCentralDeploymentReady (c : ManagedCentral)
deriving DecidableEq, Repr

/-- A call that asks the cluster to create, update or delete something. -/
def Call.isWrite : Call → Bool
  | .Create _ => true
  | .Update _ => true
  | .Delete _ => true
  | .CreateReencryptRoute _ => true
  | .CreatePassthroughRoute _ => true
  | .createRHSSOAuthProvider _ => true
  | _ => false

/-- The stateful collaborators over a cluster state `σ`: the controller-runtime client
(`Get` by the Go type of the target object, `Create`, `Update`, `Delete`), the route
service, and the package functions that talk to the cluster or to the tenant. Each handler
returns its result and the next cluster state. -/
structure Env (σ : Type) where
  GetNamespace : ObjectKey → σ → Except ApiError Namespace × σ
  GetCentral : ObjectKey → σ → Except ApiError Central × σ
  GetUnstructured : GroupVersionKind → ObjectKey → σ → Except ApiError Unstructured × σ
  Create : Object → σ → Option ApiError × σ
  Update : Object → σ → Option ApiError × σ
  Delete : Object → σ → Option ApiError × σ
  FindReencryptRoute : String → σ → Except ApiError Route × σ
  FindPassthroughRoute : String → σ → Except ApiError Route × σ
  CreateReencryptRoute : ManagedCentral → σ → Option ApiError × σ
  CreatePassthroughRoute : ManagedCentral → σ → Option ApiError × σ
  FindReencryptIngress : String → σ → Except ApiError RouteIngress × σ
  FindPassthroughIngress : String → σ → Except ApiError RouteIngress × σ
  existsRHSSOAuthProvider : ManagedCentral → σ → Except ApiError Bool × σ
  createRHSSOAuthProvider : ManagedCentral → σ → Option ApiError × σ
  isCentralDeploymentReady : ManagedCentral → σ → Except ApiError Bool × σ

/-- The cluster state together with the log of the calls issued so far, oldest first. -/
structure World (σ : Type) where
  cluster : σ
  calls : List Call

/-- Runs one handler on the cluster state and appends the call to the log. -/
def invoke {σ α : Type} (handler : σ → α × σ) (c : Call) (w : World σ) : α × World σ :=
  ((handler w.cluster).1, { cluster := (handler w.cluster).2, calls := w.calls ++ [c] })

/-! ## Reconciler state -/

/-- Type `CentralReconcilerOptions`. -/
structure CentralReconcilerOptions where
  UseRoutes : Bool
  WantsAuthProvider : Bool
  EgressProxyImage : String
deriving DecidableEq, Repr

/-- Type `CentralReconciler`: the fields other than the client handles. `status` is the
value behind the `*int32`. -/
structure CentralReconciler where
  central : ManagedCentral
  status : Int
  lastCentralHash : Hash
  useRoutes : Bool
  wantsAuthProvider : Bool
  hasAuthProvider : Bool
  egressProxyImage : String
deriving DecidableEq, Repr

/-- Function `NewCentralReconciler`: the fields not listed in the composite literal keep
their zero values. -/
def NewCentralReconciler (central : ManagedCentral) (opts : CentralReconcilerOptions) :
    CentralReconciler :=
  { central := central
    status := FreeStatus
    lastCentralHash := 0
    useRoutes := opts.UseRoutes
    wantsAuthProvider := opts.WantsAuthProvider
    hasAuthProvider := false
    egressProxyImage := opts.EgressProxyImage }

/-! ## Helpers of `Reconcile` -/

section Helpers

variable {σ : Type}

/-- Function `isRemoteCentralProvisioning`. -/
def isRemoteCentralProvisioning (d : Deps) (remoteCentral : ManagedCentral) : Bool :=
  remoteCentral.RequestStatus == d.CentralRequestStatusProvisioning

/-- Function `isRemoteCentralReady`. -/
def isRemoteCentralReady (d : Deps) (remoteCentral : ManagedCentral) : Bool :=
  remoteCentral.RequestStatus == d.CentralRequestStatusReady

/-- Function `getRouteStatus`. -/
def getRouteStatus (ingress : RouteIngress) : DataPlaneCentralStatusRoutes :=
  { Domain := ingress.Host, Router := ingress.RouterCanonicalHostname }

/-- Method `getRoutesStatuses`. -/
def getRoutesStatuses (env : Env σ) (ns : String) (w : World σ) :
    Except Error (List DataPlaneCentralStatusRoutes) × World σ :=
  match invoke (env.FindReencryptIngress ns) (Call.FindReencryptIngress ns) w with
  | (.error e, w1) =>
    (.error (.wrapped "obtaining ingress for reencrypt route" (.external e)), w1)
  | (.ok reencryptIngress, w1) =>
    match invoke (env.FindPassthroughIngress ns) (Call.FindPassthroughIngress ns) w1 with
    | (.error e, w2) =>
      (.error (.wrapped "obtaining ingress for passthrough route" (.external e)), w2)
    | (.ok passthroughIngress, w2) =>
      (.ok [getRouteStatus reencryptIngress, getRouteStatus passthroughIngress], w2)

/-- Method `centralChanged`: the result pair `(changed, err)`. -/
def centralChanged (d : Deps) (r : CentralReconciler) (central : ManagedCentral) :
    Bool × Option Error :=
  match d.MD5SumFromJSONStruct central with
  | .error e => (true, some (.wrapped "hashing central" (.external e)))
  | .ok currentHash => (!(r.lastCentralHash == currentHash), none)

/-- Method `setLastCentralHash`: the error and the receiver after the call. -/
def setLastCentralHash (d : Deps) (r : CentralReconciler) (central : ManagedCentral) :
    Option Error × CentralReconciler :=
  match d.MD5SumFromJSONStruct central with
  | .error e => (some (.wrapped "calculating MD5 from JSON" (.external e)), r)
  | .ok hash => (none, { r with lastCentralHash := hash })

/-- Method `incrementCentralRevision`: the error and the central after the call. A missing
annotation (nil map or missing key) reads as the empty string. The increment is the one of
a Go `int`. The error of `strconv.Atoi` is kept as an unclassified collaborator error under
the wrapping message. -/
def incrementCentralRevision (central : Central) : Option Error × Central :=
  match Atoi (GoMap.get (central.Annotations.getD []) revisionAnnotationKey) with
  | none =>
    (some (.wrapped "failed to increment central revision" (.external (.other 0))), central)
  | some revision =>
    (none, { central with
      Annotations := some (GoMap.set (central.Annotations.getD []) revisionAnnotationKey
        (Sprintf_d (wrapInt (revision + 1)))) })

/-- Method `getNamespace`: the namespace object is returned also when the read fails, then
holding only the name. -/
def getNamespace (env : Env σ) (name : String) (w : World σ) :
    (Namespace × Option Error) × World σ :=
  match invoke (env.GetNamespace { Namespace := "", Name := name })
      (Call.GetNamespace { Namespace := "", Name := name }) w with
  | (.error e, w1) =>
    (({ Name := name, Phase := "" },
      some (.wrapped "retrieving resource for namespace from Kubernetes" (.external e))), w1)
  | (.ok ns, w1) => ((ns, none), w1)

/-- Method `ensureNamespaceExists`. -/
def ensureNamespaceExists (env : Env σ) (name : String) (w : World σ) :
    Option Error × World σ :=
  match getNamespace env name w with
  | ((ns, some err), w1) =>
    if err.IsNotFound then
      match invoke (env.Create (.ofNamespace ns)) (Call.Create (.ofNamespace ns)) w1 with
      | (some e, w2) => (some (.wrapped "creating namespace" (.external e)), w2)
      | (none, w2) => (none, w2)
    else (some (.wrapped "getting namespace" err), w1)
  | ((_, none), w1) => (none, w1)

/-- Method `ensureNamespaceDeleted`: the result pair `(deleted, err)`. -/
def ensureNamespaceDeleted (env : Env σ) (name : String) (w : World σ) :
    (Bool × Option Error) × World σ :=
  match getNamespace env name w with
  | ((_, some err), w1) =>
    if err.IsNotFound then ((true, none), w1)
    else ((false, some (.wrapped "delete central namespace" err)), w1)
  | ((ns, none), w1) =>
    if ns.Phase = "Terminating" then ((false, none), w1)
    else
      match invoke (env.Delete (.ofNamespace ns)) (Call.Delete (.ofNamespace ns)) w1 with
      | (some e, w2) => ((false, some (.wrapped "delete central namespace" (.external e))), w2)
      | (none, w2) => ((false, none), w2)

/-- Method `ensureCentralCRDeleted`: the read fills the object passed in, and the delete is
issued for the object as read. -/
def ensureCentralCRDeleted (env : Env σ) (central : Central) (w : World σ) :
    (Bool × Option Error) × World σ :=
  match invoke (env.GetCentral { Namespace := central.Namespace, Name := central.Name })
      (Call.GetCentral { Namespace := central.Namespace, Name := central.Name }) w with
  | (.error e, w1) =>
    if (Error.external e).IsNotFound then ((true, none), w1)
    else ((false, some (.wrapped "delete central CR" (.external e))), w1)
  | (.ok found, w1) =>
    match invoke (env.Delete (.ofCentral found)) (Call.Delete (.ofCentral found)) w1 with
    | (some e, w2) => ((false, some (.wrapped "delete central CR" (.external e))), w2)
    | (none, w2) => ((false, none), w2)

/-- The object built by `createVPAConfig`. -/
def vpaConfig (name deploymentName : String) (remoteCentral : ManagedCentral) : Unstructured :=
  { GVK := vpaGVK
    Namespace := remoteCentral.Metadata.Namespace
    Name := name
    DeletionTimestamp := none
    Content := [("spec.targetRef.apiVersion", "apps/v1"), ("spec.targetRef.kind", "Deployment"),
      ("spec.targetRef.name", deploymentName), ("spec.updatePolicy.updateMode", "Auto")] }

/-- Method `createVPAConfig`. -/
def createVPAConfig (env : Env σ) (name deploymentName : String) (remoteCentral : ManagedCentral)
    (w : World σ) : Option Error × World σ :=
  match invoke (env.Create (.ofUnstructured (vpaConfig name deploymentName remoteCentral)))
      (Call.Create (.ofUnstructured (vpaConfig name deploymentName remoteCentral))) w with
  | (some e, w1) => (some (.wrapped "creating VPA configuration for Central" (.external e)), w1)
  | (none, w1) => (none, w1)

/-- Method `ensureVPAConfigExists`. -/
def ensureVPAConfigExists (env : Env σ) (name deploymentName : String)
    (remoteCentral : ManagedCentral) (w : World σ) : Option Error × World σ :=
  match invoke
      (env.GetUnstructured vpaGVK { Namespace := remoteCentral.Metadata.Namespace, Name := name })
      (Call.GetUnstructured vpaGVK { Namespace := remoteCentral.Metadata.Namespace, Name := name })
      w with
  | (.error e, w1) =>
    if !(Error.external e).IsNotFound then
      (some (.wrapped "retrieving VPA configuration for namespace" (.external e)), w1)
    else createVPAConfig env name deploymentName remoteCentral w1
  | (.ok _, w1) => (none, w1)

/-- Method `ensureVPAConfigDeleted`: the result pair `(deleted, err)`. -/
def ensureVPAConfigDeleted (env : Env σ) (name : String) (central : ManagedCentral)
    (w : World σ) : (Bool × Option Error) × World σ :=
  match invoke
      (env.GetUnstructured vpaGVK { Namespace := central.Metadata.Namespace, Name := name })
      (Call.GetUnstructured vpaGVK { Namespace := central.Metadata.Namespace, Name := name })
      w with
  | (.error e, w1) =>
    if (Error.external e).IsNotFound then ((true, none), w1)
    else ((false, some (.wrapped "deleting VPA configuration for Central" (.external e))), w1)
  | (.ok found, w1) =>
    match invoke (env.Delete (.ofUnstructured found)) (Call.Delete (.ofUnstructured found)) w1 with
    | (some e, w2) =>
      ((false, some (.wrapped "deleting VPA configuration for Central" (.external e))), w2)
    | (none, w2) => ((false, none), w2)

/-- Method `chartValues`: the labels, and the image override when `egressProxyImage` is not
empty. The returned error is always nil. -/
def chartValues (d : Deps) (r : CentralReconciler) (_remoteCentral : ManagedCentral) :
    ChartValues × Option Error :=
  ({ labels := [(d.ManagedByLabelKey, d.ManagedByFleetshardValue)]
     egressProxyImage := if r.egressProxyImage ≠ "" then some r.egressProxyImage else none },
   none)

/-- The loop of `ensureChartResourcesExist` over the rendered objects. -/
def ensureChartResourcesExistLoop (env : Env σ) (remoteCentral : ManagedCentral) :
    List Unstructured → World σ → Option Error × World σ
  | [], w => (none, w)
  | obj :: rest, w =>
    match invoke
        (env.GetUnstructured obj.GVK
          { Namespace := if obj.Namespace = "" then remoteCentral.Metadata.Namespace
              else obj.Namespace,
            Name := obj.Name })
        (Call.GetUnstructured obj.GVK
          { Namespace := if obj.Namespace = "" then remoteCentral.Metadata.Namespace
              else obj.Namespace,
            Name := obj.Name }) w with
    | (.ok _, w1) => ensureChartResourcesExistLoop env remoteCentral rest w1
    | (.error e, w1) =>
      if !(Error.external e).IsNotFound then
        (some (.wrapped "failed to retrieve object" (.external e)), w1)
      else
        match invoke
            (env.Create (.ofUnstructured
              { obj with Namespace := if obj.Namespace = "" then remoteCentral.Metadata.Namespace
                  else obj.Namespace }))
            (Call.Create (.ofUnstructured
              { obj with Namespace := if obj.Namespace = "" then remoteCentral.Metadata.Namespace
                  else obj.Namespace })) w1 with
        | (some e2, w2) =>
          if !(Error.external e2).IsAlreadyExists then
            (some (.wrapped "failed to create object" (.external e2)), w2)
          else ensureChartResourcesExistLoop env remoteCentral rest w2
        | (none, w2) => ensureChartResourcesExistLoop env remoteCentral rest w2

/-- Method `ensureChartResourcesExist`. -/
def ensureChartResourcesExist (d : Deps) (env : Env σ) (r : CentralReconciler)
    (remoteCentral : ManagedCentral) (w : World σ) : Option Error × World σ :=
  match chartValues d r remoteCentral with
  | (_, some err) => (some (.wrapped "obtaining values for resources chart" err), w)
  | (vals, none) =>
    match d.RenderToObjects helmReleaseName remoteCentral.Metadata.Namespace vals with
    | .error e => (some (.wrapped "rendering resources chart" (.external e)), w)
    | .ok objs => ensureChartResourcesExistLoop env remoteCentral objs w

/-- The loop of `ensureChartResourcesDeleted`, carrying `waitForDelete`. -/
def ensureChartResourcesDeletedLoop (env : Env σ) (remoteCentral : ManagedCentral) :
    List Unstructured → Bool → World σ → (Bool × Option Error) × World σ
  | [], waitForDelete, w => ((!waitForDelete, none), w)
  | obj :: rest, waitForDelete, w =>
    match invoke
        (env.GetUnstructured obj.GVK
          { Namespace := if obj.Namespace = "" then remoteCentral.Metadata.Namespace
              else obj.Namespace,
            Name := obj.Name })
        (Call.GetUnstructured obj.GVK
          { Namespace := if obj.Namespace = "" then remoteCentral.Metadata.Namespace
              else obj.Namespace,
            Name := obj.Name }) w with
    | (.error e, w1) =>
      if (Error.external e).IsNotFound then
        ensureChartResourcesDeletedLoop env remoteCentral rest waitForDelete w1
      else ((false, some (.wrapped "retrieving object" (.external e))), w1)
    | (.ok out, w1) =>
      if out.DeletionTimestamp ≠ none then
        ensureChartResourcesDeletedLoop env remoteCentral rest true w1
      else
        match invoke (env.Delete (.ofUnstructured out)) (Call.Delete (.ofUnstructured out)) w1 with
        | (some e2, w2) =>
          if !(Error.external e2).IsNotFound then
            ((false, some (.wrapped "retrieving object" (.external e2))), w2)
          else ensureChartResourcesDeletedLoop env remoteCentral rest waitForDelete w2
        | (none, w2) => ensureChartResourcesDeletedLoop env remoteCentral rest waitForDelete w2

/-- Method `ensureChartResourcesDeleted`: the result pair `(deleted, err)`. -/
def ensureChartResourcesDeleted (d : Deps) (env : Env σ) (r : CentralReconciler)
    (remoteCentral : ManagedCentral) (w : World σ) : (Bool × Option Error) × World σ :=
  match chartValues d r remoteCentral with
  | (_, some err) => ((false, some (.wrapped "obtaining values for resources chart" err)), w)
  | (vals, none) =>
    match d.RenderToObjects helmReleaseName remoteCentral.Metadata.Namespace vals with
    | .error e => ((false, some (.wrapped "rendering resources chart" (.external e))), w)
    | .ok objs => ensureChartResourcesDeletedLoop env remoteCentral objs false w

/-- Method `ensureReencryptRouteExists`. -/
def ensureReencryptRouteExists (env : Env σ) (remoteCentral : ManagedCentral) (w : World σ) :
    Option Error × World σ :=
  match invoke (env.FindReencryptRoute remoteCentral.Metadata.Namespace)
      (Call.FindReencryptRoute remoteCentral.Metadata.Namespace) w with
  | (.error e, w1) =>
    if !(Error.external e).IsNotFound then
      (some (.wrapped "retrieving reencrypt route for namespace" (.external e)), w1)
    else
      match invoke (env.CreateReencryptRoute remoteCentral)
          (Call.CreateReencryptRoute remoteCentral) w1 with
      | (some e2, w2) =>
        (some (.wrapped "creating reencrypt route for central" (.external e2)), w2)
      | (none, w2) => (none, w2)
  | (.ok _, w1) => (none, w1)

/-- Method `ensurePassthroughRouteExists`. -/
def ensurePassthroughRouteExists (env : Env σ) (remoteCentral : ManagedCentral) (w : World σ) :
    Option Error × World σ :=
  match invoke (env.FindPassthroughRoute remoteCentral.Metadata.Namespace)
      (Call.FindPassthroughRoute remoteCentral.Metadata.Namespace) w with
  | (.error e, w1) =>
    if !(Error.external e).IsNotFound then
      (some (.wrapped "retrieving passthrough route for namespace" (.external e)), w1)
    else
      match invoke (env.CreatePassthroughRoute remoteCentral)
          (Call.CreatePassthroughRoute remoteCentral) w1 with
      | (some e2, w2) =>
        (some (.wrapped "creating passthrough route for central" (.external e2)), w2)
      | (none, w2) => (none, w2)
  | (.ok _, w1) => (none, w1)

/-- Method `ensureRoutesExist`. -/
def ensureRoutesExist (env : Env σ) (remoteCentral : ManagedCentral) (w : World σ) :
    Option Error × World σ :=
  match ensureReencryptRouteExists env remoteCentral w with
  | (some err, w1) => (some err, w1)
  | (none, w1) => ensurePassthroughRouteExists env remoteCentral w1

/-- Method `ensureRouteDeleted`, applied to the supplier's call already issued: the result
pair `(deleted, err)`. -/
def ensureRouteDeleted (env : Env σ) (routeSupplier : World σ → Except ApiError Route × World σ)
    (w : World σ) : (Bool × Option Error) × World σ :=
  match routeSupplier w with
  | (.error e, w1) =>
    if (Error.external e).IsNotFound then ((true, none), w1)
    else ((false, some (.wrapped "get central route" (.external e))), w1)
  | (.ok route, w1) =>
    match invoke (env.Delete (.ofRoute route)) (Call.Delete (.ofRoute route)) w1 with
    | (some e2, w2) => ((false, some (.wrapped "delete central route" (.external e2))), w2)
    | (none, w2) => ((false, none), w2)

/-- Method `ensureReencryptRouteDeleted`. -/
def ensureReencryptRouteDeleted (env : Env σ) (ns : String) (w : World σ) :
    (Bool × Option Error) × World σ :=
  ensureRouteDeleted env (invoke (env.FindReencryptRoute ns) (Call.FindReencryptRoute ns)) w

/-- Method `ensurePassthroughRouteDeleted`. -/
def ensurePassthroughRouteDeleted (env : Env σ) (ns : String) (w : World σ) :
    (Bool × Option Error) × World σ :=
  ensureRouteDeleted env (invoke (env.FindPassthroughRoute ns) (Call.FindPassthroughRoute ns)) w

/-- Names `corev1.ResourceCPU.String()` and `corev1.ResourceMemory.String()`. -/
def knownResources : List String := ["cpu", "memory"]

/-- Function `patchResourceList`: the error and the map behind `resources` after the call.
The entries of `updates` are visited in list order; an entry whose key is a known resource
is parsed and written, and a parse failure returns at once, keeping the writes made so far. -/
def patchResourceList (d : Deps) (resources : ResourceList) :
    GoMap String → Option Error × ResourceList
  | [] => (none, resources)
  | (k, v) :: rest =>
    if k ∈ knownResources then
      match d.ParseQuantity v with
      | .error e => (some (.wrapped "parsing quantity" (.external e)), resources)
      | .ok qty => patchResourceList d (GoMap.set resources k qty) rest
    else patchResourceList d resources rest

/-- Method `ensureCentralDeleted`: the result pair `(globalDeleted, err)`. -/
def ensureCentralDeleted (d : Deps) (env : Env σ) (r : CentralReconciler)
    (remoteCentral : ManagedCentral) (central : Central) (w : World σ) :
    (Bool × Option Error) × World σ :=
  match (if r.useRoutes then
      match ensureReencryptRouteDeleted env central.Namespace w with
      | ((_, some err), w1) => ((false, some err), w1)
      | ((reencryptRouteDeleted, none), w1) =>
        match ensurePassthroughRouteDeleted env central.Namespace w1 with
        | ((_, some err), w2) => ((false, some err), w2)
        | ((passthroughRouteDeleted, none), w2) =>
          ((true && reencryptRouteDeleted && passthroughRouteDeleted, none), w2)
    else ((true, none), w)) with
  | ((_, some err), w2) => ((false, some err), w2)
  | ((routesDeleted, none), w2) =>
    match ensureCentralCRDeleted env central w2 with
    | ((_, some err), w3) => ((false, some err), w3)
    | ((centralDeleted, none), w3) =>
      match ensureVPAConfigDeleted env vpaConfigurationCentralName remoteCentral w3 with
      | ((_, some err), w4) => ((false, some err), w4)
      | ((vpaDeleted, none), w4) =>
        match ensureChartResourcesDeleted d env r remoteCentral w4 with
        | ((_, some err), w5) => ((false, some err), w5)
        | ((chartResourcesDeleted, none), w5) =>
          match ensureNamespaceDeleted env central.Namespace w5 with
          | ((_, some err), w6) => ((false, some err), w6)
          | ((nsDeleted, none), w6) =>
            ((routesDeleted && centralDeleted && vpaDeleted && chartResourcesDeleted
              && nsDeleted, none), w6)

/-! ## `Reconcile` -/

/-- What a call of `Reconcile` leaves behind: the returned pair `(status, err)`, the fields
of the receiver, the package variable `defaults.CentralResources`, and the cluster with the
log of calls. -/
structure Outcome (σ : Type) where
  status : Option DataPlaneCentralStatus
  err : Option Error
  r : CentralReconciler
  defaults : ResourceRequirements
  world : World σ

/-- The composite literal of `Reconcile` that builds the target primary resource
(lines 121-160). -/
def desiredCentral (d : Deps) (r : CentralReconciler) (remoteCentral : ManagedCentral)
    (centralResources scannerAnalyzerResources scannerDbResources : ResourceRequirements) :
    Central :=
  { Name := remoteCentral.Metadata.Name
    Namespace := remoteCentral.Metadata.Namespace
    Labels := [(d.ManagedByLabelKey, d.ManagedByFleetshardValue)]
    Annotations := some [( managedServicesAnnotation, "true")]
    Spec :=
      { CentralExposureRouteEnabled := r.useRoutes
        CentralMonitoringExposeEndpoint := d.ExposeEndpointEnabled
        CentralResources := centralResources
        CentralAdminPasswordGenerationDisabled := none
        ScannerAnalyzerResources := scannerAnalyzerResources
        ScannerAnalyzerScaling := d.ConvertPrivateScalingToV1 remoteCentral.ScannerAnalyzerScaling
        ScannerDBResources := scannerDbResources
        ScannerMonitoringExposeEndpoint := d.ExposeEndpointEnabled
        CustomizeEnvVars := d.getProxyEnvVars remoteCentral.Metadata.Namespace } }

/-- Lines 299-305 of `Reconcile`: record the fingerprint, then return the status. -/
def reconcileRecord (d : Deps) (r : CentralReconciler) (defaults : ResourceRequirements)
    (w : World σ) (remoteCentral : ManagedCentral) (status : DataPlaneCentralStatus) :
    Outcome σ :=
  match setLastCentralHash d r remoteCentral with
  | (some err, r1) =>
    { status := none, err := some (.wrapped "setting central reconcilation cache" err),
      r := r1, defaults := defaults, world := w }
  | (none, r1) => { status := some status, err := none, r := r1, defaults := defaults, world := w }

/-- Lines 288-305 of `Reconcile`: compose the Ready status, attach the route statuses. -/
def reconcileStatus (d : Deps) (env : Env σ) (r : CentralReconciler)
    (defaults : ResourceRequirements) (w : World σ) (remoteCentral : ManagedCentral) :
    Outcome σ :=
  if r.useRoutes && !isRemoteCentralReady d remoteCentral then
    match getRoutesStatuses env remoteCentral.Metadata.Namespace w with
    | (.error err, w1) =>
      { status := none, err := some err, r := r, defaults := defaults, world := w1 }
    | (.ok routes, w1) =>
      reconcileRecord d r defaults w1 remoteCentral { readyStatus with Routes := routes }
  else reconcileRecord d r defaults w remoteCentral readyStatus

/-- Lines 264-286 of `Reconcile`: the readiness probe and the creation of the auth
provider. -/
def reconcileReadiness (d : Deps) (env : Env σ) (r : CentralReconciler)
    (defaults : ResourceRequirements) (w : World σ) (remoteCentral : ManagedCentral)
    (changed centralTLSSecretFound : Bool) : Outcome σ :=
  match invoke (env.isCentralDeploymentReady remoteCentral)
      (Call.isCentralDeploymentReady remoteCentral) w with
  | (.error e, w1) =>
    { status := none, err := some (.external e), r := r, defaults := defaults, world := w1 }
  | (.ok centralDeploymentReady, w1) =>
    if !centralDeploymentReady || !centralTLSSecretFound then
      if isRemoteCentralProvisioning d remoteCentral && !changed then
        { status := none, err := some .ErrCentralNotChanged, r := r, defaults := defaults,
          world := w1 }
      else
        { status := some installingStatus, err := none, r := r, defaults := defaults,
          world := w1 }
    else if r.wantsAuthProvider && !r.hasAuthProvider && !isRemoteCentralReady d remoteCentral then
      match invoke (env.createRHSSOAuthProvider remoteCentral)
          (Call.createRHSSOAuthProvider remoteCentral) w1 with
      | (some e, w2) =>
        { status := none, err := some (.external e), r := r, defaults := defaults, world := w2 }
      | (none, w2) =>
        reconcileStatus d env { r with hasAuthProvider := true } defaults w2 remoteCentral
    else reconcileStatus d env r defaults w1 remoteCentral

/-- Lines 253-262 of `Reconcile`: the routes, tolerating a missing TLS secret. -/
def reconcileRoutes (d : Deps) (env : Env σ) (r : CentralReconciler)
    (defaults : ResourceRequirements) (w : World σ) (remoteCentral : ManagedCentral)
    (changed : Bool) : Outcome σ :=
  if r.useRoutes then
    match ensureRoutesExist env remoteCentral w with
    | (some err, w1) =>
      if err.IsCentralTLSSecretNotFound then
        reconcileReadiness d env r defaults w1 remoteCentral changed false
      else
        { status := none, err := some (.wrapped "updating routes" err), r := r,
          defaults := defaults, world := w1 }
    | (none, w1) => reconcileReadiness d env r defaults w1 remoteCentral changed true
  else reconcileReadiness d env r defaults w remoteCentral changed true

/-- Lines 199-251 of `Reconcile`: read the primary resource, create it with revision "1" or
update it with the revision incremented, and converge the autoscaler configuration. -/
def reconcileCentral (d : Deps) (env : Env σ) (r : CentralReconciler)
    (defaults : ResourceRequirements) (w : World σ) (remoteCentral : ManagedCentral)
    (changed : Bool) (central : Central) : Outcome σ :=
  match invoke
      (env.GetCentral
        { Namespace := remoteCentral.Metadata.Namespace, Name := remoteCentral.Metadata.Name })
      (Call.GetCentral
        { Namespace := remoteCentral.Metadata.Namespace, Name := remoteCentral.Metadata.Name })
      w with
  | (.error e, w1) =>
    if !(Error.external e).IsNotFound then
      { status := none,
        err := some (.wrapped "unable to check the existence of central" (.external e)),
        r := r, defaults := defaults, world := w1 }
    else
      match invoke
          (env.Create (.ofCentral { central with
            Annotations := some (GoMap.set (central.Annotations.getD []) revisionAnnotationKey "1") }))
          (Call.Create (.ofCentral { central with
            Annotations := some (GoMap.set (central.Annotations.getD []) revisionAnnotationKey "1") }))
          w1 with
      | (some e2, w2) =>
        { status := none, err := some (.wrapped "creating new central" (.external e2)),
          r := r, defaults := defaults, world := w2 }
      | (none, w2) =>
        if remoteCentral.CentralResources.Limits.length = 0
            ∧ remoteCentral.CentralResources.Requests.length = 0 then
          match createVPAConfig env vpaConfigurationCentralName "central" remoteCentral w2 with
          | (some err, w3) =>
            { status := none, err := some err, r := r, defaults := defaults, world := w3 }
          | (none, w3) => reconcileRoutes d env r defaults w3 remoteCentral changed
        else reconcileRoutes d env r defaults w2 remoteCentral changed
  | (.ok existingCentral, w1) =>
    match incrementCentralRevision { existingCentral with Spec := central.Spec } with
    | (some err, _) =>
      { status := none, err := some err, r := r, defaults := defaults, world := w1 }
    | (none, incremented) =>
      match invoke (env.Update (.ofCentral { incremented with Spec := central.Spec }))
          (Call.Update (.ofCentral { incremented with Spec := central.Spec })) w1 with
      | (some e2, w2) =>
        { status := none, err := some (.wrapped "updating central" (.external e2)),
          r := r, defaults := defaults, world := w2 }
      | (none, w2) =>
        if remoteCentral.CentralResources.Limits.length = 0
            ∧ remoteCentral.CentralResources.Requests.length = 0 then
          match ensureVPAConfigExists env vpaConfigurationCentralName "central" remoteCentral
              w2 with
          | (some err, w3) =>
            { status := none, err := some err, r := r, defaults := defaults, world := w3 }
          | (none, w3) => reconcileRoutes d env r defaults w3 remoteCentral changed
        else
          match ensureVPAConfigDeleted env vpaConfigurationCentralName remoteCentral w2 with
          | ((_, some err), w3) =>
            { status := none, err := some err, r := r, defaults := defaults, world := w3 }
          | ((_, none), w3) => reconcileRoutes d env r defaults w3 remoteCentral changed

/-- Lines 176-197 of `Reconcile`: disable the admin password when an auth provider is known,
then either the deletion branch or the namespace and the chart resources. `central` is the
target primary resource built so far. -/
def reconcileConverge (d : Deps) (env : Env σ) (r : CentralReconciler)
    (defaults : ResourceRequirements) (w : World σ) (remoteCentral : ManagedCentral)
    (changed : Bool) (central : Central) : Outcome σ :=
  if remoteCentral.Metadata.DeletionTimestamp ≠ "" then
    match ensureCentralDeleted d env r remoteCentral
        (if r.hasAuthProvider then
          { central with Spec :=
            { central.Spec with CentralAdminPasswordGenerationDisabled := some true } }
         else central) w with
    | ((_, some err), w1) =>
      { status := none, err := some (.wrapped "delete central" err), r := r,
        defaults := defaults, world := w1 }
    | ((deleted, none), w1) =>
      if deleted then
        { status := some deletedStatus, err := none, r := r, defaults := defaults, world := w1 }
      else
        { status := none, err := some .ErrDeletionInProgress, r := r, defaults := defaults,
          world := w1 }
  else
    match ensureNamespaceExists env remoteCentral.Metadata.Namespace w with
    | (some err, w1) =>
      { status := none, err := some (.wrapped "unable to ensure that namespace exists" err),
        r := r, defaults := defaults, world := w1 }
    | (none, w1) =>
      match ensureChartResourcesExist d env r remoteCentral w1 with
      | (some err, w2) =>
        { status := none,
          err := some (.wrapped "unable to install chart resource for central" err),
          r := r, defaults := defaults, world := w2 }
      | (none, w2) =>
        reconcileCentral d env r defaults w2 remoteCentral changed
          (if r.hasAuthProvider then
            { central with Spec :=
              { central.Spec with CentralAdminPasswordGenerationDisabled := some true } }
           else central)

/-- Lines 98-174 of `Reconcile`: merge the tenant sizing into the maps of
`defaults.CentralResources`, convert the scanner resources, build the target primary
resource and probe for an auth provider the reconciler does not know of. -/
def reconcileBuild (d : Deps) (env : Env σ) (r : CentralReconciler)
    (defaults : ResourceRequirements) (w : World σ) (remoteCentral : ManagedCentral)
    (changed : Bool) : Outcome σ :=
  match patchResourceList d defaults.Requests remoteCentral.CentralResources.Requests with
  | (some err, requests) =>
    { status := none, err := some (.wrapped "updating Central resource requests" err), r := r,
      defaults := { defaults with Requests := requests }, world := w }
  | (none, requests) =>
    match patchResourceList d defaults.Limits remoteCentral.CentralResources.Limits with
    | (some err, limits) =>
      { status := none, err := some (.wrapped "updating Central resource limits" err), r := r,
        defaults := { Limits := limits, Requests := requests }, world := w }
    | (none, limits) =>
      match d.ConvertPrivateResourceRequirementsToCoreV1 remoteCentral.ScannerAnalyzerResources with
      | .error e =>
        { status := none,
          err := some (.wrapped "converting Scanner Analyzer resources" (.external e)), r := r,
          defaults := { Limits := limits, Requests := requests }, world := w }
      | .ok scannerAnalyzerResources =>
        match d.ConvertPrivateResourceRequirementsToCoreV1 remoteCentral.ScannerDbResources with
        | .error e =>
          { status := none,
            err := some (.wrapped "converting Scanner DB resources" (.external e)), r := r,
            defaults := { Limits := limits, Requests := requests }, world := w }
        | .ok scannerDbResources =>
          if r.wantsAuthProvider && !r.hasAuthProvider then
            match invoke (env.existsRHSSOAuthProvider remoteCentral)
                (Call.existsRHSSOAuthProvider remoteCentral) w with
            | (.error e, w1) =>
              { status := none, err := some (.external e), r := r,
                defaults := { Limits := limits, Requests := requests }, world := w1 }
            | (.ok providerExists, w1) =>
              reconcileConverge d env
                (if providerExists then { r with hasAuthProvider := true } else r)
                { Limits := limits, Requests := requests } w1 remoteCentral changed
                (desiredCentral d r remoteCentral { Limits := limits, Requests := requests }
                  scannerAnalyzerResources scannerDbResources)
          else
            reconcileConverge d env r { Limits := limits, Requests := requests } w remoteCentral
              changed
              (desiredCentral d r remoteCentral { Limits := limits, Requests := requests }
                scannerAnalyzerResources scannerDbResources)

/-- Lines 87-96 of `Reconcile`: the change detection and the steady-state fast path. -/
def reconcileGuarded (d : Deps) (env : Env σ) (r : CentralReconciler)
    (defaults : ResourceRequirements) (w : World σ) (remoteCentral : ManagedCentral) :
    Outcome σ :=
  match centralChanged d r remoteCentral with
  | (_, some err) =>
    { status := none, err := some (.wrapped "checking if central changed" err), r := r,
      defaults := defaults, world := w }
  | (changed, none) =>
    if !changed && (r.wantsAuthProvider == r.hasAuthProvider)
        && isRemoteCentralReady d remoteCentral then
      { status := none, err := some .ErrCentralNotChanged, r := r, defaults := defaults,
        world := w }
    else reconcileBuild d env r defaults w remoteCentral changed

/-- Method `Reconcile`. The compare-and-swap of line 82 fails when the flag is not
`FreeStatus`; otherwise the flag is `BlockedStatus` during the call and the deferred store
of line 85 sets it to `FreeStatus` on every return. -/
def Reconcile (d : Deps) (env : Env σ) (r : CentralReconciler)
    (defaults : ResourceRequirements) (w : World σ) (remoteCentral : ManagedCentral) :
    Outcome σ :=
  if r.status = FreeStatus then
    { reconcileGuarded d env { r with status := BlockedStatus } defaults w remoteCentral with
      r := { (reconcileGuarded d env { r with status := BlockedStatus } defaults w
        remoteCentral).r with status := FreeStatus } }
  else
    { status := none, err := some .ErrBusy, r := r, defaults := defaults, world := w }


end Helpers

/-! ## A cluster model

A cluster in which every successful create, update and delete takes effect at once: objects
are kept in lists keyed the way the cluster keys them, a read of a missing object reports
not-found, a create of a present object reports already-exists. It serves the scenario
statements and supplies concrete runs. -/

/-- State of the model cluster. `tlsSecret` tells whether the TLS secret of the tenant is
present, `deploymentReady` what the readiness probe reports, `authProvider` whether an auth
provider exists at the tenant. -/
structure FakeCluster where
  namespaces : List Namespace
  centrals : List Central
  unstructureds : List Unstructured
  reencryptRoutes : List Route
  passthroughRoutes : List Route
  tlsSecret : Bool
  deploymentReady : Bool
  authProvider : Bool
deriving DecidableEq, Repr

/-- Name given to the re-encrypt route by the model cluster. -/
def fakeReencryptRouteName : String := "managed-central-reencrypt"

/-- Name given to the pass-through route by the model cluster. -/
def fakePassthroughRouteName : String := "managed-central-passthrough"

/-- Whether the object is stored under the same key as `o` in the model cluster. -/
def FakeCluster.holds (s : FakeCluster) (o : Object) : Bool :=
  match o with
  | .ofNamespace n => s.namespaces.any fun x => x.Name == n.Name
  | .ofCentral c => s.centrals.any fun x => x.Namespace == c.Namespace && x.Name == c.Name
  | .ofUnstructured u =>
    s.unstructureds.any fun x => x.GVK == u.GVK && x.Namespace == u.Namespace && x.Name == u.Name
  | .ofRoute r =>
    (s.reencryptRoutes.any fun x => x.Namespace == r.Namespace && x.Name == r.Name)
      || (s.passthroughRoutes.any fun x => x.Namespace == r.Namespace && x.Name == r.Name)

/-- The model cluster without the objects stored under the key of `o`. -/
def FakeCluster.without (s : FakeCluster) (o : Object) : FakeCluster :=
  match o with
  | .ofNamespace n => { s with namespaces := s.namespaces.filter fun x => !(x.Name == n.Name) }
  | .ofCentral c =>
    { s with centrals :=
        s.centrals.filter fun x => !(x.Namespace == c.Namespace && x.Name == c.Name) }
  | .ofUnstructured u =>
    { s with unstructureds :=
        s.unstructureds.filter fun x =>
          !(x.GVK == u.GVK && x.Namespace == u.Namespace && x.Name == u.Name) }
  | .ofRoute r =>
    { s with
      reencryptRoutes :=
        s.reencryptRoutes.filter fun x => !(x.Namespace == r.Namespace && x.Name == r.Name)
      passthroughRoutes :=
        s.passthroughRoutes.filter fun x => !(x.Namespace == r.Namespace && x.Name == r.Name) }

/-- The model cluster with `o` stored at the end of the list of its kind. A route is stored
with the re-encrypt routes when it carries their name, else with the pass-through routes. -/
def FakeCluster.store (s : FakeCluster) (o : Object) : FakeCluster :=
  match o with
  | .ofNamespace n => { s with namespaces := s.namespaces ++ [n] }
  | .ofCentral c => { s with centrals := s.centrals ++ [c] }
  | .ofUnstructured u => { s with unstructureds := s.unstructureds ++ [u] }
  | .ofRoute r =>
    if r.Name = fakeReencryptRouteName then { s with reencryptRoutes := s.reencryptRoutes ++ [r] }
    else { s with passthroughRoutes := s.passthroughRoutes ++ [r] }

/-- Result of a read in the model cluster. -/
def fakeLookup {α : Type} (found : Option α) (s : FakeCluster) : Except ApiError α × FakeCluster :=
  match found with
  | some x => (.ok x, s)
  | none => (.error .notFound, s)

/-- The handlers of the model cluster. -/
def fakeEnv : Env FakeCluster where
  GetNamespace := fun key s => fakeLookup (s.namespaces.find? fun x => x.Name == key.Name) s
  GetCentral := fun key s =>
    fakeLookup (s.centrals.find? fun x => x.Namespace == key.Namespace && x.Name == key.Name) s
  GetUnstructured := fun gvk key s =>
    fakeLookup (s.unstructureds.find? fun x =>
      x.GVK == gvk && x.Namespace == key.Namespace && x.Name == key.Name) s
  Create := fun o s => if s.holds o then (some .alreadyExists, s) else (none, s.store o)
  Update := fun o s => if s.holds o then (none, (s.without o).store o) else (some .notFound, s)
  Delete := fun o s => if s.holds o then (none, s.without o) else (some .notFound, s)
  FindReencryptRoute := fun ns s =>
    fakeLookup (s.reencryptRoutes.find? fun x => x.Namespace == ns) s
  FindPassthroughRoute := fun ns s =>
    fakeLookup (s.passthroughRoutes.find? fun x => x.Namespace == ns) s
  CreateReencryptRoute := fun c s =>
    if !s.tlsSecret then (some .centralTLSSecretNotFound, s)
    else if s.reencryptRoutes.any fun x => x.Namespace == c.Metadata.Namespace then
      (some .alreadyExists, s)
    else
      (none, { s with reencryptRoutes := s.reencryptRoutes ++
        [{ Namespace := c.Metadata.Namespace, Name := fakeReencryptRouteName }] })
  CreatePassthroughRoute := fun c s =>
    if s.passthroughRoutes.any fun x => x.Namespace == c.Metadata.Namespace then
      (some .alreadyExists, s)
    else
      (none, { s with passthroughRoutes := s.passthroughRoutes ++
        [{ Namespace := c.Metadata.Namespace, Name := fakePassthroughRouteName }] })
  FindReencryptIngress := fun ns s =>
    fakeLookup ((s.reencryptRoutes.find? fun x => x.Namespace == ns).map fun x =>
      { Host := x.Name, RouterCanonicalHostname := "router" }) s
  FindPassthroughIngress := fun ns s =>
    fakeLookup ((s.passthroughRoutes.find? fun x => x.Namespace == ns).map fun x =>
      { Host := x.Name, RouterCanonicalHostname := "router" }) s
  existsRHSSOAuthProvider := fun _ s => (.ok s.authProvider, s)
  createRHSSOAuthProvider := fun _ s => (none, { s with authProvider := true })
  isCentralDeploymentReady := fun _ s => (.ok s.deploymentReady, s)

/-- The model cluster with nothing in it, the deployment not reported ready. -/
def emptyCluster : FakeCluster :=
  { namespaces := [], centrals := [], unstructureds := [], reencryptRoutes := [],
    passthroughRoutes := [], tlsSecret := false, deploymentReady := false,
    authProvider := false }

/-- A world over the model cluster with an empty call log. -/
def freshWorld (s : FakeCluster) : World FakeCluster := { cluster := s, calls := [] }

/-! ## Sample collaborators for concrete runs -/

/-- A sample digest: a number computed from the lengths of the text fields and of the
sizing maps of the desired central. -/
def sampleDigest (c : ManagedCentral) : Hash :=
  ⟨(1 + c.Id.length + 7 * c.Metadata.Name.length + 49 * c.Metadata.Namespace.length
      + 343 * c.Metadata.DeletionTimestamp.length + 2401 * c.RequestStatus.length
      + 16807 * c.CentralResources.Requests.length
      + 117649 * c.CentralResources.Limits.length) % 340282366920938463463374607431768211456,
    Nat.mod_lt _ (by decide)⟩

/-- A sample conversion of the control-plane resources: each entry becomes a quantity with
the same text. -/
def sampleConvert (p : PrivateResources) : ResourceRequirements :=
  { Limits := p.Limits.map fun kv => (kv.1, { text := kv.2 })
    Requests := p.Requests.map fun kv => (kv.1, { text := kv.2 }) }

/-- A sample chart: it renders one object without a namespace, carrying the labels. -/
def sampleRender (ns : String) (vals : ChartValues) : List Unstructured :=
  [{ GVK := { Group := "", Version := "v1", Kind := "ConfigMap" }, Namespace := "",
     Name := "egress-proxy", DeletionTimestamp := none,
     Content := ("namespace", ns) :: vals.labels }]

/-- Sample collaborators: the sample digest, a quantity parser that rejects only the empty
text, the sample chart, and the constants of the upstream
packages. -/
def sampleDeps : Deps where
  MD5SumFromJSONStruct := fun c => .ok (sampleDigest c)
  ParseQuantity := fun v => if v = "" then .error (.other 1) else .ok { text := v }
  ConvertPrivateResourceRequirementsToCoreV1 := fun p => .ok (sampleConvert p)
  ConvertPrivateScalingToV1 := fun p =>
    { AutoScaling := p.AutoScaling, Replicas := p.Replicas, MinReplicas := p.MinReplicas,
      MaxReplicas := p.MaxReplicas }
  getProxyEnvVars := fun ns => [{ Name := "http_proxy", Value := ns }]
  RenderToObjects := fun _ ns vals => .ok (sampleRender ns vals)
  ManagedByLabelKey := "app.kubernetes.io/managed-by"
  ManagedByFleetshardValue := "rhacs-fleetshard"
  CentralRequestStatusProvisioning := "provisioning"
  CentralRequestStatusReady := "ready"
  ExposeEndpointEnabled := "Enabled"

/-- Sample default sizing standing for the value of `defaults.CentralResources`. -/
def sampleDefaults : ResourceRequirements :=
  { Limits := [("cpu", { text := "1" }), ("memory", { text := "4Gi" })]
    Requests := [("cpu", { text := "500m" }), ("memory", { text := "250Mi" })] }

/-- A sample desired central with empty sizing and the given lifecycle status. -/
def sampleCentral (requestStatus : String) : ManagedCentral :=
  { Id := "c1"
    Metadata := { Name := "central", Namespace := "rhacs-c1", DeletionTimestamp := "" }
    CentralResources := { Requests := [], Limits := [] }
    ScannerAnalyzerResources := { Requests := [], Limits := [] }
    ScannerAnalyzerScaling := { AutoScaling := "Enabled", Replicas := 1, MinReplicas := 1,
                                MaxReplicas := 3 }
    ScannerDbResources := { Requests := [], Limits := [] }
    RequestStatus := requestStatus }

/-- A sample reconciler as `NewCentralReconciler` builds it. -/
def sampleReconciler (useRoutes wantsAuthProvider : Bool) : CentralReconciler :=
  NewCentralReconciler (sampleCentral "provisioning")
    { UseRoutes := useRoutes, WantsAuthProvider := wantsAuthProvider, EgressProxyImage := "" }

/-- First pass of a sample run: a fresh reconciler without routes and without auth provider,
an empty cluster that reports the deployment ready, a desired central in the given
lifecycle status. -/
def sampleFirstPass (requestStatus : String) : Outcome FakeCluster :=
  Reconcile sampleDeps fakeEnv (sampleReconciler false false) sampleDefaults
    (freshWorld { emptyCluster with deploymentReady := true }) (sampleCentral requestStatus)

/-- Second pass of the sample run: the same desired central again, on the reconciler, the
defaults and the cluster as the first pass left them. -/
def sampleSecondPass (requestStatus : String) : Outcome FakeCluster :=
  Reconcile sampleDeps fakeEnv (sampleFirstPass requestStatus).r
    (sampleFirstPass requestStatus).defaults (sampleFirstPass requestStatus).world
    (sampleCentral requestStatus)

/-- The revision annotations of the primary resources held by the model cluster. -/
def FakeCluster.revisions (s : FakeCluster) : List String :=
  s.centrals.map fun c => GoMap.get (c.Annotations.getD []) revisionAnnotationKey

/-! ## Footprints of the helpers and paths of `Reconcile` -/

section FootprintDefs

variable {σ : Type}

/-- The world after the handler that answers a call has run and the call is logged. -/
def Env.perform (env : Env σ) (c : Call) (w : World σ) : World σ :=
  match c with
  | .GetNamespace key => (invoke (env.GetNamespace key) c w).2
  | .GetCentral key => (invoke (env.GetCentral key) c w).2
  | .GetUnstructured gvk key => (invoke (env.GetUnstructured gvk key) c w).2
  | .Create o => (invoke (env.Create o) c w).2
  | .Update o => (invoke (env.Update o) c w).2
  | .Delete o => (invoke (env.Delete o) c w).2
  | .FindReencryptRoute ns => (invoke (env.FindReencryptRoute ns) c w).2
  | .FindPassthroughRoute ns => (invoke (env.FindPassthroughRoute ns) c w).2
  | .CreateReencryptRoute rc => (invoke (env.CreateReencryptRoute rc) c w).2
  | .CreatePassthroughRoute rc => (invoke (env.CreatePassthroughRoute rc) c w).2
  | .FindReencryptIngress ns => (invoke (env.FindReencryptIngress ns) c w).2
  | .FindPassthroughIngress ns => (invoke (env.FindPassthroughIngress ns) c w).2
  | .existsRHSSOAuthProvider rc => (invoke (env.existsRHSSOAuthProvider rc) c w).2
  | .createRHSSOAuthProvider rc => (invoke (env.createRHSSOAuthProvider rc) c w).2
  | .isCentralDeploymentReady rc => (invoke (env.isCentralDeploymentReady rc) c w).2

/-- A relation between worlds that is kept by every call of a class of calls: it is
reflexive, transitive, and holds across each single call of the class. -/
structure StepInvariant (env : Env σ) (allowed : Call → Bool)
    (R : World σ → World σ → Prop) : Prop where
  refl : ∀ w, R w w
  trans : ∀ a b c, R a b → R b c → R a c
  step : ∀ c w, allowed c = true → R w (env.perform c w)

/-- The calls `ensureNamespaceExists` may issue. -/
def namespaceExistsCalls : Call → Bool
  | .GetNamespace _ => true
  | .Create (.ofNamespace _) => true
  | _ => false

/-- The calls the get-or-create helpers for unstructured objects may issue
(`ensureChartResourcesExist`, `createVPAConfig`, `ensureVPAConfigExists`). -/
def unstructuredExistsCalls : Call → Bool
  | .GetUnstructured _ _ => true
  | .Create (.ofUnstructured _) => true
  | _ => false

/-- The calls `ensureVPAConfigDeleted` may issue. -/
def unstructuredDeletedCalls : Call → Bool
  | .GetUnstructured _ _ => true
  | .Delete (.ofUnstructured _) => true
  | _ => false

/-- The calls `Reconcile` may issue from line 253 on: the route service, the readiness
probe and the creation of the auth provider. -/
def routesAndReadinessCalls : Call → Bool
  | .FindReencryptRoute _ => true
  | .FindPassthroughRoute _ => true
  | .CreateReencryptRoute _ => true
  | .CreatePassthroughRoute _ => true
  | .FindReencryptIngress _ => true
  | .FindPassthroughIngress _ => true
  | .createRHSSOAuthProvider _ => true
  | .isCentralDeploymentReady _ => true
  | _ => false

/-- The read of the auth provider probe of line 164. -/
def authProbeCalls : Call → Bool
  | .existsRHSSOAuthProvider _ => true
  | _ => false

/-- The calls `Reconcile` may issue before it reads the primary resource, on the path
without a deletion marker. -/
def beforeCentralCalls (c : Call) : Bool :=
  authProbeCalls c || namespaceExistsCalls c || unstructuredExistsCalls c

/-- The calls `Reconcile` may issue after it has created or updated the primary
resource. -/
def afterCentralCalls (c : Call) : Bool :=
  unstructuredExistsCalls c || unstructuredDeletedCalls c || routesAndReadinessCalls c

/-- The deferred store of line 85 applied to an outcome. -/
def Outcome.released (out : Outcome σ) : Outcome σ :=
  { out with r := { out.r with status := FreeStatus } }

/-- The target primary resource as `Reconcile` hands it to the create/update step: the
composite literal of lines 121-160 with the admin password disabled when an auth provider
is known (lines 176-178). -/
def targetCentral (d : Deps) (r : CentralReconciler) (remoteCentral : ManagedCentral)
    (centralResources scannerAnalyzerResources scannerDbResources : ResourceRequirements) :
    Central :=
  if r.hasAuthProvider then
    { desiredCentral d r remoteCentral centralResources scannerAnalyzerResources
        scannerDbResources with
      Spec := { (desiredCentral d r remoteCentral centralResources scannerAnalyzerResources
        scannerDbResources).Spec with CentralAdminPasswordGenerationDisabled := some true } }
  else
    desiredCentral d r remoteCentral centralResources scannerAnalyzerResources scannerDbResources

/-- A call that creates, updates or deletes a primary resource. -/
def Call.touchesCentral : Call → Bool
  | .Create (.ofCentral _) => true
  | .Update (.ofCentral _) => true
  | .Delete (.ofCentral _) => true
  | _ => false

/-- The revision annotation of the primary resource the model cluster holds under the
key. -/
def FakeCluster.revisionOf (s : FakeCluster) (ns name : String) : Option String :=
  (s.centrals.find? fun x => x.Namespace == ns && x.Name == name).map fun c =>
    GoMap.get (c.Annotations.getD []) revisionAnnotationKey

/-- Calls of `Reconcile` made one after the other, one for each desired central of the
list, each on the reconciler, the defaults and the world the previous one left; the run
stops at the first call that returns a non-nil error. The flag tells whether every call
returned a nil error. -/
def reconcileAll {σ : Type} (d : Deps) (env : Env σ) :
    List ManagedCentral → CentralReconciler → ResourceRequirements → World σ →
    Bool × World σ
  | [], _, _, w => (true, w)
  | c :: rest, r, defaults, w =>
    if (Reconcile d env r defaults w c).err = none then
      reconcileAll d env rest (Reconcile d env r defaults w c).r
        (Reconcile d env r defaults w c).defaults (Reconcile d env r defaults w c).world
    else (false, (Reconcile d env r defaults w c).world)

/-- The objects handed to `client.Create`, in the order of the calls. -/
def createdObjects (calls : List Call) : List Object :=
  calls.filterMap fun c =>
    match c with
    | .Create o => some o
    | _ => none

/-- A rendered object as `ensureChartResourcesExist` converges it: an empty namespace is
replaced by the namespace of the tenant. -/
def chartObject (remoteCentral : ManagedCentral) (obj : Unstructured) : Unstructured :=
  { obj with Namespace := if obj.Namespace = "" then remoteCentral.Metadata.Namespace
      else obj.Namespace }

/-- Whether two unstructured objects are stored under the same key: kind tag, namespace
and name. -/
def Unstructured.sameKey (x y : Unstructured) : Bool :=
  x.GVK == y.GVK && x.Namespace == y.Namespace && x.Name == y.Name

/-- A model cluster that reports the deployment ready and holds the sample primary resource
with the largest revision a Go `int` can hold. -/
def maxRevisionCluster : FakeCluster :=
  { emptyCluster with
    deploymentReady := true
    centrals :=
      [{ Name := "central", Namespace := "rhacs-c1", Labels := [],
         Annotations := some [(revisionAnnotationKey, "9223372036854775807")],
         Spec := (desiredCentral sampleDeps (sampleReconciler false false)
           (sampleCentral "provisioning") sampleDefaults { Limits := [], Requests := [] }
           { Limits := [], Requests := [] }).Spec }] }

/-- The shape of a returned pair `(status, err)`: either a nil status with a non-nil
error, or a nil error with one of the three statuses Installing, Deleted and Ready (the
last one with the route statuses attached). -/
def ReturnsStatusOrError {σ : Type} (out : Outcome σ) : Prop :=
  (out.status = none ∧ ∃ e, out.err = some e)
    ∨ (out.err = none
      ∧ (out.status = some installingStatus ∨ out.status = some deletedStatus
        ∨ ∃ routes, out.status = some { Condition := StatusCondition.Ready, Routes := routes }))

/-- One step of the deletion protocol: it returns the pair `(deleted, err)` and the world
it leaves behind. -/
abbrev DeletionStep (σ : Type) := World σ → (Bool × Option Error) × World σ

/-- The deletion protocol in the words of the specification: the steps run in list order;
a step that returns an error ends the run with `(false, err)`; otherwise the result is the
conjunction of the step results with the start value. -/
def runDeletionSteps {σ : Type} :
    List (DeletionStep σ) → Bool → World σ → (Bool × Option Error) × World σ
  | [], acc, w => ((acc, none), w)
  | step :: rest, acc, w =>
    match step w with
    | ((_, some err), w1) => ((false, some err), w1)
    | ((deleted, none), w1) => runDeletionSteps rest (acc && deleted) w1

/-- The result pairs of the steps that are executed in a run of `runDeletionSteps`, in
order: the run stops after the first step that returns an error. -/
def stepResults {σ : Type} : List (DeletionStep σ) → World σ → List (Bool × Option Error)
  | [], _ => []
  | step :: rest, w =>
    match step w with
    | ((deleted, some err), _) => [(deleted, some err)]
    | ((deleted, none), w1) => (deleted, none) :: stepResults rest w1

/-- The steps of `ensureCentralDeleted` in the order of the specification: both route
deletions when `useRoutes` is set, the primary custom resource, the autoscaler
configuration, the auxiliary resource set, the namespace. -/
def deletionSteps {σ : Type} (d : Deps) (env : Env σ) (r : CentralReconciler)
    (remoteCentral : ManagedCentral) (central : Central) : List (DeletionStep σ) :=
  (if r.useRoutes then
    [ensureReencryptRouteDeleted env central.Namespace,
     ensurePassthroughRouteDeleted env central.Namespace]
   else [])
  ++ [ensureCentralCRDeleted env central,
      ensureVPAConfigDeleted env vpaConfigurationCentralName remoteCentral,
      ensureChartResourcesDeleted d env r remoteCentral,
      ensureNamespaceDeleted env central.Namespace]

/-- A cluster whose reads of the primary custom resource fail with a server error. -/
def brokenCentralEnv : Env FakeCluster :=
  { fakeEnv with GetCentral := fun _ s => (.error (.other 500), s) }

/-- The sample desired central carrying a deletion marker. -/
def sampleDeletedCentral : ManagedCentral :=
  { sampleCentral "ready" with
    Metadata := { Name := "central", Namespace := "rhacs-c1",
                  DeletionTimestamp := "2023-05-01T00:00:00Z" } }

/-- The primary resource of the sample tenant with the given revision annotation. -/
def samplePrimary (revision : String) : Central :=
  { Name := "central", Namespace := "rhacs-c1", Labels := [],
    Annotations := some [(revisionAnnotationKey, revision)],
    Spec := (desiredCentral sampleDeps (sampleReconciler false false)
      (sampleCentral "provisioning") sampleDefaults { Limits := [], Requests := [] }
      { Limits := [], Requests := [] }).Spec }

/-- A model cluster that holds all five dependent resources of the sample tenant: both
routes, the primary resource, the autoscaler configuration, the rendered auxiliary object
and the namespace. -/
def sampleFullCluster : FakeCluster :=
  { namespaces := [{ Name := "rhacs-c1", Phase := "Active" }]
    centrals := [samplePrimary "1"]
    unstructureds :=
      [chartObject (sampleCentral "ready")
         { GVK := { Group := "", Version := "v1", Kind := "ConfigMap" }, Namespace := "",
           Name := "egress-proxy", DeletionTimestamp := none, Content := [] },
       vpaConfig vpaConfigurationCentralName "central" (sampleCentral "ready")]
    reencryptRoutes := [{ Namespace := "rhacs-c1", Name := fakeReencryptRouteName }]
    passthroughRoutes := [{ Namespace := "rhacs-c1", Name := fakePassthroughRouteName }]
    tlsSecret := true
    deploymentReady := true
    authProvider := false }

/-- The calls the deletion protocol may issue: the probes of the five kinds of dependent
resources and deletes. -/
def deletionCalls : Call → Bool
  | .GetNamespace _ => true
  | .GetCentral _ => true
  | .GetUnstructured _ _ => true
  | .FindReencryptRoute _ => true
  | .FindPassthroughRoute _ => true
  | .Delete _ => true
  | _ => false

/-- The calls `Reconcile` may issue for a desired central with a deletion marker: the auth
provider probe and the calls of the deletion protocol. -/
def deletionBranchCalls (c : Call) : Bool :=
  authProbeCalls c || deletionCalls c

/-- The log of `w1` is the log of `w` followed by calls of the class `allowed`. -/
def CallsWithin {σ : Type} (allowed : Call → Bool) (w w1 : World σ) : Prop :=
  ∃ extra : List Call, w1.calls = w.calls ++ extra ∧ ∀ c ∈ extra, allowed c = true

/-- A model cluster that holds only the rendered auxiliary object of the sample tenant,
without a deletion timestamp. -/
def auxiliaryOnlyCluster : FakeCluster :=
  { emptyCluster with
    unstructureds :=
      [{ GVK := { Group := "", Version := "v1", Kind := "ConfigMap" }, Namespace := "rhacs-c1",
         Name := "egress-proxy", DeletionTimestamp := none, Content := [] }] }

/-- A call that asks the cluster for nothing but an answer. -/
def Call.isRead (c : Call) : Bool := !c.isWrite

/-- The probes of the deletion protocol leave the cluster state as it is. -/
structure ProbesReadOnly {σ : Type} (env : Env σ) : Prop where
  getNamespace : ∀ key s, (env.GetNamespace key s).2 = s
  getCentral : ∀ key s, (env.GetCentral key s).2 = s
  getUnstructured : ∀ gvk key s, (env.GetUnstructured gvk key s).2 = s
  findReencryptRoute : ∀ ns s, (env.FindReencryptRoute ns s).2 = s
  findPassthroughRoute : ∀ ns s, (env.FindPassthroughRoute ns s).2 = s

/-- The world after `n` calls of the step, one after the other. -/
def repeatStep {σ : Type} (step : DeletionStep σ) : Nat → World σ → World σ
  | 0, w => w
  | n + 1, w => (step (repeatStep step n w)).2

/-- Calling the step any number of times from `w` is without effect: each call returns
`(true, nil)`, the cluster state stays the one of `w`, and the calls issued are reads. -/
def IdempotentNoWrite {σ : Type} (step : DeletionStep σ) (w : World σ) : Prop :=
  ∀ n : Nat, (step (repeatStep step n w)).1 = (true, none)
    ∧ (repeatStep step n w).cluster = w.cluster
    ∧ CallsWithin Call.isRead w (repeatStep step n w)

/-- Lines 199-251 of `Reconcile` on their own, the create/update step: read the primary
resource, create it with revision "1" or update it with the revision incremented, and
converge the autoscaler configuration. It returns the error of the step and the world it
leaves; `reconcileCentral` is this step followed by lines 253-305. -/
def reconcileCentralStep {σ : Type} (env : Env σ) (w : World σ)
    (remoteCentral : ManagedCentral) (central : Central) : Option Error × World σ :=
  match invoke
      (env.GetCentral
        { Namespace := remoteCentral.Metadata.Namespace, Name := remoteCentral.Metadata.Name })
      (Call.GetCentral
        { Namespace := remoteCentral.Metadata.Namespace, Name := remoteCentral.Metadata.Name })
      w with
  | (.error e, w1) =>
    if !(Error.external e).IsNotFound then
      (some (.wrapped "unable to check the existence of central" (.external e)), w1)
    else
      match invoke
          (env.Create (.ofCentral { central with
            Annotations := some (GoMap.set (central.Annotations.getD []) revisionAnnotationKey "1") }))
          (Call.Create (.ofCentral { central with
            Annotations := some (GoMap.set (central.Annotations.getD []) revisionAnnotationKey "1") }))
          w1 with
      | (some e2, w2) => (some (.wrapped "creating new central" (.external e2)), w2)
      | (none, w2) =>
        if remoteCentral.CentralResources.Limits.length = 0
            ∧ remoteCentral.CentralResources.Requests.length = 0 then
          createVPAConfig env vpaConfigurationCentralName "central" remoteCentral w2
        else (none, w2)
  | (.ok existingCentral, w1) =>
    match incrementCentralRevision { existingCentral with Spec := central.Spec } with
    | (some err, _) => (some err, w1)
    | (none, incremented) =>
      match invoke (env.Update (.ofCentral { incremented with Spec := central.Spec }))
          (Call.Update (.ofCentral { incremented with Spec := central.Spec })) w1 with
      | (some e2, w2) => (some (.wrapped "updating central" (.external e2)), w2)
      | (none, w2) =>
        if remoteCentral.CentralResources.Limits.length = 0
            ∧ remoteCentral.CentralResources.Requests.length = 0 then
          ensureVPAConfigExists env vpaConfigurationCentralName "central" remoteCentral w2
        else
          match ensureVPAConfigDeleted env vpaConfigurationCentralName remoteCentral w2 with
          | ((_, some err), w3) => (some err, w3)
          | ((_, none), w3) => (none, w3)

/-- A model cluster that holds the namespace of the sample tenant and its primary resource
with a revision annotation that is not a number. -/
def malformedRevisionCluster : FakeCluster :=
  { emptyCluster with
    namespaces := [{ Name := "rhacs-c1", Phase := "Active" }]
    centrals := [samplePrimary "one"]
    deploymentReady := true }

/-- The calls the create/update step (lines 199-251) may issue. -/
def centralStepCalls : Call → Bool
  | .GetCentral _ => true
  | .Create (.ofCentral _) => true
  | .Update (.ofCentral _) => true
  | .GetUnstructured _ _ => true
  | .Create (.ofUnstructured _) => true
  | .Delete (.ofUnstructured _) => true
  | _ => false

/-- The calls `Reconcile` may issue before line 253, on the path without a deletion
marker. -/
def beforeRoutesCalls (c : Call) : Bool :=
  beforeCentralCalls c || centralStepCalls c

/-- The calls of lines 253-265: ensuring the routes and the readiness probe. -/
def readinessGateCalls : Call → Bool
  | .FindReencryptRoute _ => true
  | .FindPassthroughRoute _ => true
  | .CreateReencryptRoute _ => true
  | .CreatePassthroughRoute _ => true
  | .isCentralDeploymentReady _ => true
  | _ => false

/-- What the readiness gate of lines 269-274 returns when the deployment is not ready or
the TLS secret is missing: `(nil, ErrCentralNotChanged)` for an unchanged desired central
in the Provisioning status, the Installing status otherwise. -/
def gateOutcome {σ : Type} (d : Deps) (r : CentralReconciler)
    (defaults : ResourceRequirements) (w : World σ) (remoteCentral : ManagedCentral)
    (changed : Bool) : Outcome σ :=
  if isRemoteCentralProvisioning d remoteCentral && !changed then
    { status := none, err := some .ErrCentralNotChanged, r := r, defaults := defaults,
      world := w }
  else
    { status := some installingStatus, err := none, r := r, defaults := defaults, world := w }

/-- A model cluster that holds the namespace, the rendered auxiliary object, the primary
resource with revision "1" and the autoscaler configuration of the sample tenant, and
does not report the deployment ready. -/
def sampleInstallingCluster : FakeCluster :=
  { sampleFullCluster with
    reencryptRoutes := [], passthroughRoutes := [], tlsSecret := false,
    deploymentReady := false }

/-- Whether the model cluster holds the autoscaler configuration `vpa-config-central` in
the namespace of the tenant. -/
def FakeCluster.holdsAutoscaler (s : FakeCluster) (remoteCentral : ManagedCentral) : Bool :=
  s.holds (.ofUnstructured (vpaConfig vpaConfigurationCentralName "central" remoteCentral))

/-- The calls the create/update step may issue other than the creation of an unstructured
object. -/
def explicitSizingCalls : Call → Bool
  | .GetCentral _ => true
  | .Create (.ofCentral _) => true
  | .Update (.ofCentral _) => true
  | .GetUnstructured _ _ => true
  | .Delete (.ofUnstructured _) => true
  | _ => false

/-- The sample desired central with explicit sizing of the Central component. -/
def sampleSizedCentral : ManagedCentral :=
  { sampleCentral "provisioning" with
    CentralResources := { Requests := [("cpu", "1")], Limits := [("memory", "4Gi")] } }

/-- A model cluster that holds the namespace of the sample tenant and a leftover autoscaler
configuration, but no primary resource; the deployment is reported ready. -/
def staleAutoscalerCluster : FakeCluster :=
  { emptyCluster with
    namespaces := [{ Name := "rhacs-c1", Phase := "Active" }]
    unstructureds := [vpaConfig vpaConfigurationCentralName "central" (sampleCentral "ready")]
    deploymentReady := true }

/-- The calls of the create/update step that address the primary resource. -/
def primaryResourceCalls : Call → Bool
  | .GetCentral _ => true
  | .Create (.ofCentral _) => true
  | .Update (.ofCentral _) => true
  | _ => false

/-- A sample desired central of the sample tenant with explicit requests and limits for
both the cpu and the memory of the Central component. -/
def sampleLargeCentral : ManagedCentral :=
  { sampleCentral "provisioning" with
    CentralResources :=
      { Requests := [("cpu", "2"), ("memory", "8Gi")]
        Limits := [("cpu", "4"), ("memory", "16Gi")] } }

/-- A sample desired central of a second tenant, with empty sizing. -/
def sampleSecondTenant : ManagedCentral :=
  { sampleCentral "provisioning" with
    Id := "c2"
    Metadata := { Name := "central", Namespace := "rhacs-c2", DeletionTimestamp := "" } }

/-- The sizing of `sampleLargeCentral` as a resource list. -/
def sampleLargeResources : ResourceRequirements :=
  { Limits := [("cpu", { text := "4" }), ("memory", { text := "16Gi" })]
    Requests := [("cpu", { text := "2" }), ("memory", { text := "8Gi" })] }

/-- A run of `Reconcile` with explicit sizing: a fresh reconciler of the sample tenant, the
sample defaults, an empty cluster that reports the deployment ready. -/
def sizedFirstPass : Outcome FakeCluster :=
  Reconcile sampleDeps fakeEnv (sampleReconciler false false) sampleDefaults
    (freshWorld { emptyCluster with deploymentReady := true }) sampleLargeCentral

/-- A later run of `Reconcile` in the same process: a fresh reconciler of the second tenant,
whose desired central has empty sizing, on the package defaults and the cluster as
`sizedFirstPass` left them. -/
def unsizedLaterPass : Outcome FakeCluster :=
  Reconcile sampleDeps fakeEnv
    (NewCentralReconciler sampleSecondTenant
      { UseRoutes := false, WantsAuthProvider := false, EgressProxyImage := "" })
    sizedFirstPass.defaults sizedFirstPass.world sampleSecondTenant

/-- A call that asks for the creation of the auth provider. -/
def Call.isAuthProviderCreation : Call → Bool
  | .createRHSSOAuthProvider _ => true
  | _ => false

/-- Every call but the creation of the auth provider. -/
def otherThanCreation (c : Call) : Bool := !c.isAuthProviderCreation

/-- The calls `getRoutesStatuses` may issue. -/
def ingressCalls : Call → Bool
  | .FindReencryptIngress _ => true
  | .FindPassthroughIngress _ => true
  | _ => false

/-- The one place where a call of `Reconcile` creates the auth provider (line 277), for a
call that started in the world `w` with the receiver `r` and returned `out`. The receiver
wants an auth provider and knows of none, the desired central is not reported Ready; the
call has reached the world `wR` without a creation, there the routes have been ensured
without an error when routes are in use (the TLS secret is not reported missing), and
there the readiness probe has answered that the deployment is ready; the creation follows
the probe at once, no other creation follows, and the cached flag is set on return exactly
when the creation has returned no error. -/
def CreationSite {σ : Type} (d : Deps) (env : Env σ) (remoteCentral : ManagedCentral)
    (r : CentralReconciler) (w : World σ) (out : Outcome σ) (wR : World σ) : Prop :=
  r.wantsAuthProvider = true ∧ r.hasAuthProvider = false
    ∧ isRemoteCentralReady d remoteCentral = false
    ∧ CallsWithin otherThanCreation w wR
    ∧ (r.useRoutes = true → ∃ w0, ensureRoutesExist env remoteCentral w0 = (none, wR))
    ∧ (env.isCentralDeploymentReady remoteCentral wR.cluster).1 = Except.ok true
    ∧ CallsWithin otherThanCreation
        (env.perform (Call.createRHSSOAuthProvider remoteCentral)
          (env.perform (Call.isCentralDeploymentReady remoteCentral) wR))
        out.world
    ∧ (out.r.hasAuthProvider = true ↔
        (env.createRHSSOAuthProvider remoteCentral
          (env.perform (Call.isCentralDeploymentReady remoteCentral) wR).cluster).1 = none)

/-- What the stages of `Reconcile` after the auth provider probe do to the cached flags: the
wanted flag is kept, and either the known flag is kept and no creation is issued, or the
stage has passed the creation site. -/
def CreationDiscipline {σ : Type} (d : Deps) (env : Env σ) (remoteCentral : ManagedCentral)
    (r : CentralReconciler) (w : World σ) (out : Outcome σ) : Prop :=
  out.r.wantsAuthProvider = r.wantsAuthProvider
    ∧ ((out.r.hasAuthProvider = r.hasAuthProvider ∧ CallsWithin otherThanCreation w out.world)
      ∨ ∃ wR, CreationSite d env remoteCentral r w out wR)

/-- What one call of `Reconcile` does to the cached flags: the wanted flag is kept, and
either the known flag is kept and no creation is issued, or the probe of line 164, the
first call issued, has reported an existing provider, the flag goes from false to true and
no creation is issued, or the call has passed the creation site. -/
def AuthProviderDiscipline {σ : Type} (d : Deps) (env : Env σ)
    (remoteCentral : ManagedCentral) (r : CentralReconciler) (w : World σ)
    (out : Outcome σ) : Prop :=
  out.r.wantsAuthProvider = r.wantsAuthProvider
    ∧ ((out.r.hasAuthProvider = r.hasAuthProvider ∧ CallsWithin otherThanCreation w out.world)
      ∨ (r.wantsAuthProvider = true ∧ r.hasAuthProvider = false
        ∧ out.r.hasAuthProvider = true
        ∧ (env.existsRHSSOAuthProvider remoteCentral w.cluster).1 = Except.ok true
        ∧ CallsWithin otherThanCreation
            (env.perform (Call.existsRHSSOAuthProvider remoteCentral) w) out.world)
      ∨ ∃ wR, CreationSite d env remoteCentral r w out wR)

/-- Reconciler states that a sequence of `Reconcile` calls, one after the other, can reach
from the state `r0`; between two calls the cluster, its log and the package defaults may be
anything, and each call may be for any desired central. -/
inductive ReachableFrom {σ : Type} (d : Deps) (env : Env σ) (r0 : CentralReconciler) :
    CentralReconciler → Prop where
  | start : ReachableFrom d env r0 r0
  | call (r : CentralReconciler) (defaults : ResourceRequirements) (w : World σ)
      (remoteCentral : ManagedCentral) :
      ReachableFrom d env r0 r →
      ReachableFrom d env r0 (Reconcile d env r defaults w remoteCentral).r

/-- An empty model cluster that reports the deployment ready, with an empty call log. -/
def sampleReadyWorld : World FakeCluster :=
  freshWorld { emptyCluster with deploymentReady := true }

end FootprintDefs

/-! ## Predicates used by the statements -/

/-- The fingerprint discipline of one call that started from the receiver `r0`: either the
recorded fingerprint is the one held before the call and no Ready status is returned, or
the call returns the Ready status with a nil error and the recorded fingerprint is the
digest of the desired central. -/
def FingerprintDiscipline {σ : Type} (d : Deps) (remoteCentral : ManagedCentral)
    (r0 : CentralReconciler) (out : Outcome σ) : Prop :=
  (out.r.lastCentralHash = r0.lastCentralHash
      ∧ ∀ s, out.status = some s → s.Condition ≠ StatusCondition.Ready)
    ∨ (out.err = none
      ∧ (∃ routes, out.status = some { Condition := StatusCondition.Ready, Routes := routes })
      ∧ d.MD5SumFromJSONStruct remoteCentral = Except.ok out.r.lastCentralHash)

/-- The three sentinel errors of the package. -/
def Error.isSentinel : Error → Bool
  | .ErrBusy => true
  | .ErrCentralNotChanged => true
  | .ErrDeletionInProgress => true
  | _ => false

/-- Reconciler states that a sequence of `Reconcile` calls, one after the other, can reach
from a fresh instance; between two calls the cluster, its log and the package defaults may
be anything. -/
inductive Reachable {σ : Type} (d : Deps) (env : Env σ) (central : ManagedCentral)
    (opts : CentralReconcilerOptions) : CentralReconciler → Prop where
  | fresh : Reachable d env central opts (NewCentralReconciler central opts)
  | call (r : CentralReconciler) (defaults : ResourceRequirements) (w : World σ)
      (remoteCentral : ManagedCentral) :
      Reachable d env central opts r →
      Reachable d env central opts (Reconcile d env r defaults w remoteCentral).r

/-- What a call of the deletion branch of `Reconcile` (lines 180-189) returns, told by the
result of the one call of `ensureCentralDeleted` it makes: the Deleted status for
`(true, nil)`, `ErrDeletionInProgress` for `(false, nil)`, and the wrapped error for an
error; or the call has failed on the way to the branch with an error that is not a
sentinel. -/
def DeletionOutcome {σ : Type} (d : Deps) (env : Env σ) (remoteCentral : ManagedCentral)
    (r : CentralReconciler) (out : Outcome σ) : Prop :=
  (out.status = none ∧ ∃ e, out.err = some e ∧ e.isSentinel = false)
    ∨ ∃ (r1 : CentralReconciler) (central : Central) (w0 : World σ),
        r1.useRoutes = r.useRoutes
          ∧ central.Namespace = remoteCentral.Metadata.Namespace
          ∧ central.Name = remoteCentral.Metadata.Name
          ∧ (ensureCentralDeleted d env r1 remoteCentral central w0).2 = out.world
          ∧ ((out.status = some deletedStatus ∧ out.err = none
                ∧ (ensureCentralDeleted d env r1 remoteCentral central w0).1 = (true, none))
              ∨ (out.status = none ∧ out.err = some Error.ErrDeletionInProgress
                ∧ (ensureCentralDeleted d env r1 remoteCentral central w0).1 = (false, none))
              ∨ (out.status = none
                ∧ ∃ err, (ensureCentralDeleted d env r1 remoteCentral central w0).1
                      = (false, some err)
                    ∧ out.err = some (.wrapped "delete central" err)))

/-! ## The fingerprint is recorded only by the final return -/

section Fingerprint

variable {σ : Type}

theorem reconcileRecord_discipline (d : Deps) (r : CentralReconciler)
    (defaults : ResourceRequirements) (w : World σ) (remoteCentral : ManagedCentral)
    (routes : List DataPlaneCentralStatusRoutes) :
    FingerprintDiscipline d remoteCentral r
      (reconcileRecord d r defaults w remoteCentral
        { Condition := StatusCondition.Ready, Routes := routes }) := by
  unfold FingerprintDiscipline reconcileRecord setLastCentralHash
  cases h : d.MD5SumFromJSONStruct remoteCentral <;> simp

theorem reconcileStatus_discipline (d : Deps) (env : Env σ) (r : CentralReconciler)
    (defaults : ResourceRequirements) (w : World σ) (remoteCentral : ManagedCentral) :
    FingerprintDiscipline d remoteCentral r
      (reconcileStatus d env r defaults w remoteCentral) := by
  unfold reconcileStatus
  split
  · split
    · left; simp
    · exact reconcileRecord_discipline d r defaults _ remoteCentral _
  · exact reconcileRecord_discipline d r defaults w remoteCentral []

theorem FingerprintDiscipline.of_hash_eq {d : Deps} {remoteCentral : ManagedCentral}
    {r r0 : CentralReconciler} {out : Outcome σ}
    (h : FingerprintDiscipline d remoteCentral r out)
    (hr : r.lastCentralHash = r0.lastCentralHash) :
    FingerprintDiscipline d remoteCentral r0 out := by
  unfold FingerprintDiscipline at *
  rw [← hr]
  exact h

theorem reconcileReadiness_discipline (d : Deps) (env : Env σ) (r : CentralReconciler)
    (defaults : ResourceRequirements) (w : World σ) (remoteCentral : ManagedCentral)
    (changed centralTLSSecretFound : Bool) :
    FingerprintDiscipline d remoteCentral r
      (reconcileReadiness d env r defaults w remoteCentral changed centralTLSSecretFound) := by
  unfold reconcileReadiness
  split
  · left; simp
  · split
    · split
      · left; simp
      · left; simp [installingStatus]
    · split
      · split
        · left; simp
        · exact (reconcileStatus_discipline d env _ defaults _ remoteCentral).of_hash_eq rfl
      · exact reconcileStatus_discipline d env r defaults _ remoteCentral

theorem reconcileRoutes_discipline (d : Deps) (env : Env σ) (r : CentralReconciler)
    (defaults : ResourceRequirements) (w : World σ) (remoteCentral : ManagedCentral)
    (changed : Bool) :
    FingerprintDiscipline d remoteCentral r
      (reconcileRoutes d env r defaults w remoteCentral changed) := by
  unfold reconcileRoutes
  split
  · split
    · split
      · exact reconcileReadiness_discipline d env r defaults _ remoteCentral changed false
      · left; simp
    · exact reconcileReadiness_discipline d env r defaults _ remoteCentral changed true
  · exact reconcileReadiness_discipline d env r defaults w remoteCentral changed true

theorem reconcileCentral_discipline (d : Deps) (env : Env σ) (r : CentralReconciler)
    (defaults : ResourceRequirements) (w : World σ) (remoteCentral : ManagedCentral)
    (changed : Bool) (central : Central) :
    FingerprintDiscipline d remoteCentral r
      (reconcileCentral d env r defaults w remoteCentral changed central) := by
  unfold reconcileCentral
  split
  · split
    · left; simp
    · split
      · left; simp
      · split
        · split
          · left; simp
          · exact reconcileRoutes_discipline d env r defaults _ remoteCentral changed
        · exact reconcileRoutes_discipline d env r defaults _ remoteCentral changed
  · split
    · left; simp
    · split
      · left; simp
      · split
        · split
          · left; simp
          · exact reconcileRoutes_discipline d env r defaults _ remoteCentral changed
        · split
          · left; simp
          · exact reconcileRoutes_discipline d env r defaults _ remoteCentral changed

theorem reconcileConverge_discipline (d : Deps) (env : Env σ) (r : CentralReconciler)
    (defaults : ResourceRequirements) (w : World σ) (remoteCentral : ManagedCentral)
    (changed : Bool) (central : Central) :
    FingerprintDiscipline d remoteCentral r
      (reconcileConverge d env r defaults w remoteCentral changed central) := by
  unfold reconcileConverge
  split
  · split
    · left; simp
    · split
      · left; simp [deletedStatus]
      · left; simp
  · split
    · left; simp
    · split
      · left; simp
      · exact reconcileCentral_discipline d env r defaults _ remoteCentral changed _

theorem reconcileBuild_discipline (d : Deps) (env : Env σ) (r : CentralReconciler)
    (defaults : ResourceRequirements) (w : World σ) (remoteCentral : ManagedCentral)
    (changed : Bool) :
    FingerprintDiscipline d remoteCentral r
      (reconcileBuild d env r defaults w remoteCentral changed) := by
  unfold reconcileBuild
  split
  · left; simp
  · split
    · left; simp
    · split
      · left; simp
      · split
        · left; simp
        · split
          · split
            · left; simp
            · refine (reconcileConverge_discipline d env _ _ _ remoteCentral changed _).of_hash_eq ?_
              split <;> rfl
          · exact reconcileConverge_discipline d env r _ w remoteCentral changed _

theorem reconcileGuarded_discipline (d : Deps) (env : Env σ) (r : CentralReconciler)
    (defaults : ResourceRequirements) (w : World σ) (remoteCentral : ManagedCentral) :
    FingerprintDiscipline d remoteCentral r
      (reconcileGuarded d env r defaults w remoteCentral) := by
  unfold reconcileGuarded
  split
  · left; simp
  · split
    · left; simp
    · exact reconcileBuild_discipline d env r defaults w remoteCentral _

theorem Reconcile_discipline (d : Deps) (env : Env σ) (r : CentralReconciler)
    (defaults : ResourceRequirements) (w : World σ) (remoteCentral : ManagedCentral) :
    FingerprintDiscipline d remoteCentral r
      (Reconcile d env r defaults w remoteCentral) := by
  unfold Reconcile
  split
  · have h := reconcileGuarded_discipline d env { r with status := BlockedStatus } defaults w
      remoteCentral
    unfold FingerprintDiscipline at *
    simpa using h
  · left; simp

end Fingerprint

/-! ## Errors returned unwrapped are never a sentinel -/

section Sentinels

variable {σ : Type}

theorem getRoutesStatuses_not_sentinel (env : Env σ) (ns : String) (w : World σ) (e : Error)
    (h : (getRoutesStatuses env ns w).1 = Except.error e) : e.isSentinel = false := by
  unfold getRoutesStatuses at h
  split at h
  · simp at h; subst h; rfl
  · split at h
    · simp at h; subst h; rfl
    · simp at h

theorem createVPAConfig_not_sentinel (env : Env σ) (name deploymentName : String)
    (remoteCentral : ManagedCentral) (w : World σ) (e : Error)
    (h : (createVPAConfig env name deploymentName remoteCentral w).1 = some e) :
    e.isSentinel = false := by
  unfold createVPAConfig at h
  split at h
  · simp at h; subst h; rfl
  · simp at h

theorem ensureVPAConfigExists_not_sentinel (env : Env σ) (name deploymentName : String)
    (remoteCentral : ManagedCentral) (w : World σ) (e : Error)
    (h : (ensureVPAConfigExists env name deploymentName remoteCentral w).1 = some e) :
    e.isSentinel = false := by
  unfold ensureVPAConfigExists at h
  split at h
  · split at h
    · simp at h; subst h; rfl
    · exact createVPAConfig_not_sentinel env name deploymentName remoteCentral _ e h
  · simp at h

theorem ensureVPAConfigDeleted_not_sentinel (env : Env σ) (name : String)
    (central : ManagedCentral) (w : World σ) (e : Error)
    (h : (ensureVPAConfigDeleted env name central w).1.2 = some e) :
    e.isSentinel = false := by
  unfold ensureVPAConfigDeleted at h
  split at h
  · split at h
    · simp at h
    · simp at h; subst h; rfl
  · split at h
    · simp at h; subst h; rfl
    · simp at h

theorem incrementCentralRevision_not_sentinel (central : Central) (e : Error)
    (h : (incrementCentralRevision central).1 = some e) : e.isSentinel = false := by
  unfold incrementCentralRevision at h
  split at h
  · simp at h; subst h; rfl
  · simp at h

end Sentinels

/-! ## `ErrCentralNotChanged` is returned only for an unchanged digest -/

section Gating

variable {σ : Type}

theorem reconcileRecord_err_not_sentinel (d : Deps) (r : CentralReconciler)
    (defaults : ResourceRequirements) (w : World σ) (remoteCentral : ManagedCentral)
    (status : DataPlaneCentralStatus) (e : Error)
    (h : (reconcileRecord d r defaults w remoteCentral status).err = some e) :
    e.isSentinel = false := by
  unfold reconcileRecord at h
  split at h
  · simp at h; subst h; rfl
  · simp at h

theorem reconcileStatus_err_not_sentinel (d : Deps) (env : Env σ) (r : CentralReconciler)
    (defaults : ResourceRequirements) (w : World σ) (remoteCentral : ManagedCentral)
    (e : Error) (h : (reconcileStatus d env r defaults w remoteCentral).err = some e) :
    e.isSentinel = false := by
  unfold reconcileStatus at h
  split at h
  · split at h
    · rename_i err w1 hr
      simp at h; subst h
      exact getRoutesStatuses_not_sentinel env _ w err (by rw [hr])
    · exact reconcileRecord_err_not_sentinel d r defaults _ remoteCentral _ e h
  · exact reconcileRecord_err_not_sentinel d r defaults w remoteCentral _ e h

theorem reconcileReadiness_notChanged (d : Deps) (env : Env σ) (r : CentralReconciler)
    (defaults : ResourceRequirements) (w : World σ) (remoteCentral : ManagedCentral)
    (changed centralTLSSecretFound : Bool)
    (h : (reconcileReadiness d env r defaults w remoteCentral changed centralTLSSecretFound).err
      = some Error.ErrCentralNotChanged) : changed = false := by
  unfold reconcileReadiness at h
  split at h
  · simp at h
  · split at h
    · split at h
      · rename_i hc
        simp at hc
        exact hc.2
      · simp at h
    · split at h
      · split at h
        · simp at h
        · have := reconcileStatus_err_not_sentinel d env _ defaults _ remoteCentral _ h
          simp [Error.isSentinel] at this
      · have := reconcileStatus_err_not_sentinel d env _ defaults _ remoteCentral _ h
        simp [Error.isSentinel] at this

theorem reconcileRoutes_notChanged (d : Deps) (env : Env σ) (r : CentralReconciler)
    (defaults : ResourceRequirements) (w : World σ) (remoteCentral : ManagedCentral)
    (changed : Bool)
    (h : (reconcileRoutes d env r defaults w remoteCentral changed).err
      = some Error.ErrCentralNotChanged) : changed = false := by
  unfold reconcileRoutes at h
  split at h
  · split at h
    · split at h
      · exact reconcileReadiness_notChanged d env r defaults _ remoteCentral changed false h
      · simp at h
    · exact reconcileReadiness_notChanged d env r defaults _ remoteCentral changed true h
  · exact reconcileReadiness_notChanged d env r defaults w remoteCentral changed true h

theorem reconcileCentral_notChanged (d : Deps) (env : Env σ) (r : CentralReconciler)
    (defaults : ResourceRequirements) (w : World σ) (remoteCentral : ManagedCentral)
    (changed : Bool) (central : Central)
    (h : (reconcileCentral d env r defaults w remoteCentral changed central).err
      = some Error.ErrCentralNotChanged) : changed = false := by
  unfold reconcileCentral at h
  split at h
  · split at h
    · simp at h
    · split at h
      · simp at h
      · split at h
        · split at h
          · rename_i err w3 hv
            simp at h; subst h
            have := createVPAConfig_not_sentinel env _ _ remoteCentral _ _ (by rw [hv])
            simp [Error.isSentinel] at this
          · exact reconcileRoutes_notChanged d env r defaults _ remoteCentral changed h
        · exact reconcileRoutes_notChanged d env r defaults _ remoteCentral changed h
  · split at h
    · rename_i err c hv
      simp at h; subst h
      have := incrementCentralRevision_not_sentinel _ _ (by rw [hv])
      simp [Error.isSentinel] at this
    · split at h
      · simp at h
      · split at h
        · split at h
          · rename_i err w3 hv
            simp at h; subst h
            have := ensureVPAConfigExists_not_sentinel env _ _ remoteCentral _ _ (by rw [hv])
            simp [Error.isSentinel] at this
          · exact reconcileRoutes_notChanged d env r defaults _ remoteCentral changed h
        · split at h
          · rename_i b err w3 hv
            simp at h; subst h
            have := ensureVPAConfigDeleted_not_sentinel env _ remoteCentral _ _ (by rw [hv])
            simp [Error.isSentinel] at this
          · exact reconcileRoutes_notChanged d env r defaults _ remoteCentral changed h

theorem reconcileConverge_notChanged (d : Deps) (env : Env σ) (r : CentralReconciler)
    (defaults : ResourceRequirements) (w : World σ) (remoteCentral : ManagedCentral)
    (changed : Bool) (central : Central)
    (h : (reconcileConverge d env r defaults w remoteCentral changed central).err
      = some Error.ErrCentralNotChanged) : changed = false := by
  unfold reconcileConverge at h
  split at h
  · split at h
    · simp at h
    · split at h <;> simp at h
  · split at h
    · simp at h
    · split at h
      · simp at h
      · exact reconcileCentral_notChanged d env r defaults _ remoteCentral changed _ h

theorem reconcileBuild_notChanged (d : Deps) (env : Env σ) (r : CentralReconciler)
    (defaults : ResourceRequirements) (w : World σ) (remoteCentral : ManagedCentral)
    (changed : Bool)
    (h : (reconcileBuild d env r defaults w remoteCentral changed).err
      = some Error.ErrCentralNotChanged) : changed = false := by
  unfold reconcileBuild at h
  split at h
  · simp at h
  · split at h
    · simp at h
    · split at h
      · simp at h
      · split at h
        · simp at h
        · split at h
          · split at h
            · simp at h
            · exact reconcileConverge_notChanged d env _ _ _ remoteCentral changed _ h
          · exact reconcileConverge_notChanged d env r _ w remoteCentral changed _ h

theorem reconcileGuarded_notChanged (d : Deps) (env : Env σ) (r : CentralReconciler)
    (defaults : ResourceRequirements) (w : World σ) (remoteCentral : ManagedCentral)
    (h : (reconcileGuarded d env r defaults w remoteCentral).err
      = some Error.ErrCentralNotChanged) :
    d.MD5SumFromJSONStruct remoteCentral = Except.ok r.lastCentralHash := by
  unfold reconcileGuarded centralChanged at h
  cases hm : d.MD5SumFromJSONStruct remoteCentral with
  | error e => simp [hm] at h
  | ok hash =>
    simp only [hm] at h
    split at h
    · rename_i hc
      simp at hc
      rw [hc.1.1]
    · have := reconcileBuild_notChanged d env r defaults w remoteCentral _ h
      simp at this
      rw [this]

end Gating

/-! ## Decimal rendering and parsing -/

theorem digitVal_digitChar (v : Nat) (h : v < 10) : digitVal (Nat.digitChar v) = some v := by
  interval_cases v <;> rfl

theorem parseDigits_toDigitsCore (fuel : Nat) : ∀ n, n < fuel →
    ∃ k, ∀ ds acc, parseDigits (Nat.toDigitsCore 10 fuel n ds) acc
      = parseDigits ds (acc * 10 ^ k + n) := by
  induction fuel with
  | zero => intro n h; omega
  | succ fuel ih =>
    intro n h
    by_cases h0 : n / 10 = 0
    · refine ⟨1, fun ds acc => ?_⟩
      have hlt : n < 10 := by omega
      simp only [Nat.toDigitsCore, h0, if_true]
      rw [parseDigits, Nat.mod_eq_of_lt hlt, digitVal_digitChar n hlt]
      simp
    · obtain ⟨k, hk⟩ := ih (n / 10) (by omega)
      refine ⟨k + 1, fun ds acc => ?_⟩
      simp only [Nat.toDigitsCore, h0, if_false]
      rw [hk, parseDigits, digitVal_digitChar (n % 10) (Nat.mod_lt _ (by decide))]
      simp only
      congr 1
      rw [pow_succ]
      have := Nat.div_add_mod n 10
      nlinarith

theorem toDigitsCore_ne_nil (fuel : Nat) : ∀ n ds, ds ≠ [] → Nat.toDigitsCore 10 fuel n ds ≠ [] := by
  induction fuel with
  | zero => intro n ds h; simpa [Nat.toDigitsCore] using h
  | succ fuel ih =>
    intro n ds h
    simp only [Nat.toDigitsCore]
    split
    · simp
    · exact ih _ _ (by simp)

theorem toDigits_ne_nil (n : Nat) : Nat.toDigits 10 n ≠ [] := by
  unfold Nat.toDigits
  simp only [Nat.toDigitsCore]
  split
  · simp
  · exact toDigitsCore_ne_nil _ _ _ (by simp)

theorem parseDigits_toDigits (n : Nat) : parseDigits (Nat.toDigits 10 n) 0 = some n := by
  obtain ⟨k, hk⟩ := parseDigits_toDigitsCore (n + 1) n (by omega)
  unfold Nat.toDigits
  rw [hk]
  simp [parseDigits]

theorem parseUnsigned_toDigits (n : Nat) : parseUnsigned (Nat.toDigits 10 n) = some n := by
  have h := parseDigits_toDigits n
  have hne := toDigits_ne_nil n
  cases hl : Nat.toDigits 10 n with
  | nil => exact absurd hl hne
  | cons c cs =>
    rw [hl] at h
    exact h

theorem Atoi_Sprintf_d (n : Int) (hlo : minInt ≤ n) (hhi : n ≤ maxInt) :
    Atoi (Sprintf_d n) = some n := by
  cases n with
  | ofNat m =>
    have hp := parseUnsigned_toDigits m
    have hd := parseDigits_toDigits m
    unfold Atoi Sprintf_d
    simp only
    cases hl : Nat.toDigits 10 m with
    | nil => exact absurd hl (toDigits_ne_nil m)
    | cons c cs =>
      rw [hl] at hp hd
      have hc : digitVal c ≠ none := by
        intro hnone
        simp [parseDigits, hnone] at hd
      have h1 : c ≠ '-' := by
        rintro rfl
        exact hc (by decide)
      have h2 : c ≠ '+' := by
        rintro rfl
        exact hc (by decide)
      simp only [h1, h2, if_false, hp]
      have : ((m : Nat) : Int) ≤ maxInt := hhi
      simp [this]
  | negSucc m =>
    have hp := parseUnsigned_toDigits (m + 1)
    unfold Atoi Sprintf_d
    simp only [if_true, hp]
    have : ((m + 1 : Nat) : Int) ≤ 9223372036854775808 := by
      unfold minInt at hlo
      have := Int.negSucc_eq m
      omega
    simp only [this, if_true]
    rw [Int.negSucc_eq]
    simp

theorem Atoi_range (s : String) (n : Int) (h : Atoi s = some n) : minInt ≤ n ∧ n ≤ maxInt := by
  unfold Atoi at h
  unfold minInt maxInt at *
  split at h
  · simp at h
  · split at h
    · split at h
      · simp at h
      · split at h
        · simp at h; omega
        · simp at h
    · split at h
      · split at h
        · simp at h
        · split at h
          · simp at h; omega
          · simp at h
      · split at h
        · simp at h
        · split at h
          · simp at h; omega
          · simp at h

theorem wrapInt_of_range (x : Int) (hlo : minInt ≤ x) (hhi : x ≤ maxInt) : wrapInt x = x := by
  unfold wrapInt
  unfold minInt at hlo
  unfold maxInt at hhi
  omega

/-! ## Footprints: what the helpers may call -/

section Footprint

variable {σ : Type}

theorem StepInvariant.of_invoke {env : Env σ} {allowed : Call → Bool}
    {R : World σ → World σ → Prop} (inv : StepInvariant env allowed R) {α : Type}
    {c : Call} {w : World σ} {handler : σ → α × σ} {a : α} {w1 : World σ}
    (heq : invoke handler c w = (a, w1)) (hp : env.perform c w = (invoke handler c w).2)
    (hc : allowed c = true) : R w w1 := by
  have h := inv.step c w hc
  rw [hp, heq] at h
  exact h

theorem getNamespace_steps {env : Env σ} {allowed : Call → Bool}
    {R : World σ → World σ → Prop} (inv : StepInvariant env allowed R)
    (hfoot : ∀ c, namespaceExistsCalls c = true → allowed c = true) (name : String)
    (w : World σ) : R w (getNamespace env name w).2 := by
  unfold getNamespace
  split
  all_goals
    rename_i heq
    exact inv.of_invoke heq rfl (by exact hfoot _ rfl)

theorem ensureNamespaceExists_steps {env : Env σ} {allowed : Call → Bool}
    {R : World σ → World σ → Prop} (inv : StepInvariant env allowed R)
    (hfoot : ∀ c, namespaceExistsCalls c = true → allowed c = true) (name : String)
    (w : World σ) : R w (ensureNamespaceExists env name w).2 := by
  have hget := getNamespace_steps inv hfoot name w
  unfold ensureNamespaceExists
  split
  · rename_i ns err w1 heq
    rw [heq] at hget
    split
    · split
      all_goals
        rename_i heq2
        exact inv.trans _ _ _ hget (inv.of_invoke heq2 rfl (by exact hfoot _ rfl))
    · exact hget
  · rename_i heq
    rw [heq] at hget
    exact hget

theorem ensureChartResourcesExistLoop_steps {env : Env σ} {allowed : Call → Bool}
    {R : World σ → World σ → Prop} (inv : StepInvariant env allowed R)
    (hfoot : ∀ c, unstructuredExistsCalls c = true → allowed c = true)
    (remoteCentral : ManagedCentral) (objs : List Unstructured) :
    ∀ w : World σ, R w (ensureChartResourcesExistLoop env remoteCentral objs w).2 := by
  induction objs with
  | nil => intro w; exact inv.refl w
  | cons obj rest ih =>
    intro w
    unfold ensureChartResourcesExistLoop
    split
    · rename_i heq
      exact inv.trans _ _ _ (inv.of_invoke heq rfl (by exact hfoot _ rfl)) (ih _)
    · rename_i e w1 heq
      have h1 := inv.of_invoke heq rfl (by exact hfoot _ rfl)
      split
      · exact h1
      · split
        · rename_i heq2
          have h2 := inv.trans _ _ _ h1 (inv.of_invoke heq2 rfl (by exact hfoot _ rfl))
          split
          · exact h2
          · exact inv.trans _ _ _ h2 (ih _)
        · rename_i heq2
          exact inv.trans _ _ _
            (inv.trans _ _ _ h1 (inv.of_invoke heq2 rfl (by exact hfoot _ rfl))) (ih _)

theorem ensureChartResourcesExist_steps {env : Env σ} {allowed : Call → Bool}
    {R : World σ → World σ → Prop} (inv : StepInvariant env allowed R)
    (hfoot : ∀ c, unstructuredExistsCalls c = true → allowed c = true) (d : Deps)
    (r : CentralReconciler) (remoteCentral : ManagedCentral) (w : World σ) :
    R w (ensureChartResourcesExist d env r remoteCentral w).2 := by
  unfold ensureChartResourcesExist
  split
  · exact inv.refl w
  · split
    · exact inv.refl w
    · exact ensureChartResourcesExistLoop_steps inv hfoot remoteCentral _ w

theorem createVPAConfig_steps {env : Env σ} {allowed : Call → Bool}
    {R : World σ → World σ → Prop} (inv : StepInvariant env allowed R)
    (hfoot : ∀ c, unstructuredExistsCalls c = true → allowed c = true)
    (name deploymentName : String) (remoteCentral : ManagedCentral) (w : World σ) :
    R w (createVPAConfig env name deploymentName remoteCentral w).2 := by
  unfold createVPAConfig
  split
  all_goals
    rename_i heq
    exact inv.of_invoke heq rfl (by exact hfoot _ rfl)

theorem ensureVPAConfigExists_steps {env : Env σ} {allowed : Call → Bool}
    {R : World σ → World σ → Prop} (inv : StepInvariant env allowed R)
    (hfoot : ∀ c, unstructuredExistsCalls c = true → allowed c = true)
    (name deploymentName : String) (remoteCentral : ManagedCentral) (w : World σ) :
    R w (ensureVPAConfigExists env name deploymentName remoteCentral w).2 := by
  unfold ensureVPAConfigExists
  split
  · rename_i heq
    have h1 := inv.of_invoke heq rfl (by exact hfoot _ rfl)
    split
    · exact h1
    · exact inv.trans _ _ _ h1 (createVPAConfig_steps inv hfoot _ _ _ _)
  · rename_i heq
    exact inv.of_invoke heq rfl (by exact hfoot _ rfl)

theorem ensureVPAConfigDeleted_steps {env : Env σ} {allowed : Call → Bool}
    {R : World σ → World σ → Prop} (inv : StepInvariant env allowed R)
    (hfoot : ∀ c, unstructuredDeletedCalls c = true → allowed c = true)
    (name : String) (central : ManagedCentral) (w : World σ) :
    R w (ensureVPAConfigDeleted env name central w).2 := by
  unfold ensureVPAConfigDeleted
  split
  · rename_i heq
    have h1 := inv.of_invoke heq rfl (by exact hfoot _ rfl)
    split <;> exact h1
  · rename_i found w1 heq
    have h1 := inv.of_invoke heq rfl (by exact hfoot _ rfl)
    split
    all_goals
      rename_i heq2
      exact inv.trans _ _ _ h1 (inv.of_invoke heq2 rfl (by exact hfoot _ rfl))

theorem ensureReencryptRouteExists_steps {env : Env σ} {allowed : Call → Bool}
    {R : World σ → World σ → Prop} (inv : StepInvariant env allowed R)
    (hfoot : ∀ c, routesAndReadinessCalls c = true → allowed c = true)
    (remoteCentral : ManagedCentral) (w : World σ) :
    R w (ensureReencryptRouteExists env remoteCentral w).2 := by
  unfold ensureReencryptRouteExists
  split
  · rename_i e w1 heq
    have h1 := inv.of_invoke heq rfl (by exact hfoot _ rfl)
    split
    · exact h1
    · split
      all_goals
        rename_i heq2
        exact inv.trans _ _ _ h1 (inv.of_invoke heq2 rfl (by exact hfoot _ rfl))
  · rename_i heq
    exact inv.of_invoke heq rfl (by exact hfoot _ rfl)

theorem ensurePassthroughRouteExists_steps {env : Env σ} {allowed : Call → Bool}
    {R : World σ → World σ → Prop} (inv : StepInvariant env allowed R)
    (hfoot : ∀ c, routesAndReadinessCalls c = true → allowed c = true)
    (remoteCentral : ManagedCentral) (w : World σ) :
    R w (ensurePassthroughRouteExists env remoteCentral w).2 := by
  unfold ensurePassthroughRouteExists
  split
  · rename_i e w1 heq
    have h1 := inv.of_invoke heq rfl (by exact hfoot _ rfl)
    split
    · exact h1
    · split
      all_goals
        rename_i heq2
        exact inv.trans _ _ _ h1 (inv.of_invoke heq2 rfl (by exact hfoot _ rfl))
  · rename_i heq
    exact inv.of_invoke heq rfl (by exact hfoot _ rfl)

theorem ensureRoutesExist_steps {env : Env σ} {allowed : Call → Bool}
    {R : World σ → World σ → Prop} (inv : StepInvariant env allowed R)
    (hfoot : ∀ c, routesAndReadinessCalls c = true → allowed c = true)
    (remoteCentral : ManagedCentral) (w : World σ) :
    R w (ensureRoutesExist env remoteCentral w).2 := by
  have h1 := ensureReencryptRouteExists_steps inv hfoot remoteCentral w
  unfold ensureRoutesExist
  split
  · rename_i heq
    rw [heq] at h1
    exact h1
  · rename_i w1 heq
    rw [heq] at h1
    exact inv.trans _ _ _ h1 (ensurePassthroughRouteExists_steps inv hfoot remoteCentral w1)

theorem getRoutesStatuses_steps {env : Env σ} {allowed : Call → Bool}
    {R : World σ → World σ → Prop} (inv : StepInvariant env allowed R)
    (hfoot : ∀ c, routesAndReadinessCalls c = true → allowed c = true)
    (ns : String) (w : World σ) : R w (getRoutesStatuses env ns w).2 := by
  unfold getRoutesStatuses
  split
  · rename_i heq
    exact inv.of_invoke heq rfl (by exact hfoot _ rfl)
  · rename_i x w1 heq
    have h1 := inv.of_invoke heq rfl (by exact hfoot _ rfl)
    split
    all_goals
      rename_i heq2
      exact inv.trans _ _ _ h1 (inv.of_invoke heq2 rfl (by exact hfoot _ rfl))

theorem reconcileRecord_world (d : Deps) (r : CentralReconciler)
    (defaults : ResourceRequirements) (w : World σ) (remoteCentral : ManagedCentral)
    (status : DataPlaneCentralStatus) :
    (reconcileRecord d r defaults w remoteCentral status).world = w := by
  unfold reconcileRecord
  split <;> rfl

theorem reconcileStatus_steps {env : Env σ} {allowed : Call → Bool}
    {R : World σ → World σ → Prop} (inv : StepInvariant env allowed R)
    (hfoot : ∀ c, routesAndReadinessCalls c = true → allowed c = true) (d : Deps)
    (r : CentralReconciler) (defaults : ResourceRequirements) (w : World σ)
    (remoteCentral : ManagedCentral) :
    R w (reconcileStatus d env r defaults w remoteCentral).world := by
  unfold reconcileStatus
  split
  · have h1 := getRoutesStatuses_steps inv hfoot remoteCentral.Metadata.Namespace w
    split
    · rename_i heq
      rw [heq] at h1
      exact h1
    · rename_i heq
      rw [heq] at h1
      rw [reconcileRecord_world]
      exact h1
  · rw [reconcileRecord_world]
    exact inv.refl w

theorem reconcileReadiness_steps {env : Env σ} {allowed : Call → Bool}
    {R : World σ → World σ → Prop} (inv : StepInvariant env allowed R)
    (hfoot : ∀ c, routesAndReadinessCalls c = true → allowed c = true) (d : Deps)
    (r : CentralReconciler) (defaults : ResourceRequirements) (w : World σ)
    (remoteCentral : ManagedCentral) (changed centralTLSSecretFound : Bool) :
    R w (reconcileReadiness d env r defaults w remoteCentral changed
      centralTLSSecretFound).world := by
  unfold reconcileReadiness
  split
  · rename_i heq
    exact inv.of_invoke heq rfl (by exact hfoot _ rfl)
  · rename_i ready w1 heq
    have h1 := inv.of_invoke heq rfl (by exact hfoot _ rfl)
    split
    · split <;> exact h1
    · split
      · split
        · rename_i heq2
          exact inv.trans _ _ _ h1 (inv.of_invoke heq2 rfl (by exact hfoot _ rfl))
        · rename_i w2 heq2
          exact inv.trans _ _ _
            (inv.trans _ _ _ h1 (inv.of_invoke heq2 rfl (by exact hfoot _ rfl)))
            (reconcileStatus_steps inv hfoot d _ defaults w2 remoteCentral)
      · exact inv.trans _ _ _ h1 (reconcileStatus_steps inv hfoot d r defaults w1 remoteCentral)

theorem reconcileRoutes_steps {env : Env σ} {allowed : Call → Bool}
    {R : World σ → World σ → Prop} (inv : StepInvariant env allowed R)
    (hfoot : ∀ c, routesAndReadinessCalls c = true → allowed c = true) (d : Deps)
    (r : CentralReconciler) (defaults : ResourceRequirements) (w : World σ)
    (remoteCentral : ManagedCentral) (changed : Bool) :
    R w (reconcileRoutes d env r defaults w remoteCentral changed).world := by
  unfold reconcileRoutes
  split
  · have h1 := ensureRoutesExist_steps inv hfoot remoteCentral w
    split
    · rename_i heq
      rw [heq] at h1
      split
      · exact inv.trans _ _ _ h1 (reconcileReadiness_steps inv hfoot d r defaults _ _ _ _)
      · exact h1
    · rename_i heq
      rw [heq] at h1
      exact inv.trans _ _ _ h1 (reconcileReadiness_steps inv hfoot d r defaults _ _ _ _)
  · exact reconcileReadiness_steps inv hfoot d r defaults w remoteCentral changed true

theorem reconcileCentral_update_path {env : Env σ} {allowed : Call → Bool}
    {R : World σ → World σ → Prop} (inv : StepInvariant env allowed R)
    (hfoot : ∀ c, afterCentralCalls c = true → allowed c = true) (d : Deps)
    (r : CentralReconciler) (defaults : ResourceRequirements) (w : World σ)
    (remoteCentral : ManagedCentral) (changed : Bool) (central existing : Central)
    (hget : (env.GetCentral
      { Namespace := remoteCentral.Metadata.Namespace, Name := remoteCentral.Metadata.Name }
      w.cluster).1 = Except.ok existing)
    (herr : (reconcileCentral d env r defaults w remoteCentral changed central).err = none) :
    ∃ incremented : Central,
      incrementCentralRevision { existing with Spec := central.Spec } = (none, incremented)
      ∧ (env.Update (Object.ofCentral { incremented with Spec := central.Spec })
          (env.perform (Call.GetCentral
            { Namespace := remoteCentral.Metadata.Namespace, Name := remoteCentral.Metadata.Name }) w).cluster).1 = none
      ∧ R (env.perform (Call.Update (Object.ofCentral { incremented with Spec := central.Spec }))
            (env.perform (Call.GetCentral
            { Namespace := remoteCentral.Metadata.Namespace, Name := remoteCentral.Metadata.Name }) w))
          (reconcileCentral d env r defaults w remoteCentral changed central).world := by
  have h1 : ∀ c, unstructuredExistsCalls c = true → allowed c = true := fun c hc =>
    hfoot c (by simp [afterCentralCalls, hc])
  have h2 : ∀ c, unstructuredDeletedCalls c = true → allowed c = true := fun c hc =>
    hfoot c (by simp [afterCentralCalls, hc])
  have h3 : ∀ c, routesAndReadinessCalls c = true → allowed c = true := fun c hc =>
    hfoot c (by simp [afterCentralCalls, hc])
  unfold reconcileCentral at herr ⊢
  split at herr
  · rename_i heq
    have := congrArg Prod.fst heq
    simp only [invoke] at this
    rw [hget] at this
    cases this
  · rename_i ex w1 heq
    have hex : ex = existing := by
      have := congrArg Prod.fst heq
      simp only [invoke] at this
      rw [hget] at this
      cases this
      rfl
    subst hex
    have hw1 : w1 = env.perform (Call.GetCentral
            { Namespace := remoteCentral.Metadata.Namespace, Name := remoteCentral.Metadata.Name }) w := by
      have := congrArg Prod.snd heq
      exact this.symm
    subst hw1
    split at herr
    · simp at herr
    · rename_i incremented hinc
      refine ⟨incremented, hinc, ?_⟩
      split at herr
      · simp at herr
      · rename_i w2 heq2
        have hw2 : w2 = env.perform (Call.Update (Object.ofCentral
            { incremented with Spec := central.Spec })) _ := (congrArg Prod.snd heq2).symm
        have hu := congrArg Prod.fst heq2
        simp only [invoke] at hu
        refine ⟨hu, ?_⟩
        rw [← hw2]
        split
        · have hv := ensureVPAConfigExists_steps inv h1 vpaConfigurationCentralName "central"
            remoteCentral w2
          split
          · rename_i heq3
            rw [heq3] at hv
            exact hv
          · rename_i heq3
            rw [heq3] at hv
            exact inv.trans _ _ _ hv (reconcileRoutes_steps inv h3 d r defaults _ _ _)
        · have hv := ensureVPAConfigDeleted_steps inv h2 vpaConfigurationCentralName
            remoteCentral w2
          split
          · rename_i heq3
            rw [heq3] at hv
            exact hv
          · rename_i heq3
            rw [heq3] at hv
            exact inv.trans _ _ _ hv (reconcileRoutes_steps inv h3 d r defaults _ _ _)

theorem reconcileCentral_create_path {env : Env σ} {allowed : Call → Bool}
    {R : World σ → World σ → Prop} (inv : StepInvariant env allowed R)
    (hfoot : ∀ c, afterCentralCalls c = true → allowed c = true) (d : Deps)
    (r : CentralReconciler) (defaults : ResourceRequirements) (w : World σ)
    (remoteCentral : ManagedCentral) (changed : Bool) (central : Central) (e : ApiError)
    (hget : (env.GetCentral
      { Namespace := remoteCentral.Metadata.Namespace, Name := remoteCentral.Metadata.Name }
      w.cluster).1 = Except.error e)
    (herr : (reconcileCentral d env r defaults w remoteCentral changed central).err = none) :
    (env.Create (Object.ofCentral { central with
          Annotations := some (GoMap.set (central.Annotations.getD []) revisionAnnotationKey "1") })
        (env.perform (Call.GetCentral
          { Namespace := remoteCentral.Metadata.Namespace, Name := remoteCentral.Metadata.Name })
          w).cluster).1 = none
      ∧ R (env.perform (Call.Create (Object.ofCentral { central with
            Annotations :=
              some (GoMap.set (central.Annotations.getD []) revisionAnnotationKey "1") }))
            (env.perform (Call.GetCentral
              { Namespace := remoteCentral.Metadata.Namespace, Name := remoteCentral.Metadata.Name })
              w))
          (reconcileCentral d env r defaults w remoteCentral changed central).world := by
  have h1 : ∀ c, unstructuredExistsCalls c = true → allowed c = true := fun c hc =>
    hfoot c (by simp [afterCentralCalls, hc])
  have h3 : ∀ c, routesAndReadinessCalls c = true → allowed c = true := fun c hc =>
    hfoot c (by simp [afterCentralCalls, hc])
  unfold reconcileCentral at herr ⊢
  split at herr
  · rename_i e1 w1 heq
    have hw1 : w1 = env.perform (Call.GetCentral
        { Namespace := remoteCentral.Metadata.Namespace, Name := remoteCentral.Metadata.Name })
        w := (congrArg Prod.snd heq).symm
    subst hw1
    split at herr
    · simp at herr
    · rename_i hnf
      rw [if_neg hnf]
      split at herr
      · simp at herr
      · rename_i w2 heq2
        have hw2 : w2 = env.perform (Call.Create (Object.ofCentral { central with
            Annotations :=
              some (GoMap.set (central.Annotations.getD []) revisionAnnotationKey "1") })) _ :=
          (congrArg Prod.snd heq2).symm
        have hu := congrArg Prod.fst heq2
        simp only [invoke] at hu
        refine ⟨hu, ?_⟩
        rw [← hw2]
        split
        · have hv := createVPAConfig_steps inv h1 vpaConfigurationCentralName "central"
            remoteCentral w2
          split
          · rename_i heq3
            rw [heq3] at hv
            exact hv
          · rename_i heq3
            rw [heq3] at hv
            exact inv.trans _ _ _ hv (reconcileRoutes_steps inv h3 d r defaults _ _ _)
        · exact reconcileRoutes_steps inv h3 d r defaults _ _ _
  · rename_i heq
    have := congrArg Prod.fst heq
    simp only [invoke] at this
    rw [hget] at this
    cases this

theorem reconcileConverge_success_path {env : Env σ} {allowed : Call → Bool}
    {R : World σ → World σ → Prop} (inv : StepInvariant env allowed R)
    (hfoot : ∀ c, beforeCentralCalls c = true → allowed c = true) (d : Deps)
    (r : CentralReconciler) (defaults : ResourceRequirements) (w : World σ)
    (remoteCentral : ManagedCentral) (changed : Bool) (central : Central)
    (hnodel : remoteCentral.Metadata.DeletionTimestamp = "")
    (herr : (reconcileConverge d env r defaults w remoteCentral changed central).err = none) :
    ∃ w0 : World σ, R w w0
      ∧ reconcileConverge d env r defaults w remoteCentral changed central
        = reconcileCentral d env r defaults w0 remoteCentral changed
          (if r.hasAuthProvider then
            { central with Spec :=
              { central.Spec with CentralAdminPasswordGenerationDisabled := some true } }
           else central) := by
  have h1 : ∀ c, namespaceExistsCalls c = true → allowed c = true := fun c hc =>
    hfoot c (by simp [beforeCentralCalls, hc])
  have h2 : ∀ c, unstructuredExistsCalls c = true → allowed c = true := fun c hc =>
    hfoot c (by simp [beforeCentralCalls, hc])
  unfold reconcileConverge at herr ⊢
  rw [if_neg (by simp [hnodel])] at herr ⊢
  have hn := ensureNamespaceExists_steps inv h1 remoteCentral.Metadata.Namespace w
  split at herr
  · simp at herr
  · rename_i w1 heq
    rw [heq] at hn
    have hc := ensureChartResourcesExist_steps inv h2 d r remoteCentral w1
    split at herr
    · simp at herr
    · rename_i w2 heq2
      rw [heq2] at hc
      exact ⟨w2, inv.trans _ _ _ hn hc, rfl⟩

theorem reconcileBuild_success_path {env : Env σ} {allowed : Call → Bool}
    {R : World σ → World σ → Prop} (inv : StepInvariant env allowed R)
    (hfoot : ∀ c, beforeCentralCalls c = true → allowed c = true) (d : Deps)
    (r : CentralReconciler) (defaults : ResourceRequirements) (w : World σ)
    (remoteCentral : ManagedCentral) (changed : Bool)
    (hnodel : remoteCentral.Metadata.DeletionTimestamp = "")
    (herr : (reconcileBuild d env r defaults w remoteCentral changed).err = none) :
    ∃ (r0 : CentralReconciler) (w0 : World σ)
      (centralResources scannerAnalyzerResources scannerDbResources : ResourceRequirements),
      R w w0
      ∧ r0.status = r.status ∧ r0.lastCentralHash = r.lastCentralHash
      ∧ r0.useRoutes = r.useRoutes ∧ r0.wantsAuthProvider = r.wantsAuthProvider
      ∧ patchResourceList d defaults.Requests remoteCentral.CentralResources.Requests
        = (none, centralResources.Requests)
      ∧ patchResourceList d defaults.Limits remoteCentral.CentralResources.Limits
        = (none, centralResources.Limits)
      ∧ reconcileBuild d env r defaults w remoteCentral changed
        = reconcileCentral d env r0 centralResources w0 remoteCentral changed
          (targetCentral d r0 remoteCentral centralResources scannerAnalyzerResources
            scannerDbResources) := by
  have h0 : ∀ c, authProbeCalls c = true → allowed c = true := fun c hc =>
    hfoot c (by simp [beforeCentralCalls, hc])
  unfold reconcileBuild at herr ⊢
  split at herr
  · simp at herr
  · rename_i requests hreq
    split at herr
    · simp at herr
    · rename_i limits hlim
      split at herr
      · simp at herr
      · rename_i sar hsar
        split at herr
        · simp at herr
        · rename_i sdr hsdr
          split at herr
          · rename_i hcond
            rw [if_pos hcond]
            split at herr
            · simp at herr
            · rename_i providerExists w1 heq
              have hp := inv.of_invoke heq rfl (by exact h0 _ rfl)
              obtain ⟨w0, hw0, hc⟩ := reconcileConverge_success_path inv hfoot d _ _ w1
                remoteCentral changed _ hnodel herr
              refine ⟨if providerExists then { r with hasAuthProvider := true } else r, w0,
                { Limits := limits, Requests := requests }, sar, sdr,
                inv.trans _ _ _ hp hw0, ?_, ?_, ?_, ?_, hreq, hlim, ?_⟩
              · split <;> rfl
              · split <;> rfl
              · split <;> rfl
              · split <;> rfl
              · rw [hc]
                unfold targetCentral desiredCentral
                cases providerExists <;> rfl
          · rename_i hcond
            rw [if_neg hcond]
            obtain ⟨w0, hw0, hc⟩ := reconcileConverge_success_path inv hfoot d _ _ w
              remoteCentral changed _ hnodel herr
            exact ⟨r, w0, { Limits := limits, Requests := requests }, sar, sdr, hw0, rfl, rfl,
              rfl, rfl, hreq, hlim, by rw [hc]; rfl⟩

theorem Reconcile_success_path {σ : Type} {env : Env σ} {allowed : Call → Bool}
    {R : World σ → World σ → Prop} (inv : StepInvariant env allowed R)
    (hfoot : ∀ c, beforeCentralCalls c = true → allowed c = true) (d : Deps)
    (r : CentralReconciler) (defaults : ResourceRequirements) (w : World σ)
    (remoteCentral : ManagedCentral)
    (hnodel : remoteCentral.Metadata.DeletionTimestamp = "")
    (herr : (Reconcile d env r defaults w remoteCentral).err = none) :
    ∃ (r0 : CentralReconciler) (w0 : World σ)
      (centralResources scannerAnalyzerResources scannerDbResources : ResourceRequirements)
      (hash : Hash),
      R w w0
      ∧ r.status = FreeStatus ∧ r0.lastCentralHash = r.lastCentralHash
      ∧ r0.useRoutes = r.useRoutes ∧ r0.wantsAuthProvider = r.wantsAuthProvider
      ∧ d.MD5SumFromJSONStruct remoteCentral = Except.ok hash
      ∧ patchResourceList d defaults.Requests remoteCentral.CentralResources.Requests
        = (none, centralResources.Requests)
      ∧ patchResourceList d defaults.Limits remoteCentral.CentralResources.Limits
        = (none, centralResources.Limits)
      ∧ Reconcile d env r defaults w remoteCentral
        = (reconcileCentral d env r0 centralResources w0 remoteCentral
            (!(r.lastCentralHash == hash))
            (targetCentral d r0 remoteCentral centralResources scannerAnalyzerResources
              scannerDbResources)).released := by
  unfold Reconcile at herr ⊢
  split at herr
  · rename_i hfree
    rw [if_pos hfree]
    have herr2 : (reconcileGuarded d env { r with status := BlockedStatus } defaults w
        remoteCentral).err = none := herr
    have hg : ∃ hash, d.MD5SumFromJSONStruct remoteCentral = Except.ok hash
        ∧ reconcileGuarded d env { r with status := BlockedStatus } defaults w remoteCentral
          = reconcileBuild d env { r with status := BlockedStatus } defaults w remoteCentral
            (!(r.lastCentralHash == hash)) := by
      unfold reconcileGuarded centralChanged at herr2 ⊢
      cases hm : d.MD5SumFromJSONStruct remoteCentral with
      | error e => simp [hm] at herr2
      | ok hash =>
        refine ⟨hash, rfl, ?_⟩
        simp only [hm] at herr2 ⊢
        split at herr2
        · simp at herr2
        · rename_i hc
          rw [if_neg hc]
    obtain ⟨hash, hm, hgb⟩ := hg
    rw [hgb] at herr2
    obtain ⟨r0, w0, cr, sar, sdr, hR, _, hh, hu, hw, hreq, hlim, hb⟩ :=
      reconcileBuild_success_path inv hfoot d _ defaults w remoteCentral _ hnodel herr2
    refine ⟨r0, w0, cr, sar, sdr, hash, hR, hfree, hh, hu, hw, hm, hreq, hlim, ?_⟩
    rw [← hb, ← hgb]
    rfl
  · simp at herr

theorem fake_centrals_invariant :
    StepInvariant fakeEnv (fun c => !c.touchesCentral)
      (fun w w1 => w1.cluster.centrals = w.cluster.centrals) where
  refl := fun _ => rfl
  trans := fun _ _ _ h1 h2 => h2.trans h1
  step := by
    intro c w h
    cases c with
    | Create o =>
      cases o <;> simp [Call.touchesCentral] at h <;>
        simp only [Env.perform, invoke, fakeEnv] <;> split <;> simp [FakeCluster.store] <;>
        split <;> rfl
    | Update o =>
      cases o <;> simp [Call.touchesCentral] at h <;>
        simp only [Env.perform, invoke, fakeEnv] <;> split <;>
        simp [FakeCluster.store, FakeCluster.without] <;> split <;> rfl
    | Delete o =>
      cases o <;> simp [Call.touchesCentral] at h <;>
        simp only [Env.perform, invoke, fakeEnv] <;> split <;>
        simp [FakeCluster.without]
    | CreateReencryptRoute rc =>
      simp only [Env.perform, invoke, fakeEnv]
      split
      · rfl
      · split <;> rfl
    | CreatePassthroughRoute rc =>
      simp only [Env.perform, invoke, fakeEnv]
      split <;> rfl
    | _ =>
      simp only [Env.perform, invoke, fakeEnv, fakeLookup] <;>
      first
        | rfl
        | (split <;> rfl)

theorem GoMap.get_set (m : GoMap String) (k v : String) :
    GoMap.get (GoMap.set m k v) k = v := by
  unfold GoMap.get
  induction m with
  | nil => simp [GoMap.set, GoMap.find]
  | cons kv rest ih =>
    obtain ⟨k1, v1⟩ := kv
    by_cases h : k1 = k
    · simp [GoMap.set, GoMap.find, h]
    · simp [GoMap.set, GoMap.find, h, ih]

theorem find?_filter_not_append {α : Type} (p : α → Bool) (l : List α) (u : α) (hu : p u = true) :
    (l.filter (fun x => !p x) ++ [u]).find? p = some u := by
  have h : (l.filter (fun x => !p x)).find? p = none := by
    rw [List.find?_eq_none]
    intro x hx
    simp only [List.mem_filter] at hx
    simpa using hx.2
  rw [List.find?_append, h]
  simp [List.find?, hu]

theorem beforeCentralCalls_not_touchesCentral (c : Call) (h : beforeCentralCalls c = true) :
    (!c.touchesCentral) = true := by
  cases c with
  | Create o => cases o <;> simp_all [beforeCentralCalls, authProbeCalls, namespaceExistsCalls,
      unstructuredExistsCalls, Call.touchesCentral]
  | _ => simp_all [beforeCentralCalls, authProbeCalls, namespaceExistsCalls,
      unstructuredExistsCalls, Call.touchesCentral]

theorem afterCentralCalls_not_touchesCentral (c : Call) (h : afterCentralCalls c = true) :
    (!c.touchesCentral) = true := by
  cases c with
  | Create o => cases o <;> simp_all [afterCentralCalls, unstructuredDeletedCalls,
      routesAndReadinessCalls, unstructuredExistsCalls, Call.touchesCentral]
  | Delete o => cases o <;> simp_all [afterCentralCalls, unstructuredDeletedCalls,
      routesAndReadinessCalls, unstructuredExistsCalls, Call.touchesCentral]
  | _ => simp_all [afterCentralCalls, unstructuredDeletedCalls,
      routesAndReadinessCalls, unstructuredExistsCalls, Call.touchesCentral]

theorem fake_update_pass_revision (d : Deps) (r : CentralReconciler)
    (defaults : ResourceRequirements) (w : World FakeCluster) (remoteCentral : ManagedCentral)
    (n : Int)
    (hnodel : remoteCentral.Metadata.DeletionTimestamp = "")
    (hrev : (w.cluster.revisionOf remoteCentral.Metadata.Namespace
      remoteCentral.Metadata.Name).bind Atoi = some n)
    (hn : n < maxInt)
    (herr : (Reconcile d fakeEnv r defaults w remoteCentral).err = none) :
    (Reconcile d fakeEnv r defaults w remoteCentral).world.cluster.revisionOf
      remoteCentral.Metadata.Namespace remoteCentral.Metadata.Name
      = some (Sprintf_d (n + 1)) := by
  obtain ⟨r0, w0, cr, sar, sdr, hash, hR, _, _, _, _, _, _, _, hrec⟩ :=
    Reconcile_success_path fake_centrals_invariant beforeCentralCalls_not_touchesCentral d r
      defaults w remoteCentral hnodel herr
  have herr0 : (reconcileCentral d fakeEnv r0 cr w0 remoteCentral (!(r.lastCentralHash == hash))
      (targetCentral d r0 remoteCentral cr sar sdr)).err = none := by
    rw [hrec] at herr
    exact herr
  have hworld : (Reconcile d fakeEnv r defaults w remoteCentral).world
      = (reconcileCentral d fakeEnv r0 cr w0 remoteCentral (!(r.lastCentralHash == hash))
        (targetCentral d r0 remoteCentral cr sar sdr)).world := by
    rw [hrec]
    rfl
  rw [hworld]
  -- the primary resource read by the pass
  unfold FakeCluster.revisionOf at hrev
  rw [← hR] at hrev
  cases hfind : w0.cluster.centrals.find? (fun x => x.Namespace == remoteCentral.Metadata.Namespace
      && x.Name == remoteCentral.Metadata.Name) with
  | none => rw [hfind] at hrev; simp at hrev
  | some existing =>
    rw [hfind] at hrev
    simp only [Option.map_some', Option.some_bind] at hrev
    have hkey := List.find?_some hfind
    have hget : (fakeEnv.GetCentral
        { Namespace := remoteCentral.Metadata.Namespace, Name := remoteCentral.Metadata.Name }
        w0.cluster).1 = Except.ok existing := by
      simp only [fakeEnv, fakeLookup, hfind]
    obtain ⟨incremented, hinc, hupd, hafter⟩ :=
      reconcileCentral_update_path fake_centrals_invariant afterCentralCalls_not_touchesCentral d
        r0 cr w0 remoteCentral (!(r.lastCentralHash == hash))
        (targetCentral d r0 remoteCentral cr sar sdr) existing hget herr0
    have hrange := Atoi_range _ _ hrev
    have hwrap : wrapInt (n + 1) = n + 1 :=
      wrapInt_of_range _ (by have := hrange.1; omega) (by omega)
    have hincr : incremented = { existing with
        Spec := (targetCentral d r0 remoteCentral cr sar sdr).Spec,
        Annotations := some (GoMap.set (existing.Annotations.getD []) revisionAnnotationKey
          (Sprintf_d (n + 1))) } := by
      unfold incrementCentralRevision at hinc
      simp only [hrev, hwrap] at hinc
      exact (congrArg Prod.snd hinc).symm
    subst hincr
    unfold FakeCluster.revisionOf
    rw [hafter]
    have hgetw : fakeEnv.perform (Call.GetCentral
        { Namespace := remoteCentral.Metadata.Namespace, Name := remoteCentral.Metadata.Name })
        w0 = { cluster := w0.cluster, calls := w0.calls ++ [Call.GetCentral
          { Namespace := remoteCentral.Metadata.Namespace,
            Name := remoteCentral.Metadata.Name }] } := by
      simp only [Env.perform, invoke, fakeEnv, fakeLookup, hfind]
    rw [hgetw] at hupd ⊢
    simp only [Env.perform, invoke, fakeEnv] at hupd ⊢
    split at hupd
    · rename_i hholds
      rw [if_pos hholds]
      simp only [FakeCluster.without, FakeCluster.store]
      simp only [Bool.and_eq_true, beq_iff_eq] at hkey
      rw [hkey.1, hkey.2]
      rw [find?_filter_not_append _ _ _ (by simp [hkey.1, hkey.2])]
      simp [GoMap.get_set]
    · simp at hupd

theorem targetCentral_key (d : Deps) (r : CentralReconciler) (remoteCentral : ManagedCentral)
    (cr sar sdr : ResourceRequirements) :
    (targetCentral d r remoteCentral cr sar sdr).Namespace = remoteCentral.Metadata.Namespace
      ∧ (targetCentral d r remoteCentral cr sar sdr).Name = remoteCentral.Metadata.Name
      ∧ (targetCentral d r remoteCentral cr sar sdr).Labels
        = [(d.ManagedByLabelKey, d.ManagedByFleetshardValue)]
      ∧ (targetCentral d r remoteCentral cr sar sdr).Annotations
        = some [( managedServicesAnnotation, "true")] := by
  unfold targetCentral desiredCentral
  split <;> exact ⟨rfl, rfl, rfl, rfl⟩

theorem fake_create_pass_revision (d : Deps) (r : CentralReconciler)
    (defaults : ResourceRequirements) (w : World FakeCluster) (remoteCentral : ManagedCentral)
    (hnodel : remoteCentral.Metadata.DeletionTimestamp = "")
    (habsent : w.cluster.revisionOf remoteCentral.Metadata.Namespace
      remoteCentral.Metadata.Name = none)
    (herr : (Reconcile d fakeEnv r defaults w remoteCentral).err = none) :
    (Reconcile d fakeEnv r defaults w remoteCentral).world.cluster.revisionOf
      remoteCentral.Metadata.Namespace remoteCentral.Metadata.Name = some "1" := by
  obtain ⟨r0, w0, cr, sar, sdr, hash, hR, _, _, _, _, _, _, _, hrec⟩ :=
    Reconcile_success_path fake_centrals_invariant beforeCentralCalls_not_touchesCentral d r
      defaults w remoteCentral hnodel herr
  have herr0 : (reconcileCentral d fakeEnv r0 cr w0 remoteCentral (!(r.lastCentralHash == hash))
      (targetCentral d r0 remoteCentral cr sar sdr)).err = none := by
    rw [hrec] at herr
    exact herr
  have hworld : (Reconcile d fakeEnv r defaults w remoteCentral).world
      = (reconcileCentral d fakeEnv r0 cr w0 remoteCentral (!(r.lastCentralHash == hash))
        (targetCentral d r0 remoteCentral cr sar sdr)).world := by
    rw [hrec]
    rfl
  rw [hworld]
  unfold FakeCluster.revisionOf at habsent
  rw [← hR] at habsent
  have hfind : w0.cluster.centrals.find? (fun x => x.Namespace == remoteCentral.Metadata.Namespace
      && x.Name == remoteCentral.Metadata.Name) = none := by
    simpa using habsent
  have hget : (fakeEnv.GetCentral
      { Namespace := remoteCentral.Metadata.Namespace, Name := remoteCentral.Metadata.Name }
      w0.cluster).1 = Except.error ApiError.notFound := by
    simp only [fakeEnv, fakeLookup, hfind]
  obtain ⟨hcre, hafter⟩ :=
    reconcileCentral_create_path fake_centrals_invariant afterCentralCalls_not_touchesCentral d
      r0 cr w0 remoteCentral (!(r.lastCentralHash == hash))
      (targetCentral d r0 remoteCentral cr sar sdr) ApiError.notFound hget herr0
  obtain ⟨hns, hname, _, _⟩ := targetCentral_key d r0 remoteCentral cr sar sdr
  unfold FakeCluster.revisionOf
  rw [hafter]
  have hgetw : fakeEnv.perform (Call.GetCentral
      { Namespace := remoteCentral.Metadata.Namespace, Name := remoteCentral.Metadata.Name })
      w0 = { cluster := w0.cluster, calls := w0.calls ++ [Call.GetCentral
        { Namespace := remoteCentral.Metadata.Namespace,
          Name := remoteCentral.Metadata.Name }] } := by
    simp only [Env.perform, invoke, fakeEnv, fakeLookup, hfind]
  rw [hgetw] at hcre ⊢
  simp only [Env.perform, invoke, fakeEnv] at hcre ⊢
  split at hcre
  · simp at hcre
  · rename_i hholds
    rw [if_neg hholds]
    simp only [FakeCluster.store]
    rw [List.find?_append, hfind]
    simp [List.find?, hns, hname, GoMap.get_set]

theorem fake_update_passes_revision (d : Deps) (ns name : String) :
    ∀ (desired : List ManagedCentral) (r : CentralReconciler) (defaults : ResourceRequirements)
      (w : World FakeCluster) (n : Int),
      (∀ c ∈ desired, c.Metadata.DeletionTimestamp = "" ∧ c.Metadata.Namespace = ns
        ∧ c.Metadata.Name = name) →
      (w.cluster.revisionOf ns name).bind Atoi = some n →
      n + desired.length ≤ maxInt →
      (reconcileAll d fakeEnv desired r defaults w).1 = true →
      ((reconcileAll d fakeEnv desired r defaults w).2.cluster.revisionOf ns name).bind Atoi
        = some (n + desired.length) := by
  intro desired
  induction desired with
  | nil =>
    intro r defaults w n _ hrev _ _
    simpa [reconcileAll] using hrev
  | cons c rest ih =>
    intro r defaults w n hall hrev hbound hok
    obtain ⟨hnodel, hns, hname⟩ := hall c (List.mem_cons_self _ _)
    simp only [List.length_cons, Nat.cast_add, Nat.cast_one] at hbound
    unfold reconcileAll at hok ⊢
    split at hok
    · rename_i herr
      rw [if_pos herr]
      have hrange : minInt ≤ n := by
        cases hr : w.cluster.revisionOf ns name with
        | none => rw [hr] at hrev; simp at hrev
        | some s =>
          rw [hr] at hrev
          exact (Atoi_range s n hrev).1
      have hstep := fake_update_pass_revision d r defaults w c n hnodel
        (by rw [hns, hname]; exact hrev) (by have := Int.ofNat_nonneg rest.length; omega) herr
      rw [hns, hname] at hstep
      have hnext : ((Reconcile d fakeEnv r defaults w c).world.cluster.revisionOf ns name).bind
          Atoi = some (n + 1) := by
        rw [hstep]
        exact Atoi_Sprintf_d (n + 1) (by omega)
          (by have := Int.ofNat_nonneg rest.length; omega)
      have := ih _ _ _ (n + 1) (fun c' hc' => hall c' (List.mem_cons_of_mem _ hc')) hnext
        (by omega) hok
      rw [this]
      simp only [List.length_cons, Nat.cast_add, Nat.cast_one]
      congr 1
      omega
    · simp at hok

end Footprint

/-! ## The model cluster from absence: the create path -/

section FakeCreate

theorem fakeEnv_GetNamespace (key : ObjectKey) (s : FakeCluster) :
    fakeEnv.GetNamespace key s
      = fakeLookup (s.namespaces.find? fun x => x.Name == key.Name) s := rfl

theorem fakeEnv_GetCentral (key : ObjectKey) (s : FakeCluster) :
    fakeEnv.GetCentral key s
      = fakeLookup (s.centrals.find? fun x =>
          x.Namespace == key.Namespace && x.Name == key.Name) s := rfl

theorem fakeEnv_GetUnstructured (gvk : GroupVersionKind) (key : ObjectKey) (s : FakeCluster) :
    fakeEnv.GetUnstructured gvk key s
      = fakeLookup (s.unstructureds.find? fun x =>
          x.GVK == gvk && x.Namespace == key.Namespace && x.Name == key.Name) s := rfl

theorem fakeEnv_Create (o : Object) (s : FakeCluster) :
    fakeEnv.Create o s
      = if s.holds o then (some ApiError.alreadyExists, s) else (none, s.store o) := rfl

theorem fakeEnv_isCentralDeploymentReady (c : ManagedCentral) (s : FakeCluster) :
    fakeEnv.isCentralDeploymentReady c s = (Except.ok s.deploymentReady, s) := rfl

theorem fakeEnv_existsRHSSOAuthProvider (c : ManagedCentral) (s : FakeCluster) :
    fakeEnv.existsRHSSOAuthProvider c s = (Except.ok s.authProvider, s) := rfl

theorem ensureNamespaceExists_fake_absent (name : String) (w : World FakeCluster)
    (h : ∀ x ∈ w.cluster.namespaces, x.Name ≠ name) :
    ensureNamespaceExists fakeEnv name w
      = (none,
         { cluster := { w.cluster with
             namespaces := w.cluster.namespaces ++ [{ Name := name, Phase := "" }] },
           calls := w.calls ++ [Call.GetNamespace { Namespace := "", Name := name },
             Call.Create (Object.ofNamespace { Name := name, Phase := "" })] }) := by
  have hfind : w.cluster.namespaces.find? (fun x => x.Name == name) = none := by
    rw [List.find?_eq_none]
    intro x hx
    simpa using h x hx
  have hany : (w.cluster.namespaces.any fun x => x.Name == name) = false := by
    rw [List.any_eq_false]
    intro x hx
    simpa using h x hx
  unfold ensureNamespaceExists getNamespace invoke
  simp [fakeEnv, fakeLookup, hfind, Error.IsNotFound, FakeCluster.holds, hany,
    FakeCluster.store]

theorem ensureChartResourcesExistLoop_fake_absent (remoteCentral : ManagedCentral) :
    ∀ (objs : List Unstructured) (w : World FakeCluster),
      (∀ o ∈ objs, ∀ x ∈ w.cluster.unstructureds,
        x.sameKey (chartObject remoteCentral o) = false) →
      (objs.map (chartObject remoteCentral)).Pairwise (fun a b => a.sameKey b = false) →
      ensureChartResourcesExistLoop fakeEnv remoteCentral objs w
        = (none,
           { cluster := { w.cluster with
               unstructureds := w.cluster.unstructureds ++ objs.map (chartObject remoteCentral) },
             calls := w.calls ++ objs.flatMap fun o =>
               [Call.GetUnstructured o.GVK
                  { Namespace := (chartObject remoteCentral o).Namespace, Name := o.Name },
                Call.Create (Object.ofUnstructured (chartObject remoteCentral o))] }) := by
  intro objs
  induction objs with
  | nil => intro w _ _; simp [ensureChartResourcesExistLoop]
  | cons obj rest ih =>
    intro w habs hpair
    have hfind : w.cluster.unstructureds.find? (fun x => x.GVK == obj.GVK
        && x.Namespace == (chartObject remoteCentral obj).Namespace && x.Name == obj.Name)
        = none := by
      rw [List.find?_eq_none]
      intro x hx
      have := habs obj (List.mem_cons_self _ _) x hx
      simpa [Unstructured.sameKey, chartObject] using this
    have hany : (w.cluster.unstructureds.any fun x => x.GVK == obj.GVK
        && x.Namespace == (chartObject remoteCentral obj).Namespace && x.Name == obj.Name)
        = false := by
      rw [List.any_eq_false]
      intro x hx
      have := habs obj (List.mem_cons_self _ _) x hx
      simpa [Unstructured.sameKey, chartObject] using this
    rw [List.map_cons, List.pairwise_cons] at hpair
    unfold ensureChartResourcesExistLoop invoke
    simp only [chartObject] at hfind hany
    simp only [fakeEnv_GetUnstructured, fakeEnv_Create, fakeLookup, hfind, Error.IsNotFound,
      FakeCluster.holds, hany, FakeCluster.store]
    simp only [Bool.not_true, Bool.false_eq_true, if_false]
    rw [ih]
    · simp [chartObject]
    · intro o ho x hx
      simp only [List.mem_append, List.mem_singleton] at hx
      rcases hx with hx | hx
      · exact habs o (List.mem_cons_of_mem _ ho) x hx
      · subst hx
        exact hpair.1 _ (List.mem_map_of_mem _ ho)
    · exact hpair.2

theorem fakeEnv_FindReencryptRoute (ns : String) (s : FakeCluster) :
    fakeEnv.FindReencryptRoute ns s
      = fakeLookup (s.reencryptRoutes.find? fun x => x.Namespace == ns) s := rfl

theorem fakeEnv_FindPassthroughRoute (ns : String) (s : FakeCluster) :
    fakeEnv.FindPassthroughRoute ns s
      = fakeLookup (s.passthroughRoutes.find? fun x => x.Namespace == ns) s := rfl

theorem fakeEnv_CreateReencryptRoute (c : ManagedCentral) (s : FakeCluster) :
    fakeEnv.CreateReencryptRoute c s
      = if !s.tlsSecret then (some ApiError.centralTLSSecretNotFound, s)
        else if s.reencryptRoutes.any fun x => x.Namespace == c.Metadata.Namespace then
          (some ApiError.alreadyExists, s)
        else
          (none, { s with reencryptRoutes := s.reencryptRoutes ++
            [{ Namespace := c.Metadata.Namespace, Name := fakeReencryptRouteName }] }) := rfl

theorem fakeEnv_CreatePassthroughRoute (c : ManagedCentral) (s : FakeCluster) :
    fakeEnv.CreatePassthroughRoute c s
      = if s.passthroughRoutes.any fun x => x.Namespace == c.Metadata.Namespace then
          (some ApiError.alreadyExists, s)
        else
          (none, { s with passthroughRoutes := s.passthroughRoutes ++
            [{ Namespace := c.Metadata.Namespace, Name := fakePassthroughRouteName }] }) := rfl

theorem find?_none_any_false {α : Type} (p : α → Bool) (l : List α) (h : l.find? p = none) :
    l.any p = false := by
  rw [List.find?_eq_none] at h
  rw [List.any_eq_false]
  intro x hx
  simpa using h x hx

theorem ensureReencryptRouteExists_fake_error (remoteCentral : ManagedCentral)
    (w : World FakeCluster) (err : Error)
    (h : (ensureReencryptRouteExists fakeEnv remoteCentral w).1 = some err) :
    err.IsCentralTLSSecretNotFound = true := by
  unfold ensureReencryptRouteExists invoke at h
  simp only [fakeEnv_FindReencryptRoute, fakeEnv_CreateReencryptRoute, fakeLookup] at h
  cases hf : w.cluster.reencryptRoutes.find? (fun x => x.Namespace == remoteCentral.Metadata.Namespace) with
  | some x => simp [hf] at h
  | none =>
    have hany := find?_none_any_false _ _ hf
    simp only [hf, Error.IsNotFound, hany] at h
    cases ht : w.cluster.tlsSecret with
    | true => simp [ht] at h
    | false =>
      simp [ht] at h
      subst h
      rfl

theorem ensurePassthroughRouteExists_fake_error (remoteCentral : ManagedCentral)
    (w : World FakeCluster) :
    (ensurePassthroughRouteExists fakeEnv remoteCentral w).1 = none := by
  unfold ensurePassthroughRouteExists invoke
  simp only [fakeEnv_FindPassthroughRoute, fakeEnv_CreatePassthroughRoute, fakeLookup]
  cases hf : w.cluster.passthroughRoutes.find? (fun x => x.Namespace == remoteCentral.Metadata.Namespace) with
  | some x => simp
  | none =>
    have hany := find?_none_any_false _ _ hf
    simp [Error.IsNotFound, hany]

theorem ensureRoutesExist_fake_error (remoteCentral : ManagedCentral)
    (w : World FakeCluster) (err : Error)
    (h : (ensureRoutesExist fakeEnv remoteCentral w).1 = some err) :
    err.IsCentralTLSSecretNotFound = true := by
  unfold ensureRoutesExist at h
  split at h
  · rename_i e w1 heq
    simp only [Option.some.injEq] at h
    subst h
    exact ensureReencryptRouteExists_fake_error remoteCentral w e (by rw [heq])
  · rw [ensurePassthroughRouteExists_fake_error] at h
    simp at h

theorem fake_not_ready_invariant :
    StepInvariant fakeEnv routesAndReadinessCalls
      (fun w w1 => w1.cluster.deploymentReady = w.cluster.deploymentReady
        ∧ createdObjects w1.calls = createdObjects w.calls) where
  refl := fun _ => ⟨rfl, rfl⟩
  trans := fun _ _ _ h1 h2 => ⟨h2.1.trans h1.1, h2.2.trans h1.2⟩
  step := by
    intro c w h
    cases c <;> simp [routesAndReadinessCalls] at h <;>
      simp only [Env.perform, invoke, fakeEnv, fakeLookup, createdObjects,
        List.filterMap_append] <;>
      (repeat' split) <;> simp

theorem reconcileReadiness_fake_not_ready (d : Deps) (r : CentralReconciler)
    (defaults : ResourceRequirements) (w : World FakeCluster) (remoteCentral : ManagedCentral)
    (centralTLSSecretFound : Bool) (hnr : w.cluster.deploymentReady = false) :
    (reconcileReadiness d fakeEnv r defaults w remoteCentral true centralTLSSecretFound).status
        = some installingStatus
      ∧ (reconcileReadiness d fakeEnv r defaults w remoteCentral true
          centralTLSSecretFound).err = none
      ∧ createdObjects (reconcileReadiness d fakeEnv r defaults w remoteCentral true
          centralTLSSecretFound).world.calls = createdObjects w.calls := by
  unfold reconcileReadiness invoke
  simp [fakeEnv_isCentralDeploymentReady, hnr, createdObjects, List.filterMap_append]

theorem reconcileRoutes_fake_not_ready (d : Deps) (r : CentralReconciler)
    (defaults : ResourceRequirements) (w : World FakeCluster) (remoteCentral : ManagedCentral)
    (hnr : w.cluster.deploymentReady = false) :
    (reconcileRoutes d fakeEnv r defaults w remoteCentral true).status = some installingStatus
      ∧ (reconcileRoutes d fakeEnv r defaults w remoteCentral true).err = none
      ∧ createdObjects (reconcileRoutes d fakeEnv r defaults w remoteCentral true).world.calls
        = createdObjects w.calls := by
  unfold reconcileRoutes
  split
  · have hinv := ensureRoutesExist_steps fake_not_ready_invariant (fun _ h => h) remoteCentral w
    split
    · rename_i err w1 heq
      rw [heq] at hinv
      have htls := ensureRoutesExist_fake_error remoteCentral w err (by rw [heq])
      rw [if_pos htls]
      have h := reconcileReadiness_fake_not_ready d r defaults w1 remoteCentral false
        (hinv.1.trans hnr)
      exact ⟨h.1, h.2.1, h.2.2.trans hinv.2⟩
    · rename_i w1 heq
      rw [heq] at hinv
      have h := reconcileReadiness_fake_not_ready d r defaults w1 remoteCentral true
        (hinv.1.trans hnr)
      exact ⟨h.1, h.2.1, h.2.2.trans hinv.2⟩
  · exact reconcileReadiness_fake_not_ready d r defaults w remoteCentral true hnr

theorem reconcileCentral_fake_absent (d : Deps) (r : CentralReconciler)
    (defaults : ResourceRequirements) (w : World FakeCluster) (remoteCentral : ManagedCentral)
    (central : Central)
    (hkey : central.Namespace = remoteCentral.Metadata.Namespace
      ∧ central.Name = remoteCentral.Metadata.Name)
    (hreq : remoteCentral.CentralResources.Requests = [])
    (hlim : remoteCentral.CentralResources.Limits = [])
    (hcentral : ∀ x ∈ w.cluster.centrals,
      ¬ (x.Namespace = remoteCentral.Metadata.Namespace ∧ x.Name = remoteCentral.Metadata.Name))
    (hvpa : ∀ x ∈ w.cluster.unstructureds,
      x.sameKey (vpaConfig vpaConfigurationCentralName "central" remoteCentral) = false)
    (hnr : w.cluster.deploymentReady = false) :
    (reconcileCentral d fakeEnv r defaults w remoteCentral true central).status
        = some installingStatus
      ∧ (reconcileCentral d fakeEnv r defaults w remoteCentral true central).err = none
      ∧ createdObjects (reconcileCentral d fakeEnv r defaults w remoteCentral true
          central).world.calls
        = createdObjects w.calls
          ++ [Object.ofCentral { central with
                Annotations := some (GoMap.set (central.Annotations.getD [])
                  revisionAnnotationKey "1") },
              Object.ofUnstructured
                (vpaConfig vpaConfigurationCentralName "central" remoteCentral)] := by
  have hfind : w.cluster.centrals.find? (fun x => x.Namespace == remoteCentral.Metadata.Namespace
      && x.Name == remoteCentral.Metadata.Name) = none := by
    rw [List.find?_eq_none]
    intro x hx
    simpa using hcentral x hx
  have hany : (w.cluster.centrals.any fun x => x.Namespace == central.Namespace
      && x.Name == central.Name) = false := by
    rw [hkey.1, hkey.2]
    exact find?_none_any_false _ _ hfind
  have hvany : (w.cluster.unstructureds.any fun x =>
      x.GVK == (vpaConfig vpaConfigurationCentralName "central" remoteCentral).GVK
      && x.Namespace == (vpaConfig vpaConfigurationCentralName "central" remoteCentral).Namespace
      && x.Name == (vpaConfig vpaConfigurationCentralName "central" remoteCentral).Name)
      = false := by
    rw [List.any_eq_false]
    intro x hx
    have := hvpa x hx
    simpa [Unstructured.sameKey] using this
  unfold reconcileCentral createVPAConfig invoke
  simp only [fakeEnv_GetCentral, fakeEnv_Create, fakeLookup, hfind, Error.IsNotFound,
    FakeCluster.holds, hany, FakeCluster.store, hreq, hlim, hvany]
  simp only [Bool.not_true, Bool.false_eq_true, if_false, List.length_nil, and_self, if_true,
    hvany]
  have h := reconcileRoutes_fake_not_ready d r defaults
    { cluster :=
        { w.cluster with
          centrals := w.cluster.centrals ++ [{ central with
            Annotations := some (GoMap.set (central.Annotations.getD [])
              revisionAnnotationKey "1") }]
          unstructureds := w.cluster.unstructureds
            ++ [vpaConfig vpaConfigurationCentralName "central" remoteCentral] },
      calls := w.calls
        ++ [Call.GetCentral
              { Namespace := remoteCentral.Metadata.Namespace,
                Name := remoteCentral.Metadata.Name }]
        ++ [Call.Create (Object.ofCentral { central with
              Annotations := some (GoMap.set (central.Annotations.getD [])
                revisionAnnotationKey "1") })]
        ++ [Call.Create (Object.ofUnstructured
              (vpaConfig vpaConfigurationCentralName "central" remoteCentral))] }
    remoteCentral hnr
  refine ⟨h.1, h.2.1, ?_⟩
  rw [h.2.2]
  simp [createdObjects, List.filterMap_append]

theorem createdObjects_append (a b : List Call) :
    createdObjects (a ++ b) = createdObjects a ++ createdObjects b := by
  simp [createdObjects, List.filterMap_append]

theorem createdObjects_chart_calls (remoteCentral : ManagedCentral) (objs : List Unstructured) :
    createdObjects (objs.flatMap fun o =>
        [Call.GetUnstructured o.GVK
           { Namespace := (chartObject remoteCentral o).Namespace, Name := o.Name },
         Call.Create (Object.ofUnstructured (chartObject remoteCentral o))])
      = objs.map (fun o => Object.ofUnstructured (chartObject remoteCentral o)) := by
  induction objs with
  | nil => rfl
  | cons o rest ih =>
    rw [List.flatMap_cons, createdObjects_append, ih]
    rfl

theorem reconcileConverge_fake_absent (d : Deps) (r : CentralReconciler)
    (defaults : ResourceRequirements) (w : World FakeCluster) (remoteCentral : ManagedCentral)
    (central : Central) (objs : List Unstructured)
    (hnodel : remoteCentral.Metadata.DeletionTimestamp = "")
    (hkey : central.Namespace = remoteCentral.Metadata.Namespace
      ∧ central.Name = remoteCentral.Metadata.Name)
    (hreq : remoteCentral.CentralResources.Requests = [])
    (hlim : remoteCentral.CentralResources.Limits = [])
    (hrender : d.RenderToObjects helmReleaseName remoteCentral.Metadata.Namespace
      (chartValues d r remoteCentral).1 = Except.ok objs)
    (hns : ∀ x ∈ w.cluster.namespaces, x.Name ≠ remoteCentral.Metadata.Namespace)
    (haux : ∀ o ∈ objs, ∀ x ∈ w.cluster.unstructureds,
      x.sameKey (chartObject remoteCentral o) = false)
    (hdistinct : (objs.map (chartObject remoteCentral)).Pairwise
      (fun a b => a.sameKey b = false))
    (hcentral : ∀ x ∈ w.cluster.centrals,
      ¬ (x.Namespace = remoteCentral.Metadata.Namespace ∧ x.Name = remoteCentral.Metadata.Name))
    (hvpa : ∀ x ∈ w.cluster.unstructureds ++ objs.map (chartObject remoteCentral),
      x.sameKey (vpaConfig vpaConfigurationCentralName "central" remoteCentral) = false)
    (hnr : w.cluster.deploymentReady = false) :
    (reconcileConverge d fakeEnv r defaults w remoteCentral true central).status
        = some installingStatus
      ∧ (reconcileConverge d fakeEnv r defaults w remoteCentral true central).err = none
      ∧ ∃ created : Central,
        created.Name = central.Name ∧ created.Namespace = central.Namespace
        ∧ created.Labels = central.Labels
        ∧ created.Annotations
          = some (GoMap.set (central.Annotations.getD []) revisionAnnotationKey "1")
        ∧ createdObjects (reconcileConverge d fakeEnv r defaults w remoteCentral true
            central).world.calls
          = createdObjects w.calls
            ++ [Object.ofNamespace { Name := remoteCentral.Metadata.Namespace, Phase := "" }]
            ++ objs.map (fun o => Object.ofUnstructured (chartObject remoteCentral o))
            ++ [Object.ofCentral created,
                Object.ofUnstructured
                  (vpaConfig vpaConfigurationCentralName "central" remoteCentral)] := by
  have hloop := ensureChartResourcesExistLoop_fake_absent remoteCentral objs
    { cluster :=
        { w.cluster with
          namespaces := w.cluster.namespaces
            ++ [{ Name := remoteCentral.Metadata.Namespace, Phase := "" }] },
      calls := w.calls
        ++ [Call.GetNamespace { Namespace := "", Name := remoteCentral.Metadata.Namespace },
            Call.Create (Object.ofNamespace
              { Name := remoteCentral.Metadata.Namespace, Phase := "" })] }
    haux hdistinct
  have h := reconcileCentral_fake_absent d r defaults
    { cluster :=
        { w.cluster with
          namespaces := w.cluster.namespaces
            ++ [{ Name := remoteCentral.Metadata.Namespace, Phase := "" }]
          unstructureds := w.cluster.unstructureds ++ objs.map (chartObject remoteCentral) },
      calls := (w.calls
        ++ [Call.GetNamespace { Namespace := "", Name := remoteCentral.Metadata.Namespace },
            Call.Create (Object.ofNamespace
              { Name := remoteCentral.Metadata.Namespace, Phase := "" })])
        ++ objs.flatMap fun o =>
            [Call.GetUnstructured o.GVK
               { Namespace := (chartObject remoteCentral o).Namespace, Name := o.Name },
             Call.Create (Object.ofUnstructured (chartObject remoteCentral o))] }
    remoteCentral
    (if r.hasAuthProvider then
      { central with Spec :=
        { central.Spec with CentralAdminPasswordGenerationDisabled := some true } }
     else central)
    (by split <;> exact hkey) hreq hlim hcentral hvpa hnr
  unfold reconcileConverge
  rw [if_neg (by simp [hnodel])]
  rw [ensureNamespaceExists_fake_absent _ _ hns]
  simp only
  unfold ensureChartResourcesExist
  unfold chartValues at hrender ⊢
  simp only [hrender]
  simp only at hloop
  rw [hloop]
  simp only
  simp only at h
  refine ⟨h.1, h.2.1,
    { (if r.hasAuthProvider then
        { central with Spec :=
          { central.Spec with CentralAdminPasswordGenerationDisabled := some true } }
       else central) with
      Annotations := some (GoMap.set
        ((if r.hasAuthProvider then
          { central with Spec :=
            { central.Spec with CentralAdminPasswordGenerationDisabled := some true } }
         else central).Annotations.getD []) revisionAnnotationKey "1") },
    ?_, ?_, ?_, ?_, ?_⟩
  rotate_left 4
  · rw [h.2.2, createdObjects_append, createdObjects_append, createdObjects_chart_calls]
    rfl
  all_goals (split <;> rfl)

theorem chartValues_hasAuthProvider (d : Deps) (r : CentralReconciler) (b : Bool)
    (remoteCentral : ManagedCentral) :
    chartValues d (if b then { r with hasAuthProvider := true } else r) remoteCentral
      = chartValues d r remoteCentral := by
  cases b <;> rfl

theorem desiredCentral_annotations_created (d : Deps) (r : CentralReconciler)
    (remoteCentral : ManagedCentral) (cr sar sdr : ResourceRequirements) :
    some (GoMap.set ((desiredCentral d r remoteCentral cr sar sdr).Annotations.getD [])
        revisionAnnotationKey "1")
      = some [( managedServicesAnnotation, "true"), (revisionAnnotationKey, "1")] := by
  have hne : ¬ managedServicesAnnotation = revisionAnnotationKey := by decide
  simp only [desiredCentral, Option.getD_some, GoMap.set, if_neg hne]

end FakeCreate

/-! ## The returned pair: a status or an error -/

section ReturnShape

variable {σ : Type}

theorem reconcileRecord_returns (d : Deps) (r : CentralReconciler)
    (defaults : ResourceRequirements) (w : World σ) (remoteCentral : ManagedCentral)
    (routes : List DataPlaneCentralStatusRoutes) :
    ReturnsStatusOrError (reconcileRecord d r defaults w remoteCentral
      { Condition := StatusCondition.Ready, Routes := routes }) := by
  unfold ReturnsStatusOrError reconcileRecord
  split
  · left; simp
  · right; simp

theorem reconcileStatus_returns (d : Deps) (env : Env σ) (r : CentralReconciler)
    (defaults : ResourceRequirements) (w : World σ) (remoteCentral : ManagedCentral) :
    ReturnsStatusOrError (reconcileStatus d env r defaults w remoteCentral) := by
  unfold reconcileStatus
  split
  · split
    · left; simp
    · exact reconcileRecord_returns d r defaults _ remoteCentral _
  · exact reconcileRecord_returns d r defaults w remoteCentral []

theorem reconcileReadiness_returns (d : Deps) (env : Env σ) (r : CentralReconciler)
    (defaults : ResourceRequirements) (w : World σ) (remoteCentral : ManagedCentral)
    (changed centralTLSSecretFound : Bool) :
    ReturnsStatusOrError
      (reconcileReadiness d env r defaults w remoteCentral changed centralTLSSecretFound) := by
  unfold reconcileReadiness
  split
  · left; simp
  · split
    · split
      · left; simp
      · right; simp
    · split
      · split
        · left; simp
        · exact reconcileStatus_returns d env _ defaults _ remoteCentral
      · exact reconcileStatus_returns d env r defaults _ remoteCentral

theorem reconcileRoutes_returns (d : Deps) (env : Env σ) (r : CentralReconciler)
    (defaults : ResourceRequirements) (w : World σ) (remoteCentral : ManagedCentral)
    (changed : Bool) :
    ReturnsStatusOrError (reconcileRoutes d env r defaults w remoteCentral changed) := by
  unfold reconcileRoutes
  split
  · split
    · split
      · exact reconcileReadiness_returns d env r defaults _ remoteCentral changed false
      · left; simp
    · exact reconcileReadiness_returns d env r defaults _ remoteCentral changed true
  · exact reconcileReadiness_returns d env r defaults w remoteCentral changed true

theorem reconcileCentral_returns (d : Deps) (env : Env σ) (r : CentralReconciler)
    (defaults : ResourceRequirements) (w : World σ) (remoteCentral : ManagedCentral)
    (changed : Bool) (central : Central) :
    ReturnsStatusOrError (reconcileCentral d env r defaults w remoteCentral changed central) := by
  unfold reconcileCentral
  split
  · split
    · left; simp
    · split
      · left; simp
      · split
        · split
          · left; simp
          · exact reconcileRoutes_returns d env r defaults _ remoteCentral changed
        · exact reconcileRoutes_returns d env r defaults _ remoteCentral changed
  · split
    · left; simp
    · split
      · left; simp
      · split
        · split
          · left; simp
          · exact reconcileRoutes_returns d env r defaults _ remoteCentral changed
        · split
          · left; simp
          · exact reconcileRoutes_returns d env r defaults _ remoteCentral changed

theorem reconcileConverge_returns (d : Deps) (env : Env σ) (r : CentralReconciler)
    (defaults : ResourceRequirements) (w : World σ) (remoteCentral : ManagedCentral)
    (changed : Bool) (central : Central) :
    ReturnsStatusOrError
      (reconcileConverge d env r defaults w remoteCentral changed central) := by
  unfold reconcileConverge
  split
  · split
    · left; simp
    · split
      · right; simp
      · left; simp
  · split
    · left; simp
    · split
      · left; simp
      · exact reconcileCentral_returns d env r defaults _ remoteCentral changed _

theorem reconcileBuild_returns (d : Deps) (env : Env σ) (r : CentralReconciler)
    (defaults : ResourceRequirements) (w : World σ) (remoteCentral : ManagedCentral)
    (changed : Bool) :
    ReturnsStatusOrError (reconcileBuild d env r defaults w remoteCentral changed) := by
  unfold reconcileBuild
  split
  · left; simp
  · split
    · left; simp
    · split
      · left; simp
      · split
        · left; simp
        · split
          · split
            · left; simp
            · exact reconcileConverge_returns d env _ _ _ remoteCentral changed _
          · exact reconcileConverge_returns d env r _ w remoteCentral changed _

theorem reconcileGuarded_returns (d : Deps) (env : Env σ) (r : CentralReconciler)
    (defaults : ResourceRequirements) (w : World σ) (remoteCentral : ManagedCentral) :
    ReturnsStatusOrError (reconcileGuarded d env r defaults w remoteCentral) := by
  unfold reconcileGuarded
  split
  · left; simp
  · split
    · left; simp
    · exact reconcileBuild_returns d env r defaults w remoteCentral _

theorem Reconcile_returns (d : Deps) (env : Env σ) (r : CentralReconciler)
    (defaults : ResourceRequirements) (w : World σ) (remoteCentral : ManagedCentral) :
    ReturnsStatusOrError (Reconcile d env r defaults w remoteCentral) := by
  unfold Reconcile
  split
  · exact reconcileGuarded_returns d env { r with status := BlockedStatus } defaults w
      remoteCentral
  · left; simp

end ReturnShape

/-! ## The deletion protocol as a run of steps -/

section DeletionProtocol

variable {σ : Type}

/-- The body of `ensureCentralDeleted` is a run of the deletion protocol over its six
steps. -/
theorem ensureCentralDeleted_eq_runDeletionSteps (d : Deps) (env : Env σ)
    (r : CentralReconciler) (remoteCentral : ManagedCentral) (central : Central)
    (w : World σ) :
    ensureCentralDeleted d env r remoteCentral central w
      = runDeletionSteps (deletionSteps d env r remoteCentral central) true w := by
  have tail : ∀ (acc : Bool) (w2 : World σ),
      (match ensureCentralCRDeleted env central w2 with
        | ((_, some err), w3) => ((false, some err), w3)
        | ((centralDeleted, none), w3) =>
          match ensureVPAConfigDeleted env vpaConfigurationCentralName remoteCentral w3 with
          | ((_, some err), w4) => ((false, some err), w4)
          | ((vpaDeleted, none), w4) =>
            match ensureChartResourcesDeleted d env r remoteCentral w4 with
            | ((_, some err), w5) => ((false, some err), w5)
            | ((chartResourcesDeleted, none), w5) =>
              match ensureNamespaceDeleted env central.Namespace w5 with
              | ((_, some err), w6) => ((false, some err), w6)
              | ((nsDeleted, none), w6) =>
                ((acc && centralDeleted && vpaDeleted && chartResourcesDeleted && nsDeleted,
                  none), w6))
        = runDeletionSteps
            [ensureCentralCRDeleted env central,
             ensureVPAConfigDeleted env vpaConfigurationCentralName remoteCentral,
             ensureChartResourcesDeleted d env r remoteCentral,
             ensureNamespaceDeleted env central.Namespace] acc w2 := by
    intro acc w2
    rfl
  unfold ensureCentralDeleted deletionSteps
  by_cases hr : r.useRoutes = true
  · rw [if_pos hr, if_pos hr]
    simp only [List.cons_append, List.nil_append, runDeletionSteps]
    rcases ensureReencryptRouteDeleted env central.Namespace w with ⟨⟨b1, e1⟩, w1⟩
    cases e1 with
    | some err => rfl
    | none =>
      simp only []
      rcases ensurePassthroughRouteDeleted env central.Namespace w1 with ⟨⟨b2, e2⟩, w2⟩
      cases e2 with
      | some err => rfl
      | none => exact tail (true && b1 && b2) w2
  · rw [if_neg hr, if_neg hr]
    exact tail true w

/-- A run of the protocol returns `(true, nil)` exactly when it started from `true` and
every executed step returned `(true, nil)`. -/
theorem runDeletionSteps_true_iff (steps : List (DeletionStep σ)) :
    ∀ (acc : Bool) (w : World σ),
      (runDeletionSteps steps acc w).1 = (true, none)
        ↔ acc = true ∧ ∀ res ∈ stepResults steps w, res = (true, none) := by
  induction steps with
  | nil => intro acc w; simp [runDeletionSteps, stepResults]
  | cons step rest ih =>
    intro acc w
    unfold runDeletionSteps stepResults
    rcases h : step w with ⟨⟨b, e⟩, w1⟩
    cases e with
    | some err => simp
    | none =>
      simp only [ih, List.mem_cons, forall_eq_or_imp, Bool.and_eq_true, Prod.mk.injEq,
        and_true]
      tauto

/-- A run of the protocol in which an executed step returned false has the result false. -/
theorem runDeletionSteps_false (steps : List (DeletionStep σ)) :
    ∀ (acc : Bool) (w : World σ),
      (acc = false ∨ ∃ res ∈ stepResults steps w, res.1 = false) →
        (runDeletionSteps steps acc w).1.1 = false := by
  induction steps with
  | nil =>
    intro acc w h
    rcases h with h | ⟨res, hmem, _⟩
    · simpa [runDeletionSteps] using h
    · simp [stepResults] at hmem
  | cons step rest ih =>
    intro acc w
    unfold runDeletionSteps stepResults
    rcases h : step w with ⟨⟨b, e⟩, w1⟩
    cases e with
    | some err => intro _; rfl
    | none =>
      simp only [List.mem_cons]
      intro hh
      apply ih
      rcases hh with hacc | ⟨res, hres | hres, hb⟩
      · left; simp [hacc]
      · left; subst hres; simp only at hb; simp [hb]
      · right; exact ⟨res, hres, hb⟩

/-- A run of the protocol returns a nil error exactly when no executed step returned an
error. -/
theorem runDeletionSteps_err_iff (steps : List (DeletionStep σ)) :
    ∀ (acc : Bool) (w : World σ),
      (runDeletionSteps steps acc w).1.2 = none
        ↔ ∀ res ∈ stepResults steps w, res.2 = none := by
  induction steps with
  | nil => intro acc w; simp [runDeletionSteps, stepResults]
  | cons step rest ih =>
    intro acc w
    unfold runDeletionSteps stepResults
    rcases h : step w with ⟨⟨b, e⟩, w1⟩
    cases e with
    | some err => simp
    | none => simp only [ih, List.mem_cons, forall_eq_or_imp, true_and]

/-- A run of the protocol that returns an error returns false with it. -/
theorem runDeletionSteps_false_of_err (steps : List (DeletionStep σ)) :
    ∀ (acc : Bool) (w : World σ) (err : Error),
      (runDeletionSteps steps acc w).1.2 = some err →
        (runDeletionSteps steps acc w).1.1 = false := by
  induction steps with
  | nil => intro acc w err h; simp [runDeletionSteps] at h
  | cons step rest ih =>
    intro acc w err
    unfold runDeletionSteps
    rcases h : step w with ⟨⟨b, e⟩, w1⟩
    cases e with
    | some e1 => intro _; rfl
    | none => exact ih _ _ err

/-- A step that returns an error ends the run with that error, in the world the step left
behind. -/
theorem runDeletionSteps_abort (pre post : List (DeletionStep σ)) (step : DeletionStep σ) :
    ∀ (acc acc1 b : Bool) (err : Error) (w0 w1 w2 : World σ),
      runDeletionSteps pre acc w0 = ((acc1, none), w1) → step w1 = ((b, some err), w2) →
        runDeletionSteps (pre ++ step :: post) acc w0 = ((false, some err), w2) := by
  induction pre with
  | nil =>
    intro acc acc1 b err w0 w1 w2 hpre hstep
    simp only [runDeletionSteps, Prod.mk.injEq] at hpre
    rw [hpre.2]
    simp only [List.nil_append, runDeletionSteps, hstep]
  | cons s rest ih =>
    intro acc acc1 b err w0 w1 w2 hpre hstep
    simp only [List.cons_append, runDeletionSteps] at hpre ⊢
    rcases h : s w0 with ⟨⟨b0, e0⟩, wa⟩
    rw [h] at hpre
    cases e0 with
    | some e => simp at hpre
    | none =>
      simp only at hpre ⊢
      exact ih _ _ _ _ _ _ _ hpre hstep

end DeletionProtocol

/-! ## A not-found probe ends a deletion step -/

section NotFoundProbes

variable {σ : Type}

theorem ensureRouteDeleted_notFound (env : Env σ)
    (routeSupplier : World σ → Except ApiError Route × World σ) (w w1 : World σ)
    (h : routeSupplier w = (.error .notFound, w1)) :
    ensureRouteDeleted env routeSupplier w = ((true, none), w1) := by
  simp only [ensureRouteDeleted, h, Error.IsNotFound, if_true]

theorem ensureReencryptRouteDeleted_notFound (env : Env σ) (ns : String) (w : World σ)
    (h : (env.FindReencryptRoute ns w.cluster).1 = .error .notFound) :
    ensureReencryptRouteDeleted env ns w
      = ((true, none), env.perform (.FindReencryptRoute ns) w) := by
  unfold ensureReencryptRouteDeleted
  apply ensureRouteDeleted_notFound
  simp only [invoke, Env.perform, h]

theorem ensurePassthroughRouteDeleted_notFound (env : Env σ) (ns : String) (w : World σ)
    (h : (env.FindPassthroughRoute ns w.cluster).1 = .error .notFound) :
    ensurePassthroughRouteDeleted env ns w
      = ((true, none), env.perform (.FindPassthroughRoute ns) w) := by
  unfold ensurePassthroughRouteDeleted
  apply ensureRouteDeleted_notFound
  simp only [invoke, Env.perform, h]

theorem ensureCentralCRDeleted_notFound (env : Env σ) (central : Central) (w : World σ)
    (h : (env.GetCentral { Namespace := central.Namespace, Name := central.Name } w.cluster).1
      = .error .notFound) :
    ensureCentralCRDeleted env central w
      = ((true, none),
         env.perform (.GetCentral { Namespace := central.Namespace, Name := central.Name }) w) := by
  simp only [ensureCentralCRDeleted, invoke, Env.perform, h, Error.IsNotFound, if_true]

theorem ensureVPAConfigDeleted_notFound (env : Env σ) (name : String)
    (remoteCentral : ManagedCentral) (w : World σ)
    (h : (env.GetUnstructured vpaGVK
        { Namespace := remoteCentral.Metadata.Namespace, Name := name } w.cluster).1
      = .error .notFound) :
    ensureVPAConfigDeleted env name remoteCentral w
      = ((true, none),
         env.perform (.GetUnstructured vpaGVK
           { Namespace := remoteCentral.Metadata.Namespace, Name := name }) w) := by
  simp only [ensureVPAConfigDeleted, invoke, Env.perform, h, Error.IsNotFound, if_true]

theorem ensureNamespaceDeleted_notFound (env : Env σ) (name : String) (w : World σ)
    (h : (env.GetNamespace { Namespace := "", Name := name } w.cluster).1 = .error .notFound) :
    ensureNamespaceDeleted env name w
      = ((true, none), env.perform (.GetNamespace { Namespace := "", Name := name }) w) := by
  simp only [ensureNamespaceDeleted, getNamespace, invoke, Env.perform, h, Error.IsNotFound,
    if_true]

theorem ensureChartResourcesDeletedLoop_notFound (env : Env σ) (remoteCentral : ManagedCentral)
    (obj : Unstructured) (rest : List Unstructured) (waitForDelete : Bool) (w : World σ)
    (h : (env.GetUnstructured obj.GVK
        { Namespace := if obj.Namespace = "" then remoteCentral.Metadata.Namespace
            else obj.Namespace,
          Name := obj.Name } w.cluster).1 = .error .notFound) :
    ensureChartResourcesDeletedLoop env remoteCentral (obj :: rest) waitForDelete w
      = ensureChartResourcesDeletedLoop env remoteCentral rest waitForDelete
          (env.perform (.GetUnstructured obj.GVK
            { Namespace := if obj.Namespace = "" then remoteCentral.Metadata.Namespace
                else obj.Namespace,
              Name := obj.Name }) w) := by
  rw [ensureChartResourcesDeletedLoop]
  simp only [invoke, Env.perform, h, Error.IsNotFound, if_true]

end NotFoundProbes

/-! ## Footprint of the deletion protocol -/

section DeletionFootprint

variable {σ : Type}

theorem Env.perform_calls (env : Env σ) (c : Call) (w : World σ) :
    (env.perform c w).calls = w.calls ++ [c] := by
  cases c <;> rfl

theorem unstructuredDeletedCalls_deletionCalls (c : Call)
    (h : unstructuredDeletedCalls c = true) : deletionCalls c = true := by
  cases c <;> first | rfl | simp [unstructuredDeletedCalls] at h

theorem CallsWithin.invariant (env : Env σ) (allowed : Call → Bool) :
    StepInvariant env allowed (CallsWithin allowed) where
  refl := fun w => ⟨[], by simp, by simp⟩
  trans := by
    rintro a b c ⟨e1, h1, a1⟩ ⟨e2, h2, a2⟩
    refine ⟨e1 ++ e2, by rw [h2, h1, List.append_assoc], ?_⟩
    intro x hx
    rcases List.mem_append.mp hx with h | h
    · exact a1 x h
    · exact a2 x h
  step := fun c w hc => ⟨[c], env.perform_calls c w, by simpa using hc⟩

theorem ensureNamespaceDeleted_steps {env : Env σ} {allowed : Call → Bool}
    {R : World σ → World σ → Prop} (inv : StepInvariant env allowed R)
    (hfoot : ∀ c, deletionCalls c = true → allowed c = true) (name : String)
    (w : World σ) : R w (ensureNamespaceDeleted env name w).2 := by
  have hget : R w (getNamespace env name w).2 := by
    unfold getNamespace
    split
    all_goals
      rename_i heq
      exact inv.of_invoke heq rfl (by exact hfoot _ rfl)
  unfold ensureNamespaceDeleted
  split
  · rename_i heq
    rw [heq] at hget
    split <;> exact hget
  · rename_i heq
    rw [heq] at hget
    split
    · exact hget
    · split
      all_goals
        rename_i heq2
        exact inv.trans _ _ _ hget (inv.of_invoke heq2 rfl (by exact hfoot _ rfl))

theorem ensureCentralCRDeleted_steps {env : Env σ} {allowed : Call → Bool}
    {R : World σ → World σ → Prop} (inv : StepInvariant env allowed R)
    (hfoot : ∀ c, deletionCalls c = true → allowed c = true) (central : Central)
    (w : World σ) : R w (ensureCentralCRDeleted env central w).2 := by
  unfold ensureCentralCRDeleted
  split
  · rename_i heq
    have h1 := inv.of_invoke heq rfl (by exact hfoot _ rfl)
    split <;> exact h1
  · rename_i heq
    have h1 := inv.of_invoke heq rfl (by exact hfoot _ rfl)
    split
    all_goals
      rename_i heq2
      exact inv.trans _ _ _ h1 (inv.of_invoke heq2 rfl (by exact hfoot _ rfl))

theorem ensureRouteDeleted_steps {env : Env σ} {allowed : Call → Bool}
    {R : World σ → World σ → Prop} (inv : StepInvariant env allowed R)
    (hfoot : ∀ c, deletionCalls c = true → allowed c = true)
    (routeSupplier : World σ → Except ApiError Route × World σ) (w : World σ)
    (hsup : R w (routeSupplier w).2) : R w (ensureRouteDeleted env routeSupplier w).2 := by
  unfold ensureRouteDeleted
  split
  · rename_i heq
    rw [heq] at hsup
    split <;> exact hsup
  · rename_i heq
    rw [heq] at hsup
    split
    all_goals
      rename_i heq2
      exact inv.trans _ _ _ hsup (inv.of_invoke heq2 rfl (by exact hfoot _ rfl))

theorem ensureReencryptRouteDeleted_steps {env : Env σ} {allowed : Call → Bool}
    {R : World σ → World σ → Prop} (inv : StepInvariant env allowed R)
    (hfoot : ∀ c, deletionCalls c = true → allowed c = true) (ns : String)
    (w : World σ) : R w (ensureReencryptRouteDeleted env ns w).2 := by
  unfold ensureReencryptRouteDeleted
  apply ensureRouteDeleted_steps inv hfoot
  exact inv.step (.FindReencryptRoute ns) w (hfoot _ rfl)

theorem ensurePassthroughRouteDeleted_steps {env : Env σ} {allowed : Call → Bool}
    {R : World σ → World σ → Prop} (inv : StepInvariant env allowed R)
    (hfoot : ∀ c, deletionCalls c = true → allowed c = true) (ns : String)
    (w : World σ) : R w (ensurePassthroughRouteDeleted env ns w).2 := by
  unfold ensurePassthroughRouteDeleted
  apply ensureRouteDeleted_steps inv hfoot
  exact inv.step (.FindPassthroughRoute ns) w (hfoot _ rfl)

theorem ensureChartResourcesDeletedLoop_steps {env : Env σ} {allowed : Call → Bool}
    {R : World σ → World σ → Prop} (inv : StepInvariant env allowed R)
    (hfoot : ∀ c, deletionCalls c = true → allowed c = true)
    (remoteCentral : ManagedCentral) (objs : List Unstructured) :
    ∀ (waitForDelete : Bool) (w : World σ),
      R w (ensureChartResourcesDeletedLoop env remoteCentral objs waitForDelete w).2 := by
  induction objs with
  | nil => intro wfd w; exact inv.refl w
  | cons obj rest ih =>
    intro wfd w
    unfold ensureChartResourcesDeletedLoop
    split
    · rename_i heq
      have h1 := inv.of_invoke heq rfl (by exact hfoot _ rfl)
      split
      · exact inv.trans _ _ _ h1 (ih _ _)
      · exact h1
    · rename_i heq
      have h1 := inv.of_invoke heq rfl (by exact hfoot _ rfl)
      split
      · exact inv.trans _ _ _ h1 (ih _ _)
      · split
        · rename_i heq2
          have h2 := inv.trans _ _ _ h1 (inv.of_invoke heq2 rfl (by exact hfoot _ rfl))
          split
          · exact h2
          · exact inv.trans _ _ _ h2 (ih _ _)
        · rename_i heq2
          exact inv.trans _ _ _
            (inv.trans _ _ _ h1 (inv.of_invoke heq2 rfl (by exact hfoot _ rfl))) (ih _ _)

theorem ensureChartResourcesDeleted_steps {env : Env σ} {allowed : Call → Bool}
    {R : World σ → World σ → Prop} (inv : StepInvariant env allowed R)
    (hfoot : ∀ c, deletionCalls c = true → allowed c = true) (d : Deps)
    (r : CentralReconciler) (remoteCentral : ManagedCentral) (w : World σ) :
    R w (ensureChartResourcesDeleted d env r remoteCentral w).2 := by
  unfold ensureChartResourcesDeleted
  split
  · exact inv.refl w
  · split
    · exact inv.refl w
    · exact ensureChartResourcesDeletedLoop_steps inv hfoot remoteCentral _ _ w

theorem runDeletionSteps_steps {env : Env σ} {allowed : Call → Bool}
    {R : World σ → World σ → Prop} (inv : StepInvariant env allowed R)
    (steps : List (DeletionStep σ)) (hsteps : ∀ step ∈ steps, ∀ w, R w (step w).2) :
    ∀ (acc : Bool) (w : World σ), R w (runDeletionSteps steps acc w).2 := by
  induction steps with
  | nil => intro acc w; exact inv.refl w
  | cons step rest ih =>
    intro acc w
    have h1 := hsteps step (List.mem_cons_self _ _) w
    unfold runDeletionSteps
    split
    · rename_i heq
      rw [heq] at h1
      exact h1
    · rename_i heq
      rw [heq] at h1
      exact inv.trans _ _ _ h1
        (ih (fun s hs => hsteps s (List.mem_cons_of_mem _ hs)) _ _)

theorem ensureCentralDeleted_steps {env : Env σ} {allowed : Call → Bool}
    {R : World σ → World σ → Prop} (inv : StepInvariant env allowed R)
    (hfoot : ∀ c, deletionCalls c = true → allowed c = true) (d : Deps)
    (r : CentralReconciler) (remoteCentral : ManagedCentral) (central : Central)
    (w : World σ) : R w (ensureCentralDeleted d env r remoteCentral central w).2 := by
  rw [ensureCentralDeleted_eq_runDeletionSteps]
  apply runDeletionSteps_steps inv
  intro step hstep w0
  unfold deletionSteps at hstep
  have hrest : step ∈ [ensureCentralCRDeleted env central,
      ensureVPAConfigDeleted env vpaConfigurationCentralName remoteCentral,
      ensureChartResourcesDeleted d env r remoteCentral,
      ensureNamespaceDeleted env central.Namespace] → R w0 (step w0).2 := by
    intro h
    simp only [List.mem_cons, List.mem_singleton, List.not_mem_nil, or_false] at h
    rcases h with h | h | h | h
    · rw [h]; exact ensureCentralCRDeleted_steps inv hfoot central w0
    · rw [h]
      exact ensureVPAConfigDeleted_steps inv
        (fun c hc => hfoot c (unstructuredDeletedCalls_deletionCalls c hc)) _ remoteCentral w0
    · rw [h]; exact ensureChartResourcesDeleted_steps inv hfoot d r remoteCentral w0
    · rw [h]; exact ensureNamespaceDeleted_steps inv hfoot _ w0
  rcases List.mem_append.mp hstep with h | h
  · split at h
    · simp only [List.mem_cons, List.mem_singleton, List.not_mem_nil, or_false] at h
      rcases h with h | h
      · rw [h]; exact ensureReencryptRouteDeleted_steps inv hfoot _ w0
      · rw [h]; exact ensurePassthroughRouteDeleted_steps inv hfoot _ w0
    · simp at h
  · exact hrest h

end DeletionFootprint

/-! ## The deletion branch of `Reconcile` -/

section DeletionBranch

variable {σ : Type}

theorem reconcileConverge_deletion (d : Deps) (env : Env σ) (r : CentralReconciler)
    (defaults : ResourceRequirements) (w : World σ) (remoteCentral : ManagedCentral)
    (changed : Bool) (central : Central)
    (hdel : remoteCentral.Metadata.DeletionTimestamp ≠ "")
    (hns : central.Namespace = remoteCentral.Metadata.Namespace)
    (hname : central.Name = remoteCentral.Metadata.Name) :
    DeletionOutcome d env remoteCentral r
      (reconcileConverge d env r defaults w remoteCentral changed central) := by
  unfold reconcileConverge
  rw [if_pos hdel]
  right
  refine ⟨r, (if r.hasAuthProvider then
      { central with Spec :=
        { central.Spec with CentralAdminPasswordGenerationDisabled := some true } }
     else central), w, rfl, ?_, ?_, ?_⟩
  · split <;> exact hns
  · split <;> exact hname
  · rcases h : ensureCentralDeleted d env r remoteCentral
        (if r.hasAuthProvider then
          { central with Spec :=
            { central.Spec with CentralAdminPasswordGenerationDisabled := some true } }
         else central) w with ⟨⟨b, e⟩, w1⟩
    have hb := ensureCentralDeleted_eq_runDeletionSteps d env r remoteCentral
        (if r.hasAuthProvider then
          { central with Spec :=
            { central.Spec with CentralAdminPasswordGenerationDisabled := some true } }
         else central) w
    cases e with
    | some err =>
      refine ⟨rfl, Or.inr (Or.inr ⟨rfl, err, ?_, rfl⟩)⟩
      have hf : b = false := by
        have := runDeletionSteps_false_of_err
          (deletionSteps d env r remoteCentral
            (if r.hasAuthProvider then
              { central with Spec :=
                { central.Spec with CentralAdminPasswordGenerationDisabled := some true } }
             else central)) true w
        rw [← hb, h] at this
        exact this err rfl
      rw [hf]
    | none =>
      cases b with
      | true => exact ⟨rfl, Or.inl ⟨rfl, rfl, rfl⟩⟩
      | false => exact ⟨rfl, Or.inr (Or.inl ⟨rfl, rfl, rfl⟩)⟩

theorem reconcileBuild_deletion (d : Deps) (env : Env σ) (r : CentralReconciler)
    (defaults : ResourceRequirements) (w : World σ) (remoteCentral : ManagedCentral)
    (changed : Bool) (hdel : remoteCentral.Metadata.DeletionTimestamp ≠ "") :
    DeletionOutcome d env remoteCentral r
      (reconcileBuild d env r defaults w remoteCentral changed) := by
  have hconv : ∀ (r1 : CentralReconciler) (defaults1 : ResourceRequirements) (w1 : World σ)
      (central : Central), r1.useRoutes = r.useRoutes →
      central.Namespace = remoteCentral.Metadata.Namespace →
      central.Name = remoteCentral.Metadata.Name →
      DeletionOutcome d env remoteCentral r
        (reconcileConverge d env r1 defaults1 w1 remoteCentral changed central) := by
    intro r1 defaults1 w1 central hu hns hname
    have h := reconcileConverge_deletion d env r1 defaults1 w1 remoteCentral changed central
      hdel hns hname
    unfold DeletionOutcome at h ⊢
    rw [hu] at h
    exact h
  unfold reconcileBuild
  split
  · left; exact ⟨rfl, _, rfl, rfl⟩
  · split
    · left; exact ⟨rfl, _, rfl, rfl⟩
    · split
      · left; exact ⟨rfl, _, rfl, rfl⟩
      · split
        · left; exact ⟨rfl, _, rfl, rfl⟩
        · split
          · split
            · left; exact ⟨rfl, _, rfl, rfl⟩
            · apply hconv
              · split <;> rfl
              · rfl
              · rfl
          · exact hconv _ _ _ _ rfl rfl rfl

theorem Reconcile_deletion (d : Deps) (env : Env σ) (r : CentralReconciler)
    (defaults : ResourceRequirements) (w : World σ) (remoteCentral : ManagedCentral)
    (hdel : remoteCentral.Metadata.DeletionTimestamp ≠ "") :
    DeletionOutcome d env remoteCentral r (Reconcile d env r defaults w remoteCentral)
      ∨ ((Reconcile d env r defaults w remoteCentral).status = none
        ∧ (Reconcile d env r defaults w remoteCentral).err = some Error.ErrBusy
        ∧ r.status ≠ FreeStatus)
      ∨ ((Reconcile d env r defaults w remoteCentral).status = none
        ∧ (Reconcile d env r defaults w remoteCentral).err = some Error.ErrCentralNotChanged
        ∧ d.MD5SumFromJSONStruct remoteCentral = Except.ok r.lastCentralHash) := by
  unfold Reconcile
  split
  · have hb := reconcileBuild_deletion d env { r with status := BlockedStatus } defaults w
      remoteCentral
    unfold reconcileGuarded centralChanged
    cases hm : d.MD5SumFromJSONStruct remoteCentral with
    | error e => left; left; exact ⟨rfl, _, rfl, rfl⟩
    | ok hash =>
      simp only []
      split
      · rename_i hc
        right; right
        refine ⟨rfl, rfl, ?_⟩
        simp only [Bool.and_eq_true, Bool.not_eq_true', Bool.not_eq_false, beq_iff_eq] at hc
        have hh : r.lastCentralHash = hash := by simpa using hc.1.1
        rw [hh]
      · left
        exact hb _ hdel
  · rename_i hfree
    right; left
    exact ⟨rfl, rfl, hfree⟩

theorem reconcileBuild_deletion_steps {env : Env σ} {allowed : Call → Bool}
    {R : World σ → World σ → Prop} (inv : StepInvariant env allowed R)
    (hfoot : ∀ c, deletionBranchCalls c = true → allowed c = true) (d : Deps)
    (r : CentralReconciler) (defaults : ResourceRequirements) (w : World σ)
    (remoteCentral : ManagedCentral) (changed : Bool)
    (hdel : remoteCentral.Metadata.DeletionTimestamp ≠ "") :
    R w (reconcileBuild d env r defaults w remoteCentral changed).world := by
  have h0 : ∀ c, authProbeCalls c = true → allowed c = true := fun c hc =>
    hfoot c (by simp [deletionBranchCalls, hc])
  have h1 : ∀ c, deletionCalls c = true → allowed c = true := fun c hc =>
    hfoot c (by simp [deletionBranchCalls, hc])
  have hconv : ∀ (r1 : CentralReconciler) (defaults1 : ResourceRequirements) (w1 : World σ)
      (central : Central),
      R w1 (reconcileConverge d env r1 defaults1 w1 remoteCentral changed central).world := by
    intro r1 defaults1 w1 central
    have h := ensureCentralDeleted_steps inv h1 d r1 remoteCentral
      (if r1.hasAuthProvider then
        { central with Spec :=
          { central.Spec with CentralAdminPasswordGenerationDisabled := some true } }
       else central) w1
    unfold reconcileConverge
    rw [if_pos hdel]
    split
    · rename_i heq
      rw [heq] at h
      exact h
    · rename_i heq
      rw [heq] at h
      split <;> exact h
  unfold reconcileBuild
  split
  · exact inv.refl w
  · split
    · exact inv.refl w
    · split
      · exact inv.refl w
      · split
        · exact inv.refl w
        · split
          · split
            · rename_i heq
              exact inv.of_invoke heq rfl (by exact h0 _ rfl)
            · rename_i heq
              exact inv.trans _ _ _ (inv.of_invoke heq rfl (by exact h0 _ rfl))
                (hconv _ _ _ _)
          · exact hconv _ _ _ _

theorem Reconcile_deletion_steps {env : Env σ} {allowed : Call → Bool}
    {R : World σ → World σ → Prop} (inv : StepInvariant env allowed R)
    (hfoot : ∀ c, deletionBranchCalls c = true → allowed c = true) (d : Deps)
    (r : CentralReconciler) (defaults : ResourceRequirements) (w : World σ)
    (remoteCentral : ManagedCentral)
    (hdel : remoteCentral.Metadata.DeletionTimestamp ≠ "") :
    R w (Reconcile d env r defaults w remoteCentral).world := by
  unfold Reconcile
  split
  · show R w (reconcileGuarded d env { r with status := BlockedStatus } defaults w
      remoteCentral).world
    unfold reconcileGuarded
    split
    · exact inv.refl w
    · split
      · exact inv.refl w
      · exact reconcileBuild_deletion_steps inv hfoot d _ defaults w remoteCentral _ hdel
  · exact inv.refl w

end DeletionBranch

/-! ## The path to the create/update step, for every outcome -/

section CentralPath

variable {σ : Type}

/-- Without a deletion marker, lines 176-197 either fail with an error that is not a
sentinel, or hand over to the create/update step. -/
theorem reconcileConverge_central_path {env : Env σ} {allowed : Call → Bool}
    {R : World σ → World σ → Prop} (inv : StepInvariant env allowed R)
    (hfoot : ∀ c, beforeCentralCalls c = true → allowed c = true) (d : Deps)
    (r : CentralReconciler) (defaults : ResourceRequirements) (w : World σ)
    (remoteCentral : ManagedCentral) (changed : Bool) (central : Central)
    (hnodel : remoteCentral.Metadata.DeletionTimestamp = "") :
    ((reconcileConverge d env r defaults w remoteCentral changed central).status = none
        ∧ (∃ e, (reconcileConverge d env r defaults w remoteCentral changed central).err = some e
            ∧ e.isSentinel = false)
        ∧ (reconcileConverge d env r defaults w remoteCentral changed central).r = r
        ∧ R w (reconcileConverge d env r defaults w remoteCentral changed central).world)
      ∨ ∃ w0 : World σ, R w w0
        ∧ reconcileConverge d env r defaults w remoteCentral changed central
          = reconcileCentral d env r defaults w0 remoteCentral changed
            (if r.hasAuthProvider then
              { central with Spec :=
                { central.Spec with CentralAdminPasswordGenerationDisabled := some true } }
             else central) := by
  have h1 : ∀ c, namespaceExistsCalls c = true → allowed c = true := fun c hc =>
    hfoot c (by simp [beforeCentralCalls, hc])
  have h2 : ∀ c, unstructuredExistsCalls c = true → allowed c = true := fun c hc =>
    hfoot c (by simp [beforeCentralCalls, hc])
  unfold reconcileConverge
  rw [if_neg (by simp [hnodel])]
  have hn := ensureNamespaceExists_steps inv h1 remoteCentral.Metadata.Namespace w
  split
  · rename_i heq
    rw [heq] at hn
    left; exact ⟨rfl, ⟨_, rfl, rfl⟩, rfl, hn⟩
  · rename_i w1 heq
    rw [heq] at hn
    have hc := ensureChartResourcesExist_steps inv h2 d r remoteCentral w1
    split
    · rename_i heq2
      rw [heq2] at hc
      left; exact ⟨rfl, ⟨_, rfl, rfl⟩, rfl, inv.trans _ _ _ hn hc⟩
    · rename_i w2 heq2
      rw [heq2] at hc
      right; exact ⟨w2, inv.trans _ _ _ hn hc, rfl⟩

/-- Without a deletion marker, lines 98-197 either fail with an error that is not a
sentinel, or hand over to the create/update step. -/
theorem reconcileBuild_central_path {env : Env σ} {allowed : Call → Bool}
    {R : World σ → World σ → Prop} (inv : StepInvariant env allowed R)
    (hfoot : ∀ c, beforeCentralCalls c = true → allowed c = true) (d : Deps)
    (r : CentralReconciler) (defaults : ResourceRequirements) (w : World σ)
    (remoteCentral : ManagedCentral) (changed : Bool)
    (hnodel : remoteCentral.Metadata.DeletionTimestamp = "") :
    ((reconcileBuild d env r defaults w remoteCentral changed).status = none
        ∧ (∃ e, (reconcileBuild d env r defaults w remoteCentral changed).err = some e
            ∧ e.isSentinel = false)
        ∧ (reconcileBuild d env r defaults w remoteCentral changed).r.lastCentralHash
          = r.lastCentralHash
        ∧ R w (reconcileBuild d env r defaults w remoteCentral changed).world)
      ∨ ∃ (r0 : CentralReconciler) (w0 : World σ)
          (centralResources scannerAnalyzerResources scannerDbResources : ResourceRequirements),
          R w w0
          ∧ r0.status = r.status ∧ r0.lastCentralHash = r.lastCentralHash
          ∧ r0.useRoutes = r.useRoutes ∧ r0.wantsAuthProvider = r.wantsAuthProvider
          ∧ (r.hasAuthProvider = true → r0.hasAuthProvider = true)
          ∧ reconcileBuild d env r defaults w remoteCentral changed
            = reconcileCentral d env r0 centralResources w0 remoteCentral changed
              (targetCentral d r0 remoteCentral centralResources scannerAnalyzerResources
                scannerDbResources) := by
  have h0 : ∀ c, authProbeCalls c = true → allowed c = true := fun c hc =>
    hfoot c (by simp [beforeCentralCalls, hc])
  unfold reconcileBuild
  split
  · left; exact ⟨rfl, ⟨_, rfl, rfl⟩, rfl, inv.refl w⟩
  · rename_i requests hreq
    split
    · left; exact ⟨rfl, ⟨_, rfl, rfl⟩, rfl, inv.refl w⟩
    · rename_i limits hlim
      split
      · left; exact ⟨rfl, ⟨_, rfl, rfl⟩, rfl, inv.refl w⟩
      · rename_i sar hsar
        split
        · left; exact ⟨rfl, ⟨_, rfl, rfl⟩, rfl, inv.refl w⟩
        · rename_i sdr hsdr
          split
          · split
            · rename_i heq
              left
              exact ⟨rfl, ⟨_, rfl, rfl⟩, rfl, inv.of_invoke heq rfl (by exact h0 _ rfl)⟩
            · rename_i providerExists w1 heq
              have hp := inv.of_invoke heq rfl (by exact h0 _ rfl)
              rcases reconcileConverge_central_path inv hfoot d
                  (if providerExists then { r with hasAuthProvider := true } else r)
                  { Limits := limits, Requests := requests } w1 remoteCentral changed
                  (desiredCentral d r remoteCentral { Limits := limits, Requests := requests }
                    sar sdr) hnodel with ⟨hs, he, hr, hw⟩ | ⟨w0, hw0, hc⟩
              · left
                refine ⟨hs, he, ?_, inv.trans _ _ _ hp hw⟩
                rw [hr]
                split <;> rfl
              · right
                refine ⟨if providerExists then { r with hasAuthProvider := true } else r, w0,
                  { Limits := limits, Requests := requests }, sar, sdr,
                  inv.trans _ _ _ hp hw0, ?_, ?_, ?_, ?_, ?_, ?_⟩
                · split <;> rfl
                · split <;> rfl
                · split <;> rfl
                · split <;> rfl
                · intro h
                  split
                  · rfl
                  · exact h
                · rw [hc]
                  unfold targetCentral desiredCentral
                  cases providerExists <;> rfl
          · rcases reconcileConverge_central_path inv hfoot d r
                { Limits := limits, Requests := requests } w remoteCentral changed
                (desiredCentral d r remoteCentral { Limits := limits, Requests := requests }
                  sar sdr) hnodel with ⟨hs, he, hr, hw⟩ | ⟨w0, hw0, hc⟩
            · left
              exact ⟨hs, he, by rw [hr], hw⟩
            · right
              exact ⟨r, w0, { Limits := limits, Requests := requests }, sar, sdr, hw0, rfl, rfl,
                rfl, rfl, fun h => h, by rw [hc]; rfl⟩

/-- Without a deletion marker, `Reconcile` either returns an error before it reads the
primary resource (the call was blocked, took the fast path, or failed), with the recorded
fingerprint unchanged, or it hands over to the create/update step. -/
theorem Reconcile_central_path {env : Env σ} {allowed : Call → Bool}
    {R : World σ → World σ → Prop} (inv : StepInvariant env allowed R)
    (hfoot : ∀ c, beforeCentralCalls c = true → allowed c = true) (d : Deps)
    (r : CentralReconciler) (defaults : ResourceRequirements) (w : World σ)
    (remoteCentral : ManagedCentral)
    (hnodel : remoteCentral.Metadata.DeletionTimestamp = "") :
    ((Reconcile d env r defaults w remoteCentral).status = none
        ∧ (∃ e, (Reconcile d env r defaults w remoteCentral).err = some e
            ∧ (e.isSentinel = false
              ∨ (e = Error.ErrBusy ∧ r.status ≠ FreeStatus)
              ∨ (e = Error.ErrCentralNotChanged
                ∧ d.MD5SumFromJSONStruct remoteCentral = Except.ok r.lastCentralHash
                ∧ r.wantsAuthProvider = r.hasAuthProvider
                ∧ isRemoteCentralReady d remoteCentral = true)))
        ∧ (Reconcile d env r defaults w remoteCentral).r.lastCentralHash = r.lastCentralHash
        ∧ R w (Reconcile d env r defaults w remoteCentral).world)
      ∨ ∃ (r0 : CentralReconciler) (w0 : World σ)
          (centralResources scannerAnalyzerResources scannerDbResources : ResourceRequirements)
          (hash : Hash),
          R w w0
          ∧ r.status = FreeStatus ∧ r0.lastCentralHash = r.lastCentralHash
          ∧ r0.useRoutes = r.useRoutes ∧ r0.wantsAuthProvider = r.wantsAuthProvider
          ∧ (r.hasAuthProvider = true → r0.hasAuthProvider = true)
          ∧ d.MD5SumFromJSONStruct remoteCentral = Except.ok hash
          ∧ ¬ (hash = r.lastCentralHash ∧ r.wantsAuthProvider = r.hasAuthProvider
              ∧ isRemoteCentralReady d remoteCentral = true)
          ∧ Reconcile d env r defaults w remoteCentral
            = (reconcileCentral d env r0 centralResources w0 remoteCentral
                (!(r.lastCentralHash == hash))
                (targetCentral d r0 remoteCentral centralResources scannerAnalyzerResources
                  scannerDbResources)).released := by
  unfold Reconcile
  split
  · rename_i hfree
    show ((reconcileGuarded d env { r with status := BlockedStatus } defaults w
        remoteCentral).status = none
        ∧ (∃ e, (reconcileGuarded d env { r with status := BlockedStatus } defaults w
            remoteCentral).err = some e ∧ _)
        ∧ (reconcileGuarded d env { r with status := BlockedStatus } defaults w
            remoteCentral).r.lastCentralHash = r.lastCentralHash
        ∧ R w (reconcileGuarded d env { r with status := BlockedStatus } defaults w
            remoteCentral).world) ∨ _
    unfold reconcileGuarded centralChanged
    cases hm : d.MD5SumFromJSONStruct remoteCentral with
    | error e => left; exact ⟨rfl, ⟨_, rfl, Or.inl rfl⟩, rfl, inv.refl w⟩
    | ok hash =>
      simp only []
      split
      · rename_i hc
        simp only [Bool.and_eq_true, Bool.not_eq_true', Bool.not_eq_false, beq_iff_eq] at hc
        have hh : r.lastCentralHash = hash := by simpa using hc.1.1
        left
        refine ⟨rfl, ⟨_, rfl, Or.inr (Or.inr ⟨rfl, by rw [hh], hc.1.2, hc.2⟩)⟩, rfl,
          inv.refl w⟩
      · rename_i hc
        rcases reconcileBuild_central_path inv hfoot d { r with status := BlockedStatus }
            defaults w remoteCentral (!(r.lastCentralHash == hash)) hnodel
          with ⟨hs, ⟨e, he, hsent⟩, hr, hw⟩ | ⟨r0, w0, cr, sar, sdr, hR, _, hh, hu, hwa, hha, hb⟩
        · left
          exact ⟨hs, ⟨e, he, Or.inl hsent⟩, hr, hw⟩
        · right
          refine ⟨r0, w0, cr, sar, sdr, hash, hR, hfree, hh, hu, hwa, hha, rfl, ?_, ?_⟩
          · rintro ⟨h1, h2, h3⟩
            apply hc
            simp [h1, h2, h3]
          · rw [hb]
            rfl
  · rename_i hfree
    left
    exact ⟨rfl, ⟨_, rfl, Or.inr (Or.inl ⟨rfl, hfree⟩)⟩, rfl, inv.refl w⟩

end CentralPath

/-! ## Ensure-absent operations on absent resources -/

section EnsureAbsent

variable {σ : Type}

/-- A step that, wherever the predicate holds of the cluster, returns `(true, nil)`, keeps
the cluster state and issues reads only, can be repeated without effect. -/
theorem IdempotentNoWrite.of_noop (env : Env σ) (absent : σ → Prop) (step : DeletionStep σ)
    (hstep : ∀ w, absent w.cluster →
      (step w).1 = (true, none) ∧ (step w).2.cluster = w.cluster
        ∧ CallsWithin Call.isRead w (step w).2)
    (w : World σ) (h : absent w.cluster) : IdempotentNoWrite step w := by
  have inv := CallsWithin.invariant env Call.isRead
  have key : ∀ n : Nat, (repeatStep step n w).cluster = w.cluster
      ∧ CallsWithin Call.isRead w (repeatStep step n w) := by
    intro n
    induction n with
    | zero => exact ⟨rfl, inv.refl w⟩
    | succ n ih =>
      have hs := hstep (repeatStep step n w) (by rw [ih.1]; exact h)
      exact ⟨by rw [repeatStep, hs.2.1, ih.1], by
        rw [repeatStep]; exact inv.trans _ _ _ ih.2 hs.2.2⟩
  intro n
  exact ⟨(hstep _ (by rw [(key n).1]; exact h)).1, key n⟩

theorem Env.perform_read_noop (env : Env σ) (hro : ProbesReadOnly env) (c : Call)
    (hc : deletionCalls c = true) (hr : c.isRead = true) (w : World σ) :
    (env.perform c w).cluster = w.cluster ∧ CallsWithin Call.isRead w (env.perform c w) := by
  refine ⟨?_, [c], env.perform_calls c w, by simpa using hr⟩
  cases c <;> first
    | exact hro.getNamespace _ _
    | exact hro.getCentral _ _
    | exact hro.getUnstructured _ _ _
    | exact hro.findReencryptRoute _ _
    | exact hro.findPassthroughRoute _ _
    | (simp [deletionCalls] at hc; done)
    | simp [Call.isRead, Call.isWrite] at hr

theorem ensureChartResourcesDeletedLoop_absent (env : Env σ) (hro : ProbesReadOnly env)
    (remoteCentral : ManagedCentral) (objs : List Unstructured) :
    ∀ (waitForDelete : Bool) (w : World σ),
      (∀ obj ∈ objs, (env.GetUnstructured obj.GVK
        { Namespace := if obj.Namespace = "" then remoteCentral.Metadata.Namespace
            else obj.Namespace,
          Name := obj.Name } w.cluster).1 = .error .notFound) →
      (ensureChartResourcesDeletedLoop env remoteCentral objs waitForDelete w).1
          = (!waitForDelete, none)
        ∧ (ensureChartResourcesDeletedLoop env remoteCentral objs waitForDelete w).2.cluster
          = w.cluster
        ∧ CallsWithin Call.isRead w
          (ensureChartResourcesDeletedLoop env remoteCentral objs waitForDelete w).2 := by
  have inv := CallsWithin.invariant env Call.isRead
  induction objs with
  | nil => intro wfd w _; exact ⟨rfl, rfl, inv.refl w⟩
  | cons obj rest ih =>
    intro wfd w h
    rw [ensureChartResourcesDeletedLoop_notFound env remoteCentral obj rest wfd w
      (h obj (List.mem_cons_self _ _))]
    have hp := env.perform_read_noop hro (.GetUnstructured obj.GVK
        { Namespace := if obj.Namespace = "" then remoteCentral.Metadata.Namespace
            else obj.Namespace,
          Name := obj.Name }) rfl rfl w
    have hi := ih wfd _ (by
      intro o ho
      rw [hp.1]
      exact h o (List.mem_cons_of_mem _ ho))
    exact ⟨hi.1, by rw [hi.2.1, hp.1], inv.trans _ _ _ hp.2 hi.2.2⟩

theorem runDeletionSteps_absent (env : Env σ) (absent : σ → Prop)
    (steps : List (DeletionStep σ))
    (hsteps : ∀ step ∈ steps, ∀ w, absent w.cluster →
      (step w).1 = (true, none) ∧ (step w).2.cluster = w.cluster
        ∧ CallsWithin Call.isRead w (step w).2) :
    ∀ (acc : Bool) (w : World σ), absent w.cluster →
      (runDeletionSteps steps acc w).1 = (acc, none)
        ∧ (runDeletionSteps steps acc w).2.cluster = w.cluster
        ∧ CallsWithin Call.isRead w (runDeletionSteps steps acc w).2 := by
  have inv := CallsWithin.invariant env Call.isRead
  induction steps with
  | nil => intro acc w _; exact ⟨rfl, rfl, inv.refl w⟩
  | cons step rest ih =>
    intro acc w h
    have h1 := hsteps step (List.mem_cons_self _ _) w h
    have hi := ih (fun s hs => hsteps s (List.mem_cons_of_mem _ hs))
    unfold runDeletionSteps
    rcases hsw : step w with ⟨⟨b, e⟩, w1⟩
    rw [hsw] at h1
    simp only [Prod.mk.injEq] at h1
    obtain ⟨⟨hb, he⟩, hcl, hcalls⟩ := h1
    subst hb
    subst he
    have h2 := hi (acc && true) w1 (by rw [hcl]; exact h)
    simp only [Bool.and_true] at h2 ⊢
    exact ⟨h2.1, by rw [h2.2.1, hcl], inv.trans _ _ _ hcalls h2.2.2⟩

end EnsureAbsent

section EnsureAbsentSteps

variable {σ : Type}

theorem ensureReencryptRouteDeleted_absent (env : Env σ) (hro : ProbesReadOnly env)
    (ns : String) (w : World σ)
    (h : (env.FindReencryptRoute ns w.cluster).1 = .error .notFound) :
    (ensureReencryptRouteDeleted env ns w).1 = (true, none)
      ∧ (ensureReencryptRouteDeleted env ns w).2.cluster = w.cluster
      ∧ CallsWithin Call.isRead w (ensureReencryptRouteDeleted env ns w).2 := by
  rw [ensureReencryptRouteDeleted_notFound env ns w h]
  exact ⟨rfl, env.perform_read_noop hro _ (by rfl) (by rfl) w⟩

theorem ensurePassthroughRouteDeleted_absent (env : Env σ) (hro : ProbesReadOnly env)
    (ns : String) (w : World σ)
    (h : (env.FindPassthroughRoute ns w.cluster).1 = .error .notFound) :
    (ensurePassthroughRouteDeleted env ns w).1 = (true, none)
      ∧ (ensurePassthroughRouteDeleted env ns w).2.cluster = w.cluster
      ∧ CallsWithin Call.isRead w (ensurePassthroughRouteDeleted env ns w).2 := by
  rw [ensurePassthroughRouteDeleted_notFound env ns w h]
  exact ⟨rfl, env.perform_read_noop hro _ (by rfl) (by rfl) w⟩

theorem ensureCentralCRDeleted_absent (env : Env σ) (hro : ProbesReadOnly env)
    (central : Central) (w : World σ)
    (h : (env.GetCentral { Namespace := central.Namespace, Name := central.Name } w.cluster).1
      = .error .notFound) :
    (ensureCentralCRDeleted env central w).1 = (true, none)
      ∧ (ensureCentralCRDeleted env central w).2.cluster = w.cluster
      ∧ CallsWithin Call.isRead w (ensureCentralCRDeleted env central w).2 := by
  rw [ensureCentralCRDeleted_notFound env central w h]
  exact ⟨rfl, env.perform_read_noop hro _ (by rfl) (by rfl) w⟩

theorem ensureVPAConfigDeleted_absent (env : Env σ) (hro : ProbesReadOnly env)
    (name : String) (remoteCentral : ManagedCentral) (w : World σ)
    (h : (env.GetUnstructured vpaGVK
        { Namespace := remoteCentral.Metadata.Namespace, Name := name } w.cluster).1
      = .error .notFound) :
    (ensureVPAConfigDeleted env name remoteCentral w).1 = (true, none)
      ∧ (ensureVPAConfigDeleted env name remoteCentral w).2.cluster = w.cluster
      ∧ CallsWithin Call.isRead w (ensureVPAConfigDeleted env name remoteCentral w).2 := by
  rw [ensureVPAConfigDeleted_notFound env name remoteCentral w h]
  exact ⟨rfl, env.perform_read_noop hro _ (by rfl) (by rfl) w⟩

theorem ensureNamespaceDeleted_absent (env : Env σ) (hro : ProbesReadOnly env)
    (name : String) (w : World σ)
    (h : (env.GetNamespace { Namespace := "", Name := name } w.cluster).1 = .error .notFound) :
    (ensureNamespaceDeleted env name w).1 = (true, none)
      ∧ (ensureNamespaceDeleted env name w).2.cluster = w.cluster
      ∧ CallsWithin Call.isRead w (ensureNamespaceDeleted env name w).2 := by
  rw [ensureNamespaceDeleted_notFound env name w h]
  exact ⟨rfl, env.perform_read_noop hro _ (by rfl) (by rfl) w⟩

theorem ensureChartResourcesDeleted_absent (d : Deps) (env : Env σ) (hro : ProbesReadOnly env)
    (r : CentralReconciler) (remoteCentral : ManagedCentral) (objs : List Unstructured)
    (w : World σ)
    (hrender : d.RenderToObjects helmReleaseName remoteCentral.Metadata.Namespace
      (chartValues d r remoteCentral).1 = .ok objs)
    (h : ∀ obj ∈ objs, (env.GetUnstructured obj.GVK
        { Namespace := if obj.Namespace = "" then remoteCentral.Metadata.Namespace
            else obj.Namespace,
          Name := obj.Name } w.cluster).1 = .error .notFound) :
    (ensureChartResourcesDeleted d env r remoteCentral w).1 = (true, none)
      ∧ (ensureChartResourcesDeleted d env r remoteCentral w).2.cluster = w.cluster
      ∧ CallsWithin Call.isRead w (ensureChartResourcesDeleted d env r remoteCentral w).2 := by
  have hl := ensureChartResourcesDeletedLoop_absent env hro remoteCentral objs false w h
  unfold ensureChartResourcesDeleted
  simp only [chartValues] at hrender ⊢
  rw [hrender]
  exact hl

theorem ensureCentralDeleted_absent (d : Deps) (env : Env σ) (hro : ProbesReadOnly env)
    (r : CentralReconciler) (remoteCentral : ManagedCentral) (central : Central)
    (objs : List Unstructured)
    (hrender : d.RenderToObjects helmReleaseName remoteCentral.Metadata.Namespace
      (chartValues d r remoteCentral).1 = .ok objs)
    (w : World σ)
    (h : (r.useRoutes = true →
          (env.FindReencryptRoute central.Namespace w.cluster).1 = .error .notFound
            ∧ (env.FindPassthroughRoute central.Namespace w.cluster).1 = .error .notFound)
      ∧ (env.GetCentral { Namespace := central.Namespace, Name := central.Name }
          w.cluster).1 = .error .notFound
      ∧ (env.GetUnstructured vpaGVK
          { Namespace := remoteCentral.Metadata.Namespace,
            Name := vpaConfigurationCentralName } w.cluster).1 = .error .notFound
      ∧ (∀ obj ∈ objs, (env.GetUnstructured obj.GVK
          { Namespace := if obj.Namespace = "" then remoteCentral.Metadata.Namespace
              else obj.Namespace,
            Name := obj.Name } w.cluster).1 = .error .notFound)
      ∧ (env.GetNamespace { Namespace := "", Name := central.Namespace } w.cluster).1
          = .error .notFound) :
    (ensureCentralDeleted d env r remoteCentral central w).1 = (true, none)
      ∧ (ensureCentralDeleted d env r remoteCentral central w).2.cluster = w.cluster
      ∧ CallsWithin Call.isRead w (ensureCentralDeleted d env r remoteCentral central w).2 := by
  rw [ensureCentralDeleted_eq_runDeletionSteps]
  refine runDeletionSteps_absent env
    (fun s => (r.useRoutes = true →
          (env.FindReencryptRoute central.Namespace s).1 = .error .notFound
            ∧ (env.FindPassthroughRoute central.Namespace s).1 = .error .notFound)
      ∧ (env.GetCentral { Namespace := central.Namespace, Name := central.Name } s).1
          = .error .notFound
      ∧ (env.GetUnstructured vpaGVK
          { Namespace := remoteCentral.Metadata.Namespace,
            Name := vpaConfigurationCentralName } s).1 = .error .notFound
      ∧ (∀ obj ∈ objs, (env.GetUnstructured obj.GVK
          { Namespace := if obj.Namespace = "" then remoteCentral.Metadata.Namespace
              else obj.Namespace,
            Name := obj.Name } s).1 = .error .notFound)
      ∧ (env.GetNamespace { Namespace := "", Name := central.Namespace } s).1
          = .error .notFound) _ ?_ true w h
  intro step hstep w0 ⟨hroutes, hcr, hvpa, haux, hns⟩
  unfold deletionSteps at hstep
  rcases List.mem_append.mp hstep with hm | hm
  · split at hm
    · rename_i hu
      simp only [List.mem_cons, List.mem_singleton, List.not_mem_nil, or_false] at hm
      rcases hm with hm | hm
      · rw [hm]; exact ensureReencryptRouteDeleted_absent env hro _ w0 (hroutes hu).1
      · rw [hm]; exact ensurePassthroughRouteDeleted_absent env hro _ w0 (hroutes hu).2
    · simp at hm
  · simp only [List.mem_cons, List.mem_singleton, List.not_mem_nil, or_false] at hm
    rcases hm with hm | hm | hm | hm
    · rw [hm]; exact ensureCentralCRDeleted_absent env hro central w0 hcr
    · rw [hm]; exact ensureVPAConfigDeleted_absent env hro _ remoteCentral w0 hvpa
    · rw [hm]
      exact ensureChartResourcesDeleted_absent d env hro r remoteCentral objs w0 hrender haux
    · rw [hm]; exact ensureNamespaceDeleted_absent env hro _ w0 hns

theorem fakeEnv_probesReadOnly : ProbesReadOnly fakeEnv where
  getNamespace := fun key s => by
    simp only [fakeEnv, fakeLookup]; split <;> rfl
  getCentral := fun key s => by
    simp only [fakeEnv, fakeLookup]; split <;> rfl
  getUnstructured := fun gvk key s => by
    simp only [fakeEnv, fakeLookup]; split <;> rfl
  findReencryptRoute := fun ns s => by
    simp only [fakeEnv, fakeLookup]; split <;> rfl
  findPassthroughRoute := fun ns s => by
    simp only [fakeEnv, fakeLookup]; split <;> rfl

end EnsureAbsentSteps

/-! ## The deletion protocol on the model cluster -/

section FakeDeletion

theorem fakeEnv_Delete (o : Object) (s : FakeCluster) :
    fakeEnv.Delete o s = if s.holds o then (none, s.without o) else (some .notFound, s) := rfl

theorem find?_some_any {α : Type} (p q : α → Bool) (l : List α) (x : α)
    (h : l.find? p = some x) (hq : q x = true) : l.any q = true := by
  rw [List.any_eq_true]
  exact ⟨x, List.mem_of_find?_eq_some h, hq⟩

/-- A delete in the model cluster returns no error or not-found. -/
theorem fakeEnv_Delete_result (o : Object) (s : FakeCluster) :
    (fakeEnv.Delete o s).1 = none ∨ (fakeEnv.Delete o s).1 = some .notFound := by
  rw [fakeEnv_Delete]
  split
  · exact Or.inl rfl
  · exact Or.inr rfl

theorem ensureReencryptRouteDeleted_fake_found (ns : String) (w : World FakeCluster)
    (route : Route)
    (h : w.cluster.reencryptRoutes.find? (fun x => x.Namespace == ns) = some route) :
    ensureReencryptRouteDeleted fakeEnv ns w
      = ((false, none),
         { cluster := w.cluster.without (.ofRoute route),
           calls := w.calls ++ [.FindReencryptRoute ns] ++ [.Delete (.ofRoute route)] }) := by
  have hholds : w.cluster.holds (.ofRoute route) = true := by
    simp only [FakeCluster.holds, Bool.or_eq_true]
    left
    exact find?_some_any _ _ _ route h (by simp)
  simp only [ensureReencryptRouteDeleted, ensureRouteDeleted, invoke, fakeEnv_FindReencryptRoute,
    h, fakeLookup, fakeEnv_Delete, hholds, if_true]

theorem ensureReencryptRouteDeleted_fake_absent (ns : String) (w : World FakeCluster)
    (h : w.cluster.reencryptRoutes.find? (fun x => x.Namespace == ns) = none) :
    ensureReencryptRouteDeleted fakeEnv ns w
      = ((true, none),
         { cluster := w.cluster, calls := w.calls ++ [.FindReencryptRoute ns] }) := by
  simp only [ensureReencryptRouteDeleted, ensureRouteDeleted, invoke, fakeEnv_FindReencryptRoute,
    h, fakeLookup, Error.IsNotFound, if_true]

theorem ensurePassthroughRouteDeleted_fake_found (ns : String) (w : World FakeCluster)
    (route : Route)
    (h : w.cluster.passthroughRoutes.find? (fun x => x.Namespace == ns) = some route) :
    ensurePassthroughRouteDeleted fakeEnv ns w
      = ((false, none),
         { cluster := w.cluster.without (.ofRoute route),
           calls := w.calls ++ [.FindPassthroughRoute ns] ++ [.Delete (.ofRoute route)] }) := by
  have hholds : w.cluster.holds (.ofRoute route) = true := by
    simp only [FakeCluster.holds, Bool.or_eq_true]
    right
    exact find?_some_any _ _ _ route h (by simp)
  simp only [ensurePassthroughRouteDeleted, ensureRouteDeleted, invoke,
    fakeEnv_FindPassthroughRoute, h, fakeLookup, fakeEnv_Delete, hholds, if_true]

theorem ensureCentralCRDeleted_fake_no_error (central : Central) (w : World FakeCluster) :
    (ensureCentralCRDeleted fakeEnv central w).1.2 = none := by
  unfold ensureCentralCRDeleted invoke
  rw [fakeEnv_GetCentral]
  cases hf : w.cluster.centrals.find?
      (fun x => x.Namespace == central.Namespace && x.Name == central.Name) with
  | none => simp [fakeLookup, Error.IsNotFound]
  | some found =>
    have hholds : w.cluster.holds (.ofCentral found) = true := by
      simp only [FakeCluster.holds]
      exact find?_some_any _ _ _ found hf (by simp)
    simp only [fakeLookup, fakeEnv_Delete, hholds, if_true]

theorem ensureVPAConfigDeleted_fake_no_error (name : String) (remoteCentral : ManagedCentral)
    (w : World FakeCluster) :
    (ensureVPAConfigDeleted fakeEnv name remoteCentral w).1.2 = none := by
  unfold ensureVPAConfigDeleted invoke
  rw [fakeEnv_GetUnstructured]
  cases hf : w.cluster.unstructureds.find?
      (fun x => x.GVK == vpaGVK && x.Namespace == remoteCentral.Metadata.Namespace
        && x.Name == name) with
  | none => simp [fakeLookup, Error.IsNotFound]
  | some found =>
    have hholds : w.cluster.holds (.ofUnstructured found) = true := by
      simp only [FakeCluster.holds]
      exact find?_some_any _ _ _ found hf (by simp)
    simp only [fakeLookup, fakeEnv_Delete, hholds, if_true]

theorem ensureNamespaceDeleted_fake_no_error (name : String) (w : World FakeCluster) :
    (ensureNamespaceDeleted fakeEnv name w).1.2 = none := by
  unfold ensureNamespaceDeleted getNamespace invoke
  rw [fakeEnv_GetNamespace]
  cases hf : w.cluster.namespaces.find? (fun x => x.Name == name) with
  | none => simp [fakeLookup, Error.IsNotFound]
  | some found =>
    have hholds : w.cluster.holds (.ofNamespace found) = true := by
      simp only [FakeCluster.holds]
      exact find?_some_any _ _ _ found hf (by simp)
    simp only [fakeLookup, fakeEnv_Delete, hholds, if_true]
    split <;> rfl

theorem ensureChartResourcesDeletedLoop_fake_no_error (remoteCentral : ManagedCentral)
    (objs : List Unstructured) :
    ∀ (waitForDelete : Bool) (w : World FakeCluster),
      (ensureChartResourcesDeletedLoop fakeEnv remoteCentral objs waitForDelete w).1.2
        = none := by
  induction objs with
  | nil => intro wfd w; rfl
  | cons obj rest ih =>
    intro wfd w
    unfold ensureChartResourcesDeletedLoop invoke
    rw [fakeEnv_GetUnstructured]
    cases hf : w.cluster.unstructureds.find?
        (fun x => x.GVK == obj.GVK
          && x.Namespace == (if obj.Namespace = "" then remoteCentral.Metadata.Namespace
              else obj.Namespace)
          && x.Name == obj.Name) with
    | none =>
      simp only [fakeLookup, Error.IsNotFound, if_true]
      exact ih _ _
    | some found =>
      simp only [fakeLookup]
      split
      · exact ih _ _
      · rcases hd : fakeEnv.Delete (.ofUnstructured found) w.cluster with ⟨res, s1⟩
        have hres := fakeEnv_Delete_result (.ofUnstructured found) w.cluster
        rw [hd] at hres
        rcases hres with hres | hres
        · simp only at hres
          subst hres
          exact ih _ _
        · simp only at hres
          subst hres
          simp only [Error.IsNotFound, Bool.not_true, Bool.false_eq_true, if_false]
          exact ih _ _

theorem ensureChartResourcesDeleted_fake_no_error (d : Deps) (r : CentralReconciler)
    (remoteCentral : ManagedCentral) (objs : List Unstructured) (w : World FakeCluster)
    (hrender : d.RenderToObjects helmReleaseName remoteCentral.Metadata.Namespace
      (chartValues d r remoteCentral).1 = .ok objs) :
    (ensureChartResourcesDeleted d fakeEnv r remoteCentral w).1.2 = none := by
  unfold ensureChartResourcesDeleted
  simp only [chartValues] at hrender ⊢
  rw [hrender]
  exact ensureChartResourcesDeletedLoop_fake_no_error remoteCentral objs false w

/-- A run of the protocol whose steps never return an error returns none. -/
theorem runDeletionSteps_no_error {σ : Type} (steps : List (DeletionStep σ))
    (hsteps : ∀ step ∈ steps, ∀ w, (step w).1.2 = none) :
    ∀ (acc : Bool) (w : World σ), (runDeletionSteps steps acc w).1.2 = none := by
  induction steps with
  | nil => intro acc w; rfl
  | cons step rest ih =>
    intro acc w
    have h1 := hsteps step (List.mem_cons_self _ _) w
    unfold runDeletionSteps
    rcases hsw : step w with ⟨⟨b, e⟩, w1⟩
    rw [hsw] at h1
    simp only at h1
    subst h1
    exact ih (fun s hs => hsteps s (List.mem_cons_of_mem _ hs)) _ _

end FakeDeletion

section FakeRoutePresent

theorem ensurePassthroughRouteDeleted_fake_absent (ns : String) (w : World FakeCluster)
    (h : w.cluster.passthroughRoutes.find? (fun x => x.Namespace == ns) = none) :
    ensurePassthroughRouteDeleted fakeEnv ns w
      = ((true, none),
         { cluster := w.cluster, calls := w.calls ++ [.FindPassthroughRoute ns] }) := by
  simp only [ensurePassthroughRouteDeleted, ensureRouteDeleted, invoke,
    fakeEnv_FindPassthroughRoute, h, fakeLookup, Error.IsNotFound, if_true]

theorem ensureReencryptRouteDeleted_fake_no_error (ns : String) (w : World FakeCluster) :
    (ensureReencryptRouteDeleted fakeEnv ns w).1.2 = none := by
  cases h : w.cluster.reencryptRoutes.find? (fun x => x.Namespace == ns) with
  | none => rw [ensureReencryptRouteDeleted_fake_absent ns w h]
  | some route => rw [ensureReencryptRouteDeleted_fake_found ns w route h]

theorem ensurePassthroughRouteDeleted_fake_no_error (ns : String) (w : World FakeCluster) :
    (ensurePassthroughRouteDeleted fakeEnv ns w).1.2 = none := by
  cases h : w.cluster.passthroughRoutes.find? (fun x => x.Namespace == ns) with
  | none => rw [ensurePassthroughRouteDeleted_fake_absent ns w h]
  | some route => rw [ensurePassthroughRouteDeleted_fake_found ns w route h]

theorem deletionSteps_steps {σ : Type} {env : Env σ} {allowed : Call → Bool}
    {R : World σ → World σ → Prop} (inv : StepInvariant env allowed R)
    (hfoot : ∀ c, deletionCalls c = true → allowed c = true) (d : Deps)
    (r : CentralReconciler) (remoteCentral : ManagedCentral) (central : Central) :
    ∀ step ∈ deletionSteps d env r remoteCentral central, ∀ w, R w (step w).2 := by
  intro step hstep w0
  unfold deletionSteps at hstep
  rcases List.mem_append.mp hstep with h | h
  · split at h
    · simp only [List.mem_cons, List.mem_singleton, List.not_mem_nil, or_false] at h
      rcases h with h | h
      · rw [h]; exact ensureReencryptRouteDeleted_steps inv hfoot _ w0
      · rw [h]; exact ensurePassthroughRouteDeleted_steps inv hfoot _ w0
    · simp at h
  · simp only [List.mem_cons, List.mem_singleton, List.not_mem_nil, or_false] at h
    rcases h with h | h | h | h
    · rw [h]; exact ensureCentralCRDeleted_steps inv hfoot central w0
    · rw [h]
      exact ensureVPAConfigDeleted_steps inv
        (fun c hc => hfoot c (unstructuredDeletedCalls_deletionCalls c hc)) _ remoteCentral w0
    · rw [h]; exact ensureChartResourcesDeleted_steps inv hfoot d r remoteCentral w0
    · rw [h]; exact ensureNamespaceDeleted_steps inv hfoot _ w0

theorem deletionSteps_fake_no_error (d : Deps) (r : CentralReconciler)
    (remoteCentral : ManagedCentral) (central : Central) (objs : List Unstructured)
    (hrender : d.RenderToObjects helmReleaseName remoteCentral.Metadata.Namespace
      (chartValues d r remoteCentral).1 = .ok objs) :
    ∀ step ∈ deletionSteps d fakeEnv r remoteCentral central, ∀ w, (step w).1.2 = none := by
  intro step hstep w0
  unfold deletionSteps at hstep
  rcases List.mem_append.mp hstep with h | h
  · split at h
    · simp only [List.mem_cons, List.mem_singleton, List.not_mem_nil, or_false] at h
      rcases h with h | h
      · rw [h]; exact ensureReencryptRouteDeleted_fake_no_error _ w0
      · rw [h]; exact ensurePassthroughRouteDeleted_fake_no_error _ w0
    · simp at h
  · simp only [List.mem_cons, List.mem_singleton, List.not_mem_nil, or_false] at h
    rcases h with h | h | h | h
    · rw [h]; exact ensureCentralCRDeleted_fake_no_error central w0
    · rw [h]; exact ensureVPAConfigDeleted_fake_no_error _ remoteCentral w0
    · rw [h]; exact ensureChartResourcesDeleted_fake_no_error d r remoteCentral objs w0 hrender
    · rw [h]; exact ensureNamespaceDeleted_fake_no_error _ w0

theorem runDeletionSteps_cons_ok {σ : Type} (step : DeletionStep σ)
    (rest : List (DeletionStep σ)) (acc b : Bool) (w w1 : World σ)
    (h : step w = ((b, none), w1)) :
    runDeletionSteps (step :: rest) acc w = runDeletionSteps rest (acc && b) w1 := by
  rw [runDeletionSteps, h]

/-- On the model cluster, with routes in use and a route of the tenant present, the deletion
protocol returns `(false, nil)` and has issued the delete of the route it found. -/
theorem ensureCentralDeleted_fake_route_present (d : Deps) (r : CentralReconciler)
    (remoteCentral : ManagedCentral) (central : Central) (objs : List Unstructured)
    (w : World FakeCluster) (route : Route) (huse : r.useRoutes = true)
    (hrender : d.RenderToObjects helmReleaseName remoteCentral.Metadata.Namespace
      (chartValues d r remoteCentral).1 = .ok objs)
    (hroute : w.cluster.reencryptRoutes.find? (fun x => x.Namespace == central.Namespace)
        = some route
      ∨ (w.cluster.reencryptRoutes.find? (fun x => x.Namespace == central.Namespace) = none
        ∧ w.cluster.passthroughRoutes.find? (fun x => x.Namespace == central.Namespace)
          = some route)) :
    (ensureCentralDeleted d fakeEnv r remoteCentral central w).1 = (false, none)
      ∧ ∃ extra : List Call,
          (ensureCentralDeleted d fakeEnv r remoteCentral central w).2.calls
            = w.calls ++ extra
          ∧ Call.Delete (.ofRoute route) ∈ extra := by
  have inv := CallsWithin.invariant fakeEnv (fun _ => true)
  have hall := deletionSteps_steps inv (fun _ _ => rfl) d r remoteCentral central
  have hnoerr := deletionSteps_fake_no_error d r remoteCentral central objs hrender
  rw [ensureCentralDeleted_eq_runDeletionSteps]
  have hsteps : deletionSteps d fakeEnv r remoteCentral central
      = ensureReencryptRouteDeleted fakeEnv central.Namespace
        :: ensurePassthroughRouteDeleted fakeEnv central.Namespace
        :: [ensureCentralCRDeleted fakeEnv central,
            ensureVPAConfigDeleted fakeEnv vpaConfigurationCentralName remoteCentral,
            ensureChartResourcesDeleted d fakeEnv r remoteCentral,
            ensureNamespaceDeleted fakeEnv central.Namespace] := by
    unfold deletionSteps
    rw [if_pos huse]
    rfl
  rw [hsteps] at hall hnoerr ⊢
  rcases hroute with hre | ⟨hre, hpa⟩
  · rw [runDeletionSteps_cons_ok _ _ _ _ _ _
      (ensureReencryptRouteDeleted_fake_found central.Namespace w route hre)]
    have hfalse := runDeletionSteps_false
      (ensurePassthroughRouteDeleted fakeEnv central.Namespace
        :: [ensureCentralCRDeleted fakeEnv central,
            ensureVPAConfigDeleted fakeEnv vpaConfigurationCentralName remoteCentral,
            ensureChartResourcesDeleted d fakeEnv r remoteCentral,
            ensureNamespaceDeleted fakeEnv central.Namespace]) (true && false)
      { cluster := w.cluster.without (.ofRoute route),
        calls := w.calls ++ [.FindReencryptRoute central.Namespace]
          ++ [.Delete (.ofRoute route)] } (Or.inl rfl)
    have hnone := runDeletionSteps_no_error _
      (fun s hs => hnoerr s (List.mem_cons_of_mem _ hs)) (true && false)
      { cluster := w.cluster.without (.ofRoute route),
        calls := w.calls ++ [.FindReencryptRoute central.Namespace]
          ++ [.Delete (.ofRoute route)] }
    obtain ⟨extra, hlog, _⟩ := runDeletionSteps_steps inv _
      (fun s hs => hall s (List.mem_cons_of_mem _ hs)) (true && false)
      { cluster := w.cluster.without (.ofRoute route),
        calls := w.calls ++ [.FindReencryptRoute central.Namespace]
          ++ [.Delete (.ofRoute route)] }
    refine ⟨Prod.ext hfalse hnone, [.FindReencryptRoute central.Namespace]
      ++ [.Delete (.ofRoute route)] ++ extra, ?_, by simp⟩
    rw [hlog]
    simp
  · rw [runDeletionSteps_cons_ok _ _ _ _ _ _
      (ensureReencryptRouteDeleted_fake_absent central.Namespace w hre)]
    rw [runDeletionSteps_cons_ok _ _ _ _ _ _
      (ensurePassthroughRouteDeleted_fake_found central.Namespace
        { cluster := w.cluster, calls := w.calls ++ [.FindReencryptRoute central.Namespace] }
        route hpa)]
    have hfalse := runDeletionSteps_false
      [ensureCentralCRDeleted fakeEnv central,
       ensureVPAConfigDeleted fakeEnv vpaConfigurationCentralName remoteCentral,
       ensureChartResourcesDeleted d fakeEnv r remoteCentral,
       ensureNamespaceDeleted fakeEnv central.Namespace] (true && true && false)
      { cluster := w.cluster.without (.ofRoute route),
        calls := w.calls ++ [.FindReencryptRoute central.Namespace]
          ++ [.FindPassthroughRoute central.Namespace] ++ [.Delete (.ofRoute route)] }
      (Or.inl rfl)
    have hnone := runDeletionSteps_no_error _
      (fun s hs => hnoerr s (List.mem_cons_of_mem _ (List.mem_cons_of_mem _ hs)))
      (true && true && false)
      { cluster := w.cluster.without (.ofRoute route),
        calls := w.calls ++ [.FindReencryptRoute central.Namespace]
          ++ [.FindPassthroughRoute central.Namespace] ++ [.Delete (.ofRoute route)] }
    obtain ⟨extra, hlog, _⟩ := runDeletionSteps_steps inv _
      (fun s hs => hall s (List.mem_cons_of_mem _ (List.mem_cons_of_mem _ hs)))
      (true && true && false)
      { cluster := w.cluster.without (.ofRoute route),
        calls := w.calls ++ [.FindReencryptRoute central.Namespace]
          ++ [.FindPassthroughRoute central.Namespace] ++ [.Delete (.ofRoute route)] }
    refine ⟨Prod.ext hfalse hnone, [.FindReencryptRoute central.Namespace]
      ++ [.FindPassthroughRoute central.Namespace] ++ [.Delete (.ofRoute route)] ++ extra,
      ?_, by simp⟩
    rw [hlog]
    simp

end FakeRoutePresent

/-! ## Results of `ensureRouteDeleted` -/

section RouteDeletion

variable {σ : Type}

theorem ensureRouteDeleted_true_iff (env : Env σ)
    (routeSupplier : World σ → Except ApiError Route × World σ) (w : World σ) :
    (ensureRouteDeleted env routeSupplier w).1 = (true, none)
      ↔ (routeSupplier w).1 = .error .notFound := by
  unfold ensureRouteDeleted
  rcases h : routeSupplier w with ⟨res, w1⟩
  cases res with
  | error e =>
    cases e <;> simp [Error.IsNotFound]
  | ok route =>
    simp only []
    rcases invoke (env.Delete (.ofRoute route)) (Call.Delete (.ofRoute route)) w1 with ⟨e, w2⟩
    cases e <;> simp

theorem ensureRouteDeleted_deleted (env : Env σ)
    (routeSupplier : World σ → Except ApiError Route × World σ) (w w1 : World σ)
    (route : Route) (h : routeSupplier w = (.ok route, w1))
    (hd : (env.Delete (.ofRoute route) w1.cluster).1 = none) :
    ensureRouteDeleted env routeSupplier w
      = ((false, none), env.perform (.Delete (.ofRoute route)) w1) := by
  simp only [ensureRouteDeleted, h, invoke, hd, Env.perform]

theorem ensureRouteDeleted_found_false (env : Env σ)
    (routeSupplier : World σ → Except ApiError Route × World σ) (w : World σ)
    (route : Route) (h : (routeSupplier w).1 = .ok route) :
    (ensureRouteDeleted env routeSupplier w).1.1 = false := by
  unfold ensureRouteDeleted
  rcases hs : routeSupplier w with ⟨res, w1⟩
  rw [hs] at h
  simp only at h
  subst h
  simp only []
  rcases invoke (env.Delete (.ofRoute route)) (Call.Delete (.ofRoute route)) w1 with ⟨e, w2⟩
  cases e <;> rfl

theorem stepResults_head (step : DeletionStep σ) (rest : List (DeletionStep σ))
    (w : World σ) : (step w).1 ∈ stepResults (step :: rest) w := by
  unfold stepResults
  rcases step w with ⟨⟨b, e⟩, w1⟩
  cases e <;> simp

end RouteDeletion

/-! ## The create/update step -/

section CentralStep

variable {σ : Type}

/-- Lines 199-305 are the create/update step followed by lines 253-305. -/
theorem reconcileCentral_eq_step (d : Deps) (env : Env σ) (r : CentralReconciler)
    (defaults : ResourceRequirements) (w : World σ) (remoteCentral : ManagedCentral)
    (changed : Bool) (central : Central) :
    reconcileCentral d env r defaults w remoteCentral changed central
      = match reconcileCentralStep env w remoteCentral central with
        | (some err, w1) =>
          { status := none, err := some err, r := r, defaults := defaults, world := w1 }
        | (none, w1) => reconcileRoutes d env r defaults w1 remoteCentral changed := by
  unfold reconcileCentral reconcileCentralStep
  rcases invoke
      (env.GetCentral
        { Namespace := remoteCentral.Metadata.Namespace, Name := remoteCentral.Metadata.Name })
      (Call.GetCentral
        { Namespace := remoteCentral.Metadata.Namespace, Name := remoteCentral.Metadata.Name })
      w with ⟨res, w1⟩
  cases res with
  | error e =>
    by_cases hnf : (!(Error.external e).IsNotFound) = true
    · simp only [hnf, if_true]
    · simp only [hnf, Bool.false_eq_true, if_false]
      rcases invoke
          (env.Create (.ofCentral { central with
            Annotations := some (GoMap.set (central.Annotations.getD []) revisionAnnotationKey "1") }))
          (Call.Create (.ofCentral { central with
            Annotations := some (GoMap.set (central.Annotations.getD []) revisionAnnotationKey "1") }))
          w1 with ⟨e2, w2⟩
      cases e2 with
      | some e2 => rfl
      | none =>
        by_cases hs : remoteCentral.CentralResources.Limits.length = 0
            ∧ remoteCentral.CentralResources.Requests.length = 0
        · simp only [hs, and_self, if_true]
        · simp only [hs, Bool.false_eq_true, if_false]
  | ok existingCentral =>
    simp only []
    rcases incrementCentralRevision { existingCentral with Spec := central.Spec }
      with ⟨e1, incremented⟩
    cases e1 with
    | some e1 => rfl
    | none =>
      simp only []
      rcases invoke (env.Update (.ofCentral { incremented with Spec := central.Spec }))
          (Call.Update (.ofCentral { incremented with Spec := central.Spec })) w1
        with ⟨e2, w2⟩
      cases e2 with
      | some e2 => rfl
      | none =>
        by_cases hs : remoteCentral.CentralResources.Limits.length = 0
            ∧ remoteCentral.CentralResources.Requests.length = 0
        · simp only [hs, and_self, if_true]
        · simp only [hs, Bool.false_eq_true, if_false]
          rcases ensureVPAConfigDeleted env vpaConfigurationCentralName remoteCentral w2
            with ⟨⟨b3, e3⟩, w3⟩
          cases e3 <;> rfl

theorem StepInvariant.both {env : Env σ} {allowed1 allowed2 : Call → Bool}
    {R1 R2 : World σ → World σ → Prop} (inv1 : StepInvariant env allowed1 R1)
    (inv2 : StepInvariant env allowed2 R2) :
    StepInvariant env (fun c => allowed1 c && allowed2 c) (fun a b => R1 a b ∧ R2 a b) where
  refl := fun w => ⟨inv1.refl w, inv2.refl w⟩
  trans := fun a b c h1 h2 => ⟨inv1.trans a b c h1.1 h2.1, inv2.trans a b c h1.2 h2.2⟩
  step := fun c w h => by
    simp only [Bool.and_eq_true] at h
    exact ⟨inv1.step c w h.1, inv2.step c w h.2⟩

theorem incrementCentralRevision_malformed (central : Central)
    (h : Atoi (GoMap.get (central.Annotations.getD []) revisionAnnotationKey) = none) :
    incrementCentralRevision central
      = (some (.wrapped "failed to increment central revision" (.external (.other 0))),
         central) := by
  simp only [incrementCentralRevision, h]

theorem reconcileCentral_malformed (d : Deps) (env : Env σ) (r : CentralReconciler)
    (defaults : ResourceRequirements) (w : World σ) (remoteCentral : ManagedCentral)
    (changed : Bool) (central existing : Central)
    (hget : (env.GetCentral
      { Namespace := remoteCentral.Metadata.Namespace, Name := remoteCentral.Metadata.Name }
      w.cluster).1 = Except.ok existing)
    (hrev : Atoi (GoMap.get (existing.Annotations.getD []) revisionAnnotationKey) = none) :
    reconcileCentral d env r defaults w remoteCentral changed central
      = { status := none,
          err := some (.wrapped "failed to increment central revision" (.external (.other 0))),
          r := r, defaults := defaults,
          world := env.perform (Call.GetCentral
            { Namespace := remoteCentral.Metadata.Namespace,
              Name := remoteCentral.Metadata.Name }) w } := by
  have hinc := incrementCentralRevision_malformed { existing with Spec := central.Spec } hrev
  simp only [reconcileCentral, invoke, hget, hinc, Env.perform]

end CentralStep

/-! ## The readiness gate of lines 264-274 -/

section ReadinessGate

variable {σ : Type}

theorem reconcileReadiness_gate (d : Deps) (env : Env σ) (r : CentralReconciler)
    (defaults : ResourceRequirements) (w : World σ) (remoteCentral : ManagedCentral)
    (changed centralTLSSecretFound ready : Bool)
    (hprobe : (env.isCentralDeploymentReady remoteCentral w.cluster).1 = Except.ok ready)
    (hgate : (!ready || !centralTLSSecretFound) = true) :
    reconcileReadiness d env r defaults w remoteCentral changed centralTLSSecretFound
      = gateOutcome d r defaults (env.perform (Call.isCentralDeploymentReady remoteCentral) w)
          remoteCentral changed := by
  simp only [reconcileReadiness, invoke, hprobe, hgate, if_true, gateOutcome, Env.perform]

theorem reconcileCentralStep_not_sentinel (env : Env σ) (w : World σ)
    (remoteCentral : ManagedCentral) (central : Central) (e : Error)
    (h : (reconcileCentralStep env w remoteCentral central).1 = some e) :
    e.isSentinel = false := by
  unfold reconcileCentralStep at h
  split at h
  · split at h
    · simp at h; subst h; rfl
    · split at h
      · simp at h; subst h; rfl
      · split at h
        · exact createVPAConfig_not_sentinel env _ _ remoteCentral _ e h
        · simp at h
  · split at h
    · rename_i err _ hinc
      simp only [Option.some.injEq] at h
      subst h
      exact incrementCentralRevision_not_sentinel _ _ (by rw [hinc])
    · split at h
      · simp at h; subst h; rfl
      · split at h
        · exact ensureVPAConfigExists_not_sentinel env _ _ remoteCentral _ e h
        · split at h
          · rename_i heq
            simp only [Option.some.injEq] at h
            subst h
            exact ensureVPAConfigDeleted_not_sentinel env _ remoteCentral _ _ (by rw [heq])
          · simp at h

theorem unstructuredExistsCalls_centralStepCalls (c : Call)
    (h : unstructuredExistsCalls c = true) : centralStepCalls c = true := by
  cases c with
  | GetUnstructured _ _ => rfl
  | Create o => cases o <;> first | rfl | simp [unstructuredExistsCalls] at h
  | _ => simp [unstructuredExistsCalls] at h

theorem unstructuredDeletedCalls_centralStepCalls (c : Call)
    (h : unstructuredDeletedCalls c = true) : centralStepCalls c = true := by
  cases c with
  | GetUnstructured _ _ => rfl
  | Delete o => cases o <;> first | rfl | simp [unstructuredDeletedCalls] at h
  | _ => simp [unstructuredDeletedCalls] at h

theorem reconcileCentralStep_steps {env : Env σ} {allowed : Call → Bool}
    {R : World σ → World σ → Prop} (inv : StepInvariant env allowed R)
    (hfoot : ∀ c, centralStepCalls c = true → allowed c = true) (w : World σ)
    (remoteCentral : ManagedCentral) (central : Central) :
    R w (reconcileCentralStep env w remoteCentral central).2 := by
  have h1 : ∀ c, unstructuredExistsCalls c = true → allowed c = true := fun c hc =>
    hfoot c (unstructuredExistsCalls_centralStepCalls c hc)
  have h2 : ∀ c, unstructuredDeletedCalls c = true → allowed c = true := fun c hc =>
    hfoot c (unstructuredDeletedCalls_centralStepCalls c hc)
  unfold reconcileCentralStep
  split
  · rename_i heq
    have hg := inv.of_invoke heq rfl (by exact hfoot _ rfl)
    split
    · exact hg
    · split
      · rename_i heq2
        exact inv.trans _ _ _ hg (inv.of_invoke heq2 rfl (by exact hfoot _ rfl))
      · rename_i heq2
        have hc := inv.trans _ _ _ hg (inv.of_invoke heq2 rfl (by exact hfoot _ rfl))
        split
        · exact inv.trans _ _ _ hc (createVPAConfig_steps inv h1 _ _ _ _)
        · exact hc
  · rename_i heq
    have hg := inv.of_invoke heq rfl (by exact hfoot _ rfl)
    split
    · exact hg
    · split
      · rename_i heq2
        exact inv.trans _ _ _ hg (inv.of_invoke heq2 rfl (by exact hfoot _ rfl))
      · rename_i w2 heq2
        have hc := inv.trans _ _ _ hg (inv.of_invoke heq2 rfl (by exact hfoot _ rfl))
        split
        · exact inv.trans _ _ _ hc (ensureVPAConfigExists_steps inv h1 _ _ _ _)
        · have hv := ensureVPAConfigDeleted_steps inv h2 vpaConfigurationCentralName
            remoteCentral w2
          split
          · rename_i heq3
            rw [heq3] at hv
            exact inv.trans _ _ _ hc hv
          · rename_i heq3
            rw [heq3] at hv
            exact inv.trans _ _ _ hc hv

theorem ensureRoutesExist_gateSteps {env : Env σ} {allowed : Call → Bool}
    {R : World σ → World σ → Prop} (inv : StepInvariant env allowed R)
    (hfoot : ∀ c, readinessGateCalls c = true → allowed c = true)
    (remoteCentral : ManagedCentral) (w : World σ) :
    R w (ensureRoutesExist env remoteCentral w).2 := by
  have hre : ∀ w0 : World σ, R w0 (ensureReencryptRouteExists env remoteCentral w0).2 := by
    intro w0
    unfold ensureReencryptRouteExists
    split
    · rename_i heq
      have h1 := inv.of_invoke heq rfl (by exact hfoot _ rfl)
      split
      · exact h1
      · split
        all_goals
          rename_i heq2
          exact inv.trans _ _ _ h1 (inv.of_invoke heq2 rfl (by exact hfoot _ rfl))
    · rename_i heq
      exact inv.of_invoke heq rfl (by exact hfoot _ rfl)
  have hpa : ∀ w0 : World σ, R w0 (ensurePassthroughRouteExists env remoteCentral w0).2 := by
    intro w0
    unfold ensurePassthroughRouteExists
    split
    · rename_i heq
      have h1 := inv.of_invoke heq rfl (by exact hfoot _ rfl)
      split
      · exact h1
      · split
        all_goals
          rename_i heq2
          exact inv.trans _ _ _ h1 (inv.of_invoke heq2 rfl (by exact hfoot _ rfl))
    · rename_i heq
      exact inv.of_invoke heq rfl (by exact hfoot _ rfl)
  unfold ensureRoutesExist
  have h1 := hre w
  split
  · rename_i heq
    rw [heq] at h1
    exact h1
  · rename_i heq
    rw [heq] at h1
    exact inv.trans _ _ _ h1 (hpa _)

end ReadinessGate

section FakeGate

theorem fake_gate_invariant :
    StepInvariant fakeEnv beforeRoutesCalls
      (fun w w1 => w1.cluster.deploymentReady = w.cluster.deploymentReady
        ∧ w1.cluster.tlsSecret = w.cluster.tlsSecret
        ∧ w1.cluster.reencryptRoutes = w.cluster.reencryptRoutes) where
  refl := fun _ => ⟨rfl, rfl, rfl⟩
  trans := fun _ _ _ h1 h2 => ⟨h2.1.trans h1.1, h2.2.1.trans h1.2.1, h2.2.2.trans h1.2.2⟩
  step := by
    intro c w h
    cases c with
    | Create o =>
      cases o <;>
        simp [beforeRoutesCalls, beforeCentralCalls, centralStepCalls, authProbeCalls,
          namespaceExistsCalls, unstructuredExistsCalls] at h <;>
        simp only [Env.perform, invoke, fakeEnv] <;> split <;> simp [FakeCluster.store]
    | Update o =>
      cases o <;>
        simp [beforeRoutesCalls, beforeCentralCalls, centralStepCalls, authProbeCalls,
          namespaceExistsCalls, unstructuredExistsCalls] at h
      simp only [Env.perform, invoke, fakeEnv]
      split <;> simp [FakeCluster.store, FakeCluster.without]
    | Delete o =>
      cases o <;>
        simp [beforeRoutesCalls, beforeCentralCalls, centralStepCalls, authProbeCalls,
          namespaceExistsCalls, unstructuredExistsCalls] at h
      simp only [Env.perform, invoke, fakeEnv]
      split <;> simp [FakeCluster.without]
    | GetNamespace key =>
      simp only [Env.perform, invoke, fakeEnv, fakeLookup]; split <;> simp
    | GetCentral key =>
      simp only [Env.perform, invoke, fakeEnv, fakeLookup]; split <;> simp
    | GetUnstructured gvk key =>
      simp only [Env.perform, invoke, fakeEnv, fakeLookup]; split <;> simp
    | existsRHSSOAuthProvider rc =>
      simp only [Env.perform, invoke, fakeEnv]; simp
    | _ =>
      simp [beforeRoutesCalls, beforeCentralCalls, centralStepCalls, authProbeCalls,
        namespaceExistsCalls, unstructuredExistsCalls] at h

theorem ensureRoutesExist_fake_tls_missing (remoteCentral : ManagedCentral)
    (w : World FakeCluster) (htls : w.cluster.tlsSecret = false)
    (habsent : w.cluster.reencryptRoutes.find?
      (fun x => x.Namespace == remoteCentral.Metadata.Namespace) = none) :
    (ensureRoutesExist fakeEnv remoteCentral w).1 ≠ none := by
  simp [ensureRoutesExist, ensureReencryptRouteExists, invoke, fakeEnv_FindReencryptRoute,
    habsent, fakeLookup, Error.IsNotFound, fakeEnv_CreateReencryptRoute, htls]

/-- On the model cluster, when the deployment is not reported ready, or routes are in use
and the TLS secret and the re-encrypt route are missing, lines 253-274 return what the
readiness gate tells, after calls of the routes and the readiness probe alone. -/
theorem reconcileRoutes_fake_gate (d : Deps) (r : CentralReconciler)
    (defaults : ResourceRequirements) (w : World FakeCluster) (remoteCentral : ManagedCentral)
    (changed : Bool)
    (hgate : w.cluster.deploymentReady = false
      ∨ (r.useRoutes = true ∧ w.cluster.tlsSecret = false
        ∧ w.cluster.reencryptRoutes.find?
          (fun x => x.Namespace == remoteCentral.Metadata.Namespace) = none)) :
    ∃ wG : World FakeCluster, CallsWithin readinessGateCalls w wG
      ∧ reconcileRoutes d fakeEnv r defaults w remoteCentral changed
        = gateOutcome d r defaults wG remoteCentral changed := by
  have inv := CallsWithin.invariant fakeEnv readinessGateCalls
  have hread : ∀ (w1 : World FakeCluster) (tls : Bool),
      CallsWithin readinessGateCalls w w1 →
      (!w1.cluster.deploymentReady || !tls) = true →
      ∃ wG : World FakeCluster, CallsWithin readinessGateCalls w wG
        ∧ reconcileReadiness d fakeEnv r defaults w1 remoteCentral changed tls
          = gateOutcome d r defaults wG remoteCentral changed := by
    intro w1 tls hw1 hg
    exact ⟨_, inv.trans _ _ _ hw1 (inv.step (.isCentralDeploymentReady remoteCentral) w1 rfl),
      reconcileReadiness_gate d fakeEnv r defaults w1 remoteCentral changed tls
        w1.cluster.deploymentReady rfl hg⟩
  unfold reconcileRoutes
  by_cases hu : r.useRoutes = true
  · rw [if_pos hu]
    have hcalls := ensureRoutesExist_gateSteps inv (fun _ h => h) remoteCentral w
    have hstate := ensureRoutesExist_steps fake_not_ready_invariant (fun _ h => h)
      remoteCentral w
    rcases heq : ensureRoutesExist fakeEnv remoteCentral w with ⟨res, w1⟩
    rw [heq] at hcalls hstate
    cases res with
    | some err =>
      have htls := ensureRoutesExist_fake_error remoteCentral w err (by rw [heq])
      simp only [htls, if_true]
      exact hread w1 false hcalls (by simp)
    | none =>
      simp only []
      rcases hgate with hnr | ⟨_, htls, habsent⟩
      · exact hread w1 true hcalls (by rw [hstate.1, hnr]; rfl)
      · exact absurd (by rw [heq]) (ensureRoutesExist_fake_tls_missing remoteCentral w htls
          habsent)
  · rw [if_neg hu]
    rcases hgate with hnr | ⟨hu2, _, _⟩
    · exact hread w true (inv.refl w) (by rw [hnr]; rfl)
    · exact absurd hu2 hu

end FakeGate

/-! ## The autoscaler configuration on the model cluster -/

section FakeAutoscaler

theorem FakeCluster.holdsAutoscaler_eq (s : FakeCluster) (remoteCentral : ManagedCentral) :
    s.holdsAutoscaler remoteCentral
      = s.unstructureds.any (fun x => x.GVK == vpaGVK
          && x.Namespace == remoteCentral.Metadata.Namespace
          && x.Name == vpaConfigurationCentralName) := rfl

theorem fakeEnv_Update (o : Object) (s : FakeCluster) :
    fakeEnv.Update o s
      = if s.holds o then (none, (s.without o).store o) else (some .notFound, s) := rfl

theorem createVPAConfig_fake_holds (remoteCentral : ManagedCentral) (w w1 : World FakeCluster)
    (h : createVPAConfig fakeEnv vpaConfigurationCentralName "central" remoteCentral w
      = (none, w1)) :
    w1.cluster.holdsAutoscaler remoteCentral = true := by
  unfold createVPAConfig invoke at h
  rw [fakeEnv_Create] at h
  by_cases hh : w.cluster.holds
      (.ofUnstructured (vpaConfig vpaConfigurationCentralName "central" remoteCentral)) = true
  · simp [hh] at h
  · simp only [hh, Bool.false_eq_true, if_false, Prod.mk.injEq, true_and] at h
    subst h
    simp [FakeCluster.holdsAutoscaler_eq, FakeCluster.store, vpaConfig]

theorem ensureVPAConfigExists_fake_holds (remoteCentral : ManagedCentral)
    (w w1 : World FakeCluster)
    (h : ensureVPAConfigExists fakeEnv vpaConfigurationCentralName "central" remoteCentral w
      = (none, w1)) :
    w1.cluster.holdsAutoscaler remoteCentral = true := by
  unfold ensureVPAConfigExists invoke at h
  rw [fakeEnv_GetUnstructured] at h
  cases hf : w.cluster.unstructureds.find?
      (fun x => x.GVK == vpaGVK && x.Namespace == remoteCentral.Metadata.Namespace
        && x.Name == vpaConfigurationCentralName) with
  | none =>
    simp only [hf, fakeLookup, Error.IsNotFound, Bool.not_true, Bool.false_eq_true,
      if_false] at h
    exact createVPAConfig_fake_holds remoteCentral _ w1 h
  | some found =>
    simp only [hf, fakeLookup, Prod.mk.injEq, true_and] at h
    subst h
    rw [FakeCluster.holdsAutoscaler_eq]
    have hp := List.find?_some hf
    exact find?_some_any _ _ _ found hf hp

theorem ensureVPAConfigDeleted_fake_gone (remoteCentral : ManagedCentral)
    (w w1 : World FakeCluster) (b : Bool)
    (h : ensureVPAConfigDeleted fakeEnv vpaConfigurationCentralName remoteCentral w
      = ((b, none), w1)) :
    w1.cluster.holdsAutoscaler remoteCentral = false := by
  unfold ensureVPAConfigDeleted invoke at h
  rw [fakeEnv_GetUnstructured] at h
  cases hf : w.cluster.unstructureds.find?
      (fun x => x.GVK == vpaGVK && x.Namespace == remoteCentral.Metadata.Namespace
        && x.Name == vpaConfigurationCentralName) with
  | none =>
    simp only [hf, fakeLookup, Error.IsNotFound, if_true, Prod.mk.injEq] at h
    rw [← h.2, FakeCluster.holdsAutoscaler_eq]
    exact find?_none_any_false _ _ hf
  | some found =>
    have hp := List.find?_some hf
    simp only [Bool.and_eq_true, beq_iff_eq] at hp
    obtain ⟨⟨hg, hn⟩, hnm⟩ := hp
    have hholds : w.cluster.holds (.ofUnstructured found) = true := by
      simp only [FakeCluster.holds]
      exact find?_some_any _ _ _ found hf (by simp)
    simp only [hf, fakeLookup, fakeEnv_Delete, hholds, if_true, Prod.mk.injEq, true_and] at h
    rw [← h.2, FakeCluster.holdsAutoscaler_eq]
    simp only [FakeCluster.without, hg, hn, hnm]
    rw [List.any_eq_false]
    intro x hx
    simp only [List.mem_filter] at hx
    have h2 := hx.2
    simp at h2 ⊢
    tauto

theorem fake_unstructureds_invariant :
    StepInvariant fakeEnv routesAndReadinessCalls
      (fun w w1 => w1.cluster.unstructureds = w.cluster.unstructureds) where
  refl := fun _ => rfl
  trans := fun _ _ _ h1 h2 => h2.trans h1
  step := by
    intro c w h
    cases c <;> simp [routesAndReadinessCalls] at h <;>
      simp only [Env.perform, invoke, fakeEnv, fakeLookup] <;>
      (repeat' split) <;> simp

theorem fake_autoscaler_kept (remoteCentral : ManagedCentral) :
    StepInvariant fakeEnv beforeCentralCalls
      (fun w w1 => w.cluster.holdsAutoscaler remoteCentral = true →
        w1.cluster.holdsAutoscaler remoteCentral = true) where
  refl := fun _ h => h
  trans := fun _ _ _ h1 h2 h => h2 (h1 h)
  step := by
    intro c w h
    cases c with
    | Create o =>
      cases o <;>
        simp [beforeCentralCalls, authProbeCalls, namespaceExistsCalls,
          unstructuredExistsCalls] at h <;>
        simp only [Env.perform, invoke, fakeEnv] <;> split <;>
        simp [FakeCluster.store, FakeCluster.holdsAutoscaler_eq]
      intro x hx h1 h2 h3
      exact Or.inl ⟨x, hx, ⟨h1, h2⟩, h3⟩
    | GetNamespace key =>
      simp only [Env.perform, invoke, fakeEnv, fakeLookup]; split <;> simp
    | GetUnstructured gvk key =>
      simp only [Env.perform, invoke, fakeEnv, fakeLookup]; split <;> simp
    | existsRHSSOAuthProvider rc =>
      simp only [Env.perform, invoke, fakeEnv]; simp
    | _ =>
      simp [beforeCentralCalls, authProbeCalls, namespaceExistsCalls,
        unstructuredExistsCalls] at h

end FakeAutoscaler

section FakeCentralStep

theorem fake_primary_keeps_unstructureds :
    StepInvariant fakeEnv primaryResourceCalls
      (fun w w1 => w1.cluster.unstructureds = w.cluster.unstructureds) where
  refl := fun _ => rfl
  trans := fun _ _ _ h1 h2 => h2.trans h1
  step := by
    intro c w h
    cases c with
    | Create o =>
      cases o <;> simp [primaryResourceCalls] at h
      simp only [Env.perform, invoke, fakeEnv]
      split <;> simp [FakeCluster.store]
    | Update o =>
      cases o <;> simp [primaryResourceCalls] at h
      simp only [Env.perform, invoke, fakeEnv]
      split <;> simp [FakeCluster.store, FakeCluster.without]
    | GetCentral key =>
      simp only [Env.perform, invoke, fakeEnv, fakeLookup]; split <;> simp
    | _ => simp [primaryResourceCalls] at h

/-- On the model cluster, a create/update step that returns no error leaves the autoscaler
configuration present exactly for empty sizing when it found the primary resource; when it
created the primary resource, the configuration is present for empty sizing and left as it
was for explicit sizing. -/
theorem reconcileCentralStep_fake_autoscaler (remoteCentral : ManagedCentral)
    (central : Central) (w w1 : World FakeCluster)
    (h : reconcileCentralStep fakeEnv w remoteCentral central = (none, w1)) :
    ((∃ existing, w.cluster.centrals.find?
          (fun x => x.Namespace == remoteCentral.Metadata.Namespace
            && x.Name == remoteCentral.Metadata.Name) = some existing) →
        (w1.cluster.holdsAutoscaler remoteCentral = true
          ↔ (remoteCentral.CentralResources.Limits.length = 0
            ∧ remoteCentral.CentralResources.Requests.length = 0)))
      ∧ (w.cluster.centrals.find?
          (fun x => x.Namespace == remoteCentral.Metadata.Namespace
            && x.Name == remoteCentral.Metadata.Name) = none →
        ((remoteCentral.CentralResources.Limits.length = 0
            ∧ remoteCentral.CentralResources.Requests.length = 0) →
          w1.cluster.holdsAutoscaler remoteCentral = true)
        ∧ (¬ (remoteCentral.CentralResources.Limits.length = 0
            ∧ remoteCentral.CentralResources.Requests.length = 0) →
          w1.cluster.unstructureds = w.cluster.unstructureds)) := by
  have inv := fake_primary_keeps_unstructureds
  unfold reconcileCentralStep at h
  split at h
  · rename_i e w0 heq
    have hget := inv.of_invoke heq rfl rfl
    have hnone : w.cluster.centrals.find?
        (fun x => x.Namespace == remoteCentral.Metadata.Namespace
          && x.Name == remoteCentral.Metadata.Name) = none := by
      have h1 := congrArg Prod.fst heq
      simp only [invoke, fakeEnv_GetCentral, fakeLookup] at h1
      split at h1
      · cases h1
      · rename_i hn; exact hn
    refine ⟨fun ⟨existing, hex⟩ => (by rw [hnone] at hex; cases hex), fun _ => ?_⟩
    split at h
    · simp at h
    · split at h
      · simp at h
      · rename_i w2 heq2
        have hcreate := inv.of_invoke heq2 rfl rfl
        split at h
        · rename_i hs
          exact ⟨fun _ => createVPAConfig_fake_holds remoteCentral w2 w1 h,
            fun hn => absurd hs hn⟩
        · rename_i hs
          simp only [Prod.mk.injEq, true_and] at h
          subst h
          exact ⟨fun hs2 => absurd hs2 hs, fun _ => hcreate.trans hget⟩
  · rename_i existing w0 heq
    have hsome : w.cluster.centrals.find?
        (fun x => x.Namespace == remoteCentral.Metadata.Namespace
          && x.Name == remoteCentral.Metadata.Name) ≠ none := by
      have h1 := congrArg Prod.fst heq
      simp only [invoke, fakeEnv_GetCentral, fakeLookup] at h1
      split at h1
      · rename_i hs; rw [hs]; simp
      · cases h1
    refine ⟨fun _ => ?_, fun hn => absurd hn hsome⟩
    split at h
    · simp at h
    · split at h
      · simp at h
      · rename_i w2 heq2
        split at h
        · rename_i hs
          exact ⟨fun _ => hs,
            fun _ => ensureVPAConfigExists_fake_holds remoteCentral w2 w1 h⟩
        · rename_i hs
          split at h
          · simp at h
          · rename_i b w3 heq3
            simp only [Prod.mk.injEq, true_and] at h
            subst h
            have hgone := ensureVPAConfigDeleted_fake_gone remoteCentral w2 w3 b heq3
            constructor
            · intro hh; rw [hgone] at hh; cases hh
            · intro hs2; exact absurd hs2 hs

theorem reconcileCentralStep_explicit_steps {σ : Type} {env : Env σ} {allowed : Call → Bool}
    {R : World σ → World σ → Prop} (inv : StepInvariant env allowed R)
    (hfoot : ∀ c, explicitSizingCalls c = true → allowed c = true) (w : World σ)
    (remoteCentral : ManagedCentral) (central : Central)
    (hs : ¬ (remoteCentral.CentralResources.Limits.length = 0
      ∧ remoteCentral.CentralResources.Requests.length = 0)) :
    R w (reconcileCentralStep env w remoteCentral central).2 := by
  have h2 : ∀ c, unstructuredDeletedCalls c = true → allowed c = true := fun c hc =>
    hfoot c (by
      cases c with
      | GetUnstructured _ _ => rfl
      | Delete o => cases o <;> first | rfl | simp [unstructuredDeletedCalls] at hc
      | _ => simp [unstructuredDeletedCalls] at hc)
  unfold reconcileCentralStep
  simp only [if_neg hs]
  split
  · rename_i heq
    have hg := inv.of_invoke heq rfl (by exact hfoot _ rfl)
    split
    · exact hg
    · split
      · rename_i heq2
        exact inv.trans _ _ _ hg (inv.of_invoke heq2 rfl (by exact hfoot _ rfl))
      · rename_i heq2
        exact inv.trans _ _ _ hg (inv.of_invoke heq2 rfl (by exact hfoot _ rfl))
  · rename_i heq
    have hg := inv.of_invoke heq rfl (by exact hfoot _ rfl)
    split
    · exact hg
    · split
      · rename_i heq2
        exact inv.trans _ _ _ hg (inv.of_invoke heq2 rfl (by exact hfoot _ rfl))
      · rename_i w2 heq2
        have hc := inv.trans _ _ _ hg (inv.of_invoke heq2 rfl (by exact hfoot _ rfl))
        have hv := ensureVPAConfigDeleted_steps inv h2 vpaConfigurationCentralName
          remoteCentral w2
        split
        · rename_i heq3
          rw [heq3] at hv
          exact inv.trans _ _ _ hc hv
        · rename_i heq3
          rw [heq3] at hv
          exact inv.trans _ _ _ hc hv

end FakeCentralStep

/-! ## The package defaults under the merge of the tenant sizing -/

section Defaults

variable {σ : Type}

theorem GoMap.find_set_ne {α : Type} (m : GoMap α) (k k2 : String) (v : α) (h : k ≠ k2) :
    GoMap.find (GoMap.set m k v) k2 = GoMap.find m k2 := by
  induction m with
  | nil => simp [GoMap.set, GoMap.find, h]
  | cons kv rest ih =>
    obtain ⟨k1, v1⟩ := kv
    by_cases hk : k1 = k
    · subst hk
      simp [GoMap.set, GoMap.find, h]
    · by_cases hk2 : k1 = k2
      · subst hk2
        simp [GoMap.set, GoMap.find, hk]
      · simp [GoMap.set, GoMap.find, hk, hk2, ih]

theorem GoMap.find_set_eq {α : Type} (m : GoMap α) (k : String) (v : α) :
    GoMap.find (GoMap.set m k v) k = some v := by
  induction m with
  | nil => simp [GoMap.set, GoMap.find]
  | cons kv rest ih =>
    obtain ⟨k1, v1⟩ := kv
    by_cases hk : k1 = k
    · simp [GoMap.set, GoMap.find, hk]
    · simp [GoMap.set, GoMap.find, hk, ih]

/-- Function `patchResourceList` leaves every entry other than those of "cpu" and "memory"
as it was, whatever the updates hold and whether or not it fails. -/
theorem patchResourceList_other_keys (d : Deps) (updates : GoMap String)
    (resources : ResourceList) (k : String) (hk : k ∉ knownResources) :
    GoMap.find (patchResourceList d resources updates).2 k = GoMap.find resources k := by
  induction updates generalizing resources with
  | nil => rfl
  | cons kv rest ih =>
    obtain ⟨k1, v1⟩ := kv
    unfold patchResourceList
    split
    · rename_i hk1
      split
      · rfl
      · rw [ih]
        exact GoMap.find_set_ne _ _ _ _ (fun h => hk (h ▸ hk1))
    · exact ih _

/-- Function `patchResourceList` with no updates returns the list as it was. -/
theorem patchResourceList_empty (d : Deps) (resources : ResourceList) :
    patchResourceList d resources [] = (none, resources) := rfl

/-- Function `patchResourceList` with one update of a known resource that parses stores the
parsed quantity under that key. -/
theorem patchResourceList_single (d : Deps) (resources : ResourceList) (k v : String)
    (qty : Quantity) (hk : k ∈ knownResources) (hq : d.ParseQuantity v = .ok qty) :
    patchResourceList d resources [(k, v)] = (none, GoMap.set resources k qty) := by
  simp [patchResourceList, hk, hq]

theorem reconcileRecord_defaults (d : Deps) (r : CentralReconciler)
    (defaults : ResourceRequirements) (w : World σ) (remoteCentral : ManagedCentral)
    (status : DataPlaneCentralStatus) :
    (reconcileRecord d r defaults w remoteCentral status).defaults = defaults := by
  unfold reconcileRecord
  split <;> rfl

theorem reconcileStatus_defaults (d : Deps) (env : Env σ) (r : CentralReconciler)
    (defaults : ResourceRequirements) (w : World σ) (remoteCentral : ManagedCentral) :
    (reconcileStatus d env r defaults w remoteCentral).defaults = defaults := by
  unfold reconcileStatus
  split
  · split
    · rfl
    · exact reconcileRecord_defaults d r defaults _ remoteCentral _
  · exact reconcileRecord_defaults d r defaults w remoteCentral _

theorem reconcileReadiness_defaults (d : Deps) (env : Env σ) (r : CentralReconciler)
    (defaults : ResourceRequirements) (w : World σ) (remoteCentral : ManagedCentral)
    (changed tls : Bool) :
    (reconcileReadiness d env r defaults w remoteCentral changed tls).defaults = defaults := by
  unfold reconcileReadiness
  split
  · rfl
  · split
    · split <;> rfl
    · split
      · split
        · rfl
        · exact reconcileStatus_defaults d env _ defaults _ remoteCentral
      · exact reconcileStatus_defaults d env r defaults _ remoteCentral

theorem reconcileRoutes_defaults (d : Deps) (env : Env σ) (r : CentralReconciler)
    (defaults : ResourceRequirements) (w : World σ) (remoteCentral : ManagedCentral)
    (changed : Bool) :
    (reconcileRoutes d env r defaults w remoteCentral changed).defaults = defaults := by
  unfold reconcileRoutes
  split
  · split
    · split
      · exact reconcileReadiness_defaults d env r defaults _ remoteCentral changed false
      · rfl
    · exact reconcileReadiness_defaults d env r defaults _ remoteCentral changed true
  · exact reconcileReadiness_defaults d env r defaults w remoteCentral changed true

theorem reconcileCentral_defaults (d : Deps) (env : Env σ) (r : CentralReconciler)
    (defaults : ResourceRequirements) (w : World σ) (remoteCentral : ManagedCentral)
    (changed : Bool) (central : Central) :
    (reconcileCentral d env r defaults w remoteCentral changed central).defaults
      = defaults := by
  unfold reconcileCentral
  split
  · split
    · rfl
    · split
      · rfl
      · split
        · split
          · rfl
          · exact reconcileRoutes_defaults d env r defaults _ remoteCentral changed
        · exact reconcileRoutes_defaults d env r defaults _ remoteCentral changed
  · split
    · rfl
    · split
      · rfl
      · split
        · split
          · rfl
          · exact reconcileRoutes_defaults d env r defaults _ remoteCentral changed
        · split
          · rfl
          · exact reconcileRoutes_defaults d env r defaults _ remoteCentral changed

theorem reconcileConverge_defaults (d : Deps) (env : Env σ) (r : CentralReconciler)
    (defaults : ResourceRequirements) (w : World σ) (remoteCentral : ManagedCentral)
    (changed : Bool) (central : Central) :
    (reconcileConverge d env r defaults w remoteCentral changed central).defaults
      = defaults := by
  unfold reconcileConverge
  split
  · split
    · rfl
    · split <;> rfl
  · split
    · rfl
    · split
      · rfl
      · exact reconcileCentral_defaults d env r defaults _ remoteCentral changed _

/-- Lines 100-105 write through to the maps of `defaults.CentralResources`: whatever
`reconcileBuild` returns, the package requests are the ones `patchResourceList` left, and
so are the package limits once the merge of the requests has succeeded. -/
theorem reconcileBuild_defaults (d : Deps) (env : Env σ) (r : CentralReconciler)
    (defaults : ResourceRequirements) (w : World σ) (remoteCentral : ManagedCentral)
    (changed : Bool) :
    (reconcileBuild d env r defaults w remoteCentral changed).defaults.Requests
        = (patchResourceList d defaults.Requests remoteCentral.CentralResources.Requests).2
      ∧ ((patchResourceList d defaults.Requests remoteCentral.CentralResources.Requests).1
            = none →
          (reconcileBuild d env r defaults w remoteCentral changed).defaults.Limits
            = (patchResourceList d defaults.Limits remoteCentral.CentralResources.Limits).2) := by
  unfold reconcileBuild
  rcases patchResourceList d defaults.Requests remoteCentral.CentralResources.Requests
    with ⟨e1, requests⟩
  cases e1 with
  | some err => exact ⟨rfl, fun h => by cases h⟩
  | none =>
    rcases patchResourceList d defaults.Limits remoteCentral.CentralResources.Limits
      with ⟨e2, limits⟩
    cases e2 with
    | some err => exact ⟨rfl, fun _ => rfl⟩
    | none =>
      simp only []
      split
      · exact ⟨rfl, fun _ => rfl⟩
      · split
        · exact ⟨rfl, fun _ => rfl⟩
        · split
          · split
            · exact ⟨rfl, fun _ => rfl⟩
            · rw [reconcileConverge_defaults]
              exact ⟨rfl, fun _ => rfl⟩
          · rw [reconcileConverge_defaults]
            exact ⟨rfl, fun _ => rfl⟩

/-- A call of `Reconcile` that enters with the flag Free and finds the digest of the desired
central different from the recorded fingerprint leaves the package requests as
`patchResourceList` wrote them. -/
theorem Reconcile_defaults_requests (d : Deps) (env : Env σ) (r : CentralReconciler)
    (defaults : ResourceRequirements) (w : World σ) (remoteCentral : ManagedCentral)
    (hfree : r.status = FreeStatus)
    (hchanged : centralChanged d r remoteCentral = (true, none)) :
    (Reconcile d env r defaults w remoteCentral).defaults.Requests
      = (patchResourceList d defaults.Requests remoteCentral.CentralResources.Requests).2 := by
  have hc : centralChanged d { r with status := BlockedStatus } remoteCentral = (true, none) :=
    hchanged
  unfold Reconcile
  rw [if_pos hfree]
  simp only [reconcileGuarded, hc, Bool.not_true, Bool.false_and, Bool.false_eq_true, if_false]
  exact (reconcileBuild_defaults d env _ defaults w remoteCentral true).1

end Defaults

/-! ## The cached auth provider flags -/

section AuthProvider

variable {σ : Type}

theorem getRoutesStatuses_ingressSteps {env : Env σ} {allowed : Call → Bool}
    {R : World σ → World σ → Prop} (inv : StepInvariant env allowed R)
    (hfoot : ∀ c, ingressCalls c = true → allowed c = true)
    (ns : String) (w : World σ) : R w (getRoutesStatuses env ns w).2 := by
  unfold getRoutesStatuses
  split
  · rename_i heq
    exact inv.of_invoke heq rfl (by exact hfoot _ rfl)
  · rename_i x w1 heq
    have h1 := inv.of_invoke heq rfl (by exact hfoot _ rfl)
    split
    all_goals
      rename_i heq2
      exact inv.trans _ _ _ h1 (inv.of_invoke heq2 rfl (by exact hfoot _ rfl))

theorem ingressCalls_otherThanCreation (c : Call) (h : ingressCalls c = true) :
    otherThanCreation c = true := by
  cases c <;> first | rfl | simp [ingressCalls] at h

theorem readinessGateCalls_otherThanCreation (c : Call) (h : readinessGateCalls c = true) :
    otherThanCreation c = true := by
  cases c <;> first | rfl | simp [readinessGateCalls] at h

theorem centralStepCalls_otherThanCreation (c : Call) (h : centralStepCalls c = true) :
    otherThanCreation c = true := by
  cases c <;> first | rfl | simp [centralStepCalls] at h

theorem deletionCalls_otherThanCreation (c : Call) (h : deletionCalls c = true) :
    otherThanCreation c = true := by
  cases c <;> first | rfl | simp [deletionCalls] at h

theorem namespaceExistsCalls_otherThanCreation (c : Call)
    (h : namespaceExistsCalls c = true) : otherThanCreation c = true := by
  cases c <;> first | rfl | simp [namespaceExistsCalls] at h

theorem unstructuredExistsCalls_otherThanCreation (c : Call)
    (h : unstructuredExistsCalls c = true) : otherThanCreation c = true := by
  cases c <;> first | rfl | simp [unstructuredExistsCalls] at h

theorem reconcileRecord_flags (d : Deps) (r : CentralReconciler)
    (defaults : ResourceRequirements) (w : World σ) (remoteCentral : ManagedCentral)
    (status : DataPlaneCentralStatus) :
    (reconcileRecord d r defaults w remoteCentral status).r.wantsAuthProvider
        = r.wantsAuthProvider
      ∧ (reconcileRecord d r defaults w remoteCentral status).r.hasAuthProvider
        = r.hasAuthProvider := by
  unfold reconcileRecord setLastCentralHash
  cases h : d.MD5SumFromJSONStruct remoteCentral <;> simp

theorem reconcileStatus_flags (d : Deps) (env : Env σ) (r : CentralReconciler)
    (defaults : ResourceRequirements) (w : World σ) (remoteCentral : ManagedCentral) :
    (reconcileStatus d env r defaults w remoteCentral).r.wantsAuthProvider
        = r.wantsAuthProvider
      ∧ (reconcileStatus d env r defaults w remoteCentral).r.hasAuthProvider
        = r.hasAuthProvider
      ∧ CallsWithin otherThanCreation w
          (reconcileStatus d env r defaults w remoteCentral).world := by
  have inv := CallsWithin.invariant env otherThanCreation
  unfold reconcileStatus
  split
  · have h1 := getRoutesStatuses_ingressSteps inv ingressCalls_otherThanCreation
      remoteCentral.Metadata.Namespace w
    split
    · rename_i heq
      rw [heq] at h1
      exact ⟨rfl, rfl, h1⟩
    · rename_i heq
      rw [heq] at h1
      refine ⟨(reconcileRecord_flags d r defaults _ remoteCentral _).1,
        (reconcileRecord_flags d r defaults _ remoteCentral _).2, ?_⟩
      rw [reconcileRecord_world]
      exact h1
  · refine ⟨(reconcileRecord_flags d r defaults _ remoteCentral _).1,
      (reconcileRecord_flags d r defaults _ remoteCentral _).2, ?_⟩
    rw [reconcileRecord_world]
    exact inv.refl w

theorem CreationDiscipline.after_calls {d : Deps} {env : Env σ} {remoteCentral : ManagedCentral}
    {r : CentralReconciler} {w w1 : World σ} {out : Outcome σ}
    (h : CreationDiscipline d env remoteCentral r w1 out)
    (hpre : CallsWithin otherThanCreation w w1) :
    CreationDiscipline d env remoteCentral r w out := by
  have inv := CallsWithin.invariant env otherThanCreation
  obtain ⟨hw, h | ⟨wR, h1, h2, h3, h4, h5⟩⟩ := h
  · exact ⟨hw, Or.inl ⟨h.1, inv.trans _ _ _ hpre h.2⟩⟩
  · exact ⟨hw, Or.inr ⟨wR, h1, h2, h3, inv.trans _ _ _ hpre h4, h5⟩⟩

/-- Lines 264-286: the creation of the auth provider is issued only past the readiness
gate, under the condition of line 276. -/
theorem reconcileReadiness_creation (d : Deps) (env : Env σ) (r : CentralReconciler)
    (defaults : ResourceRequirements) (w : World σ) (remoteCentral : ManagedCentral)
    (changed centralTLSSecretFound : Bool)
    (htls : centralTLSSecretFound = true → r.useRoutes = true →
      ∃ w0, ensureRoutesExist env remoteCentral w0 = (none, w)) :
    CreationDiscipline d env remoteCentral r w
      (reconcileReadiness d env r defaults w remoteCentral changed
        centralTLSSecretFound) := by
  have inv := CallsWithin.invariant env otherThanCreation
  unfold reconcileReadiness
  split
  · rename_i heq
    exact ⟨rfl, Or.inl ⟨rfl, inv.of_invoke heq rfl rfl⟩⟩
  · rename_i ready w1 heq
    split
    · split <;> exact ⟨rfl, Or.inl ⟨rfl, inv.of_invoke heq rfl rfl⟩⟩
    · rename_i hgate
      have hboth : ready = true ∧ centralTLSSecretFound = true := by simpa using hgate
      have hready : (env.isCentralDeploymentReady remoteCentral w.cluster).1
          = Except.ok true := by
        have := congrArg Prod.fst heq
        rw [hboth.1] at this
        exact this
      have hw1 : env.perform (Call.isCentralDeploymentReady remoteCentral) w = w1 :=
        congrArg Prod.snd heq
      split
      · rename_i hcond
        have hc : (r.wantsAuthProvider = true ∧ r.hasAuthProvider = false)
            ∧ isRemoteCentralReady d remoteCentral = false := by simpa using hcond
        split
        · rename_i e w2 heq2
          have hw2 : env.perform (Call.createRHSSOAuthProvider remoteCentral) w1 = w2 :=
            congrArg Prod.snd heq2
          have hres : (env.createRHSSOAuthProvider remoteCentral w1.cluster).1 = some e :=
            congrArg Prod.fst heq2
          refine ⟨rfl, Or.inr ⟨w, hc.1.1, hc.1.2, hc.2, inv.refl w, htls hboth.2, hready,
            ?_, ?_⟩⟩
          · rw [hw1, hw2]
            exact inv.refl w2
          · rw [hw1, hres]
            constructor
            · intro h
              rw [hc.1.2] at h
              cases h
            · intro h
              cases h
        · rename_i w2 heq2
          have hw2 : env.perform (Call.createRHSSOAuthProvider remoteCentral) w1 = w2 :=
            congrArg Prod.snd heq2
          have hres : (env.createRHSSOAuthProvider remoteCentral w1.cluster).1 = none :=
            congrArg Prod.fst heq2
          have hst := reconcileStatus_flags d env { r with hasAuthProvider := true } defaults
            w2 remoteCentral
          refine ⟨hst.1, Or.inr ⟨w, hc.1.1, hc.1.2, hc.2, inv.refl w, htls hboth.2, hready,
            ?_, ?_⟩⟩
          · rw [hw1, hw2]
            exact hst.2.2
          · rw [hw1]
            exact ⟨fun _ => hres, fun _ => hst.2.1⟩
      · have hst := reconcileStatus_flags d env r defaults w1 remoteCentral
        exact ⟨hst.1, Or.inl ⟨hst.2.1, inv.trans _ _ _ (inv.of_invoke heq rfl rfl) hst.2.2⟩⟩

theorem reconcileRoutes_creation (d : Deps) (env : Env σ) (r : CentralReconciler)
    (defaults : ResourceRequirements) (w : World σ) (remoteCentral : ManagedCentral)
    (changed : Bool) :
    CreationDiscipline d env remoteCentral r w
      (reconcileRoutes d env r defaults w remoteCentral changed) := by
  have inv := CallsWithin.invariant env otherThanCreation
  unfold reconcileRoutes
  split
  · have hstep := ensureRoutesExist_gateSteps inv readinessGateCalls_otherThanCreation
      remoteCentral w
    split
    · rename_i heq
      rw [heq] at hstep
      split
      · exact (reconcileReadiness_creation d env r defaults _ remoteCentral changed false
          (fun h => by cases h)).after_calls hstep
      · exact ⟨rfl, Or.inl ⟨rfl, hstep⟩⟩
    · rename_i heq
      rw [heq] at hstep
      exact (reconcileReadiness_creation d env r defaults _ remoteCentral changed true
        (fun _ _ => ⟨w, heq⟩)).after_calls hstep
  · rename_i hroutes
    exact reconcileReadiness_creation d env r defaults w remoteCentral changed true
      (fun _ h => absurd h hroutes)

theorem reconcileCentral_creation (d : Deps) (env : Env σ) (r : CentralReconciler)
    (defaults : ResourceRequirements) (w : World σ) (remoteCentral : ManagedCentral)
    (changed : Bool) (central : Central) :
    CreationDiscipline d env remoteCentral r w
      (reconcileCentral d env r defaults w remoteCentral changed central) := by
  have inv := CallsWithin.invariant env otherThanCreation
  have hstep := reconcileCentralStep_steps inv centralStepCalls_otherThanCreation w
    remoteCentral central
  rw [reconcileCentral_eq_step]
  split
  · rename_i heq
    rw [heq] at hstep
    exact ⟨rfl, Or.inl ⟨rfl, hstep⟩⟩
  · rename_i heq
    rw [heq] at hstep
    exact (reconcileRoutes_creation d env r defaults _ remoteCentral changed).after_calls hstep

theorem reconcileConverge_creation (d : Deps) (env : Env σ) (r : CentralReconciler)
    (defaults : ResourceRequirements) (w : World σ) (remoteCentral : ManagedCentral)
    (changed : Bool) (central : Central) :
    CreationDiscipline d env remoteCentral r w
      (reconcileConverge d env r defaults w remoteCentral changed central) := by
  have inv := CallsWithin.invariant env otherThanCreation
  have hdel := ensureCentralDeleted_steps inv deletionCalls_otherThanCreation d r remoteCentral
    (if r.hasAuthProvider then
      { central with Spec :=
        { central.Spec with CentralAdminPasswordGenerationDisabled := some true } }
     else central) w
  have hns := ensureNamespaceExists_steps inv namespaceExistsCalls_otherThanCreation
    remoteCentral.Metadata.Namespace w
  unfold reconcileConverge
  split
  · split
    · rename_i heq
      rw [heq] at hdel
      exact ⟨rfl, Or.inl ⟨rfl, hdel⟩⟩
    · rename_i heq
      rw [heq] at hdel
      split <;> exact ⟨rfl, Or.inl ⟨rfl, hdel⟩⟩
  · split
    · rename_i heq
      rw [heq] at hns
      exact ⟨rfl, Or.inl ⟨rfl, hns⟩⟩
    · rename_i w1 heq
      rw [heq] at hns
      have hchart := ensureChartResourcesExist_steps inv
        unstructuredExistsCalls_otherThanCreation d r remoteCentral w1
      split
      · rename_i heq2
        rw [heq2] at hchart
        exact ⟨rfl, Or.inl ⟨rfl, inv.trans _ _ _ hns hchart⟩⟩
      · rename_i heq2
        rw [heq2] at hchart
        exact (reconcileCentral_creation d env r defaults _ remoteCentral changed _).after_calls
          (inv.trans _ _ _ hns hchart)

theorem CreationDiscipline.to_auth {d : Deps} {env : Env σ} {remoteCentral : ManagedCentral}
    {r : CentralReconciler} {w : World σ} {out : Outcome σ}
    (h : CreationDiscipline d env remoteCentral r w out) :
    AuthProviderDiscipline d env remoteCentral r w out :=
  ⟨h.1, h.2.elim Or.inl fun hc => Or.inr (Or.inr hc)⟩

/-- Lines 98-174: the probe of line 164 is issued when the receiver wants an auth provider
and knows of none; the flag is set when the probe reports one. -/
theorem reconcileBuild_auth (d : Deps) (env : Env σ) (r : CentralReconciler)
    (defaults : ResourceRequirements) (w : World σ) (remoteCentral : ManagedCentral)
    (changed : Bool) :
    AuthProviderDiscipline d env remoteCentral r w
      (reconcileBuild d env r defaults w remoteCentral changed) := by
  have inv := CallsWithin.invariant env otherThanCreation
  unfold reconcileBuild
  split
  · exact ⟨rfl, Or.inl ⟨rfl, inv.refl w⟩⟩
  · split
    · exact ⟨rfl, Or.inl ⟨rfl, inv.refl w⟩⟩
    · split
      · exact ⟨rfl, Or.inl ⟨rfl, inv.refl w⟩⟩
      · split
        · exact ⟨rfl, Or.inl ⟨rfl, inv.refl w⟩⟩
        · split
          · rename_i hcond
            have hc : r.wantsAuthProvider = true ∧ r.hasAuthProvider = false := by
              simpa using hcond
            split
            · rename_i heq
              exact ⟨rfl, Or.inl ⟨rfl, inv.of_invoke heq rfl rfl⟩⟩
            · rename_i providerExists w1 heq
              have hw1 : env.perform (Call.existsRHSSOAuthProvider remoteCentral) w = w1 :=
                congrArg Prod.snd heq
              have hres : (env.existsRHSSOAuthProvider remoteCentral w.cluster).1
                  = Except.ok providerExists := congrArg Prod.fst heq
              have hstep : CallsWithin otherThanCreation w w1 := inv.of_invoke heq rfl rfl
              cases providerExists with
              | true =>
                rw [if_pos rfl]
                obtain ⟨hw, h | ⟨wR, h1, h2, _⟩⟩ := reconcileConverge_creation d env
                  { r with hasAuthProvider := true } _ w1 remoteCentral changed
                  (desiredCentral d r remoteCentral _ _ _)
                · refine ⟨hw, Or.inr (Or.inl ⟨hc.1, hc.2, h.1, hres, ?_⟩)⟩
                  rw [hw1]
                  exact h.2
                · cases h2
              | false =>
                rw [if_neg (by decide)]
                exact ((reconcileConverge_creation d env r _ w1 remoteCentral changed
                  _).after_calls hstep).to_auth
          · exact (reconcileConverge_creation d env r _ w remoteCentral changed _).to_auth

theorem reconcileGuarded_auth (d : Deps) (env : Env σ) (r : CentralReconciler)
    (defaults : ResourceRequirements) (w : World σ) (remoteCentral : ManagedCentral) :
    AuthProviderDiscipline d env remoteCentral r w
      (reconcileGuarded d env r defaults w remoteCentral) := by
  have inv := CallsWithin.invariant env otherThanCreation
  unfold reconcileGuarded
  split
  · exact ⟨rfl, Or.inl ⟨rfl, inv.refl w⟩⟩
  · split
    · exact ⟨rfl, Or.inl ⟨rfl, inv.refl w⟩⟩
    · exact reconcileBuild_auth d env r defaults w remoteCentral _

/-- Every call of `Reconcile` keeps the discipline of the cached auth provider flags. -/
theorem Reconcile_auth (d : Deps) (env : Env σ) (r : CentralReconciler)
    (defaults : ResourceRequirements) (w : World σ) (remoteCentral : ManagedCentral) :
    AuthProviderDiscipline d env remoteCentral r w
      (Reconcile d env r defaults w remoteCentral) := by
  unfold Reconcile
  split
  · exact reconcileGuarded_auth d env { r with status := BlockedStatus } defaults w
      remoteCentral
  · exact ⟨rfl, Or.inl ⟨rfl, (CallsWithin.invariant env otherThanCreation).refl w⟩⟩

theorem CallsWithin.no_creation {w w1 : World σ} (h : CallsWithin otherThanCreation w w1)
    (extra : List Call) (hex : w1.calls = w.calls ++ extra) (c : Call) (hc : c ∈ extra) :
    c.isAuthProviderCreation = false := by
  obtain ⟨e, he, hall⟩ := h
  have : extra = e := List.append_cancel_left (hex.symm.trans he)
  subst this
  simpa [otherThanCreation] using hall c hc

/-- The log of a call that has passed the creation site holds one creation, the one for the
desired central. -/
theorem CreationSite.creation_calls {d : Deps} {env : Env σ} {remoteCentral : ManagedCentral}
    {r : CentralReconciler} {w wR : World σ} {out : Outcome σ}
    (h : CreationSite d env remoteCentral r w out wR) (extra : List Call)
    (hex : out.world.calls = w.calls ++ extra) (c : Call) (hc : c ∈ extra)
    (hcr : c.isAuthProviderCreation = true) :
    c = Call.createRHSSOAuthProvider remoteCentral := by
  obtain ⟨_, _, _, ⟨pre, hpre, apre⟩, _, _, ⟨post, hpost, apost⟩, _⟩ := h
  rw [Env.perform_calls, Env.perform_calls, hpre] at hpost
  have hcat : w.calls ++ extra = w.calls ++ (pre ++ [Call.isCentralDeploymentReady remoteCentral]
      ++ [Call.createRHSSOAuthProvider remoteCentral] ++ post) := by
    rw [← hex, hpost]
    simp
  have : extra = pre ++ [Call.isCentralDeploymentReady remoteCentral]
      ++ [Call.createRHSSOAuthProvider remoteCentral] ++ post := List.append_cancel_left hcat
  subst this
  simp only [List.mem_append, List.mem_singleton] at hc
  rcases hc with ((hc | hc) | hc) | hc
  · have := apre c hc
    simp [otherThanCreation, hcr] at this
  · subst hc
    cases hcr
  · exact hc
  · have := apost c hc
    simp [otherThanCreation, hcr] at this

/-- One call of `Reconcile` keeps the wanted flag, keeps a known flag that is set, and
keeps the known flag as it is when no auth provider is wanted. -/
theorem Reconcile_flags (d : Deps) (env : Env σ) (r : CentralReconciler)
    (defaults : ResourceRequirements) (w : World σ) (remoteCentral : ManagedCentral) :
    (Reconcile d env r defaults w remoteCentral).r.wantsAuthProvider = r.wantsAuthProvider
      ∧ (r.hasAuthProvider = true →
          (Reconcile d env r defaults w remoteCentral).r.hasAuthProvider = true)
      ∧ (r.wantsAuthProvider = false →
          (Reconcile d env r defaults w remoteCentral).r.hasAuthProvider
            = r.hasAuthProvider) := by
  obtain ⟨hw, hA | hB | ⟨wR, hC⟩⟩ := Reconcile_auth d env r defaults w remoteCentral
  · exact ⟨hw, fun h => hA.1.trans h, fun _ => hA.1⟩
  · exact ⟨hw, fun _ => hB.2.2.1, fun h => (by rw [hB.1] at h; cases h)⟩
  · exact ⟨hw, fun h => (by rw [hC.2.1] at h; cases h), fun h => (by rw [hC.1] at h; cases h)⟩

theorem ReachableFrom.flags {d : Deps} {env : Env σ} {r0 r : CentralReconciler}
    (h : ReachableFrom d env r0 r) :
    r.wantsAuthProvider = r0.wantsAuthProvider
      ∧ (r0.hasAuthProvider = true → r.hasAuthProvider = true)
      ∧ (r0.wantsAuthProvider = false → r.hasAuthProvider = r0.hasAuthProvider) := by
  induction h with
  | start => exact ⟨rfl, id, fun _ => rfl⟩
  | call r1 defaults w remoteCentral _ ih =>
    obtain ⟨h1, h2, h3⟩ := Reconcile_flags d env r1 defaults w remoteCentral
    exact ⟨h1.trans ih.1, fun h => h2 (ih.2.1 h),
      fun h => (h3 (ih.1.trans h)).trans (ih.2.2 h)⟩

end AuthProvider

/-! ## Both routes of the tenant on the model cluster -/

section FakeBothRoutes

theorem find?_filter_keep {α : Type} (p q : α → Bool) (l : List α) (a : α)
    (h : l.find? p = some a) (hq : q a = true) : (l.filter q).find? p = some a := by
  induction l with
  | nil => simp at h
  | cons x xs ih =>
    by_cases hp : p x = true
    · have hx : x = a := by simpa [List.find?, hp] using h
      subst hx
      simp [List.filter, hq, List.find?, hp]
    · have hpf : p x = false := by simpa using hp
      have hrest : xs.find? p = some a := by simpa [List.find?, hpf] using h
      by_cases hqx : q x = true
      · simp [List.filter, hqx, List.find?, hpf, ih hrest]
      · have hqf : q x = false := by simpa using hqx
        simp [List.filter, hqf, ih hrest]

/-- On the model cluster the delete of the re-encrypt route leaves a pass-through route of
another name where it was. -/
theorem fake_passthrough_kept (s : FakeCluster) (ns : String) (re pa : Route)
    (hpa : s.passthroughRoutes.find? (fun x => x.Namespace == ns) = some pa)
    (hname : pa.Name ≠ re.Name) :
    (s.without (.ofRoute re)).passthroughRoutes.find? (fun x => x.Namespace == ns)
      = some pa := by
  apply find?_filter_keep _ _ _ _ hpa
  simp [hname]

/-- The steps of the deletion protocol from a false accumulator, on the model cluster: the
result is `(false, nil)` and the log is extended. -/
theorem runDeletionSteps_fake_false (steps : List (DeletionStep FakeCluster))
    (hnoerr : ∀ step ∈ steps, ∀ w, (step w).1.2 = none)
    (hall : ∀ step ∈ steps, ∀ w, CallsWithin (fun _ => true) w (step w).2)
    (w : World FakeCluster) :
    (runDeletionSteps steps false w).1 = (false, none)
      ∧ ∃ extra : List Call, (runDeletionSteps steps false w).2.calls = w.calls ++ extra := by
  have inv := CallsWithin.invariant fakeEnv (fun _ => true)
  obtain ⟨extra, hlog, _⟩ := runDeletionSteps_steps inv steps hall false w
  exact ⟨Prod.ext (runDeletionSteps_false steps false w (Or.inl rfl))
    (runDeletionSteps_no_error steps hnoerr false w), extra, hlog⟩

/-- On the model cluster, with routes in use and a route of the tenant present, the deletion
protocol returns `(false, nil)` and has issued the delete of every route of the tenant: of
the re-encrypt route when it is present, and of the pass-through route when it is present
(under another name than the re-encrypt route, as two objects of one namespace are). -/
theorem ensureCentralDeleted_fake_routes_present (d : Deps) (r : CentralReconciler)
    (remoteCentral : ManagedCentral) (central : Central) (objs : List Unstructured)
    (w : World FakeCluster) (huse : r.useRoutes = true)
    (hrender : d.RenderToObjects helmReleaseName remoteCentral.Metadata.Namespace
      (chartValues d r remoteCentral).1 = .ok objs)
    (hany : (∃ re, w.cluster.reencryptRoutes.find? (fun x => x.Namespace == central.Namespace)
          = some re)
      ∨ ∃ pa, w.cluster.passthroughRoutes.find? (fun x => x.Namespace == central.Namespace)
          = some pa) :
    (ensureCentralDeleted d fakeEnv r remoteCentral central w).1 = (false, none)
      ∧ ∃ extra : List Call,
          (ensureCentralDeleted d fakeEnv r remoteCentral central w).2.calls
            = w.calls ++ extra
          ∧ (∀ re, w.cluster.reencryptRoutes.find? (fun x => x.Namespace == central.Namespace)
                = some re → Call.Delete (.ofRoute re) ∈ extra)
          ∧ (∀ pa, w.cluster.passthroughRoutes.find? (fun x => x.Namespace == central.Namespace)
                = some pa →
              (∀ re, w.cluster.reencryptRoutes.find?
                (fun x => x.Namespace == central.Namespace) = some re → pa.Name ≠ re.Name) →
              Call.Delete (.ofRoute pa) ∈ extra) := by
  have inv := CallsWithin.invariant fakeEnv (fun _ => true)
  have hall := deletionSteps_steps inv (fun _ _ => rfl) d r remoteCentral central
  have hnoerr := deletionSteps_fake_no_error d r remoteCentral central objs hrender
  rw [ensureCentralDeleted_eq_runDeletionSteps]
  have hsteps : deletionSteps d fakeEnv r remoteCentral central
      = ensureReencryptRouteDeleted fakeEnv central.Namespace
        :: ensurePassthroughRouteDeleted fakeEnv central.Namespace
        :: [ensureCentralCRDeleted fakeEnv central,
            ensureVPAConfigDeleted fakeEnv vpaConfigurationCentralName remoteCentral,
            ensureChartResourcesDeleted d fakeEnv r remoteCentral,
            ensureNamespaceDeleted fakeEnv central.Namespace] := by
    unfold deletionSteps
    rw [if_pos huse]
    rfl
  rw [hsteps] at hall hnoerr ⊢
  have htail := runDeletionSteps_fake_false
    [ensureCentralCRDeleted fakeEnv central,
     ensureVPAConfigDeleted fakeEnv vpaConfigurationCentralName remoteCentral,
     ensureChartResourcesDeleted d fakeEnv r remoteCentral,
     ensureNamespaceDeleted fakeEnv central.Namespace]
    (fun s hs => hnoerr s (List.mem_cons_of_mem _ (List.mem_cons_of_mem _ hs)))
    (fun s hs => hall s (List.mem_cons_of_mem _ (List.mem_cons_of_mem _ hs)))
  cases hre : w.cluster.reencryptRoutes.find? (fun x => x.Namespace == central.Namespace) with
  | some re =>
    rw [runDeletionSteps_cons_ok _ _ _ _ _ _
      (ensureReencryptRouteDeleted_fake_found central.Namespace w re hre)]
    cases hpa1 : (w.cluster.without (.ofRoute re)).passthroughRoutes.find?
        (fun x => x.Namespace == central.Namespace) with
    | some pa1 =>
      rw [runDeletionSteps_cons_ok _ _ _ _ _ _
        (ensurePassthroughRouteDeleted_fake_found central.Namespace
          { cluster := w.cluster.without (.ofRoute re),
            calls := w.calls ++ [.FindReencryptRoute central.Namespace]
              ++ [.Delete (.ofRoute re)] } pa1 hpa1)]
      obtain ⟨hres, extra, hlog⟩ := htail
        { cluster := (w.cluster.without (.ofRoute re)).without (.ofRoute pa1),
          calls := w.calls ++ [.FindReencryptRoute central.Namespace]
            ++ [.Delete (.ofRoute re)] ++ [.FindPassthroughRoute central.Namespace]
            ++ [.Delete (.ofRoute pa1)] }
      refine ⟨hres, [.FindReencryptRoute central.Namespace] ++ [.Delete (.ofRoute re)]
        ++ [.FindPassthroughRoute central.Namespace] ++ [.Delete (.ofRoute pa1)] ++ extra,
        ?_, ?_, ?_⟩
      · show (runDeletionSteps _ false _).2.calls = _
        rw [hlog]
        simp
      · intro re2 h2
        cases h2
        simp
      · intro pa hpa hname
        have hkept := fake_passthrough_kept w.cluster central.Namespace re pa hpa
          (hname re rfl)
        rw [hpa1] at hkept
        cases hkept
        simp
    | none =>
      rw [runDeletionSteps_cons_ok _ _ _ _ _ _
        (ensurePassthroughRouteDeleted_fake_absent central.Namespace
          { cluster := w.cluster.without (.ofRoute re),
            calls := w.calls ++ [.FindReencryptRoute central.Namespace]
              ++ [.Delete (.ofRoute re)] } hpa1)]
      obtain ⟨hres, extra, hlog⟩ := htail
        { cluster := w.cluster.without (.ofRoute re),
          calls := w.calls ++ [.FindReencryptRoute central.Namespace]
            ++ [.Delete (.ofRoute re)] ++ [.FindPassthroughRoute central.Namespace] }
      refine ⟨hres, [.FindReencryptRoute central.Namespace] ++ [.Delete (.ofRoute re)]
        ++ [.FindPassthroughRoute central.Namespace] ++ extra, ?_, ?_, ?_⟩
      · show (runDeletionSteps _ false _).2.calls = _
        rw [hlog]
        simp
      · intro re2 h2
        cases h2
        simp
      · intro pa hpa hname
        have hkept := fake_passthrough_kept w.cluster central.Namespace re pa hpa
          (hname re rfl)
        rw [hpa1] at hkept
        cases hkept
  | none =>
    rw [runDeletionSteps_cons_ok _ _ _ _ _ _
      (ensureReencryptRouteDeleted_fake_absent central.Namespace w hre)]
    rcases hany with ⟨re, h⟩ | ⟨pa0, hpa0⟩
    · rw [hre] at h
      cases h
    · rw [runDeletionSteps_cons_ok _ _ _ _ _ _
        (ensurePassthroughRouteDeleted_fake_found central.Namespace
          { cluster := w.cluster,
            calls := w.calls ++ [.FindReencryptRoute central.Namespace] } pa0 hpa0)]
      obtain ⟨hres, extra, hlog⟩ := htail
        { cluster := w.cluster.without (.ofRoute pa0),
          calls := w.calls ++ [.FindReencryptRoute central.Namespace]
            ++ [.FindPassthroughRoute central.Namespace] ++ [.Delete (.ofRoute pa0)] }
      refine ⟨hres, [.FindReencryptRoute central.Namespace]
        ++ [.FindPassthroughRoute central.Namespace] ++ [.Delete (.ofRoute pa0)] ++ extra,
        ?_, ?_, ?_⟩
      · show (runDeletionSteps _ false _).2.calls = _
        rw [hlog]
        simp
      · intro re2 h2
        cases h2
      · intro pa hpa _
        rw [hpa0] at hpa
        cases hpa
        simp

end FakeBothRoutes

/-! ## Statements about `Reconcile` -/

section Statements

variable {σ : Type}

/-- C1: every return of `Reconcile` other than the final return of the Ready status (that
is `ErrBusy`, `ErrCentralNotChanged`, `ErrDeletionInProgress`, the Deleted status, the
Installing status and every other error) leaves `lastCentralHash` equal to its value before
the call. -/
theorem Reconcile_keeps_fingerprint_unless_ready (d : Deps) (env : Env σ)
    (r : CentralReconciler) (defaults : ResourceRequirements) (w : World σ)
    (remoteCentral : ManagedCentral)
    (h : (Reconcile d env r defaults w remoteCentral).status.map (fun s => s.Condition)
      ≠ some StatusCondition.Ready) :
    (Reconcile d env r defaults w remoteCentral).r.lastCentralHash = r.lastCentralHash := by
  rcases Reconcile_discipline d env r defaults w remoteCentral with h1 | ⟨_, ⟨routes, hs⟩, _⟩
  · exact h1.1
  · rw [hs] at h
    simp at h

theorem Reconcile_keeps_fingerprint_unless_ready_witness :
    (Reconcile sampleDeps fakeEnv (sampleReconciler false false) sampleDefaults
        (freshWorld emptyCluster) (sampleCentral "provisioning")).status.map
        (fun s => s.Condition) ≠ some StatusCondition.Ready
      ∧ (Reconcile sampleDeps fakeEnv (sampleReconciler false false) sampleDefaults
        (freshWorld emptyCluster) (sampleCentral "provisioning")).r.lastCentralHash
        = (sampleReconciler false false).lastCentralHash :=
  ⟨by decide, Reconcile_keeps_fingerprint_unless_ready sampleDeps fakeEnv
    (sampleReconciler false false) sampleDefaults (freshWorld emptyCluster)
    (sampleCentral "provisioning") (by decide)⟩

/-- C2, as stated, fails: on an empty cluster whose deployment is not ready `Reconcile`
returns the Installing status with a nil error, and `lastCentralHash` is not the digest of
the desired central. -/
theorem Reconcile_nil_error_without_fingerprint :
    (Reconcile sampleDeps fakeEnv (sampleReconciler false false) sampleDefaults
        (freshWorld emptyCluster) (sampleCentral "provisioning")).err = none
      ∧ (Reconcile sampleDeps fakeEnv (sampleReconciler false false) sampleDefaults
        (freshWorld emptyCluster) (sampleCentral "provisioning")).status = some installingStatus
      ∧ sampleDeps.MD5SumFromJSONStruct (sampleCentral "provisioning")
        = Except.ok (sampleDigest (sampleCentral "provisioning"))
      ∧ (Reconcile sampleDeps fakeEnv (sampleReconciler false false) sampleDefaults
        (freshWorld emptyCluster) (sampleCentral "provisioning")).r.lastCentralHash
        ≠ sampleDigest (sampleCentral "provisioning") :=
  ⟨by decide, by decide, rfl, by decide⟩

/-- C2, amended: the fingerprint is recorded exactly by the return of the Ready status.
When `Reconcile` returns the Ready status the error is nil and `lastCentralHash` is the
digest of the desired central; when the returned error is non-nil `lastCentralHash` is
unchanged; and when the error is nil with a status other than Ready (Installing, Deleted)
`lastCentralHash` is unchanged as well. -/
theorem Reconcile_records_fingerprint_iff_ready (d : Deps) (env : Env σ)
    (r : CentralReconciler) (defaults : ResourceRequirements) (w : World σ)
    (remoteCentral : ManagedCentral) :
    ((Reconcile d env r defaults w remoteCentral).status.map (fun s => s.Condition)
        = some StatusCondition.Ready →
        (Reconcile d env r defaults w remoteCentral).err = none
        ∧ d.MD5SumFromJSONStruct remoteCentral
          = Except.ok (Reconcile d env r defaults w remoteCentral).r.lastCentralHash)
      ∧ ((Reconcile d env r defaults w remoteCentral).err ≠ none →
        (Reconcile d env r defaults w remoteCentral).r.lastCentralHash = r.lastCentralHash)
      ∧ ((Reconcile d env r defaults w remoteCentral).err = none →
        (Reconcile d env r defaults w remoteCentral).status.map (fun s => s.Condition)
          ≠ some StatusCondition.Ready →
        (Reconcile d env r defaults w remoteCentral).r.lastCentralHash = r.lastCentralHash) := by
  rcases Reconcile_discipline d env r defaults w remoteCentral with h1 | ⟨he, ⟨routes, hs⟩, hm⟩
  · refine ⟨?_, fun _ => h1.1, fun _ _ => h1.1⟩
    intro hr
    cases hst : (Reconcile d env r defaults w remoteCentral).status with
    | none => rw [hst] at hr; simp at hr
    | some s =>
      rw [hst] at hr
      simp at hr
      exact absurd hr (h1.2 s hst)
  · refine ⟨fun _ => ⟨he, hm⟩, fun hne => absurd he hne, ?_⟩
    intro _ hnr
    rw [hs] at hnr
    simp at hnr

/-- A run that returns the Ready status: the cluster reports the deployment ready. -/
theorem Reconcile_records_fingerprint_iff_ready_witness :
    (Reconcile sampleDeps fakeEnv (sampleReconciler false false) sampleDefaults
        (freshWorld { emptyCluster with deploymentReady := true })
        (sampleCentral "provisioning")).status.map (fun s => s.Condition)
        = some StatusCondition.Ready
      ∧ (Reconcile sampleDeps fakeEnv (sampleReconciler false false) sampleDefaults
        (freshWorld { emptyCluster with deploymentReady := true })
        (sampleCentral "provisioning")).err = none
      ∧ sampleDeps.MD5SumFromJSONStruct (sampleCentral "provisioning")
        = Except.ok (Reconcile sampleDeps fakeEnv (sampleReconciler false false) sampleDefaults
          (freshWorld { emptyCluster with deploymentReady := true })
          (sampleCentral "provisioning")).r.lastCentralHash :=
  ⟨by decide,
   (Reconcile_records_fingerprint_iff_ready sampleDeps fakeEnv (sampleReconciler false false)
      sampleDefaults (freshWorld { emptyCluster with deploymentReady := true })
      (sampleCentral "provisioning")).1 (by decide)⟩

/-- C3: entered with the concurrency flag Blocked, `Reconcile` returns `(nil, ErrBusy)` at
once: the cluster and the log of calls are as before (no call is issued), the receiver is
as before (so `lastCentralHash` and `hasAuthProvider` are unchanged and the flag is still
Blocked), and the package defaults are untouched. -/
theorem Reconcile_blocked_returns_busy (d : Deps) (env : Env σ) (r : CentralReconciler)
    (defaults : ResourceRequirements) (w : World σ) (remoteCentral : ManagedCentral)
    (h : r.status = BlockedStatus) :
    (Reconcile d env r defaults w remoteCentral).status = none
      ∧ (Reconcile d env r defaults w remoteCentral).err = some Error.ErrBusy
      ∧ (Reconcile d env r defaults w remoteCentral).world = w
      ∧ (Reconcile d env r defaults w remoteCentral).r = r
      ∧ (Reconcile d env r defaults w remoteCentral).r.status = BlockedStatus
      ∧ (Reconcile d env r defaults w remoteCentral).defaults = defaults := by
  unfold Reconcile
  rw [if_neg (by rw [h]; decide)]
  exact ⟨rfl, rfl, rfl, rfl, h, rfl⟩

theorem Reconcile_blocked_returns_busy_witness :
    ({ sampleReconciler true true with status := BlockedStatus }).status = BlockedStatus
      ∧ (Reconcile sampleDeps fakeEnv { sampleReconciler true true with status := BlockedStatus }
          sampleDefaults (freshWorld emptyCluster) (sampleCentral "ready")).err
        = some Error.ErrBusy
      ∧ (Reconcile sampleDeps fakeEnv { sampleReconciler true true with status := BlockedStatus }
          sampleDefaults (freshWorld emptyCluster) (sampleCentral "ready")).world.calls = [] :=
  ⟨rfl,
   (Reconcile_blocked_returns_busy sampleDeps fakeEnv
      { sampleReconciler true true with status := BlockedStatus } sampleDefaults
      (freshWorld emptyCluster) (sampleCentral "ready") rfl).2.1,
   by rw [(Reconcile_blocked_returns_busy sampleDeps fakeEnv
      { sampleReconciler true true with status := BlockedStatus } sampleDefaults
      (freshWorld emptyCluster) (sampleCentral "ready") rfl).2.2.1]; rfl⟩

/-- C4: a `Reconcile` call entered with the concurrency flag Free leaves the flag Free on
every return path; hence every reconciler state reached from `NewCentralReconciler` by
calls made one after the other has the flag Free. -/
theorem Reconcile_releases_guard (d : Deps) (env : Env σ) (r : CentralReconciler)
    (defaults : ResourceRequirements) (w : World σ) (remoteCentral : ManagedCentral)
    (central : ManagedCentral) (opts : CentralReconcilerOptions) :
    (r.status = FreeStatus → (Reconcile d env r defaults w remoteCentral).r.status = FreeStatus)
      ∧ (Reachable d env central opts r → r.status = FreeStatus) := by
  have step : ∀ (r : CentralReconciler) (defaults : ResourceRequirements) (w : World σ)
      (remoteCentral : ManagedCentral), r.status = FreeStatus →
      (Reconcile d env r defaults w remoteCentral).r.status = FreeStatus := by
    intro r defaults w remoteCentral h
    unfold Reconcile
    rw [if_pos h]
  refine ⟨step r defaults w remoteCentral, ?_⟩
  intro hreach
  induction hreach with
  | fresh => rfl
  | call r0 d0 w0 c0 _ ih => exact step r0 d0 w0 c0 ih

theorem Reconcile_releases_guard_witness :
    (Reconcile sampleDeps fakeEnv (sampleReconciler true true) sampleDefaults
        (freshWorld emptyCluster) (sampleCentral "provisioning")).r.status = FreeStatus
      ∧ (Reconcile sampleDeps fakeEnv
          (Reconcile sampleDeps fakeEnv (sampleReconciler true true) sampleDefaults
            (freshWorld emptyCluster) (sampleCentral "provisioning")).r sampleDefaults
          (freshWorld emptyCluster) (sampleCentral "ready")).r.status = FreeStatus :=
  ⟨(Reconcile_releases_guard sampleDeps fakeEnv (sampleReconciler true true) sampleDefaults
      (freshWorld emptyCluster) (sampleCentral "provisioning") (sampleCentral "provisioning")
      { UseRoutes := true, WantsAuthProvider := true, EgressProxyImage := "" }).1 rfl,
   (Reconcile_releases_guard sampleDeps fakeEnv _ sampleDefaults
      (freshWorld emptyCluster) (sampleCentral "ready") (sampleCentral "provisioning")
      { UseRoutes := true, WantsAuthProvider := true, EgressProxyImage := "" }).2
      (Reachable.call _ _ _ _ (Reachable.call _ _ _ _ Reachable.fresh))⟩

/-- The steady-state fast path, shared by the statements below: entered with the flag Free,
an unchanged digest, matching auth-provider flags and a desired central reported Ready,
`Reconcile` returns `ErrCentralNotChanged` and nothing but the flag round trip happens. -/
theorem Reconcile_fast_path (d : Deps) (env : Env σ) (r : CentralReconciler)
    (defaults : ResourceRequirements) (w : World σ) (remoteCentral : ManagedCentral)
    (hfree : r.status = FreeStatus)
    (hdigest : d.MD5SumFromJSONStruct remoteCentral = Except.ok r.lastCentralHash)
    (hauth : r.wantsAuthProvider = r.hasAuthProvider)
    (hready : remoteCentral.RequestStatus = d.CentralRequestStatusReady) :
    Reconcile d env r defaults w remoteCentral
      = { status := none, err := some Error.ErrCentralNotChanged, r := r, defaults := defaults,
          world := w } := by
  unfold Reconcile reconcileGuarded centralChanged isRemoteCentralReady
  rw [if_pos hfree]
  simp only [hdigest, hauth, hready]
  simp
  cases r
  simp_all

/-- C5: entered with the concurrency flag Free (the guard of line 82 is acquired), if the
digest of the desired central equals `lastCentralHash`, `wantsAuthProvider` equals
`hasAuthProvider` and the desired central is reported Ready, then `Reconcile` returns
`(nil, ErrCentralNotChanged)`, the cluster and the log of calls are as before (no read and
no write is issued), and `lastCentralHash` and `hasAuthProvider` are unchanged. -/
theorem Reconcile_steady_state_fast_path (d : Deps) (env : Env σ) (r : CentralReconciler)
    (defaults : ResourceRequirements) (w : World σ) (remoteCentral : ManagedCentral)
    (hfree : r.status = FreeStatus)
    (hdigest : d.MD5SumFromJSONStruct remoteCentral = Except.ok r.lastCentralHash)
    (hauth : r.wantsAuthProvider = r.hasAuthProvider)
    (hready : remoteCentral.RequestStatus = d.CentralRequestStatusReady) :
    (Reconcile d env r defaults w remoteCentral).status = none
      ∧ (Reconcile d env r defaults w remoteCentral).err = some Error.ErrCentralNotChanged
      ∧ (Reconcile d env r defaults w remoteCentral).world.calls = w.calls
      ∧ (Reconcile d env r defaults w remoteCentral).world.cluster = w.cluster
      ∧ (Reconcile d env r defaults w remoteCentral).r.lastCentralHash = r.lastCentralHash
      ∧ (Reconcile d env r defaults w remoteCentral).r.hasAuthProvider = r.hasAuthProvider := by
  rw [Reconcile_fast_path d env r defaults w remoteCentral hfree hdigest hauth hready]
  exact ⟨rfl, rfl, rfl, rfl, rfl, rfl⟩

theorem Reconcile_steady_state_fast_path_witness :
    (Reconcile sampleDeps fakeEnv
        { sampleReconciler true false with lastCentralHash := sampleDigest (sampleCentral "ready") }
        sampleDefaults (freshWorld emptyCluster) (sampleCentral "ready")).status = none
      ∧ (Reconcile sampleDeps fakeEnv
        { sampleReconciler true false with lastCentralHash := sampleDigest (sampleCentral "ready") }
        sampleDefaults (freshWorld emptyCluster) (sampleCentral "ready")).err
        = some Error.ErrCentralNotChanged
      ∧ (Reconcile sampleDeps fakeEnv
        { sampleReconciler true false with lastCentralHash := sampleDigest (sampleCentral "ready") }
        sampleDefaults (freshWorld emptyCluster) (sampleCentral "ready")).world.calls = [] :=
  ⟨(Reconcile_steady_state_fast_path sampleDeps fakeEnv
      { sampleReconciler true false with lastCentralHash := sampleDigest (sampleCentral "ready") }
      sampleDefaults (freshWorld emptyCluster) (sampleCentral "ready") rfl rfl rfl rfl).1,
   (Reconcile_steady_state_fast_path sampleDeps fakeEnv
      { sampleReconciler true false with lastCentralHash := sampleDigest (sampleCentral "ready") }
      sampleDefaults (freshWorld emptyCluster) (sampleCentral "ready") rfl rfl rfl rfl).2.1,
   (Reconcile_steady_state_fast_path sampleDeps fakeEnv
      { sampleReconciler true false with lastCentralHash := sampleDigest (sampleCentral "ready") }
      sampleDefaults (freshWorld emptyCluster) (sampleCentral "ready") rfl rfl rfl rfl).2.2.1⟩

/-- C6: whenever the digest of the desired central is not `lastCentralHash` (it differs, or
it cannot be computed), `Reconcile` does not return `ErrCentralNotChanged`, on any return
path; in particular, after a `Reconcile` of `desired1` that returned the Ready status, a
`Reconcile` of a `desired2` with a different digest does not return `ErrCentralNotChanged`,
whatever the cluster and the package defaults are by then. -/
theorem Reconcile_fingerprint_gating (d : Deps) (env : Env σ) (r : CentralReconciler)
    (defaults defaults2 : ResourceRequirements) (w w2 : World σ)
    (desired1 desired2 : ManagedCentral) :
    (d.MD5SumFromJSONStruct desired1 ≠ Except.ok r.lastCentralHash →
        (Reconcile d env r defaults w desired1).err ≠ some Error.ErrCentralNotChanged)
      ∧ ((Reconcile d env r defaults w desired1).status.map (fun s => s.Condition)
          = some StatusCondition.Ready →
        d.MD5SumFromJSONStruct desired2 ≠ d.MD5SumFromJSONStruct desired1 →
        (Reconcile d env (Reconcile d env r defaults w desired1).r defaults2 w2 desired2).err
          ≠ some Error.ErrCentralNotChanged) := by
  have gating : ∀ (r : CentralReconciler) (defaults : ResourceRequirements) (w : World σ)
      (desired : ManagedCentral),
      d.MD5SumFromJSONStruct desired ≠ Except.ok r.lastCentralHash →
      (Reconcile d env r defaults w desired).err ≠ some Error.ErrCentralNotChanged := by
    intro r defaults w desired hne herr
    unfold Reconcile at herr
    split at herr
    · exact hne (reconcileGuarded_notChanged d env { r with status := BlockedStatus } defaults w
        desired herr)
    · simp at herr
  refine ⟨gating r defaults w desired1, ?_⟩
  intro hready hne
  apply gating
  rcases Reconcile_discipline d env r defaults w desired1 with h1 | ⟨_, _, hm⟩
  · cases hst : (Reconcile d env r defaults w desired1).status with
    | none => rw [hst] at hready; simp at hready
    | some s =>
      rw [hst] at hready
      simp at hready
      exact absurd hready (h1.2 s hst)
  · rw [← hm]
    exact hne

theorem Reconcile_fingerprint_gating_witness :
    (Reconcile sampleDeps fakeEnv
        (Reconcile sampleDeps fakeEnv (sampleReconciler false false) sampleDefaults
          (freshWorld { emptyCluster with deploymentReady := true })
          (sampleCentral "provisioning")).r
        sampleDefaults (freshWorld emptyCluster) (sampleCentral "ready")).err
      ≠ some Error.ErrCentralNotChanged :=
  (Reconcile_fingerprint_gating sampleDeps fakeEnv (sampleReconciler false false) sampleDefaults
    sampleDefaults (freshWorld { emptyCluster with deploymentReady := true })
    (freshWorld emptyCluster) (sampleCentral "provisioning") (sampleCentral "ready")).2
    (by decide) (fun h => absurd (Except.ok.inj h) (by decide))

/-- C7, as stated, fails: with the recorded fingerprint equal to the digest and the desired
central reported Ready, but `wantsAuthProvider` set and `hasAuthProvider` not, `Reconcile`
does not return `ErrCentralNotChanged` and issues write calls. -/
theorem Reconcile_ready_unchanged_still_writes :
    sampleDeps.MD5SumFromJSONStruct (sampleCentral "ready")
        = Except.ok ({ sampleReconciler false true with
            lastCentralHash := sampleDigest (sampleCentral "ready") }).lastCentralHash
      ∧ (sampleCentral "ready").RequestStatus = sampleDeps.CentralRequestStatusReady
      ∧ (Reconcile sampleDeps fakeEnv
          { sampleReconciler false true with
            lastCentralHash := sampleDigest (sampleCentral "ready") }
          sampleDefaults (freshWorld emptyCluster) (sampleCentral "ready")).err
        ≠ some Error.ErrCentralNotChanged
      ∧ ((Reconcile sampleDeps fakeEnv
          { sampleReconciler false true with
            lastCentralHash := sampleDigest (sampleCentral "ready") }
          sampleDefaults (freshWorld emptyCluster) (sampleCentral "ready")).world.calls.filter
          Call.isWrite).length = 4 :=
  ⟨rfl, rfl, by decide, by decide⟩

/-- C7, amended: entered with the flag Free, with the recorded fingerprint equal to the
digest of the desired central, the desired central reported Ready, and `wantsAuthProvider`
equal to the cached `hasAuthProvider`, `Reconcile` returns `ErrCentralNotChanged` and the
log holds no write call (create, update, delete) beyond those it held before. -/
theorem Reconcile_scenario_B (d : Deps) (env : Env σ) (r : CentralReconciler)
    (defaults : ResourceRequirements) (w : World σ) (remoteCentral : ManagedCentral)
    (hfree : r.status = FreeStatus)
    (hdigest : d.MD5SumFromJSONStruct remoteCentral = Except.ok r.lastCentralHash)
    (hready : remoteCentral.RequestStatus = d.CentralRequestStatusReady)
    (hauth : r.wantsAuthProvider = r.hasAuthProvider) :
    (Reconcile d env r defaults w remoteCentral).err = some Error.ErrCentralNotChanged
      ∧ (Reconcile d env r defaults w remoteCentral).world.calls.filter Call.isWrite
        = w.calls.filter Call.isWrite := by
  rw [Reconcile_fast_path d env r defaults w remoteCentral hfree hdigest hauth hready]
  exact ⟨rfl, rfl⟩

theorem Reconcile_scenario_B_witness :
    (Reconcile sampleDeps fakeEnv
        { sampleReconciler true true with
          lastCentralHash := sampleDigest (sampleCentral "ready"), hasAuthProvider := true }
        sampleDefaults (freshWorld emptyCluster) (sampleCentral "ready")).err
        = some Error.ErrCentralNotChanged
      ∧ (Reconcile sampleDeps fakeEnv
        { sampleReconciler true true with
          lastCentralHash := sampleDigest (sampleCentral "ready"), hasAuthProvider := true }
        sampleDefaults (freshWorld emptyCluster) (sampleCentral "ready")).world.calls.filter
          Call.isWrite = [] :=
  Reconcile_scenario_B sampleDeps fakeEnv
    { sampleReconciler true true with
      lastCentralHash := sampleDigest (sampleCentral "ready"), hasAuthProvider := true }
    sampleDefaults (freshWorld emptyCluster) (sampleCentral "ready") rfl rfl rfl rfl

/-- C8, as stated, fails: for a desired central still in the provisioning status the first
`Reconcile` returns the Ready status and records the fingerprint, and the second
`Reconcile` of the same desired central, on the cluster as the first call left it, does not
return `ErrCentralNotChanged`: it returns the Ready status again after updating the primary
resource, whose revision is then "2". -/
theorem Reconcile_twice_updates_again :
    (sampleCentral "provisioning").Metadata.DeletionTimestamp = ""
      ∧ (sampleFirstPass "provisioning").status = some readyStatus
      ∧ (sampleFirstPass "provisioning").err = none
      ∧ (sampleFirstPass "provisioning").r.lastCentralHash
        = sampleDigest (sampleCentral "provisioning")
      ∧ (sampleFirstPass "provisioning").world.cluster.revisions = ["1"]
      ∧ (sampleSecondPass "provisioning").err ≠ some Error.ErrCentralNotChanged
      ∧ (sampleSecondPass "provisioning").status = some readyStatus
      ∧ (sampleSecondPass "provisioning").world.cluster.revisions = ["2"] :=
  ⟨rfl, by decide, by decide, by decide, by decide, by decide, by decide, by decide⟩

/-- C8, amended: if `Reconcile` of a desired central returns the Ready status (so the
fingerprint is recorded), the desired central is reported Ready, and after the call
`wantsAuthProvider` equals the cached `hasAuthProvider`, then a following `Reconcile` of
the same desired central on the same reconciler returns `(nil, ErrCentralNotChanged)` and
issues no call at all, so the primary resource is not updated and its revision is not
incremented again. -/
theorem Reconcile_idempotent_when_ready (d : Deps) (env : Env σ) (r : CentralReconciler)
    (defaults defaults2 : ResourceRequirements) (w w2 : World σ)
    (remoteCentral : ManagedCentral)
    (hfirst : (Reconcile d env r defaults w remoteCentral).status.map (fun s => s.Condition)
      = some StatusCondition.Ready)
    (hready : remoteCentral.RequestStatus = d.CentralRequestStatusReady)
    (hauth : (Reconcile d env r defaults w remoteCentral).r.wantsAuthProvider
      = (Reconcile d env r defaults w remoteCentral).r.hasAuthProvider) :
    (Reconcile d env (Reconcile d env r defaults w remoteCentral).r defaults2 w2
        remoteCentral).status = none
      ∧ (Reconcile d env (Reconcile d env r defaults w remoteCentral).r defaults2 w2
        remoteCentral).err = some Error.ErrCentralNotChanged
      ∧ (Reconcile d env (Reconcile d env r defaults w remoteCentral).r defaults2 w2
        remoteCentral).world = w2 := by
  have hfree : (Reconcile d env r defaults w remoteCentral).r.status = FreeStatus := by
    by_cases hs : r.status = FreeStatus
    · unfold Reconcile
      rw [if_pos hs]
    · unfold Reconcile at hfirst
      rw [if_neg hs] at hfirst
      simp at hfirst
  have hdigest : d.MD5SumFromJSONStruct remoteCentral
      = Except.ok (Reconcile d env r defaults w remoteCentral).r.lastCentralHash := by
    rcases Reconcile_discipline d env r defaults w remoteCentral with h1 | ⟨_, _, hm⟩
    · cases hst : (Reconcile d env r defaults w remoteCentral).status with
      | none => rw [hst] at hfirst; simp at hfirst
      | some s =>
        rw [hst] at hfirst
        simp at hfirst
        exact absurd hfirst (h1.2 s hst)
    · exact hm
  rw [Reconcile_fast_path d env _ defaults2 w2 remoteCentral hfree hdigest hauth hready]
  exact ⟨rfl, rfl, rfl⟩

theorem Reconcile_idempotent_when_ready_witness :
    (sampleFirstPass "ready").status.map (fun s => s.Condition) = some StatusCondition.Ready
      ∧ (sampleSecondPass "ready").status = none
      ∧ (sampleSecondPass "ready").err = some Error.ErrCentralNotChanged
      ∧ (sampleSecondPass "ready").world = (sampleFirstPass "ready").world :=
  ⟨by decide,
   Reconcile_idempotent_when_ready sampleDeps fakeEnv (sampleReconciler false false)
    sampleDefaults (sampleFirstPass "ready").defaults
    (freshWorld { emptyCluster with deploymentReady := true }) (sampleFirstPass "ready").world
    (sampleCentral "ready") (by decide) rfl (by decide)⟩

/-- C9, as stated, fails: the revision annotation "9223372036854775807" holds the decimal
integer `maxInt`, the update pass succeeds, and the persisted revision is
"-9223372036854775808", which is neither the rendering of `maxInt + 1` nor greater. -/
theorem Reconcile_revision_wraps_around :
    Atoi "9223372036854775807" = some maxInt
      ∧ maxRevisionCluster.revisions = ["9223372036854775807"]
      ∧ (Reconcile sampleDeps fakeEnv (sampleReconciler false false) sampleDefaults
          (freshWorld maxRevisionCluster) (sampleCentral "provisioning")).err = none
      ∧ (Reconcile sampleDeps fakeEnv (sampleReconciler false false) sampleDefaults
          (freshWorld maxRevisionCluster) (sampleCentral "provisioning")).status
          = some readyStatus
      ∧ (Reconcile sampleDeps fakeEnv (sampleReconciler false false) sampleDefaults
          (freshWorld maxRevisionCluster) (sampleCentral "provisioning")).world.cluster.revisions
          = ["-9223372036854775808"]
      ∧ Sprintf_d (maxInt + 1) = "9223372036854775808"
      ∧ Atoi "-9223372036854775808" = some minInt :=
  ⟨by decide, by decide, by decide, by decide, by decide, by decide, by decide⟩

/-- C9, amended: for a primary resource whose revision annotation `strconv.Atoi` reads as
`n` with `n` below the largest `int`, `incrementCentralRevision` succeeds and writes the
decimal rendering of `n + 1`, which reads back as `n + 1`; on the model cluster, `N` calls
of `Reconcile` in a row for the same tenant, none with a deletion marker and all returning
a nil error, take a resource with revision `n` to revision `n + N` as long as `n + N` does
not exceed the largest `int`; and a call that returns a nil error for a tenant whose
primary resource is absent leaves that resource with revision "1". -/
theorem revision_monotonicity (d : Deps) (central : Central) (n : Int) (ns name : String)
    (desired : List ManagedCentral) (r : CentralReconciler) (defaults : ResourceRequirements)
    (w : World FakeCluster) (remoteCentral : ManagedCentral) :
    (Atoi (GoMap.get (central.Annotations.getD []) revisionAnnotationKey) = some n →
        n < maxInt →
        (incrementCentralRevision central).1 = none
        ∧ GoMap.get ((incrementCentralRevision central).2.Annotations.getD [])
            revisionAnnotationKey = Sprintf_d (n + 1)
        ∧ Atoi (Sprintf_d (n + 1)) = some (n + 1)
        ∧ n < n + 1)
      ∧ ((∀ c ∈ desired, c.Metadata.DeletionTimestamp = "" ∧ c.Metadata.Namespace = ns
            ∧ c.Metadata.Name = name) →
        (w.cluster.revisionOf ns name).bind Atoi = some n →
        n + desired.length ≤ maxInt →
        (reconcileAll d fakeEnv desired r defaults w).1 = true →
        ((reconcileAll d fakeEnv desired r defaults w).2.cluster.revisionOf ns name).bind Atoi
          = some (n + desired.length))
      ∧ (remoteCentral.Metadata.DeletionTimestamp = "" →
        w.cluster.revisionOf remoteCentral.Metadata.Namespace remoteCentral.Metadata.Name
          = none →
        (Reconcile d fakeEnv r defaults w remoteCentral).err = none →
        (Reconcile d fakeEnv r defaults w remoteCentral).world.cluster.revisionOf
          remoteCentral.Metadata.Namespace remoteCentral.Metadata.Name = some "1") := by
  refine ⟨?_, fake_update_passes_revision d ns name desired r defaults w n,
    fake_create_pass_revision d r defaults w remoteCentral⟩
  intro hrev hn
  have hrange := Atoi_range _ _ hrev
  have hwrap : wrapInt (n + 1) = n + 1 :=
    wrapInt_of_range _ (by have := hrange.1; omega) (by omega)
  unfold incrementCentralRevision
  simp only [hrev, hwrap, Option.getD_some, GoMap.get_set, true_and]
  exact ⟨Atoi_Sprintf_d (n + 1) (by have := hrange.1; omega) (by omega), by omega⟩

/-- Two update passes after the creating pass of the sample run: revision "1" becomes
"3". -/
theorem revision_monotonicity_witness :
    ((sampleFirstPass "provisioning").world.cluster.revisionOf "rhacs-c1" "central").bind Atoi
        = some 1
      ∧ ((reconcileAll sampleDeps fakeEnv [sampleCentral "provisioning", sampleCentral "installing"]
          (sampleFirstPass "provisioning").r (sampleFirstPass "provisioning").defaults
          (sampleFirstPass "provisioning").world).2.cluster.revisionOf "rhacs-c1" "central").bind
          Atoi = some (1 + ([sampleCentral "provisioning", sampleCentral "installing"].length : Int)) :=
  ⟨by decide,
   (revision_monotonicity sampleDeps
      { Name := "", Namespace := "", Labels := [], Annotations := none,
        Spec := (desiredCentral sampleDeps (sampleReconciler false false)
          (sampleCentral "provisioning") sampleDefaults { Limits := [], Requests := [] }
          { Limits := [], Requests := [] }).Spec }
      1 "rhacs-c1" "central"
      [sampleCentral "provisioning", sampleCentral "installing"]
      (sampleFirstPass "provisioning").r (sampleFirstPass "provisioning").defaults
      (sampleFirstPass "provisioning").world (sampleCentral "provisioning")).2.1
      (by decide) (by decide) (by decide) (by decide)⟩

/-- C10: on the model cluster, for a desired central with empty Central requests and limits
and no deletion marker, a reconciler entered with the flag Free, a changed digest, scanner
resources that convert, and rendered auxiliary objects that are pairwise distinct by key:
when the namespace, the auxiliary objects, the primary resource and the autoscaler
configuration are all absent and the deployment is not reported ready, `Reconcile` returns
the Installing status with a nil error, and the objects it hands to `client.Create` are, in
this order, the namespace, each rendered auxiliary object, the primary resource (with the
managed-by label, the managed-services annotation and revision "1") and the autoscaler
configuration. -/
theorem Reconcile_scenario_A (d : Deps) (r : CentralReconciler)
    (defaults : ResourceRequirements) (w : World FakeCluster) (remoteCentral : ManagedCentral)
    (objs : List Unstructured) (hash : Hash) (sar sdr : ResourceRequirements)
    (hfree : r.status = FreeStatus)
    (hdigest : d.MD5SumFromJSONStruct remoteCentral = Except.ok hash)
    (hchanged : hash ≠ r.lastCentralHash)
    (hnodel : remoteCentral.Metadata.DeletionTimestamp = "")
    (hreq : remoteCentral.CentralResources.Requests = [])
    (hlim : remoteCentral.CentralResources.Limits = [])
    (hsar : d.ConvertPrivateResourceRequirementsToCoreV1 remoteCentral.ScannerAnalyzerResources
      = Except.ok sar)
    (hsdr : d.ConvertPrivateResourceRequirementsToCoreV1 remoteCentral.ScannerDbResources
      = Except.ok sdr)
    (hrender : d.RenderToObjects helmReleaseName remoteCentral.Metadata.Namespace
      (chartValues d r remoteCentral).1 = Except.ok objs)
    (hdistinct : (objs.map (chartObject remoteCentral)).Pairwise
      (fun a b => a.sameKey b = false))
    (hns : ∀ x ∈ w.cluster.namespaces, x.Name ≠ remoteCentral.Metadata.Namespace)
    (haux : ∀ o ∈ objs, ∀ x ∈ w.cluster.unstructureds,
      x.sameKey (chartObject remoteCentral o) = false)
    (hcentral : ∀ x ∈ w.cluster.centrals,
      ¬ (x.Namespace = remoteCentral.Metadata.Namespace ∧ x.Name = remoteCentral.Metadata.Name))
    (hvpa : ∀ x ∈ w.cluster.unstructureds ++ objs.map (chartObject remoteCentral),
      x.sameKey (vpaConfig vpaConfigurationCentralName "central" remoteCentral) = false)
    (hnr : w.cluster.deploymentReady = false) :
    (Reconcile d fakeEnv r defaults w remoteCentral).status = some installingStatus
      ∧ (Reconcile d fakeEnv r defaults w remoteCentral).err = none
      ∧ ∃ created : Central,
        created.Name = remoteCentral.Metadata.Name
        ∧ created.Namespace = remoteCentral.Metadata.Namespace
        ∧ created.Labels = [(d.ManagedByLabelKey, d.ManagedByFleetshardValue)]
        ∧ created.Annotations
          = some [( managedServicesAnnotation, "true"), (revisionAnnotationKey, "1")]
        ∧ createdObjects (Reconcile d fakeEnv r defaults w remoteCentral).world.calls
          = createdObjects w.calls
            ++ [Object.ofNamespace { Name := remoteCentral.Metadata.Namespace, Phase := "" }]
            ++ objs.map (fun o => Object.ofUnstructured (chartObject remoteCentral o))
            ++ [Object.ofCentral created,
                Object.ofUnstructured
                  (vpaConfig vpaConfigurationCentralName "central" remoteCentral)] := by
  have hconv : ∀ (r0 : CentralReconciler) (w0 : World FakeCluster),
      chartValues d r0 remoteCentral = chartValues d r remoteCentral →
      w0.cluster = w.cluster → createdObjects w0.calls = createdObjects w.calls →
      (reconcileConverge d fakeEnv r0 defaults w0 remoteCentral true
          (desiredCentral d r remoteCentral defaults sar sdr)).status = some installingStatus
        ∧ (reconcileConverge d fakeEnv r0 defaults w0 remoteCentral true
          (desiredCentral d r remoteCentral defaults sar sdr)).err = none
        ∧ ∃ created : Central,
          created.Name = remoteCentral.Metadata.Name
          ∧ created.Namespace = remoteCentral.Metadata.Namespace
          ∧ created.Labels = [(d.ManagedByLabelKey, d.ManagedByFleetshardValue)]
          ∧ created.Annotations
            = some [( managedServicesAnnotation, "true"), (revisionAnnotationKey, "1")]
          ∧ createdObjects (reconcileConverge d fakeEnv r0 defaults w0 remoteCentral true
              (desiredCentral d r remoteCentral defaults sar sdr)).world.calls
            = createdObjects w.calls
              ++ [Object.ofNamespace { Name := remoteCentral.Metadata.Namespace, Phase := "" }]
              ++ objs.map (fun o => Object.ofUnstructured (chartObject remoteCentral o))
              ++ [Object.ofCentral created,
                  Object.ofUnstructured
                    (vpaConfig vpaConfigurationCentralName "central" remoteCentral)] := by
    intro r0 w0 hcv hcl hco
    obtain ⟨h1, h2, created, hn, hs, hl, ha, hc⟩ :=
      reconcileConverge_fake_absent d r0 defaults w0 remoteCentral
        (desiredCentral d r remoteCentral defaults sar sdr) objs hnodel ⟨rfl, rfl⟩ hreq hlim
        (by rw [hcv]; exact hrender) (by rw [hcl]; exact hns) (by rw [hcl]; exact haux)
        hdistinct (by rw [hcl]; exact hcentral) (by rw [hcl]; exact hvpa)
        (by rw [hcl]; exact hnr)
    refine ⟨h1, h2, created, hn, hs, hl, ?_, ?_⟩
    · rw [ha]
      exact desiredCentral_annotations_created d r remoteCentral defaults sar sdr
    · rw [hc, hco]
  have hne : (r.lastCentralHash == hash) = false := by
    simpa using fun h => hchanged h.symm
  unfold Reconcile
  rw [if_pos hfree]
  unfold reconcileGuarded centralChanged
  simp only [hdigest, hne, Bool.not_false, Bool.not_true, Bool.false_and, Bool.false_eq_true,
    if_false]
  unfold reconcileBuild
  rw [hreq, hlim]
  simp only [patchResourceList, hsar, hsdr]
  split
  · unfold invoke
    simp only [fakeEnv_existsRHSSOAuthProvider]
    exact hconv _ _ (chartValues_hasAuthProvider d _ _ remoteCentral) rfl
      (by simp [createdObjects, List.filterMap_append])
  · exact hconv _ _ rfl rfl rfl

theorem Reconcile_scenario_A_witness :
    (Reconcile sampleDeps fakeEnv (sampleReconciler true true) sampleDefaults
        (freshWorld emptyCluster) (sampleCentral "provisioning")).status
        = some installingStatus
      ∧ (Reconcile sampleDeps fakeEnv (sampleReconciler true true) sampleDefaults
        (freshWorld emptyCluster) (sampleCentral "provisioning")).err = none
      ∧ (createdObjects (Reconcile sampleDeps fakeEnv (sampleReconciler true true)
          sampleDefaults (freshWorld emptyCluster)
          (sampleCentral "provisioning")).world.calls).length = 4 :=
  ⟨(Reconcile_scenario_A sampleDeps (sampleReconciler true true) sampleDefaults
      (freshWorld emptyCluster) (sampleCentral "provisioning")
      (sampleRender "rhacs-c1"
        (chartValues sampleDeps (sampleReconciler true true) (sampleCentral "provisioning")).1)
      (sampleDigest (sampleCentral "provisioning"))
      (sampleConvert (sampleCentral "provisioning").ScannerAnalyzerResources)
      (sampleConvert (sampleCentral "provisioning").ScannerDbResources)
      rfl rfl (by decide) rfl rfl rfl rfl rfl rfl (by decide) (by decide) (by decide)
      (by decide) (by decide) rfl).1,
   (Reconcile_scenario_A sampleDeps (sampleReconciler true true) sampleDefaults
      (freshWorld emptyCluster) (sampleCentral "provisioning")
      (sampleRender "rhacs-c1"
        (chartValues sampleDeps (sampleReconciler true true) (sampleCentral "provisioning")).1)
      (sampleDigest (sampleCentral "provisioning"))
      (sampleConvert (sampleCentral "provisioning").ScannerAnalyzerResources)
      (sampleConvert (sampleCentral "provisioning").ScannerDbResources)
      rfl rfl (by decide) rfl rfl rfl rfl rfl rfl (by decide) (by decide) (by decide)
      (by decide) (by decide) rfl).2.1,
   by decide⟩

/-- C19: `Reconcile` returns exactly one of a status and an error: the status is non-nil if
and only if the error is nil; a returned status is the Installing, the Deleted or the Ready
status (the last with route statuses attached); and the sentinels `ErrBusy`,
`ErrCentralNotChanged` and `ErrDeletionInProgress` come with a nil status. -/
theorem Reconcile_status_xor_error {σ : Type} (d : Deps) (env : Env σ) (r : CentralReconciler)
    (defaults : ResourceRequirements) (w : World σ) (remoteCentral : ManagedCentral) :
    ((Reconcile d env r defaults w remoteCentral).status ≠ none
        ↔ (Reconcile d env r defaults w remoteCentral).err = none)
      ∧ (∀ s, (Reconcile d env r defaults w remoteCentral).status = some s →
          s = installingStatus ∨ s = deletedStatus
            ∨ ∃ routes, s = { Condition := StatusCondition.Ready, Routes := routes })
      ∧ (∀ e, (Reconcile d env r defaults w remoteCentral).err = some e →
          (Reconcile d env r defaults w remoteCentral).status = none) := by
  rcases Reconcile_returns d env r defaults w remoteCentral with ⟨hs, e, he⟩ | ⟨he, hs⟩
  · refine ⟨?_, ?_, ?_⟩
    · rw [hs, he]; simp
    · intro s h; rw [hs] at h; cases h
    · intro _ _; exact hs
  · refine ⟨?_, ?_, ?_⟩
    · rw [he]
      rcases hs with h | h | ⟨routes, h⟩ <;> rw [h] <;> simp
    · intro s h
      rcases hs with h1 | h1 | ⟨routes, h1⟩
      · rw [h1] at h; cases h; exact Or.inl rfl
      · rw [h1] at h; cases h; exact Or.inr (Or.inl rfl)
      · rw [h1] at h; cases h; exact Or.inr (Or.inr ⟨routes, rfl⟩)
    · intro e h; rw [he] at h; cases h

/-- The three sentinels and the three statuses on concrete runs. -/
theorem Reconcile_status_xor_error_witness :
    (sampleFirstPass "ready").status = some readyStatus
      ∧ (sampleFirstPass "ready").err = none
      ∧ (sampleSecondPass "ready").status = none
      ∧ (sampleSecondPass "ready").err = some Error.ErrCentralNotChanged
      ∧ ((sampleSecondPass "ready").status ≠ none ↔ (sampleSecondPass "ready").err = none) :=
  ⟨by decide, by decide, by decide, by decide,
   (Reconcile_status_xor_error sampleDeps fakeEnv (sampleFirstPass "ready").r
      (sampleFirstPass "ready").defaults (sampleFirstPass "ready").world
      (sampleCentral "ready")).1⟩

/-- C11: `ensureCentralDeleted` returns `(true, nil)` if and only if every executed step
(both route deletions when `useRoutes` is set, the primary custom resource, the autoscaler
configuration, the auxiliary resource set, the namespace) returned `(true, nil)` in that
call, which includes that no step returned an error; and if an executed step returned
false, the result is false. -/
theorem ensureCentralDeleted_conjunction_of_steps {σ : Type} (d : Deps) (env : Env σ)
    (r : CentralReconciler) (remoteCentral : ManagedCentral) (central : Central)
    (w : World σ) :
    ((ensureCentralDeleted d env r remoteCentral central w).1 = (true, none)
        ↔ ∀ res ∈ stepResults (deletionSteps d env r remoteCentral central) w,
            res = (true, none))
      ∧ ((∃ res ∈ stepResults (deletionSteps d env r remoteCentral central) w, res.1 = false) →
          (ensureCentralDeleted d env r remoteCentral central w).1.1 = false)
      ∧ ((ensureCentralDeleted d env r remoteCentral central w).1.2 = none
        ↔ ∀ res ∈ stepResults (deletionSteps d env r remoteCentral central) w, res.2 = none) := by
  rw [ensureCentralDeleted_eq_runDeletionSteps]
  refine ⟨?_, ?_, ?_⟩
  · rw [runDeletionSteps_true_iff]; simp
  · intro h; exact runDeletionSteps_false _ _ _ (Or.inr h)
  · exact runDeletionSteps_err_iff _ _ _

/-- C20: `ensureCentralDeleted` runs its steps in the fixed order re-encrypt route,
pass-through route (both only when `useRoutes` is set), primary custom resource, autoscaler
configuration, auxiliary resource set, namespace. If a step returns an error after the
steps before it returned none, the call returns `(false, that error)` in the world that
step left behind, so no later step has issued a call. A not-found answer to the probe of a
step makes the step return `(true, nil)` after the probe alone; in the loop over the
auxiliary objects it moves on to the next object. -/
theorem ensureCentralDeleted_fixed_order_first_error {σ : Type} (d : Deps) (env : Env σ)
    (r : CentralReconciler) (remoteCentral : ManagedCentral) (central : Central)
    (w : World σ) :
    ensureCentralDeleted d env r remoteCentral central w
        = runDeletionSteps
            ((if r.useRoutes then
                [ensureReencryptRouteDeleted env central.Namespace,
                 ensurePassthroughRouteDeleted env central.Namespace]
              else [])
             ++ [ensureCentralCRDeleted env central,
                 ensureVPAConfigDeleted env vpaConfigurationCentralName remoteCentral,
                 ensureChartResourcesDeleted d env r remoteCentral,
                 ensureNamespaceDeleted env central.Namespace]) true w
      ∧ (∀ (pre post : List (DeletionStep σ)) (step : DeletionStep σ) (acc1 b : Bool)
          (err : Error) (w1 w2 : World σ),
          deletionSteps d env r remoteCentral central = pre ++ step :: post →
          runDeletionSteps pre true w = ((acc1, none), w1) →
          step w1 = ((b, some err), w2) →
          ensureCentralDeleted d env r remoteCentral central w = ((false, some err), w2))
      ∧ (∀ (ns : String) (w0 : World σ),
          (env.FindReencryptRoute ns w0.cluster).1 = .error .notFound →
          ensureReencryptRouteDeleted env ns w0
            = ((true, none), env.perform (.FindReencryptRoute ns) w0))
      ∧ (∀ (ns : String) (w0 : World σ),
          (env.FindPassthroughRoute ns w0.cluster).1 = .error .notFound →
          ensurePassthroughRouteDeleted env ns w0
            = ((true, none), env.perform (.FindPassthroughRoute ns) w0))
      ∧ (∀ (w0 : World σ),
          (env.GetCentral { Namespace := central.Namespace, Name := central.Name }
            w0.cluster).1 = .error .notFound →
          ensureCentralCRDeleted env central w0
            = ((true, none),
               env.perform
                 (.GetCentral { Namespace := central.Namespace, Name := central.Name }) w0))
      ∧ (∀ (w0 : World σ),
          (env.GetUnstructured vpaGVK
            { Namespace := remoteCentral.Metadata.Namespace,
              Name := vpaConfigurationCentralName } w0.cluster).1 = .error .notFound →
          ensureVPAConfigDeleted env vpaConfigurationCentralName remoteCentral w0
            = ((true, none),
               env.perform (.GetUnstructured vpaGVK
                 { Namespace := remoteCentral.Metadata.Namespace,
                   Name := vpaConfigurationCentralName }) w0))
      ∧ (∀ (obj : Unstructured) (rest : List Unstructured) (waitForDelete : Bool)
          (w0 : World σ),
          (env.GetUnstructured obj.GVK
            { Namespace := if obj.Namespace = "" then remoteCentral.Metadata.Namespace
                else obj.Namespace,
              Name := obj.Name } w0.cluster).1 = .error .notFound →
          ensureChartResourcesDeletedLoop env remoteCentral (obj :: rest) waitForDelete w0
            = ensureChartResourcesDeletedLoop env remoteCentral rest waitForDelete
                (env.perform (.GetUnstructured obj.GVK
                  { Namespace := if obj.Namespace = "" then remoteCentral.Metadata.Namespace
                      else obj.Namespace,
                    Name := obj.Name }) w0))
      ∧ (∀ (w0 : World σ),
          (env.GetNamespace { Namespace := "", Name := central.Namespace } w0.cluster).1
            = .error .notFound →
          ensureNamespaceDeleted env central.Namespace w0
            = ((true, none),
               env.perform (.GetNamespace { Namespace := "", Name := central.Namespace }) w0)) := by
  refine ⟨ensureCentralDeleted_eq_runDeletionSteps d env r remoteCentral central w, ?_,
    fun ns w0 h => ensureReencryptRouteDeleted_notFound env ns w0 h,
    fun ns w0 h => ensurePassthroughRouteDeleted_notFound env ns w0 h,
    fun w0 h => ensureCentralCRDeleted_notFound env central w0 h,
    fun w0 h => ensureVPAConfigDeleted_notFound env _ remoteCentral w0 h,
    fun obj rest wfd w0 h =>
      ensureChartResourcesDeletedLoop_notFound env remoteCentral obj rest wfd w0 h,
    fun w0 h => ensureNamespaceDeleted_notFound env _ w0 h⟩
  intro pre post step acc1 b err w1 w2 hsteps hpre hstep
  rw [ensureCentralDeleted_eq_runDeletionSteps, hsteps]
  exact runDeletionSteps_abort pre post step true acc1 b err w w1 w2 hpre hstep

/-- A cluster without routes whose read of the primary resource fails with a server error:
the call returns that error after the two route probes and the failed read, and neither
the autoscaler configuration, the auxiliary objects nor the namespace are looked at. -/
theorem ensureCentralDeleted_fixed_order_first_error_witness :
    ensureCentralDeleted sampleDeps brokenCentralEnv (sampleReconciler true false)
        sampleDeletedCentral (samplePrimary "1") (freshWorld sampleFullCluster)
      = ((false, some (.wrapped "delete central CR" (.external (.other 500)))),
         { cluster :=
             { sampleFullCluster with reencryptRoutes := [], passthroughRoutes := [] },
           calls :=
             [.FindReencryptRoute "rhacs-c1",
              .Delete (.ofRoute { Namespace := "rhacs-c1", Name := fakeReencryptRouteName }),
              .FindPassthroughRoute "rhacs-c1",
              .Delete (.ofRoute { Namespace := "rhacs-c1", Name := fakePassthroughRouteName }),
              .GetCentral { Namespace := "rhacs-c1", Name := "central" }] }) :=
  (ensureCentralDeleted_fixed_order_first_error sampleDeps brokenCentralEnv
      (sampleReconciler true false) sampleDeletedCentral (samplePrimary "1")
      (freshWorld sampleFullCluster)).2.1
    [ensureReencryptRouteDeleted brokenCentralEnv "rhacs-c1",
     ensurePassthroughRouteDeleted brokenCentralEnv "rhacs-c1"]
    [ensureVPAConfigDeleted brokenCentralEnv vpaConfigurationCentralName sampleDeletedCentral,
     ensureChartResourcesDeleted sampleDeps brokenCentralEnv (sampleReconciler true false)
       sampleDeletedCentral,
     ensureNamespaceDeleted brokenCentralEnv "rhacs-c1"]
    (ensureCentralCRDeleted brokenCentralEnv (samplePrimary "1")) false false
    (.wrapped "delete central CR" (.external (.other 500)))
    { cluster := { sampleFullCluster with reencryptRoutes := [], passthroughRoutes := [] },
      calls :=
        [.FindReencryptRoute "rhacs-c1",
         .Delete (.ofRoute { Namespace := "rhacs-c1", Name := fakeReencryptRouteName }),
         .FindPassthroughRoute "rhacs-c1",
         .Delete (.ofRoute { Namespace := "rhacs-c1", Name := fakePassthroughRouteName })] }
    _ rfl rfl rfl

/-- C12 (the code departs from the claim): on a cluster that holds the rendered auxiliary
object without a deletion timestamp, `ensureChartResourcesDeleted` probes it, finds it,
issues the delete for it and returns `(true, nil)`; with nothing else left of the tenant,
`Reconcile` then returns the Deleted status in the very call that requested the
deletion. -/
theorem ensureChartResourcesDeleted_true_after_delete :
    ensureChartResourcesDeleted sampleDeps fakeEnv (sampleReconciler false false)
        sampleDeletedCentral (freshWorld auxiliaryOnlyCluster)
      = ((true, none),
         { cluster := emptyCluster,
           calls :=
             [.GetUnstructured { Group := "", Version := "v1", Kind := "ConfigMap" }
                { Namespace := "rhacs-c1", Name := "egress-proxy" },
              .Delete (.ofUnstructured
                { GVK := { Group := "", Version := "v1", Kind := "ConfigMap" },
                  Namespace := "rhacs-c1", Name := "egress-proxy", DeletionTimestamp := none,
                  Content := [] })] })
      ∧ (Reconcile sampleDeps fakeEnv (sampleReconciler false false) sampleDefaults
          (freshWorld auxiliaryOnlyCluster) sampleDeletedCentral).status = some deletedStatus
      ∧ (Reconcile sampleDeps fakeEnv (sampleReconciler false false) sampleDefaults
          (freshWorld auxiliaryOnlyCluster) sampleDeletedCentral).err = none :=
  ⟨rfl, by decide, by decide⟩

/-- C13: for a desired central with a deletion marker, every reconciler state and every
cluster behaviour, each call `Reconcile` issues is a read or a delete (no create, no
update); a returned status is the Deleted status, with a nil error, and comes from a call
of `ensureCentralDeleted` that returned `(true, nil)`; and a call entered with the flag
Free whose digest is not the recorded fingerprint returns what `DeletionOutcome` tells:
Deleted for `(true, nil)`, `ErrDeletionInProgress` for `(false, nil)`, the wrapped error
for an error of `ensureCentralDeleted`, or an error that is not a sentinel. -/
theorem Reconcile_deletion_monotonic {σ : Type} (d : Deps) (env : Env σ)
    (r : CentralReconciler) (defaults : ResourceRequirements) (w : World σ)
    (remoteCentral : ManagedCentral)
    (hdel : remoteCentral.Metadata.DeletionTimestamp ≠ "") :
    (∃ extra : List Call,
        (Reconcile d env r defaults w remoteCentral).world.calls = w.calls ++ extra
          ∧ ∀ c ∈ extra, c.isWrite = false ∨ ∃ o, c = Call.Delete o)
      ∧ (∀ s, (Reconcile d env r defaults w remoteCentral).status = some s →
          s = deletedStatus
            ∧ (Reconcile d env r defaults w remoteCentral).err = none
            ∧ ∃ (r1 : CentralReconciler) (central : Central) (w0 : World σ),
                r1.useRoutes = r.useRoutes
                  ∧ central.Namespace = remoteCentral.Metadata.Namespace
                  ∧ central.Name = remoteCentral.Metadata.Name
                  ∧ ensureCentralDeleted d env r1 remoteCentral central w0
                    = ((true, none), (Reconcile d env r defaults w remoteCentral).world))
      ∧ (r.status = FreeStatus →
          d.MD5SumFromJSONStruct remoteCentral ≠ Except.ok r.lastCentralHash →
          DeletionOutcome d env remoteCentral r (Reconcile d env r defaults w remoteCentral)
            ∧ ((Reconcile d env r defaults w remoteCentral).status = some deletedStatus
              ∨ (Reconcile d env r defaults w remoteCentral).err
                = some Error.ErrDeletionInProgress
              ∨ ∃ e, (Reconcile d env r defaults w remoteCentral).err = some e
                  ∧ e.isSentinel = false)) := by
  have hcases := Reconcile_deletion d env r defaults w remoteCentral hdel
  refine ⟨?_, ?_, ?_⟩
  · obtain ⟨extra, hlog, hall⟩ := Reconcile_deletion_steps
      (CallsWithin.invariant env deletionBranchCalls) (fun _ h => h) d r defaults w
      remoteCentral hdel
    refine ⟨extra, hlog, ?_⟩
    intro c hc
    have := hall c hc
    cases c <;> first | exact Or.inl rfl | exact Or.inr ⟨_, rfl⟩ | simp [deletionBranchCalls, authProbeCalls, deletionCalls] at this
  · intro s hs
    rcases hcases with hdo | ⟨hn, _, _⟩ | ⟨hn, _, _⟩
    · rcases hdo with ⟨hn, _⟩ | ⟨r1, central, w0, hu, hns, hname, hw, hres⟩
      · rw [hn] at hs; cases hs
      · rcases hres with ⟨h1, h2, h3⟩ | ⟨h1, _, _⟩ | ⟨h1, _⟩
        · rw [h1] at hs
          cases hs
          refine ⟨rfl, h2, r1, central, w0, hu, hns, hname, ?_⟩
          exact Prod.ext h3 hw
        · rw [h1] at hs; cases hs
        · rw [h1] at hs; cases hs
    · rw [hn] at hs; cases hs
    · rw [hn] at hs; cases hs
  · intro hfree hchanged
    have hdo : DeletionOutcome d env remoteCentral r
        (Reconcile d env r defaults w remoteCentral) := by
      rcases hcases with hdo | ⟨_, _, hb⟩ | ⟨_, _, hc⟩
      · exact hdo
      · exact absurd hfree hb
      · exact absurd hc hchanged
    refine ⟨hdo, ?_⟩
    rcases hdo with ⟨_, e, he, hsent⟩ | ⟨r1, central, w0, _, _, _, _, hres⟩
    · exact Or.inr (Or.inr ⟨e, he, hsent⟩)
    · rcases hres with ⟨h1, _, _⟩ | ⟨_, h2, _⟩ | ⟨_, err, _, h2⟩
      · exact Or.inl h1
      · exact Or.inr (Or.inl h2)
      · exact Or.inr (Or.inr ⟨_, h2, rfl⟩)

/-- A run on the model cluster that holds all five dependent resources: the call issues
reads and deletes only and returns `ErrDeletionInProgress`. -/
theorem Reconcile_deletion_monotonic_witness :
    (∃ extra : List Call,
        (Reconcile sampleDeps fakeEnv (sampleReconciler true false) sampleDefaults
          (freshWorld sampleFullCluster) sampleDeletedCentral).world.calls
            = (freshWorld sampleFullCluster).calls ++ extra
          ∧ ∀ c ∈ extra, c.isWrite = false ∨ ∃ o, c = Call.Delete o)
      ∧ (Reconcile sampleDeps fakeEnv (sampleReconciler true false) sampleDefaults
          (freshWorld sampleFullCluster) sampleDeletedCentral).err
        = some Error.ErrDeletionInProgress
      ∧ (Reconcile sampleDeps fakeEnv (sampleReconciler true false) sampleDefaults
          (freshWorld sampleFullCluster) sampleDeletedCentral).world.calls.length = 12 :=
  ⟨(Reconcile_deletion_monotonic sampleDeps fakeEnv (sampleReconciler true false)
      sampleDefaults (freshWorld sampleFullCluster) sampleDeletedCentral (by decide)).1,
   by decide, by decide⟩

/-- C15: over a cluster whose probes leave its state as it is, each ensure-absent operation
(re-encrypt route, pass-through route, primary custom resource, autoscaler configuration,
auxiliary resource set, namespace) whose probe reports not-found returns `(true, nil)`,
issues reads only and keeps the cluster state, any number of times in a row; and so does
`ensureCentralDeleted` on a cluster with none of the dependent resources, the chart being
rendered without error. -/
theorem ensure_absent_is_idempotent {σ : Type} (d : Deps) (env : Env σ)
    (hro : ProbesReadOnly env) (r : CentralReconciler) (remoteCentral : ManagedCentral)
    (central : Central) (w : World σ) :
    ((env.FindReencryptRoute central.Namespace w.cluster).1 = .error .notFound →
        IdempotentNoWrite (ensureReencryptRouteDeleted env central.Namespace) w)
      ∧ ((env.FindPassthroughRoute central.Namespace w.cluster).1 = .error .notFound →
        IdempotentNoWrite (ensurePassthroughRouteDeleted env central.Namespace) w)
      ∧ ((env.GetCentral { Namespace := central.Namespace, Name := central.Name }
            w.cluster).1 = .error .notFound →
        IdempotentNoWrite (ensureCentralCRDeleted env central) w)
      ∧ ((env.GetUnstructured vpaGVK
            { Namespace := remoteCentral.Metadata.Namespace,
              Name := vpaConfigurationCentralName } w.cluster).1 = .error .notFound →
        IdempotentNoWrite
          (ensureVPAConfigDeleted env vpaConfigurationCentralName remoteCentral) w)
      ∧ (∀ objs : List Unstructured,
          d.RenderToObjects helmReleaseName remoteCentral.Metadata.Namespace
            (chartValues d r remoteCentral).1 = .ok objs →
          (∀ obj ∈ objs, (env.GetUnstructured obj.GVK
            { Namespace := if obj.Namespace = "" then remoteCentral.Metadata.Namespace
                else obj.Namespace,
              Name := obj.Name } w.cluster).1 = .error .notFound) →
          IdempotentNoWrite (ensureChartResourcesDeleted d env r remoteCentral) w)
      ∧ ((env.GetNamespace { Namespace := "", Name := central.Namespace } w.cluster).1
            = .error .notFound →
        IdempotentNoWrite (ensureNamespaceDeleted env central.Namespace) w)
      ∧ (∀ objs : List Unstructured,
          d.RenderToObjects helmReleaseName remoteCentral.Metadata.Namespace
            (chartValues d r remoteCentral).1 = .ok objs →
          ((r.useRoutes = true →
            (env.FindReencryptRoute central.Namespace w.cluster).1 = .error .notFound
              ∧ (env.FindPassthroughRoute central.Namespace w.cluster).1 = .error .notFound)
          ∧ (env.GetCentral { Namespace := central.Namespace, Name := central.Name }
              w.cluster).1 = .error .notFound
          ∧ (env.GetUnstructured vpaGVK
              { Namespace := remoteCentral.Metadata.Namespace,
                Name := vpaConfigurationCentralName } w.cluster).1 = .error .notFound
          ∧ (∀ obj ∈ objs, (env.GetUnstructured obj.GVK
              { Namespace := if obj.Namespace = "" then remoteCentral.Metadata.Namespace
                  else obj.Namespace,
                Name := obj.Name } w.cluster).1 = .error .notFound)
          ∧ (env.GetNamespace { Namespace := "", Name := central.Namespace } w.cluster).1
              = .error .notFound) →
          IdempotentNoWrite (ensureCentralDeleted d env r remoteCentral central) w) := by
  refine ⟨fun h => ?_, fun h => ?_, fun h => ?_, fun h => ?_, fun objs hrender h => ?_,
    fun h => ?_, fun objs hrender h => ?_⟩
  · exact IdempotentNoWrite.of_noop env
      (fun s => (env.FindReencryptRoute central.Namespace s).1 = .error .notFound) _
      (fun w0 h0 => ensureReencryptRouteDeleted_absent env hro _ w0 h0) w h
  · exact IdempotentNoWrite.of_noop env
      (fun s => (env.FindPassthroughRoute central.Namespace s).1 = .error .notFound) _
      (fun w0 h0 => ensurePassthroughRouteDeleted_absent env hro _ w0 h0) w h
  · exact IdempotentNoWrite.of_noop env
      (fun s => (env.GetCentral { Namespace := central.Namespace, Name := central.Name }
        s).1 = .error .notFound) _
      (fun w0 h0 => ensureCentralCRDeleted_absent env hro central w0 h0) w h
  · exact IdempotentNoWrite.of_noop env
      (fun s => (env.GetUnstructured vpaGVK
        { Namespace := remoteCentral.Metadata.Namespace,
          Name := vpaConfigurationCentralName } s).1 = .error .notFound) _
      (fun w0 h0 => ensureVPAConfigDeleted_absent env hro _ remoteCentral w0 h0) w h
  · exact IdempotentNoWrite.of_noop env
      (fun s => ∀ obj ∈ objs, (env.GetUnstructured obj.GVK
        { Namespace := if obj.Namespace = "" then remoteCentral.Metadata.Namespace
            else obj.Namespace,
          Name := obj.Name } s).1 = .error .notFound) _
      (fun w0 h0 =>
        ensureChartResourcesDeleted_absent d env hro r remoteCentral objs w0 hrender h0) w h
  · exact IdempotentNoWrite.of_noop env
      (fun s => (env.GetNamespace { Namespace := "", Name := central.Namespace } s).1
        = .error .notFound) _
      (fun w0 h0 => ensureNamespaceDeleted_absent env hro _ w0 h0) w h
  · exact IdempotentNoWrite.of_noop env
      (fun s => (r.useRoutes = true →
          (env.FindReencryptRoute central.Namespace s).1 = .error .notFound
            ∧ (env.FindPassthroughRoute central.Namespace s).1 = .error .notFound)
        ∧ (env.GetCentral { Namespace := central.Namespace, Name := central.Name } s).1
            = .error .notFound
        ∧ (env.GetUnstructured vpaGVK
            { Namespace := remoteCentral.Metadata.Namespace,
              Name := vpaConfigurationCentralName } s).1 = .error .notFound
        ∧ (∀ obj ∈ objs, (env.GetUnstructured obj.GVK
            { Namespace := if obj.Namespace = "" then remoteCentral.Metadata.Namespace
                else obj.Namespace,
              Name := obj.Name } s).1 = .error .notFound)
        ∧ (env.GetNamespace { Namespace := "", Name := central.Namespace } s).1
            = .error .notFound) _
      (fun w0 h0 =>
        ensureCentralDeleted_absent d env hro r remoteCentral central objs hrender w0 h0) w h

/-- On the empty model cluster `ensureCentralDeleted` can be called any number of times: it
returns `(true, nil)` and issues reads only; one call issues the six probes. -/
theorem ensure_absent_is_idempotent_witness :
    IdempotentNoWrite
        (ensureCentralDeleted sampleDeps fakeEnv (sampleReconciler true false)
          sampleDeletedCentral (samplePrimary "1")) (freshWorld emptyCluster)
      ∧ ensureCentralDeleted sampleDeps fakeEnv (sampleReconciler true false)
          sampleDeletedCentral (samplePrimary "1") (freshWorld emptyCluster)
        = ((true, none),
           { cluster := emptyCluster,
             calls :=
               [.FindReencryptRoute "rhacs-c1", .FindPassthroughRoute "rhacs-c1",
                .GetCentral { Namespace := "rhacs-c1", Name := "central" },
                .GetUnstructured vpaGVK
                  { Namespace := "rhacs-c1", Name := vpaConfigurationCentralName },
                .GetUnstructured { Group := "", Version := "v1", Kind := "ConfigMap" }
                  { Namespace := "rhacs-c1", Name := "egress-proxy" },
                .GetNamespace { Namespace := "", Name := "rhacs-c1" }] }) :=
  ⟨(ensure_absent_is_idempotent sampleDeps fakeEnv fakeEnv_probesReadOnly
      (sampleReconciler true false) sampleDeletedCentral (samplePrimary "1")
      (freshWorld emptyCluster)).2.2.2.2.2.2
      (sampleRender "rhacs-c1"
        (chartValues sampleDeps (sampleReconciler true false) sampleDeletedCentral).1) rfl
      ⟨fun _ => ⟨rfl, rfl⟩, rfl, rfl,
       fun obj hobj => by
         simp only [sampleRender, List.mem_singleton] at hobj
         subst hobj
         rfl,
       rfl⟩,
   rfl⟩

/-- C14: `ensureRouteDeleted` returns `(true, nil)` exactly when the probe reports
not-found, and after a successful delete of a found route it returns `(false, nil)` in the
world the delete left, without a second probe; with routes in use and the re-encrypt route
found, `ensureCentralDeleted` returns false. On the model cluster, where a delete takes
effect at once: for a desired central with a deletion marker, a reconciler entered with the
flag Free that uses routes, a changed digest, sizing and scanner resources that convert and
a chart that renders, if a route of the tenant is present then `Reconcile` returns
`ErrDeletionInProgress` with a nil status and has issued the delete of every route of the
tenant that is present: of the re-encrypt route, and of the pass-through route (which
carries another name than the re-encrypt route, as two objects of one namespace do). -/
theorem Reconcile_scenario_C (d : Deps) (r : CentralReconciler)
    (defaults : ResourceRequirements) (w : World FakeCluster) (remoteCentral : ManagedCentral)
    (objs : List Unstructured) (hash : Hash) (sar sdr : ResourceRequirements)
    (requests limits : ResourceList) :
    (∀ (σ : Type) (env : Env σ)
        (routeSupplier : World σ → Except ApiError Route × World σ) (w0 : World σ),
        ((ensureRouteDeleted env routeSupplier w0).1 = (true, none)
          ↔ (routeSupplier w0).1 = .error .notFound)
        ∧ (∀ (found : Route) (w1 : World σ), routeSupplier w0 = (.ok found, w1) →
            (env.Delete (.ofRoute found) w1.cluster).1 = none →
            ensureRouteDeleted env routeSupplier w0
              = ((false, none), env.perform (.Delete (.ofRoute found)) w1))
        ∧ (∀ (r0 : CentralReconciler) (central : Central) (found : Route),
            r0.useRoutes = true →
            (env.FindReencryptRoute central.Namespace w0.cluster).1 = .ok found →
            (ensureCentralDeleted d env r0 remoteCentral central w0).1.1 = false))
      ∧ (r.status = FreeStatus →
          d.MD5SumFromJSONStruct remoteCentral = Except.ok hash →
          hash ≠ r.lastCentralHash →
          remoteCentral.Metadata.DeletionTimestamp ≠ "" →
          r.useRoutes = true →
          patchResourceList d defaults.Requests remoteCentral.CentralResources.Requests
            = (none, requests) →
          patchResourceList d defaults.Limits remoteCentral.CentralResources.Limits
            = (none, limits) →
          d.ConvertPrivateResourceRequirementsToCoreV1 remoteCentral.ScannerAnalyzerResources
            = Except.ok sar →
          d.ConvertPrivateResourceRequirementsToCoreV1 remoteCentral.ScannerDbResources
            = Except.ok sdr →
          d.RenderToObjects helmReleaseName remoteCentral.Metadata.Namespace
            (chartValues d r remoteCentral).1 = Except.ok objs →
          ((∃ re, w.cluster.reencryptRoutes.find?
              (fun x => x.Namespace == remoteCentral.Metadata.Namespace) = some re)
            ∨ ∃ pa, w.cluster.passthroughRoutes.find?
                (fun x => x.Namespace == remoteCentral.Metadata.Namespace) = some pa) →
          (Reconcile d fakeEnv r defaults w remoteCentral).status = none
            ∧ (Reconcile d fakeEnv r defaults w remoteCentral).err
              = some Error.ErrDeletionInProgress
            ∧ ∃ extra : List Call,
                (Reconcile d fakeEnv r defaults w remoteCentral).world.calls
                  = w.calls ++ extra
                ∧ (∀ re, w.cluster.reencryptRoutes.find?
                      (fun x => x.Namespace == remoteCentral.Metadata.Namespace) = some re →
                    Call.Delete (.ofRoute re) ∈ extra)
                ∧ (∀ pa, w.cluster.passthroughRoutes.find?
                      (fun x => x.Namespace == remoteCentral.Metadata.Namespace) = some pa →
                    (∀ re, w.cluster.reencryptRoutes.find?
                        (fun x => x.Namespace == remoteCentral.Metadata.Namespace)
                          = some re → pa.Name ≠ re.Name) →
                    Call.Delete (.ofRoute pa) ∈ extra)) := by
  refine ⟨?_, ?_⟩
  · intro σ env routeSupplier w0
    refine ⟨ensureRouteDeleted_true_iff env routeSupplier w0,
      fun found w1 h hd => ensureRouteDeleted_deleted env routeSupplier w0 w1 found h hd, ?_⟩
    intro r0 central found huse hfound
    rw [ensureCentralDeleted_eq_runDeletionSteps]
    apply runDeletionSteps_false
    right
    refine ⟨(ensureReencryptRouteDeleted env central.Namespace w0).1, ?_, ?_⟩
    · unfold deletionSteps
      rw [if_pos huse]
      exact stepResults_head _ _ _
    · exact ensureRouteDeleted_found_false env _ w0 found hfound
  · intro hfree hdigest hchanged hdel huse hreq hlim hsar hsdr hrender hroute
    have hconv : ∀ (r0 : CentralReconciler) (defaults0 : ResourceRequirements)
        (w0 : World FakeCluster) (central : Central) (pre : List Call),
        r0.useRoutes = true →
        chartValues d r0 remoteCentral = chartValues d r remoteCentral →
        w0.cluster = w.cluster → w0.calls = w.calls ++ pre →
        central.Namespace = remoteCentral.Metadata.Namespace →
        (reconcileConverge d fakeEnv r0 defaults0 w0 remoteCentral true central).status = none
          ∧ (reconcileConverge d fakeEnv r0 defaults0 w0 remoteCentral true central).err
            = some Error.ErrDeletionInProgress
          ∧ ∃ extra : List Call,
              (reconcileConverge d fakeEnv r0 defaults0 w0 remoteCentral true
                central).world.calls = w.calls ++ extra
              ∧ (∀ re, w.cluster.reencryptRoutes.find?
                    (fun x => x.Namespace == remoteCentral.Metadata.Namespace) = some re →
                  Call.Delete (.ofRoute re) ∈ extra)
              ∧ (∀ pa, w.cluster.passthroughRoutes.find?
                    (fun x => x.Namespace == remoteCentral.Metadata.Namespace) = some pa →
                  (∀ re, w.cluster.reencryptRoutes.find?
                      (fun x => x.Namespace == remoteCentral.Metadata.Namespace)
                        = some re → pa.Name ≠ re.Name) →
                  Call.Delete (.ofRoute pa) ∈ extra) := by
      intro r0 defaults0 w0 central pre hu hcv hcl hcalls hns
      have hns2 : (if r0.hasAuthProvider then
          { central with Spec :=
            { central.Spec with CentralAdminPasswordGenerationDisabled := some true } }
          else central).Namespace = remoteCentral.Metadata.Namespace := by
        split <;> exact hns
      obtain ⟨hres, extra, hlog, hre, hpa⟩ := ensureCentralDeleted_fake_routes_present d r0
        remoteCentral
        (if r0.hasAuthProvider then
          { central with Spec :=
            { central.Spec with CentralAdminPasswordGenerationDisabled := some true } }
          else central) objs w0 hu (by rw [hcv]; exact hrender)
        (by rw [hns2, hcl]; exact hroute)
      rw [hns2, hcl] at hre hpa
      unfold reconcileConverge
      rw [if_pos hdel]
      rcases hecd : ensureCentralDeleted d fakeEnv r0 remoteCentral
        (if r0.hasAuthProvider then
          { central with Spec :=
            { central.Spec with CentralAdminPasswordGenerationDisabled := some true } }
          else central) w0 with ⟨⟨b, e⟩, w1⟩
      rw [hecd] at hres hlog
      simp only [Prod.mk.injEq] at hres
      obtain ⟨hb, he⟩ := hres
      subst hb
      subst he
      refine ⟨rfl, rfl, pre ++ extra, ?_, fun re h => List.mem_append_right _ (hre re h),
        fun pa h hn => List.mem_append_right _ (hpa pa h hn)⟩
      show w1.calls = _
      simp only at hlog
      rw [hlog, hcalls, List.append_assoc]
    have hne : (r.lastCentralHash == hash) = false := by
      simpa using fun h => hchanged h.symm
    unfold Reconcile
    rw [if_pos hfree]
    unfold reconcileGuarded centralChanged
    simp only [hdigest, hne, Bool.not_false, Bool.not_true, Bool.false_and, Bool.false_eq_true,
      if_false]
    unfold reconcileBuild
    simp only [hreq, hlim, hsar, hsdr]
    split
    · unfold invoke
      simp only [fakeEnv_existsRHSSOAuthProvider]
      refine hconv _ _ _ _ [Call.existsRHSSOAuthProvider remoteCentral] ?_
        (chartValues_hasAuthProvider d _ _ remoteCentral) rfl rfl rfl
      split <;> exact huse
    · exact hconv _ _ _ _ [] huse rfl rfl (by simp) rfl

/-- Scenario C on the model cluster that holds all five dependent resources: one call
issues the deletes of both routes (and requests the other deletions) and returns
`ErrDeletionInProgress`; a second call finds nothing left and returns the Deleted
status. -/
theorem Reconcile_scenario_C_witness :
    ((Reconcile sampleDeps fakeEnv (sampleReconciler true false) sampleDefaults
        (freshWorld sampleFullCluster) sampleDeletedCentral).status = none
      ∧ (Reconcile sampleDeps fakeEnv (sampleReconciler true false) sampleDefaults
        (freshWorld sampleFullCluster) sampleDeletedCentral).err
          = some Error.ErrDeletionInProgress
      ∧ ∃ extra : List Call,
          (Reconcile sampleDeps fakeEnv (sampleReconciler true false) sampleDefaults
            (freshWorld sampleFullCluster) sampleDeletedCentral).world.calls
              = (freshWorld sampleFullCluster).calls ++ extra
            ∧ Call.Delete
                (.ofRoute { Namespace := "rhacs-c1", Name := fakeReencryptRouteName })
              ∈ extra
            ∧ Call.Delete
                (.ofRoute { Namespace := "rhacs-c1", Name := fakePassthroughRouteName })
              ∈ extra)
      ∧ (Reconcile sampleDeps fakeEnv
          (Reconcile sampleDeps fakeEnv (sampleReconciler true false) sampleDefaults
            (freshWorld sampleFullCluster) sampleDeletedCentral).r
          sampleDefaults
          (Reconcile sampleDeps fakeEnv (sampleReconciler true false) sampleDefaults
            (freshWorld sampleFullCluster) sampleDeletedCentral).world
          sampleDeletedCentral).status = some deletedStatus :=
  ⟨(fun h => ⟨h.1, h.2.1, h.2.2.elim fun extra hx =>
      ⟨extra, hx.1, hx.2.1 _ rfl, hx.2.2 _ rfl (fun re hre => by cases hre; decide)⟩⟩)
    ((Reconcile_scenario_C sampleDeps (sampleReconciler true false) sampleDefaults
      (freshWorld sampleFullCluster) sampleDeletedCentral
      (sampleRender "rhacs-c1"
        (chartValues sampleDeps (sampleReconciler true false) sampleDeletedCentral).1)
      (sampleDigest sampleDeletedCentral)
      (sampleConvert sampleDeletedCentral.ScannerAnalyzerResources)
      (sampleConvert sampleDeletedCentral.ScannerDbResources)
      sampleDefaults.Requests sampleDefaults.Limits).2
      rfl rfl (by decide) (by decide) rfl rfl rfl rfl rfl rfl (Or.inl ⟨_, rfl⟩)),
   by decide⟩

/-- C17: a missing or malformed revision annotation is a hard failure.
`incrementCentralRevision` returns an error and leaves the resource as it is whenever the
annotation does not parse as a decimal `int`, which includes a missing annotation; for
every cluster behaviour, the create/update step that reads such a primary resource returns
that error after the read alone; and on the model cluster a `Reconcile` without a deletion
marker that finds such a primary resource returns a non-nil error with a nil status,
issues no `Update` call, leaves the stored primary resources as they are and does not
record the fingerprint. -/
theorem malformed_revision_is_hard_failure (d : Deps) (r : CentralReconciler)
    (defaults : ResourceRequirements) (w : World FakeCluster) (remoteCentral : ManagedCentral)
    (existing : Central)
    (hrev : Atoi (GoMap.get (existing.Annotations.getD []) revisionAnnotationKey) = none) :
    incrementCentralRevision existing
        = (some (.wrapped "failed to increment central revision" (.external (.other 0))),
           existing)
      ∧ (∀ c : Central, GoMap.find (c.Annotations.getD []) revisionAnnotationKey = none →
          incrementCentralRevision c
            = (some (.wrapped "failed to increment central revision" (.external (.other 0))),
               c))
      ∧ (∀ (σ : Type) (env : Env σ) (r0 : CentralReconciler) (defaults0 : ResourceRequirements)
          (w0 : World σ) (changed : Bool) (central : Central),
          (env.GetCentral
            { Namespace := remoteCentral.Metadata.Namespace,
              Name := remoteCentral.Metadata.Name } w0.cluster).1 = Except.ok existing →
          reconcileCentral d env r0 defaults0 w0 remoteCentral changed central
            = { status := none,
                err := some (.wrapped "failed to increment central revision"
                  (.external (.other 0))),
                r := r0, defaults := defaults0,
                world := env.perform (Call.GetCentral
                  { Namespace := remoteCentral.Metadata.Namespace,
                    Name := remoteCentral.Metadata.Name }) w0 })
      ∧ (remoteCentral.Metadata.DeletionTimestamp = "" →
          w.cluster.centrals.find? (fun x => x.Namespace == remoteCentral.Metadata.Namespace
            && x.Name == remoteCentral.Metadata.Name) = some existing →
          (Reconcile d fakeEnv r defaults w remoteCentral).status = none
            ∧ (Reconcile d fakeEnv r defaults w remoteCentral).err ≠ none
            ∧ (∃ extra : List Call,
                (Reconcile d fakeEnv r defaults w remoteCentral).world.calls
                  = w.calls ++ extra
                ∧ ∀ c ∈ extra, ∀ o, c ≠ Call.Update o)
            ∧ (Reconcile d fakeEnv r defaults w remoteCentral).world.cluster.centrals
              = w.cluster.centrals
            ∧ (Reconcile d fakeEnv r defaults w remoteCentral).r.lastCentralHash
              = r.lastCentralHash) := by
  refine ⟨incrementCentralRevision_malformed existing hrev, ?_, ?_, ?_⟩
  · intro c hc
    apply incrementCentralRevision_malformed
    simp only [GoMap.get, hc, Option.getD_none]
    rfl
  · intro σ env r0 defaults0 w0 changed central hget
    exact reconcileCentral_malformed d env r0 defaults0 w0 remoteCentral changed central
      existing hget hrev
  · intro hnodel hfind
    have inv := StepInvariant.both fake_centrals_invariant
      (CallsWithin.invariant fakeEnv beforeCentralCalls)
    have hfoot : ∀ c, beforeCentralCalls c = true →
        ((!c.touchesCentral) && beforeCentralCalls c) = true := by
      intro c hc
      simp only [Bool.and_eq_true]
      exact ⟨beforeCentralCalls_not_touchesCentral c hc, hc⟩
    have hnoupd : ∀ c, beforeCentralCalls c = true → ∀ o, c ≠ Call.Update o := by
      intro c hc o ho
      subst ho
      simp [beforeCentralCalls, authProbeCalls, namespaceExistsCalls,
        unstructuredExistsCalls] at hc
    rcases Reconcile_central_path inv hfoot d r defaults w remoteCentral hnodel with
      ⟨hs, ⟨e, he, _⟩, hh, hcen, extra, hlog, hall⟩
      | ⟨r0, w0, cr, sar, sdr, hash, ⟨hcen, extra, hlog, hall⟩, _, hh, _, _, _, _, _, hrec⟩
    · refine ⟨hs, by rw [he]; simp, ⟨extra, hlog, fun c hc => hnoupd c (hall c hc)⟩, hcen, hh⟩
    · have hget : (fakeEnv.GetCentral
          { Namespace := remoteCentral.Metadata.Namespace,
            Name := remoteCentral.Metadata.Name } w0.cluster).1 = Except.ok existing := by
        rw [fakeEnv_GetCentral, hcen, hfind]
        rfl
      rw [hrec, reconcileCentral_malformed d fakeEnv r0 cr w0 remoteCentral _ _ existing hget
        hrev]
      refine ⟨rfl, by simp [Outcome.released], ?_, ?_, hh⟩
      · refine ⟨extra ++ [Call.GetCentral
          { Namespace := remoteCentral.Metadata.Namespace,
            Name := remoteCentral.Metadata.Name }], ?_, ?_⟩
        · show (fakeEnv.perform _ w0).calls = _
          rw [Env.perform_calls, hlog, List.append_assoc]
        · intro c hc o ho
          rcases List.mem_append.mp hc with h | h
          · exact hnoupd c (hall c h) o ho
          · simp only [List.mem_singleton] at h
            rw [h] at ho
            cases ho
      · show (fakeEnv.perform _ w0).cluster.centrals = _
        rw [← hcen]
        exact fake_centrals_invariant.step _ w0 rfl

/-- A primary resource with the revision annotation "one" on the model cluster: the call
fails after four reads, and the primary resource keeps its annotation. -/
theorem malformed_revision_is_hard_failure_witness :
    (Reconcile sampleDeps fakeEnv (sampleReconciler false false) sampleDefaults
        (freshWorld malformedRevisionCluster) (sampleCentral "provisioning")).status = none
      ∧ (Reconcile sampleDeps fakeEnv (sampleReconciler false false) sampleDefaults
        (freshWorld malformedRevisionCluster) (sampleCentral "provisioning")).err ≠ none
      ∧ (Reconcile sampleDeps fakeEnv (sampleReconciler false false) sampleDefaults
        (freshWorld malformedRevisionCluster) (sampleCentral "provisioning")).err
          = some (.wrapped "failed to increment central revision" (.external (.other 0)))
      ∧ (Reconcile sampleDeps fakeEnv (sampleReconciler false false) sampleDefaults
        (freshWorld malformedRevisionCluster)
        (sampleCentral "provisioning")).world.cluster.revisions = ["one"] :=
  ⟨((malformed_revision_is_hard_failure sampleDeps (sampleReconciler false false)
      sampleDefaults (freshWorld malformedRevisionCluster) (sampleCentral "provisioning")
      (samplePrimary "one") (by decide)).2.2.2 rfl rfl).1,
   ((malformed_revision_is_hard_failure sampleDeps (sampleReconciler false false)
      sampleDefaults (freshWorld malformedRevisionCluster) (sampleCentral "provisioning")
      (samplePrimary "one") (by decide)).2.2.2 rfl rfl).2.1,
   by decide, by decide⟩

/-- C18: the readiness gate. For every cluster behaviour, when the readiness probe answers
not ready, or the TLS secret was reported missing while the routes were ensured, lines
264-274 return `gateOutcome` in the world the probe left: `(nil, ErrCentralNotChanged)` for
an unchanged desired central in the Provisioning status, the Installing status with a nil
error otherwise, with the receiver untouched. On the model cluster, for a `Reconcile`
without a deletion marker that is entered with the flag Free, does not take the fast path
and returns no error other than a sentinel: if the deployment is not reported ready, or
routes are in use and the TLS secret and the re-encrypt route are missing, the call returns
exactly that, issues no call that creates an auth provider or reads a route status, and
does not record the fingerprint. -/
theorem Reconcile_readiness_gate (d : Deps) (r : CentralReconciler)
    (defaults : ResourceRequirements) (w : World FakeCluster) (remoteCentral : ManagedCentral)
    (hash : Hash) :
    (∀ (σ : Type) (env : Env σ) (r0 : CentralReconciler) (defaults0 : ResourceRequirements)
        (w0 : World σ) (changed centralTLSSecretFound ready : Bool),
        (env.isCentralDeploymentReady remoteCentral w0.cluster).1 = Except.ok ready →
        (!ready || !centralTLSSecretFound) = true →
        reconcileReadiness d env r0 defaults0 w0 remoteCentral changed centralTLSSecretFound
          = gateOutcome d r0 defaults0
              (env.perform (Call.isCentralDeploymentReady remoteCentral) w0) remoteCentral
              changed)
      ∧ (∀ (σ : Type) (env : Env σ) (r0 : CentralReconciler) (defaults0 : ResourceRequirements)
          (w0 w1 : World σ) (changed : Bool) (err : Error),
          r0.useRoutes = true → ensureRoutesExist env remoteCentral w0 = (some err, w1) →
          err.IsCentralTLSSecretNotFound = true →
          reconcileRoutes d env r0 defaults0 w0 remoteCentral changed
            = reconcileReadiness d env r0 defaults0 w1 remoteCentral changed false)
      ∧ (r.status = FreeStatus →
          remoteCentral.Metadata.DeletionTimestamp = "" →
          d.MD5SumFromJSONStruct remoteCentral = Except.ok hash →
          ¬ (hash = r.lastCentralHash ∧ r.wantsAuthProvider = r.hasAuthProvider
              ∧ isRemoteCentralReady d remoteCentral = true) →
          (w.cluster.deploymentReady = false
            ∨ (r.useRoutes = true ∧ w.cluster.tlsSecret = false
              ∧ w.cluster.reencryptRoutes.find?
                (fun x => x.Namespace == remoteCentral.Metadata.Namespace) = none)) →
          (∀ e, (Reconcile d fakeEnv r defaults w remoteCentral).err = some e →
            e.isSentinel = true) →
          ((isRemoteCentralProvisioning d remoteCentral = true ∧ hash = r.lastCentralHash →
              (Reconcile d fakeEnv r defaults w remoteCentral).status = none
                ∧ (Reconcile d fakeEnv r defaults w remoteCentral).err
                  = some Error.ErrCentralNotChanged)
            ∧ (¬ (isRemoteCentralProvisioning d remoteCentral = true
                  ∧ hash = r.lastCentralHash) →
              (Reconcile d fakeEnv r defaults w remoteCentral).status = some installingStatus
                ∧ (Reconcile d fakeEnv r defaults w remoteCentral).err = none)
            ∧ (∃ extra : List Call,
                (Reconcile d fakeEnv r defaults w remoteCentral).world.calls
                  = w.calls ++ extra
                ∧ ∀ c ∈ extra, (∀ m, c ≠ Call.createRHSSOAuthProvider m)
                    ∧ (∀ ns, c ≠ Call.FindReencryptIngress ns)
                    ∧ (∀ ns, c ≠ Call.FindPassthroughIngress ns))
            ∧ (Reconcile d fakeEnv r defaults w remoteCentral).r.lastCentralHash
              = r.lastCentralHash)) := by
  refine ⟨?_, ?_, ?_⟩
  · intro σ env r0 defaults0 w0 changed tls ready hprobe hgate
    exact reconcileReadiness_gate d env r0 defaults0 w0 remoteCentral changed tls ready hprobe
      hgate
  · intro σ env r0 defaults0 w0 w1 changed err hu heq htls
    simp only [reconcileRoutes, hu, if_true, heq, htls]
  · intro hfree hnodel hdigest hnofast hgate hnofail
    have inv := StepInvariant.both fake_gate_invariant
      (CallsWithin.invariant fakeEnv beforeRoutesCalls)
    have hclass : ∀ c, (beforeRoutesCalls c || readinessGateCalls c) = true →
        (∀ m, c ≠ Call.createRHSSOAuthProvider m)
          ∧ (∀ ns, c ≠ Call.FindReencryptIngress ns)
          ∧ (∀ ns, c ≠ Call.FindPassthroughIngress ns) := by
      intro c hc
      refine ⟨fun m h => ?_, fun ns h => ?_, fun ns h => ?_⟩ <;>
        (subst h
         simp [beforeRoutesCalls, beforeCentralCalls, centralStepCalls, authProbeCalls,
           namespaceExistsCalls, unstructuredExistsCalls, readinessGateCalls] at hc)
    rcases Reconcile_central_path inv
        (fun c hc => by simp [beforeRoutesCalls, hc]) d r defaults w remoteCentral hnodel with
      ⟨_, ⟨e, he, hcls⟩, _, _⟩
      | ⟨r0, w0, cr, sar, sdr, hash2, ⟨⟨hr0, ht0, hre0⟩, e0, hlog0, hall0⟩, _, hh, hu, _, _,
          hdig2, _, hrec⟩
    · have hsent := hnofail e he
      rcases hcls with hcls | ⟨_, hb⟩ | ⟨_, hdg, hwa, hrdy⟩
      · rw [hcls] at hsent; cases hsent
      · exact absurd hfree hb
      · rw [hdigest] at hdg
        exact absurd ⟨Except.ok.inj hdg, hwa, hrdy⟩ hnofast
    · have hhash : hash2 = hash := by
        rw [hdigest] at hdig2
        exact (Except.ok.inj hdig2).symm
      subst hhash
      rw [hrec, reconcileCentral_eq_step] at hnofail ⊢
      have hstepR := reconcileCentralStep_steps inv
        (fun c hc => by simp [beforeRoutesCalls, hc]) w0 remoteCentral
        (targetCentral d r0 remoteCentral cr sar sdr)
      have hstepS := reconcileCentralStep_not_sentinel fakeEnv w0 remoteCentral
        (targetCentral d r0 remoteCentral cr sar sdr)
      rcases hstep : reconcileCentralStep fakeEnv w0 remoteCentral
        (targetCentral d r0 remoteCentral cr sar sdr) with ⟨e, w1⟩
      rw [hstep] at hnofail hstepR hstepS
      cases e with
      | some err =>
        have h1 := hnofail err rfl
        rw [hstepS err rfl] at h1
        cases h1
      | none =>
        obtain ⟨⟨hr1, ht1, hre1⟩, e1, hlog1, hall1⟩ := hstepR
        simp only at hr1 ht1 hre1 hlog1 ⊢
        have hgate1 : w1.cluster.deploymentReady = false
            ∨ (r0.useRoutes = true ∧ w1.cluster.tlsSecret = false
              ∧ w1.cluster.reencryptRoutes.find?
                (fun x => x.Namespace == remoteCentral.Metadata.Namespace) = none) := by
          rcases hgate with h | ⟨h1, h2, h3⟩
          · left; rw [hr1, hr0, h]
          · right
            exact ⟨by rw [hu, h1], by rw [ht1, ht0, h2], by rw [hre1, hre0, h3]⟩
        obtain ⟨wG, ⟨e2, hlog2, hall2⟩, hout⟩ := reconcileRoutes_fake_gate d r0 cr w1
          remoteCentral (!(r.lastCentralHash == hash2)) hgate1
        rw [hout]
        have hlog : wG.calls = w.calls ++ (e0 ++ e1 ++ e2) := by
          rw [hlog2, hlog1, hlog0]
          simp [List.append_assoc]
        have hallc : ∀ c ∈ e0 ++ e1 ++ e2,
            (beforeRoutesCalls c || readinessGateCalls c) = true := by
          intro c hc
          simp only [List.mem_append] at hc
          rcases hc with (hc | hc) | hc
          · simp [hall0 c hc]
          · simp [hall1 c hc]
          · simp [hall2 c hc]
        refine ⟨?_, ?_, ⟨e0 ++ e1 ++ e2, ?_, fun c hc => hclass c (hallc c hc)⟩, ?_⟩
        · rintro ⟨hp, hheq⟩
          simp [gateOutcome, Outcome.released, hp, hheq]
        · intro hn
          have hnc : ¬ (isRemoteCentralProvisioning d remoteCentral = true
              ∧ r.lastCentralHash = hash2) := fun h => hn ⟨h.1, h.2.symm⟩
          simp [gateOutcome, Outcome.released, hnc]
        · unfold gateOutcome Outcome.released
          split <;> exact hlog
        · unfold gateOutcome Outcome.released
          split <;> exact hh

/-- On the model cluster that holds the sample tenant and does not report the deployment
ready: an unchanged desired central in the Provisioning status gets
`(nil, ErrCentralNotChanged)`, a changed one gets the Installing status. -/
theorem Reconcile_readiness_gate_witness :
    ((Reconcile sampleDeps fakeEnv
          { sampleReconciler false false with
            lastCentralHash := sampleDigest (sampleCentral "provisioning") }
          sampleDefaults (freshWorld sampleInstallingCluster)
          (sampleCentral "provisioning")).status = none
        ∧ (Reconcile sampleDeps fakeEnv
          { sampleReconciler false false with
            lastCentralHash := sampleDigest (sampleCentral "provisioning") }
          sampleDefaults (freshWorld sampleInstallingCluster)
          (sampleCentral "provisioning")).err = some Error.ErrCentralNotChanged)
      ∧ (Reconcile sampleDeps fakeEnv (sampleReconciler false false) sampleDefaults
          (freshWorld sampleInstallingCluster) (sampleCentral "provisioning")).status
        = some installingStatus :=
  ⟨((Reconcile_readiness_gate sampleDeps
        { sampleReconciler false false with
          lastCentralHash := sampleDigest (sampleCentral "provisioning") }
        sampleDefaults (freshWorld sampleInstallingCluster) (sampleCentral "provisioning")
        (sampleDigest (sampleCentral "provisioning"))).2.2
      rfl rfl rfl (by decide) (Or.inl rfl) (by decide)).1 ⟨by decide, rfl⟩,
   by decide⟩

/-- C16: the code evaluated on the failing input. On a model cluster that holds a leftover
`vpa-config-central` but no primary resource, a `Reconcile` of a desired central with
explicit sizing and no deletion marker takes the create branch (lines 209-226), which has
no call of `ensureVPAConfigDeleted`: it creates the primary resource, returns the Ready
status with a nil error, and the autoscaler configuration is still there. -/
theorem Reconcile_create_keeps_stale_autoscaler :
    (Reconcile sampleDeps fakeEnv (sampleReconciler false false) sampleDefaults
        (freshWorld staleAutoscalerCluster) sampleSizedCentral).err = none
      ∧ (Reconcile sampleDeps fakeEnv (sampleReconciler false false) sampleDefaults
        (freshWorld staleAutoscalerCluster) sampleSizedCentral).status = some readyStatus
      ∧ sampleSizedCentral.Metadata.DeletionTimestamp = ""
      ∧ ¬ (sampleSizedCentral.CentralResources.Limits.length = 0
          ∧ sampleSizedCentral.CentralResources.Requests.length = 0)
      ∧ (Reconcile sampleDeps fakeEnv (sampleReconciler false false) sampleDefaults
        (freshWorld staleAutoscalerCluster)
        sampleSizedCentral).world.cluster.holdsAutoscaler sampleSizedCentral = true := by
  decide

/-- The autoscaler policy as the code has it. On the model cluster, after a `Reconcile`
without a deletion marker that returns a nil error: if the primary resource existed,
`vpa-config-central` exists if and only if the desired Central requests and limits are both
empty; if the primary resource did not exist, the configuration exists for empty sizing
and, for explicit sizing, a configuration that was there is still there. A switch to explicit sizing on an existing
tenant leaves no configuration and the primary resource with its revision incremented by
1; for every cluster behaviour the create/update step for explicit sizing issues no
creation of an unstructured object; and the same facts hold right after a create/update
step that returns no error, in the cluster the step leaves (on the create path with
explicit sizing the step leaves the unstructured objects as they were). -/
theorem Reconcile_autoscaler_policy (d : Deps) (r : CentralReconciler)
    (defaults : ResourceRequirements) (w : World FakeCluster) (remoteCentral : ManagedCentral)
    (hnodel : remoteCentral.Metadata.DeletionTimestamp = "")
    (herr : (Reconcile d fakeEnv r defaults w remoteCentral).err = none) :
    ((∃ existing, w.cluster.centrals.find?
          (fun x => x.Namespace == remoteCentral.Metadata.Namespace
            && x.Name == remoteCentral.Metadata.Name) = some existing) →
        ((Reconcile d fakeEnv r defaults w remoteCentral).world.cluster.holdsAutoscaler
            remoteCentral = true
          ↔ (remoteCentral.CentralResources.Limits.length = 0
            ∧ remoteCentral.CentralResources.Requests.length = 0)))
      ∧ (w.cluster.centrals.find?
          (fun x => x.Namespace == remoteCentral.Metadata.Namespace
            && x.Name == remoteCentral.Metadata.Name) = none →
        ((remoteCentral.CentralResources.Limits.length = 0
            ∧ remoteCentral.CentralResources.Requests.length = 0) →
          (Reconcile d fakeEnv r defaults w remoteCentral).world.cluster.holdsAutoscaler
            remoteCentral = true)
        ∧ (¬ (remoteCentral.CentralResources.Limits.length = 0
            ∧ remoteCentral.CentralResources.Requests.length = 0) →
          w.cluster.holdsAutoscaler remoteCentral = true →
          (Reconcile d fakeEnv r defaults w remoteCentral).world.cluster.holdsAutoscaler
            remoteCentral = true))
      ∧ (∀ n : Int,
          ¬ (remoteCentral.CentralResources.Limits.length = 0
            ∧ remoteCentral.CentralResources.Requests.length = 0) →
          (w.cluster.revisionOf remoteCentral.Metadata.Namespace
            remoteCentral.Metadata.Name).bind Atoi = some n →
          n < maxInt →
          (Reconcile d fakeEnv r defaults w remoteCentral).world.cluster.holdsAutoscaler
              remoteCentral = false
            ∧ (Reconcile d fakeEnv r defaults w remoteCentral).world.cluster.revisionOf
                remoteCentral.Metadata.Namespace remoteCentral.Metadata.Name
              = some (Sprintf_d (n + 1)))
      ∧ (∀ (σ : Type) (env : Env σ) (w0 : World σ) (central : Central),
          ¬ (remoteCentral.CentralResources.Limits.length = 0
            ∧ remoteCentral.CentralResources.Requests.length = 0) →
          ∃ extra : List Call,
            (reconcileCentralStep env w0 remoteCentral central).2.calls = w0.calls ++ extra
              ∧ ∀ c ∈ extra, ∀ u, c ≠ Call.Create (.ofUnstructured u))
      ∧ (∀ (central : Central) (w0 w1 : World FakeCluster),
          reconcileCentralStep fakeEnv w0 remoteCentral central = (none, w1) →
          ((∃ existing, w0.cluster.centrals.find?
                (fun x => x.Namespace == remoteCentral.Metadata.Namespace
                  && x.Name == remoteCentral.Metadata.Name) = some existing) →
              (w1.cluster.holdsAutoscaler remoteCentral = true
                ↔ (remoteCentral.CentralResources.Limits.length = 0
                  ∧ remoteCentral.CentralResources.Requests.length = 0)))
            ∧ (w0.cluster.centrals.find?
                (fun x => x.Namespace == remoteCentral.Metadata.Namespace
                  && x.Name == remoteCentral.Metadata.Name) = none →
              ((remoteCentral.CentralResources.Limits.length = 0
                  ∧ remoteCentral.CentralResources.Requests.length = 0) →
                w1.cluster.holdsAutoscaler remoteCentral = true)
              ∧ (¬ (remoteCentral.CentralResources.Limits.length = 0
                  ∧ remoteCentral.CentralResources.Requests.length = 0) →
                w1.cluster.unstructureds = w0.cluster.unstructureds))) := by
  have inv := StepInvariant.both fake_centrals_invariant (fake_autoscaler_kept remoteCentral)
  obtain ⟨r0, w0, cr, sar, sdr, hash, ⟨hcen, hkept⟩, _, _, _, _, _, _, _, hrec⟩ :=
    Reconcile_success_path inv
      (fun c hc => by
        simp only [Bool.and_eq_true]
        exact ⟨beforeCentralCalls_not_touchesCentral c hc, hc⟩)
      d r defaults w remoteCentral hnodel herr
  have hstepFacts := reconcileCentralStep_fake_autoscaler remoteCentral
    (targetCentral d r0 remoteCentral cr sar sdr) w0
  have hroutes : ∀ w1 : World FakeCluster,
      (reconcileRoutes d fakeEnv r0 cr w1 remoteCentral
        (!(r.lastCentralHash == hash))).world.cluster.holdsAutoscaler remoteCentral
        = w1.cluster.holdsAutoscaler remoteCentral := by
    intro w1
    have h := reconcileRoutes_steps fake_unstructureds_invariant (fun _ h => h) d r0 cr w1
      remoteCentral (!(r.lastCentralHash == hash))
    rw [FakeCluster.holdsAutoscaler_eq, FakeCluster.holdsAutoscaler_eq, h]
  have hmain : ((∃ existing, w.cluster.centrals.find?
          (fun x => x.Namespace == remoteCentral.Metadata.Namespace
            && x.Name == remoteCentral.Metadata.Name) = some existing) →
        ((Reconcile d fakeEnv r defaults w remoteCentral).world.cluster.holdsAutoscaler
            remoteCentral = true
          ↔ (remoteCentral.CentralResources.Limits.length = 0
            ∧ remoteCentral.CentralResources.Requests.length = 0)))
      ∧ (w.cluster.centrals.find?
          (fun x => x.Namespace == remoteCentral.Metadata.Namespace
            && x.Name == remoteCentral.Metadata.Name) = none →
        ((remoteCentral.CentralResources.Limits.length = 0
            ∧ remoteCentral.CentralResources.Requests.length = 0) →
          (Reconcile d fakeEnv r defaults w remoteCentral).world.cluster.holdsAutoscaler
            remoteCentral = true)
        ∧ (¬ (remoteCentral.CentralResources.Limits.length = 0
            ∧ remoteCentral.CentralResources.Requests.length = 0) →
          w.cluster.holdsAutoscaler remoteCentral = true →
          (Reconcile d fakeEnv r defaults w remoteCentral).world.cluster.holdsAutoscaler
            remoteCentral = true)) := by
    rw [hrec, reconcileCentral_eq_step] at herr ⊢
    rcases hstep : reconcileCentralStep fakeEnv w0 remoteCentral
      (targetCentral d r0 remoteCentral cr sar sdr) with ⟨e, w1⟩
    rw [hstep] at herr
    cases e with
    | some err => simp [Outcome.released] at herr
    | none =>
      obtain ⟨hup, hcr⟩ := hstepFacts w1 hstep
      rw [hcen] at hup hcr
      have hw : (reconcileRoutes d fakeEnv r0 cr w1 remoteCentral
          (!(r.lastCentralHash == hash))).released.world.cluster.holdsAutoscaler remoteCentral
          = w1.cluster.holdsAutoscaler remoteCentral := hroutes w1
      simp only []
      rw [hw]
      refine ⟨hup, fun hn => ⟨(hcr hn).1, fun hs hheld => ?_⟩⟩
      have hu := (hcr hn).2 hs
      rw [FakeCluster.holdsAutoscaler_eq, hu, ← FakeCluster.holdsAutoscaler_eq]
      exact hkept hheld
  refine ⟨hmain.1, hmain.2, ?_, ?_, fun central w0 w1 h =>
    reconcileCentralStep_fake_autoscaler remoteCentral central w0 w1 h⟩
  · intro n hs hrev hn
    refine ⟨?_, fake_update_pass_revision d r defaults w remoteCentral n hnodel hrev hn herr⟩
    have hex : ∃ existing, w.cluster.centrals.find?
        (fun x => x.Namespace == remoteCentral.Metadata.Namespace
          && x.Name == remoteCentral.Metadata.Name) = some existing := by
      unfold FakeCluster.revisionOf at hrev
      cases hf : w.cluster.centrals.find?
          (fun x => x.Namespace == remoteCentral.Metadata.Namespace
            && x.Name == remoteCentral.Metadata.Name) with
      | none => rw [hf] at hrev; simp at hrev
      | some existing => exact ⟨existing, rfl⟩
    have hiff := hmain.1 hex
    cases hh : (Reconcile d fakeEnv r defaults w remoteCentral).world.cluster.holdsAutoscaler
        remoteCentral with
    | false => rfl
    | true => exact absurd (hiff.mp hh) hs
  · intro σ env w0 central hs
    obtain ⟨extra, hlog, hall⟩ := reconcileCentralStep_explicit_steps
      (CallsWithin.invariant env explicitSizingCalls) (fun _ h => h) w0 remoteCentral central hs
    refine ⟨extra, hlog, fun c hc u hu => ?_⟩
    have := hall c hc
    rw [hu] at this
    simp [explicitSizingCalls] at this

/-- Scenario D on the model cluster: the sample tenant exists with revision "1" and an
autoscaler configuration, and the desired central switches to explicit sizing; after the
call the configuration is gone and the revision is "2". -/
theorem Reconcile_autoscaler_policy_witness :
    (Reconcile sampleDeps fakeEnv (sampleReconciler false false) sampleDefaults
        (freshWorld sampleInstallingCluster)
        sampleSizedCentral).world.cluster.holdsAutoscaler sampleSizedCentral = false
      ∧ (Reconcile sampleDeps fakeEnv (sampleReconciler false false) sampleDefaults
        (freshWorld sampleInstallingCluster)
        sampleSizedCentral).world.cluster.revisionOf "rhacs-c1" "central" = some "2" :=
  (Reconcile_autoscaler_policy sampleDeps (sampleReconciler false false) sampleDefaults
    (freshWorld sampleInstallingCluster) sampleSizedCentral rfl (by decide)).2.2.1 1
    (by decide) (by decide) (by decide)

/-- C22: the code evaluated on the failing input. A call of `Reconcile` for a desired
central with explicit cpu and memory requests and limits succeeds and leaves the package
defaults holding the sizing of that tenant instead of the default values; a later call for
a second tenant with empty sizing then stores a primary resource that carries the sizing
of the first tenant. -/
theorem Reconcile_sizing_overwrites_defaults :
    sizedFirstPass.err = none
      ∧ sizedFirstPass.defaults = sampleLargeResources
      ∧ sizedFirstPass.defaults ≠ sampleDefaults
      ∧ sampleSecondTenant.CentralResources = { Requests := [], Limits := [] }
      ∧ unsizedLaterPass.err = none
      ∧ unsizedLaterPass.world.cluster.centrals.map
            (fun c => (c.Namespace, c.Spec.CentralResources))
          = [("rhacs-c1", sampleLargeResources), ("rhacs-c2", sampleLargeResources)] := by
  decide

/-- C21: the cached auth provider flags. For every call of `Reconcile`, whatever the
cluster answers: the wanted flag is kept; a known flag that is set stays set; the known
flag is kept as it is when no auth provider is wanted; the known flag goes from false to
true only when the probe of line 164, the first call issued, has reported an existing
provider, or when the call has passed the creation site and the creation has returned no
error; and every creation in the log of the call is the one of the creation site, for the
desired central: the receiver wants an auth provider and knows of none, the desired
central is not reported Ready, the readiness probe has answered that the deployment is
ready and the routes, when in use, have been ensured without an error. Across any sequence
of calls from any state: the wanted flag is the one of the start, a known flag that is set
stays set, and without a wanted auth provider the known flag stays as it was, so that it
stays false from a fresh instance on. -/
theorem Reconcile_auth_provider_cache (d : Deps) (env : Env σ) :
    (∀ (r : CentralReconciler) (defaults : ResourceRequirements) (w : World σ)
        (remoteCentral : ManagedCentral),
        (Reconcile d env r defaults w remoteCentral).r.wantsAuthProvider = r.wantsAuthProvider
          ∧ (r.hasAuthProvider = true →
              (Reconcile d env r defaults w remoteCentral).r.hasAuthProvider = true)
          ∧ (r.wantsAuthProvider = false →
              (Reconcile d env r defaults w remoteCentral).r.hasAuthProvider
                = r.hasAuthProvider)
          ∧ (r.hasAuthProvider = false →
              (Reconcile d env r defaults w remoteCentral).r.hasAuthProvider = true →
              (r.wantsAuthProvider = true
                  ∧ (env.existsRHSSOAuthProvider remoteCentral w.cluster).1 = Except.ok true
                  ∧ ∃ rest, (Reconcile d env r defaults w remoteCentral).world.calls
                      = w.calls ++ Call.existsRHSSOAuthProvider remoteCentral :: rest)
                ∨ ∃ wR, CreationSite d env remoteCentral r w
                      (Reconcile d env r defaults w remoteCentral) wR
                    ∧ (env.createRHSSOAuthProvider remoteCentral
                        (env.perform (Call.isCentralDeploymentReady remoteCentral)
                          wR).cluster).1 = none)
          ∧ (∀ extra, (Reconcile d env r defaults w remoteCentral).world.calls
                = w.calls ++ extra →
              ∀ c ∈ extra, c.isAuthProviderCreation = true →
                c = Call.createRHSSOAuthProvider remoteCentral
                  ∧ ∃ wR, CreationSite d env remoteCentral r w
                      (Reconcile d env r defaults w remoteCentral) wR))
      ∧ (∀ r0 r : CentralReconciler, ReachableFrom d env r0 r →
          r.wantsAuthProvider = r0.wantsAuthProvider
            ∧ (r0.hasAuthProvider = true → r.hasAuthProvider = true)
            ∧ (r0.wantsAuthProvider = false → r.hasAuthProvider = r0.hasAuthProvider))
      ∧ (∀ (central : ManagedCentral) (opts : CentralReconcilerOptions)
          (r : CentralReconciler),
          ReachableFrom d env (NewCentralReconciler central opts) r →
          opts.WantsAuthProvider = false → r.hasAuthProvider = false) := by
  have inv := CallsWithin.invariant env otherThanCreation
  refine ⟨fun r defaults w remoteCentral => ?_, fun r0 r h => h.flags, fun central opts r h hw =>
    h.flags.2.2 hw⟩
  obtain ⟨h1, h2, h3⟩ := Reconcile_flags d env r defaults w remoteCentral
  refine ⟨h1, h2, h3, ?_⟩
  obtain ⟨_, hA | hB | ⟨wR, hC⟩⟩ := Reconcile_auth d env r defaults w remoteCentral
  · refine ⟨fun h0 hout => ?_, fun extra hex c hc hcr => ?_⟩
    · rw [hA.1, h0] at hout
      cases hout
    · rw [hA.2.no_creation extra hex c hc] at hcr
      cases hcr
  · obtain ⟨hwant, _, _, hprobe, hlog⟩ := hB
    refine ⟨fun _ _ => Or.inl ⟨hwant, hprobe, ?_⟩, fun extra hex c hc hcr => ?_⟩
    · obtain ⟨rest, hrest, _⟩ := hlog
      refine ⟨rest, ?_⟩
      rw [hrest, Env.perform_calls]
      simp
    · have hall : CallsWithin otherThanCreation w
          (Reconcile d env r defaults w remoteCentral).world :=
        inv.trans _ _ _ (inv.step (Call.existsRHSSOAuthProvider remoteCentral) w rfl) hlog
      rw [hall.no_creation extra hex c hc] at hcr
      cases hcr
  · exact ⟨fun _ hout => Or.inr ⟨wR, hC, hC.2.2.2.2.2.2.2.mp hout⟩,
      fun extra hex c hc hcr => ⟨hC.creation_calls extra hex c hc hcr, wR, hC⟩⟩

/-- C21, instance: a fresh reconciler that wants an auth provider, on an empty model cluster
that reports the deployment ready, for the sample desired central in the Provisioning
status: the call passes the creation site, the creation succeeds, and the flag is set. -/
theorem Reconcile_auth_provider_cache_witness :
    (sampleReconciler false true).hasAuthProvider = false
      ∧ (Reconcile sampleDeps fakeEnv (sampleReconciler false true) sampleDefaults
          sampleReadyWorld (sampleCentral "provisioning")).r.hasAuthProvider = true
      ∧ ∃ wR, CreationSite sampleDeps fakeEnv (sampleCentral "provisioning")
            (sampleReconciler false true) sampleReadyWorld
            (Reconcile sampleDeps fakeEnv (sampleReconciler false true) sampleDefaults
              sampleReadyWorld (sampleCentral "provisioning")) wR
          ∧ (fakeEnv.createRHSSOAuthProvider (sampleCentral "provisioning")
              (fakeEnv.perform (Call.isCentralDeploymentReady (sampleCentral "provisioning"))
                wR).cluster).1 = none :=
  ⟨by decide, by decide,
    (((Reconcile_auth_provider_cache sampleDeps fakeEnv).1 (sampleReconciler false true)
      sampleDefaults sampleReadyWorld (sampleCentral "provisioning")).2.2.2.1
      (by decide) (by decide)).resolve_left (fun h => by
        have h2 := h.2.1
        simp [fakeEnv_existsRHSSOAuthProvider, sampleReadyWorld, freshWorld, emptyCluster]
          at h2)⟩

end Statements


end Reconciler
